import Mathlib

/-!
# pitch: the request-execution engine and the response replay

A shallow embedding of the Go packages `entities/objects`, `entities/items`,
`entities`, `utils`, `logging`, `comms/responses` and `comms/requests`, and of
the publishing loop of `server`.

Modelling conventions.

* The platform is a 64-bit one: `int` is `int64`. Values of these types are
  integers (`Int`), and the result of an addition, a subtraction or a
  multiplication of the program is reduced by `wrap`, the two's-complement
  wrap-around, wherever the operands do not keep it in range by themselves.
  An `Int` outside `MinInt64 .. MaxInt64` is the value of no Go variable.
* The conversion `float64(n)` and the rounding of a `float64` subtraction are
  `float64`, the round-to-nearest-even of IEEE 754 binary64 on integers below
  `2^64` in magnitude.
* `uuid.UUID` is a natural number, `uuid.Equal` is equality.
* A Go `panic` is the `Except.error` branch of `Panics`; an ordinary Go `error`
  return value is an `Option Err`.
* `time.Now().Unix()` is the explicit parameter `now`.
* `math/rand` is an explicit stream `src : Source` with a read cursor:
  `rand.Intn n` returns `src pos % n` and advances the cursor; every `Execute`
  starts reading at cursor 0 of the stream it is given.
* The calls to the file logger do not take part in any result and are left out
  of `Execute` and `Apply`; `logging.Logger` itself, which panics when the log
  file cannot be opened, is embedded on its own with the outcome of
  `os.OpenFile` as a parameter.
* The JSON texts of `encoding/json` are the JSON values they denote; the text
  of a `uuid.UUID` is the string of its hexadecimal digits.
-/

namespace Pitch

/-- The 16-byte `uuid.UUID`; `uuid.Equal` is `=`. -/
abbrev UUID := Nat

/-- Computations that may end in a Go `panic` (the `error` branch). -/
abbrev Panics := Except String

/-! ## Machine arithmetic -/

/-- `math.MaxInt64`: the largest value of an `int` of a 64-bit platform. -/
def MaxInt64 : Int := 9223372036854775807

/-- `math.MinInt64`: the smallest value of an `int` of a 64-bit platform. -/
def MinInt64 : Int := -9223372036854775808

/-- The value of an `int` expression whose mathematical value is `n`: the
two's-complement wrap-around of the 64-bit `+`, `-`, `*`, `++` and `--`. -/
def wrap (n : Int) : Int :=
  (n + 9223372036854775808) % 18446744073709551616 - 9223372036854775808

/-- The integer is a value of the type `int`. -/
def IsInt64 (n : Int) : Prop := MinInt64 ≤ n ∧ n ≤ MaxInt64

instance IsInt64.decidable (n : Int) : Decidable (IsInt64 n) :=
  inferInstanceAs (Decidable (MinInt64 ≤ n ∧ n ≤ MaxInt64))

/-- The gap between two neighbouring `float64` values at a magnitude below
`2^64`: 1 below `2^53`, doubled at every power of two from there on. -/
def ulp (a : Nat) : Nat :=
  if a < 9007199254740992 then 1
  else if a < 18014398509481984 then 2
  else if a < 36028797018963968 then 4
  else if a < 72057594037927936 then 8
  else if a < 144115188075855872 then 16
  else if a < 288230376151711744 then 32
  else if a < 576460752303423488 then 64
  else if a < 1152921504606846976 then 128
  else if a < 2305843009213693952 then 256
  else if a < 4611686018427387904 then 512
  else if a < 9223372036854775808 then 1024
  else 2048

/-- The `float64` nearest to a magnitude below `2^64`, a tie going to the even
mantissa. -/
def nearest (a : Nat) : Nat :=
  if 2 * (a % ulp a) > ulp a ∨ (2 * (a % ulp a) = ulp a ∧ (a / ulp a) % 2 = 1) then
    (a / ulp a + 1) * ulp a
  else a / ulp a * ulp a

/-- The integer value of the `float64` to which an integer below `2^64` in
magnitude is rounded: the conversion `float64(n)` of an `int`, and the rounding
of the exact result `n` of a `float64` operation. -/
def float64 (n : Int) : Int :=
  if n < 0 then -((nearest n.natAbs : Nat) : Int) else ((nearest n.toNat : Nat) : Int)

/-- The messages of the `error` values returned by `Execute` and `Apply`. -/
inductive Err where
  /-- `"actor %s could not be found"` (MoveRequest). -/
  | moveActorNotFound (id : UUID)
  /-- `"actor could not be found"`. -/
  | actorNotFound
  /-- `"attacker could not be found"`. -/
  | attackerNotFound
  /-- `"target could not be found"`. -/
  | targetNotFound
  /-- `"timer not ready"`. -/
  | timerNotReady
  /-- `"target is not openable"`. -/
  | notOpenable
  /-- `"target is not closable"`. -/
  | notClosable
  /-- `"tried to melee attack with non-melee weapon"`. -/
  | nonMeleeWeapon
  /-- `"tried to range attack with non-range weapon"`. -/
  | nonRangeWeapon
  /-- `"target could not be found on world"` (responses). -/
  | targetNotOnWorld
  /-- `"actor could not be found on world"` (responses). -/
  | actorNotOnWorld
deriving DecidableEq, Repr

/-! ## entities/objects -/

namespace objects

/-- `type Timer struct { NextTimestamp int64 }`. -/
structure Timer where
  NextTimestamp : Int
deriving DecidableEq, Repr, Inhabited

/-- `Timer.Ready`: `time.Now().Unix() >= timer.NextTimestamp`. -/
def Timer.Ready (timer : Timer) (now : Int) : Bool :=
  decide (now ≥ timer.NextTimestamp)

/-- `type Position struct { X, Y int }`. -/
structure Position where
  X : Int
  Y : Int
deriving DecidableEq, Repr, Inhabited

/-- `type PassabilityType int`. -/
abbrev PassabilityType := Int

/-- `AlwaysImpassible PassabilityType = iota`. -/
def AlwaysImpassible : PassabilityType := 0

/-- `AlwaysPassible`. -/
def AlwaysPassible : PassabilityType := 1

/-- `Toggleable`. -/
def Toggleable : PassabilityType := 2

/-- `type Passability struct { Type PassabilityType; IsOpen bool }` (the field
`Type` is named `Typ`). -/
structure Passability where
  Typ : PassabilityType
  IsOpen : Bool
deriving DecidableEq, Repr, Inhabited

/-- `type Attribute int`. -/
abbrev Attribute := Int

/-- `Attribute.Modifier`: `-5` below zero, else
`int(math.Floor(0.5 * float64(attr)) - 5)`. The conversion `float64(attr)`
rounds; the halving is exact and its floor is the floor division by two of the
integer `float64 attr`; the subtraction of 5 rounds again; the conversion back
to `int` is exact, the value being an integer of magnitude at most `2^62`. -/
def Attribute.Modifier (attr : Attribute) : Int :=
  if attr < 0 then -5 else float64 (float64 attr / 2 - 5)

/-- `type Attributes struct`. -/
structure Attributes where
  Dexterity : Attribute
  Luck : Attribute
  Strength : Attribute
  Wisdom : Attribute
deriving DecidableEq, Repr, Inhabited

/-- `type Equipment struct`: six item identifiers. -/
structure Equipment where
  HeadID : UUID
  HandsID : UUID
  PrimaryItemID : UUID
  SecondaryItemID : UUID
  LegsID : UUID
  ChestID : UUID
deriving DecidableEq, Repr, Inhabited

/-- `type Entity struct`. -/
structure Entity where
  ID : UUID
  Timer : Timer
  Position : Position
  Passability : Passability
  Attributes : Attributes
  Equipment : Equipment
  Health : Int
deriving DecidableEq, Repr, Inhabited

/-- `type Collection []Entity`. -/
abbrev Collection := List Entity

/-- `MakeCollection`. -/
def MakeCollection : Collection := []

/-- `Collection.Append`. -/
def Collection.Append (c : Collection) (e : Entity) : Collection := c ++ [e]

/-- `Collection.FromID`: the first entity with the identifier, or the zero
entity and `false`. -/
def Collection.FromID : Collection → UUID → Entity × Bool
  | [], _ => (default, false)
  | e :: rest, id => if e.ID = id then (e, true) else Collection.FromID rest id

/-- `Collection.FromXY`: the entities at the cell, in collection order. -/
def Collection.FromXY (c : Collection) (x y : Int) : List Entity :=
  c.foldl (fun foundEntities e =>
    if e.Position.X = x ∧ e.Position.Y = y then foundEntities ++ [e] else foundEntities) []

/-- `Collection.Remove`: drops every entity whose identifier is that of `e`. -/
def Collection.Remove (c : Collection) (e : Entity) : Collection × Bool :=
  c.foldl (fun (acc : Collection × Bool) currentEntity =>
    if ¬ currentEntity.ID = e.ID then (acc.1 ++ [currentEntity], acc.2)
    else (acc.1, true)) ([], false)

/-- `Collection.MustRemove`. -/
def Collection.MustRemove (c : Collection) (target : Entity) : Panics Collection :=
  match c.Remove target with
  | (col, true) => .ok col
  | (_, false) => .error "could not remove target"

/-- `Collection.Replace`. -/
def Collection.Replace (c : Collection) (original replacement : Entity) : Collection × Bool :=
  c.foldl (fun (acc : Collection × Bool) currentEntity =>
    if ¬ currentEntity.ID = original.ID then (acc.1 ++ [currentEntity], acc.2)
    else (acc.1 ++ [replacement], true)) ([], false)

/-- `Collection.Update`. -/
def Collection.Update (c : Collection) (target : Entity) : Collection × Bool :=
  c.foldl (fun (acc : Collection × Bool) currentEntity =>
    if ¬ currentEntity.ID = target.ID then (acc.1 ++ [currentEntity], acc.2)
    else (acc.1 ++ [target], true)) ([], false)

/-- `Collection.MustUpdate`. -/
def Collection.MustUpdate (c : Collection) (target : Entity) : Panics Collection :=
  match c.Update target with
  | (col, true) => .ok col
  | (_, false) => .error "could not update target"

end objects

/-! ## entities/items -/

namespace items

/-- `type DamageType int`. -/
abbrev DamageType := Int

/-- `MeleeDamage DamageType = iota`. -/
def MeleeDamage : DamageType := 0

/-- `RangeDamage`. -/
def RangeDamage : DamageType := 1

/-- `type Damage struct` (the field `Type` is named `Typ`). -/
structure Damage where
  DieRange : Int
  Modifier : Int
  RollAmount : Int
  Typ : DamageType
deriving DecidableEq, Repr, Inhabited

/-- `type Armor struct`. -/
structure Armor where
  MeleeReduction : Int
  RangeReduction : Int
deriving DecidableEq, Repr, Inhabited

/-- `type Item struct`. -/
structure Item where
  ID : UUID
  Damage : Damage
  Armor : Armor
deriving DecidableEq, Repr, Inhabited

/-- `type Collection struct { mapping map[uuid.UUID]Item }`: the map is an
association list from key to item. -/
structure Collection where
  mapping : List (UUID × Item)
deriving DecidableEq, Repr, Inhabited

/-- `Collection.FromID`: `i, ok := c.mapping[id]`. -/
def Collection.FromID (c : Collection) (id : UUID) : Item × Bool :=
  match c.mapping.lookup id with
  | some i => (i, true)
  | none => (default, false)

end items

/-! ## entities -/

namespace entities

/-- `type World struct { Objects objects.Collection; Items items.Collection }`. -/
structure World where
  Objects : objects.Collection
  Items : items.Collection
deriving DecidableEq, Repr, Inhabited

end entities

/-! ## utils -/

/-- The stream of raw values behind `math/rand`. -/
abbrev Source := Nat → Nat

namespace utils

/-- `rand.Intn(n)`: panics for `n <= 0`, else a value in `[0, n)`; returns the
value and the advanced cursor. -/
def Intn (src : Source) (pos : Nat) (n : Int) : Panics (Int × Nat) :=
  if n ≤ 0 then .error "invalid argument to Intn"
  else .ok (((src pos % n.toNat : Nat) : Int), pos + 1)

/-- The body of the loop of `Roll`, for the remaining number of iterations. -/
def rollLoop (src : Source) (upperRange : Int) : Nat → Int → Nat → Panics (Int × Nat)
  | 0, total, pos => .ok (total, pos)
  | k + 1, total, pos =>
    match Intn src pos (wrap (upperRange + 1)) with
    | .error m => .error m
    | .ok (r, pos') =>
      let r := if r ≤ 0 then 1 else r
      rollLoop src upperRange k (wrap (total + r)) pos'

/-- `Roll(num, upperRange)`: the loop `for i := 0; i < num; i++`. -/
def Roll (src : Source) (pos : Nat) (num upperRange : Int) : Panics (Int × Nat) :=
  rollLoop src upperRange num.toNat 0 pos

end utils

namespace items

/-- `Damage.Calculate`: `utils.Roll(d.RollAmount, d.DieRange) + d.Modifier`. -/
def Damage.Calculate (d : Damage) (src : Source) (pos : Nat) : Panics (Int × Nat) := do
  let (roll, pos) ← utils.Roll src pos d.RollAmount d.DieRange
  pure (wrap (roll + d.Modifier), pos)

end items

/-! ## logging -/

namespace logging

/-- `Logger(name)`: `os.OpenFile` on `logs/<name>.log` and `panic(err)` when it
fails; `opened` is the outcome of `os.OpenFile`. The logger that is returned
writes to the file and takes no part in a result. -/
def Logger (opened : Bool) : Panics Unit :=
  if opened then .ok () else .error "os.OpenFile"

/-- The closing function returned by `Logger`: `f.Close()` and `panic(err)` when
it fails; `closed` is the outcome of `f.Close`. -/
def close (closed : Bool) : Panics Unit :=
  if closed then .ok () else .error "f.Close"

end logging

/-! ## comms/responses -/

namespace responses

open objects entities

/-- `type MeleeAttackResponse struct`. -/
structure MeleeAttackResponse where
  AttackerID : UUID
  TargetID : UUID
  DidHit : Bool
  Damage : Int
  HealthRemaining : Int
deriving DecidableEq, Repr, Inhabited

/-- `type RangeAttackResponse struct`. -/
structure RangeAttackResponse where
  AttackerID : UUID
  TargetID : UUID
  DidHit : Bool
  Damage : Int
  HealthRemaining : Int
deriving DecidableEq, Repr, Inhabited

/-- `type ToggleResponse struct`. -/
structure ToggleResponse where
  ActorID : UUID
  TargetID : UUID
  IsOpen : Bool
deriving DecidableEq, Repr, Inhabited

/-- `type MoveResponse struct`. -/
structure MoveResponse where
  ActorID : UUID
  X : Int
  Y : Int
deriving DecidableEq, Repr, Inhabited

/-- `type ViewResponse struct`. -/
structure ViewResponse where
  ActorID : UUID
  Objects : List Entity
deriving DecidableEq, Repr, Inhabited

/-- The implementations of the interface `Response`; `Wrapper` holds a list of
responses. -/
inductive Response where
  | melee (r : MeleeAttackResponse)
  | range (r : RangeAttackResponse)
  | toggle (r : ToggleResponse)
  | move (r : MoveResponse)
  | view (r : ViewResponse)
  | wrapper (Responses : List Response)

/-- `MeleeAttackResponse.Apply`. -/
def MeleeAttackResponse.Apply (resp : MeleeAttackResponse) (world : World) :
    Panics (World × Option Err) :=
  match world.Objects.FromID resp.TargetID with
  | (_, false) => pure (world, some Err.targetNotOnWorld)
  | (target, true) =>
    let target := { target with Health := resp.HealthRemaining }
    if target.Health ≤ 0 then do
      let target := { target with Health := 0 }
      let col ← world.Objects.MustRemove target
      pure ({ world with Objects := col }, none)
    else do
      let col ← world.Objects.MustUpdate target
      pure ({ world with Objects := col }, none)

/-- `RangeAttackResponse.Apply`. -/
def RangeAttackResponse.Apply (resp : RangeAttackResponse) (world : World) :
    Panics (World × Option Err) :=
  match world.Objects.FromID resp.TargetID with
  | (_, false) => pure (world, some Err.targetNotOnWorld)
  | (target, true) =>
    let target := { target with Health := resp.HealthRemaining }
    if target.Health ≤ 0 then do
      let target := { target with Health := 0 }
      let col ← world.Objects.MustRemove target
      pure ({ world with Objects := col }, none)
    else do
      let col ← world.Objects.MustUpdate target
      pure ({ world with Objects := col }, none)

/-- `ToggleResponse.Apply`. -/
def ToggleResponse.Apply (resp : ToggleResponse) (world : World) :
    Panics (World × Option Err) :=
  match world.Objects.FromID resp.TargetID with
  | (_, false) => pure (world, some Err.targetNotOnWorld)
  | (target, true) => do
    let target := { target with Passability := { target.Passability with IsOpen := resp.IsOpen } }
    let col ← world.Objects.MustUpdate target
    pure ({ world with Objects := col }, none)

/-- `MoveResponse.Apply`. -/
def MoveResponse.Apply (resp : MoveResponse) (world : World) :
    Panics (World × Option Err) :=
  match world.Objects.FromID resp.ActorID with
  | (_, false) => pure (world, some Err.actorNotOnWorld)
  | (actor, true) => do
    let actor := { actor with Position := { X := resp.X, Y := resp.Y } }
    let col ← world.Objects.MustUpdate actor
    pure ({ world with Objects := col }, none)

/-- `ViewResponse.Apply`: a fresh collection to which every listed object is
appended. -/
def ViewResponse.Apply (resp : ViewResponse) (world : World) :
    Panics (World × Option Err) :=
  let c := resp.Objects.foldl (fun (c : Collection) obj => c.Append obj) MakeCollection
  pure ({ world with Objects := c }, none)

mutual
/-- The method `Apply` of the interface, by implementation. -/
def Response.Apply : Response → World → Panics (World × Option Err)
  | .melee r, world => r.Apply world
  | .range r, world => r.Apply world
  | .toggle r, world => r.Apply world
  | .move r, world => r.Apply world
  | .view r, world => r.Apply world
  | .wrapper rs, world => Wrapper.applyLoop rs world
/-- `Wrapper.Apply`: the loop over `resp.Responses`, left to right, returning
at the first `err != nil`. -/
def Wrapper.applyLoop : List Response → World → Panics (World × Option Err)
  | [], world => pure (world, none)
  | r :: rest, world =>
    match r.Apply world with
    | .error m => .error m
    | .ok (world, some err) => .ok (world, some err)
    | .ok (world, none) => Wrapper.applyLoop rest world
end

end responses

/-! ## comms/requests -/

namespace requests

open objects entities responses

/-- `type Direction int`. -/
abbrev Direction := Int

/-- `North Direction = iota`. -/
def North : Direction := 0

/-- `East`. -/
def East : Direction := 1

/-- `South`. -/
def South : Direction := 2

/-- `West`. -/
def West : Direction := 3

/-- What `Execute` hands back: the world, the response (`nil` is `none`) and the
error (`nil` is `none`). -/
abbrev Result := World × Option Response × Option Err

/-- `calcLuckyCritical`: one d100 against the Luck modifier plus five. (A
modifier lies between -5 and `2^62`: the sums of a modifier and 5, 10 or a d20
are in range and are written without `wrap`.) -/
def calcLuckyCritical (src : Source) (pos : Nat) (actor : Entity) : Panics (Bool × Nat) := do
  let luck := Attribute.Modifier actor.Attributes.Luck + 5
  let (luckRoll, pos) ← utils.Roll src pos 1 100
  pure (decide (luck ≥ luckRoll), pos)

/-- `calcAttackRoll`: the hit roll of the attacker and whether it is critical. -/
def calcAttackRoll (src : Source) (pos : Nat) (attacker : Entity) :
    Panics ((Int × Bool) × Nat) := do
  let (critical, pos) ← calcLuckyCritical src pos attacker
  let (attackRoll, pos) ← utils.Roll src pos 1 20
  let attackModifier := Attribute.Modifier attacker.Attributes.Strength
  let critical := if attackRoll = 20 then true else critical
  pure ((attackRoll + attackModifier, critical), pos)

/-- `calcDamageAmount`: the damage of the attacker with the primary item. -/
def calcDamageAmount (src : Source) (pos : Nat) (world : World) (attacker : Entity) :
    Panics ((Int × items.DamageType) × Nat) := do
  let damageType := items.MeleeDamage
  let (damageRoll, pos) ← utils.Roll src pos 1 4
  let ((damageRoll, damageType), pos) ←
    match world.Items.FromID attacker.Equipment.PrimaryItemID with
    | (item, true) => do
      let (damageRoll, pos) ← item.Damage.Calculate src pos
      let damageType := item.Damage.Typ
      let damageRoll :=
        if damageType = items.MeleeDamage then
          wrap (damageRoll + Attribute.Modifier attacker.Attributes.Strength)
        else if damageType = items.RangeDamage then
          wrap (damageRoll + Attribute.Modifier attacker.Attributes.Dexterity)
        else damageRoll
      pure ((damageRoll, damageType), pos)
    | (_, false) => pure ((damageRoll, damageType), pos)
  let damageRoll := if damageRoll < 0 then 0 else damageRoll
  pure ((damageRoll, damageType), pos)

/-- `isHit`. -/
def isHit (isCritical : Bool) (armorClass attackRoll : Int) : Bool :=
  isCritical || decide (armorClass ≤ attackRoll)

/-- `type MeleeAttackRequest struct`. -/
structure MeleeAttackRequest where
  AttackerID : UUID
  TargetID : UUID
deriving DecidableEq, Repr, Inhabited

/-- `type RangeAttackRequest struct`. -/
structure RangeAttackRequest where
  AttackerID : UUID
  TargetID : UUID
deriving DecidableEq, Repr, Inhabited

/-- `type OpenRequest struct`. -/
structure OpenRequest where
  ActorID : UUID
  TargetID : UUID
deriving DecidableEq, Repr, Inhabited

/-- `type CloseRequest struct`. -/
structure CloseRequest where
  ActorID : UUID
  TargetID : UUID
deriving DecidableEq, Repr, Inhabited

/-- `type MoveRequest struct`. -/
structure MoveRequest where
  ActorID : UUID
  Direction : Direction
deriving DecidableEq, Repr, Inhabited

/-- `type ViewRequest struct`. -/
structure ViewRequest where
  ActorID : UUID
deriving DecidableEq, Repr, Inhabited

/-- `MeleeAttackRequest.Execute`. -/
def MeleeAttackRequest.Execute (req : MeleeAttackRequest) (src : Source) (world : World) :
    Panics Result :=
  match world.Objects.FromID req.AttackerID with
  | (_, false) => pure (world, none, some Err.attackerNotFound)
  | (attacker, true) =>
  match world.Objects.FromID req.TargetID with
  | (_, false) => pure (world, none, some Err.targetNotFound)
  | (target, true) => do
    let ((attackRoll, critical), pos) ← calcAttackRoll src 0 attacker
    let ac := 10 + Attribute.Modifier target.Attributes.Dexterity
    if ¬ isHit critical ac attackRoll then
      pure (world, some (Response.melee {
        AttackerID := req.AttackerID, TargetID := req.TargetID, DidHit := false,
        Damage := 0, HealthRemaining := target.Health }), none)
    else do
    let ((damageAmount, damateType), _) ← calcDamageAmount src pos world attacker
    if damateType ≠ items.MeleeDamage then
      pure (world, none, some Err.nonMeleeWeapon)
    else do
    let damageAmount := if critical then wrap (damageAmount * 2) else damageAmount
    let armor : Int := 0
    let armor :=
      match world.Items.FromID target.Equipment.ChestID with
      | (item, true) => wrap (armor + item.Armor.MeleeReduction)
      | (_, false) => armor
    let armor := if armor < 0 then 0 else armor
    let totalDamage := wrap (armor - damageAmount)
    let totalDamage := if totalDamage < 0 then 0 else totalDamage
    let target := { target with Health := wrap (target.Health - totalDamage) }
    if target.Health ≤ 0 then do
      let target := { target with Health := 0 }
      let col ← world.Objects.MustRemove target
      pure ({ world with Objects := col }, some (Response.melee {
        AttackerID := req.AttackerID, TargetID := req.TargetID, DidHit := true,
        Damage := totalDamage, HealthRemaining := target.Health }), none)
    else do
      let col ← world.Objects.MustUpdate target
      pure ({ world with Objects := col }, some (Response.melee {
        AttackerID := req.AttackerID, TargetID := req.TargetID, DidHit := true,
        Damage := totalDamage, HealthRemaining := target.Health }), none)

/-- `RangeAttackRequest.Execute`. -/
def RangeAttackRequest.Execute (req : RangeAttackRequest) (src : Source) (world : World) :
    Panics Result :=
  match world.Objects.FromID req.AttackerID with
  | (_, false) => pure (world, none, some Err.attackerNotFound)
  | (attacker, true) =>
  match world.Objects.FromID req.TargetID with
  | (_, false) => pure (world, none, some Err.targetNotFound)
  | (target, true) => do
    let ((attackRoll, critical), pos) ← calcAttackRoll src 0 attacker
    let ac := 10 + Attribute.Modifier target.Attributes.Dexterity
    if ¬ isHit critical ac attackRoll then
      pure (world, some (Response.range {
        AttackerID := req.AttackerID, TargetID := req.TargetID, DidHit := false,
        Damage := 0, HealthRemaining := target.Health }), none)
    else do
    let ((damageAmount, damageType), _) ← calcDamageAmount src pos world attacker
    if damageType ≠ items.RangeDamage then
      pure (world, none, some Err.nonRangeWeapon)
    else do
    let damageAmount := if critical then wrap (damageAmount * 2) else damageAmount
    let armor : Int := 0
    let armor :=
      match world.Items.FromID target.Equipment.ChestID with
      | (item, true) => wrap (armor + item.Armor.RangeReduction)
      | (_, false) => armor
    let armor := if armor < 0 then 0 else armor
    let totalDamage := wrap (armor - damageAmount)
    let totalDamage := if totalDamage < 0 then 0 else totalDamage
    let target := { target with Health := wrap (target.Health - totalDamage) }
    if target.Health ≤ 0 then do
      let target := { target with Health := 0 }
      let col ← world.Objects.MustRemove target
      pure ({ world with Objects := col }, some (Response.range {
        AttackerID := req.AttackerID, TargetID := req.TargetID, DidHit := true,
        Damage := totalDamage, HealthRemaining := target.Health }), none)
    else do
      let col ← world.Objects.MustUpdate target
      pure ({ world with Objects := col }, some (Response.range {
        AttackerID := req.AttackerID, TargetID := req.TargetID, DidHit := true,
        Damage := totalDamage, HealthRemaining := target.Health }), none)

/-- `OpenRequest.Execute`. -/
def OpenRequest.Execute (req : OpenRequest) (now : Int) (world : World) : Panics Result :=
  match world.Objects.FromID req.ActorID with
  | (_, false) => pure (world, none, some Err.actorNotFound)
  | (actor, true) =>
  match world.Objects.FromID req.TargetID with
  | (_, false) => pure (world, none, some Err.targetNotFound)
  | (target, true) =>
    if ¬ actor.Timer.Ready now then
      pure (world, none, some Err.timerNotReady)
    else if target.Passability.Typ ≠ Toggleable then
      pure (world, none, some Err.notOpenable)
    else do
      let target := { target with Passability := { target.Passability with IsOpen := true } }
      let col ← world.Objects.MustUpdate target
      pure ({ world with Objects := col }, some (Response.toggle {
        ActorID := req.ActorID, TargetID := req.TargetID, IsOpen := true }), none)

/-- `CloseRequest.Execute`. -/
def CloseRequest.Execute (req : CloseRequest) (now : Int) (world : World) : Panics Result :=
  match world.Objects.FromID req.ActorID with
  | (_, false) => pure (world, none, some Err.actorNotFound)
  | (actor, true) =>
  match world.Objects.FromID req.TargetID with
  | (_, false) => pure (world, none, some Err.targetNotFound)
  | (target, true) =>
    if ¬ actor.Timer.Ready now then
      pure (world, none, some Err.timerNotReady)
    else if target.Passability.Typ ≠ Toggleable then
      pure (world, none, some Err.notClosable)
    else do
      let target := { target with Passability := { target.Passability with IsOpen := false } }
      let col ← world.Objects.MustUpdate target
      pure ({ world with Objects := col }, some (Response.toggle {
        ActorID := req.ActorID, TargetID := req.TargetID, IsOpen := false }), none)

/-- `coordsFromDirection`: a `switch` without default over `y--`, `x++`, `y++`
and `x--`. -/
def coordsFromDirection (actor : Entity) (direction : Direction) : Int × Int :=
  let x := actor.Position.X
  let y := actor.Position.Y
  if direction = North then (x, wrap (y - 1))
  else if direction = East then (wrap (x + 1), y)
  else if direction = South then (x, wrap (y + 1))
  else if direction = West then (wrap (x - 1), y)
  else (x, y)

/-- The loop of `MoveRequest.Execute` over the entities at the destination: the
first iteration that returns decides; `none` when the loop runs to its end. -/
def moveLoop (actor : Entity) (src : Source) (now : Int) (world : World) :
    List Entity → Option (Panics Result)
  | [] => none
  | e :: rest =>
    if e.Passability.Typ = AlwaysImpassible then
      some (MeleeAttackRequest.Execute { AttackerID := actor.ID, TargetID := e.ID } src world)
    else if e.Passability.Typ = Toggleable ∧ ¬ e.Passability.IsOpen then
      some (OpenRequest.Execute { ActorID := actor.ID, TargetID := e.ID } now world)
    else moveLoop actor src now world rest

/-- `MoveRequest.Execute`. -/
def MoveRequest.Execute (req : MoveRequest) (src : Source) (now : Int) (world : World) :
    Panics Result :=
  match world.Objects.FromID req.ActorID with
  | (_, false) => pure (world, none, some (Err.moveActorNotFound req.ActorID))
  | (actor, true) =>
    let (x, y) := coordsFromDirection actor req.Direction
    let nearbyEntities := world.Objects.FromXY x y
    match moveLoop actor src now world nearbyEntities with
    | some r => r
    | none => do
      let actor := { actor with Position := { X := x, Y := y } }
      let col ← world.Objects.MustUpdate actor
      pure ({ world with Objects := col }, some (Response.move {
        ActorID := req.ActorID, X := x, Y := y }), none)

/-- The values of the loop variable of `for v := start; v < stop; v++` (the
increment stays below `stop` and does not wrap). -/
def loopRange (start stop : Int) : List Int :=
  (List.range (stop - start).toNat).map (fun (i : Nat) => start + (i : Int))

/-- `ViewRequest.Execute`. -/
def ViewRequest.Execute (req : ViewRequest) (now : Int) (world : World) : Panics Result :=
  match world.Objects.FromID req.ActorID with
  | (_, false) => pure (world, none, some Err.actorNotFound)
  | (actor, true) =>
    if ¬ actor.Timer.Ready now then
      pure (world, none, some Err.timerNotReady)
    else
      let viewDist := Attribute.Modifier actor.Attributes.Wisdom + 10
      let startX := wrap (actor.Position.X - viewDist)
      let endX := wrap (actor.Position.X + viewDist)
      let startY := wrap (actor.Position.Y - viewDist)
      let endY := wrap (actor.Position.Y + viewDist)
      let objs := (loopRange startX endX).foldl (fun (acc : List Entity) x =>
        (loopRange startY endY).foldl (fun (acc : List Entity) y =>
          (world.Objects.FromXY x y).foldl (fun (acc : List Entity) obj => acc ++ [obj]) acc)
          acc) []
      pure (world, some (Response.view { ActorID := req.ActorID, Objects := objs }), none)

/-- The implementations of the interface `Request`. -/
inductive Request where
  | melee (r : MeleeAttackRequest)
  | range (r : RangeAttackRequest)
  | close (r : CloseRequest)
  | open_ (r : OpenRequest)
  | move (r : MoveRequest)
  | view (r : ViewRequest)
deriving DecidableEq, Repr

/-- The method `Execute` of the interface, by implementation. -/
def Request.Execute (req : Request) (src : Source) (now : Int) (world : World) : Panics Result :=
  match req with
  | .melee r => r.Execute src world
  | .range r => r.Execute src world
  | .close r => r.Execute now world
  | .open_ r => r.Execute now world
  | .move r => r.Execute src now world
  | .view r => r.Execute now world

end requests

/-! ## The text of an identifier -/

/-- The hexadecimal digit of a value below 16. -/
def hexDigit (d : Nat) : Char :=
  Char.ofNat (if d < 10 then 48 + d else 87 + d)

/-- The value of a hexadecimal digit, if the character is one. -/
def hexValue (c : Char) : Option Nat :=
  if 48 ≤ c.toNat ∧ c.toNat < 58 then some (c.toNat - 48)
  else if 97 ≤ c.toNat ∧ c.toNat < 103 then some (c.toNat - 87)
  else none

/-- `UUID.String` / `UUID.MarshalText`: the canonical text of the identifier,
here its hexadecimal digits. -/
def UUID.String (u : UUID) : String :=
  String.mk ((Nat.digits 16 u).reverse.map hexDigit)

/-- `uuid.FromString` / `UUID.UnmarshalText`: the identifier of a canonical
text; `none` is the error. -/
def uuid.FromString (s : String) : Option UUID :=
  (s.data.mapM hexValue).map (fun ds => Nat.ofDigits 16 ds.reverse)

/-! ## comms/responses: the identifiers of a response -/

namespace responses

/-- `MeleeAttackResponse.IDs`. -/
def MeleeAttackResponse.IDs (resp : MeleeAttackResponse) : List UUID :=
  [resp.AttackerID, resp.TargetID]

/-- `RangeAttackResponse.IDs`. -/
def RangeAttackResponse.IDs (resp : RangeAttackResponse) : List UUID :=
  [resp.AttackerID, resp.TargetID]

/-- `ToggleResponse.IDs`. -/
def ToggleResponse.IDs (resp : ToggleResponse) : List UUID :=
  [resp.ActorID, resp.TargetID]

/-- `MoveResponse.IDs`. -/
def MoveResponse.IDs (resp : MoveResponse) : List UUID :=
  [resp.ActorID]

/-- `ViewResponse.IDs`. -/
def ViewResponse.IDs (resp : ViewResponse) : List UUID :=
  [resp.ActorID]

mutual
/-- The method `IDs` of the interface, by implementation. -/
def Response.IDs : Response → List UUID
  | .melee r => r.IDs
  | .range r => r.IDs
  | .toggle r => r.IDs
  | .move r => r.IDs
  | .view r => r.IDs
  | .wrapper rs => Wrapper.idsLoop rs []
/-- `Wrapper.IDs`: the loop `ids = append(ids, r.IDs()...)` over
`resp.Responses`, from the empty slice. -/
def Wrapper.idsLoop : List Response → List UUID → List UUID
  | [], ids => ids
  | r :: rest, ids => Wrapper.idsLoop rest (ids ++ r.IDs)
end

end responses

/-! ## server -/

namespace server

open objects entities requests responses

/-- One call `s.Emitter.Emit(topic, resp)`. -/
structure Emission where
  Topic : String
  Resp : Response

/-- The publishing loop of `Server.Process`,
`for _, id := range ids { <-s.Emitter.Emit(id.String(), resp) }`, as the list
of its calls to `Emit`, in order. -/
def publish (resp : Response) : List Emission :=
  resp.IDs.foldl (fun (emitted : List Emission) id =>
    emitted ++ [{ Topic := UUID.String id, Resp := resp }]) []

/-- One turn of the loop of `Server.Process` on a dequeued request: `Execute`
on the world; a non-nil error panics; otherwise the response is published. The
result is the next world and the calls to `Emit`. (`resp.IDs()` on the nil
response panics.) -/
def processRequest (src : Source) (now : Int) (world : World) (req : Request) :
    Panics (World × List Emission) := do
  let (world, resp, err) ← req.Execute src now world
  match err with
  | some _ => .error "error stack"
  | none =>
    match resp with
    | none => .error "nil pointer dereference"
    | some resp => pure (world, publish resp)

/-- One dequeued request, with the dice stream and the clock value that its
execution reads. -/
structure Turn where
  Req : Request
  Src : Source
  Now : Int

/-- The loop `for event := range s.Emitter.On("request")` of `Server.Process`
over the requests it dequeues, in order: each turn runs on the world that the
turn before left in the variable `world`; a panic ends the loop. The result is
the last world and the calls to `Emit`, in order. -/
def processLoop : List Turn → World → Panics (World × List Emission)
  | [], world => pure (world, [])
  | t :: rest, world =>
    match processRequest t.Src t.Now world t.Req with
    | .error m => .error m
    | .ok (world, emitted) =>
      match processLoop rest world with
      | .error m => .error m
      | .ok (world, more) => .ok (world, emitted ++ more)

end server

/-! ## encoding/json

The byte strings that `json.Marshal` writes and `json.Unmarshal` reads are
taken as the JSON values they denote. A struct is an object whose members are
the tagged fields in declaration order; decoding a struct reads every tagged
field from the members of the object: a missing member and a JSON `null` leave
the field at its zero value, a value of another kind is an error. The members of
an object carry distinct keys. -/

namespace json

/-- A JSON value; the numbers of the program are integers. -/
inductive Value where
  | null
  | bool (b : Bool)
  | number (n : Int)
  | string (s : String)
  | array (elems : List Value)
  | object (members : List (String × Value))

/-- `json.RawMessage`: the undecoded JSON of a member; `none` is the empty
message. -/
abbrev RawMessage := Option Value

/-- What `(value, error)` holds: the value, or the error. -/
abbrev Decoded := Except String

/-- The members from which a struct is decoded: those of the object, none for
`null`. -/
def Value.members : Value → Decoded (List (String × Value))
  | .object ms => pure ms
  | .null => pure []
  | _ => throw "json: cannot unmarshal into Go value of struct type"

/-- Decoding an `int` field. -/
def intField (ms : List (String × Value)) (key : String) : Decoded Int :=
  match ms.lookup key with
  | none => pure 0
  | some .null => pure 0
  | some (.number n) => pure n
  | some _ => throw "json: cannot unmarshal into Go struct field of type int"

/-- Decoding a `bool` field. -/
def boolField (ms : List (String × Value)) (key : String) : Decoded Bool :=
  match ms.lookup key with
  | none => pure false
  | some .null => pure false
  | some (.bool b) => pure b
  | some _ => throw "json: cannot unmarshal into Go struct field of type bool"

/-- Decoding a `string` field. -/
def stringField (ms : List (String × Value)) (key : String) : Decoded String :=
  match ms.lookup key with
  | none => pure ""
  | some .null => pure ""
  | some (.string s) => pure s
  | some _ => throw "json: cannot unmarshal into Go struct field of type string"

/-- Decoding a `uuid.UUID` field: the text of a JSON string goes through
`UnmarshalText`. -/
def uuidField (ms : List (String × Value)) (key : String) : Decoded UUID :=
  match ms.lookup key with
  | none => pure 0
  | some .null => pure 0
  | some (.string s) =>
    match uuid.FromString s with
    | some u => pure u
    | none => throw "uuid: incorrect UUID format"
  | some _ => throw "json: cannot unmarshal into Go struct field of type uuid.UUID"

/-- Decoding a struct field with the decoder of its type. -/
def structField {α : Type} (ms : List (String × Value)) (key : String)
    (dec : Value → Decoded α) : Decoded α :=
  match ms.lookup key with
  | none => dec .null
  | some v => dec v

/-- Decoding a slice field with the decoder of its elements. -/
def sliceField {α : Type} (ms : List (String × Value)) (key : String)
    (dec : Value → Decoded α) : Decoded (List α) :=
  match ms.lookup key with
  | none => pure []
  | some .null => pure []
  | some (.array vs) => vs.mapM dec
  | some _ => throw "json: cannot unmarshal into Go struct field of slice type"

/-- Decoding a `json.RawMessage` field: the JSON of the member, as it is. -/
def rawField (ms : List (String × Value)) (key : String) : RawMessage :=
  ms.lookup key

/-- Encoding a `json.RawMessage`: its JSON, `null` for the empty message. -/
def RawMessage.toJSON : RawMessage → Value
  | none => .null
  | some v => v

/-- `json.Unmarshal(raw, &r)` on a raw message, with the decoder of the type
of `r`: the empty message is an error. -/
def Unmarshal {α : Type} (raw : RawMessage) (dec : Value → Decoded α) : Decoded α :=
  match raw with
  | none => throw "unexpected end of JSON input"
  | some v => dec v

end json

/-! ### entities/objects: the JSON of an entity -/

namespace objects

open json

/-- `Timer`: `next_timestamp`. -/
def Timer.toJSON (t : Timer) : Value :=
  .object [("next_timestamp", .number t.NextTimestamp)]

/-- Decoding a `Timer`. -/
def Timer.fromJSON (v : Value) : Decoded Timer := do
  let ms ← v.members
  let nextTimestamp ← intField ms "next_timestamp"
  pure { NextTimestamp := nextTimestamp }

/-- `Position`: `x`, `y`. -/
def Position.toJSON (p : Position) : Value :=
  .object [("x", .number p.X), ("y", .number p.Y)]

/-- Decoding a `Position`. -/
def Position.fromJSON (v : Value) : Decoded Position := do
  let ms ← v.members
  let x ← intField ms "x"
  let y ← intField ms "y"
  pure { X := x, Y := y }

/-- `Passability`: `type`, `is_open`. -/
def Passability.toJSON (p : Passability) : Value :=
  .object [("type", .number p.Typ), ("is_open", .bool p.IsOpen)]

/-- Decoding a `Passability`. -/
def Passability.fromJSON (v : Value) : Decoded Passability := do
  let ms ← v.members
  let typ ← intField ms "type"
  let isOpen ← boolField ms "is_open"
  pure { Typ := typ, IsOpen := isOpen }

/-- `Attributes`: `dexterity`, `attribute` (the tag of `Luck`), `strength`,
`wisdom`. -/
def Attributes.toJSON (a : Attributes) : Value :=
  .object [("dexterity", .number a.Dexterity), ("attribute", .number a.Luck),
    ("strength", .number a.Strength), ("wisdom", .number a.Wisdom)]

/-- Decoding `Attributes`. -/
def Attributes.fromJSON (v : Value) : Decoded Attributes := do
  let ms ← v.members
  let dexterity ← intField ms "dexterity"
  let luck ← intField ms "attribute"
  let strength ← intField ms "strength"
  let wisdom ← intField ms "wisdom"
  pure { Dexterity := dexterity, Luck := luck, Strength := strength, Wisdom := wisdom }

/-- `Equipment`: the six identifiers. -/
def Equipment.toJSON (e : Equipment) : Value :=
  .object [("head_id", .string (UUID.String e.HeadID)),
    ("hands_id", .string (UUID.String e.HandsID)),
    ("primary_item_id", .string (UUID.String e.PrimaryItemID)),
    ("secondary_item_id", .string (UUID.String e.SecondaryItemID)),
    ("legs_id", .string (UUID.String e.LegsID)),
    ("chest_id", .string (UUID.String e.ChestID))]

/-- Decoding `Equipment`. -/
def Equipment.fromJSON (v : Value) : Decoded Equipment := do
  let ms ← v.members
  let headID ← uuidField ms "head_id"
  let handsID ← uuidField ms "hands_id"
  let primaryItemID ← uuidField ms "primary_item_id"
  let secondaryItemID ← uuidField ms "secondary_item_id"
  let legsID ← uuidField ms "legs_id"
  let chestID ← uuidField ms "chest_id"
  pure { HeadID := headID, HandsID := handsID, PrimaryItemID := primaryItemID,
         SecondaryItemID := secondaryItemID, LegsID := legsID, ChestID := chestID }

/-- `Entity`: `id`, `timer`, `position`, `passability`, `attributes`,
`equipment`, `health`. -/
def Entity.toJSON (e : Entity) : Value :=
  .object [("id", .string (UUID.String e.ID)), ("timer", e.Timer.toJSON),
    ("position", e.Position.toJSON), ("passability", e.Passability.toJSON),
    ("attributes", e.Attributes.toJSON), ("equipment", e.Equipment.toJSON),
    ("health", .number e.Health)]

/-- Decoding an `Entity`. -/
def Entity.fromJSON (v : Value) : Decoded Entity := do
  let ms ← v.members
  let id ← uuidField ms "id"
  let timer ← structField ms "timer" Timer.fromJSON
  let position ← structField ms "position" Position.fromJSON
  let passability ← structField ms "passability" Passability.fromJSON
  let attributes ← structField ms "attributes" Attributes.fromJSON
  let equipment ← structField ms "equipment" Equipment.fromJSON
  let health ← intField ms "health"
  pure { ID := id, Timer := timer, Position := position, Passability := passability,
         Attributes := attributes, Equipment := equipment, Health := health }

end objects

/-! ### comms/responses: the envelope -/

namespace responses

open json objects

/-- `MeleeAttackResponse`: `attacker_id`, `target_id`, `did_hit`, `damage`,
`health_remaining`. -/
def MeleeAttackResponse.toJSON (r : MeleeAttackResponse) : Value :=
  .object [("attacker_id", .string (UUID.String r.AttackerID)),
    ("target_id", .string (UUID.String r.TargetID)), ("did_hit", .bool r.DidHit),
    ("damage", .number r.Damage), ("health_remaining", .number r.HealthRemaining)]

/-- Decoding a `MeleeAttackResponse`. -/
def MeleeAttackResponse.fromJSON (v : Value) : Decoded MeleeAttackResponse := do
  let ms ← v.members
  let attackerID ← uuidField ms "attacker_id"
  let targetID ← uuidField ms "target_id"
  let didHit ← boolField ms "did_hit"
  let damage ← intField ms "damage"
  let healthRemaining ← intField ms "health_remaining"
  pure { AttackerID := attackerID, TargetID := targetID, DidHit := didHit,
         Damage := damage, HealthRemaining := healthRemaining }

/-- `RangeAttackResponse`: the tags of the melee response. -/
def RangeAttackResponse.toJSON (r : RangeAttackResponse) : Value :=
  .object [("attacker_id", .string (UUID.String r.AttackerID)),
    ("target_id", .string (UUID.String r.TargetID)), ("did_hit", .bool r.DidHit),
    ("damage", .number r.Damage), ("health_remaining", .number r.HealthRemaining)]

/-- Decoding a `RangeAttackResponse`. -/
def RangeAttackResponse.fromJSON (v : Value) : Decoded RangeAttackResponse := do
  let ms ← v.members
  let attackerID ← uuidField ms "attacker_id"
  let targetID ← uuidField ms "target_id"
  let didHit ← boolField ms "did_hit"
  let damage ← intField ms "damage"
  let healthRemaining ← intField ms "health_remaining"
  pure { AttackerID := attackerID, TargetID := targetID, DidHit := didHit,
         Damage := damage, HealthRemaining := healthRemaining }

/-- `ToggleResponse`: `actor_id`, `target_id`, and `is_closed`, the tag of the
field `IsOpen`. -/
def ToggleResponse.toJSON (r : ToggleResponse) : Value :=
  .object [("actor_id", .string (UUID.String r.ActorID)),
    ("target_id", .string (UUID.String r.TargetID)), ("is_closed", .bool r.IsOpen)]

/-- Decoding a `ToggleResponse`. -/
def ToggleResponse.fromJSON (v : Value) : Decoded ToggleResponse := do
  let ms ← v.members
  let actorID ← uuidField ms "actor_id"
  let targetID ← uuidField ms "target_id"
  let isOpen ← boolField ms "is_closed"
  pure { ActorID := actorID, TargetID := targetID, IsOpen := isOpen }

/-- `MoveResponse`: `actor_id`, `x`, `y`. -/
def MoveResponse.toJSON (r : MoveResponse) : Value :=
  .object [("actor_id", .string (UUID.String r.ActorID)), ("x", .number r.X),
    ("y", .number r.Y)]

/-- Decoding a `MoveResponse`. -/
def MoveResponse.fromJSON (v : Value) : Decoded MoveResponse := do
  let ms ← v.members
  let actorID ← uuidField ms "actor_id"
  let x ← intField ms "x"
  let y ← intField ms "y"
  pure { ActorID := actorID, X := x, Y := y }

/-- `ViewResponse`: `actor_id`, `objects`. -/
def ViewResponse.toJSON (r : ViewResponse) : Value :=
  .object [("actor_id", .string (UUID.String r.ActorID)),
    ("objects", .array (r.Objects.map Entity.toJSON))]

/-- Decoding a `ViewResponse`. -/
def ViewResponse.fromJSON (v : Value) : Decoded ViewResponse := do
  let ms ← v.members
  let actorID ← uuidField ms "actor_id"
  let objs ← sliceField ms "objects" Entity.fromJSON
  pure { ActorID := actorID, Objects := objs }

mutual
/-- `json.Marshal(resp)`: the JSON of the implementation held by the interface
value; a `Wrapper` is the object of its only field `responses`. -/
def Response.toJSON : Response → Value
  | .melee r => r.toJSON
  | .range r => r.toJSON
  | .toggle r => r.toJSON
  | .move r => r.toJSON
  | .view r => r.toJSON
  | .wrapper rs => .object [("responses", .array (Wrapper.elemsJSON rs))]
/-- The JSON of the elements of `Wrapper.Responses`, in order. -/
def Wrapper.elemsJSON : List Response → List Value
  | [] => []
  | r :: rest => r.toJSON :: Wrapper.elemsJSON rest
end

/-- `reflect.TypeOf(resp).Name()`. -/
def Response.typeName : Response → String
  | .melee _ => "MeleeAttackResponse"
  | .range _ => "RangeAttackResponse"
  | .toggle _ => "ToggleResponse"
  | .move _ => "MoveResponse"
  | .view _ => "ViewResponse"
  | .wrapper _ => "Wrapper"

/-- `type payload struct { Type string; Response json.RawMessage }`, tagged
`type` and `response`. -/
structure payload where
  Typ : String
  Response : RawMessage

/-- The JSON of a `payload`. -/
def payload.toJSON (p : payload) : Value :=
  .object [("type", .string p.Typ), ("response", RawMessage.toJSON p.Response)]

/-- Decoding a `payload`. -/
def payload.fromJSON (v : Value) : Decoded payload := do
  let ms ← v.members
  let typ ← stringField ms "type"
  pure { Typ := typ, Response := rawField ms "response" }

/-- `responses.Marshal`. -/
def Marshal (resp : Response) : Decoded Value := do
  let bites := resp.toJSON
  let p : payload := { Typ := resp.typeName, Response := some bites }
  pure p.toJSON

/-- `responses.Unmarshal`: the switch on `p.Type` over the names of
`MeleeAttackResponse`, `RangeAttackResponse`, `MoveResponse`, `ToggleResponse`
and `ViewResponse`. -/
def Unmarshal (bites : Value) : Decoded Response := do
  let p ← payload.fromJSON bites
  if p.Typ = "MeleeAttackResponse" then do
    let r ← json.Unmarshal p.Response MeleeAttackResponse.fromJSON
    pure (.melee r)
  else if p.Typ = "RangeAttackResponse" then do
    let r ← json.Unmarshal p.Response RangeAttackResponse.fromJSON
    pure (.range r)
  else if p.Typ = "MoveResponse" then do
    let r ← json.Unmarshal p.Response MoveResponse.fromJSON
    pure (.move r)
  else if p.Typ = "ToggleResponse" then do
    let r ← json.Unmarshal p.Response ToggleResponse.fromJSON
    pure (.toggle r)
  else if p.Typ = "ViewResponse" then do
    let r ← json.Unmarshal p.Response ViewResponse.fromJSON
    pure (.view r)
  else throw "invalid response type"

end responses

/-! ### comms/requests: the envelope -/

namespace requests

open json

/-- `MeleeAttackRequest`: `attacker_id`, `target_id`. -/
def MeleeAttackRequest.toJSON (r : MeleeAttackRequest) : Value :=
  .object [("attacker_id", .string (UUID.String r.AttackerID)),
    ("target_id", .string (UUID.String r.TargetID))]

/-- Decoding a `MeleeAttackRequest`. -/
def MeleeAttackRequest.fromJSON (v : Value) : Decoded MeleeAttackRequest := do
  let ms ← v.members
  let attackerID ← uuidField ms "attacker_id"
  let targetID ← uuidField ms "target_id"
  pure { AttackerID := attackerID, TargetID := targetID }

/-- `RangeAttackRequest`: `attacker_id`, `target_id`. -/
def RangeAttackRequest.toJSON (r : RangeAttackRequest) : Value :=
  .object [("attacker_id", .string (UUID.String r.AttackerID)),
    ("target_id", .string (UUID.String r.TargetID))]

/-- Decoding a `RangeAttackRequest`. -/
def RangeAttackRequest.fromJSON (v : Value) : Decoded RangeAttackRequest := do
  let ms ← v.members
  let attackerID ← uuidField ms "attacker_id"
  let targetID ← uuidField ms "target_id"
  pure { AttackerID := attackerID, TargetID := targetID }

/-- `CloseRequest`: `actor_id`, `target_id`. -/
def CloseRequest.toJSON (r : CloseRequest) : Value :=
  .object [("actor_id", .string (UUID.String r.ActorID)),
    ("target_id", .string (UUID.String r.TargetID))]

/-- Decoding a `CloseRequest`. -/
def CloseRequest.fromJSON (v : Value) : Decoded CloseRequest := do
  let ms ← v.members
  let actorID ← uuidField ms "actor_id"
  let targetID ← uuidField ms "target_id"
  pure { ActorID := actorID, TargetID := targetID }

/-- `OpenRequest`: `actor_id`, `target_id`. -/
def OpenRequest.toJSON (r : OpenRequest) : Value :=
  .object [("actor_id", .string (UUID.String r.ActorID)),
    ("target_id", .string (UUID.String r.TargetID))]

/-- Decoding an `OpenRequest`. -/
def OpenRequest.fromJSON (v : Value) : Decoded OpenRequest := do
  let ms ← v.members
  let actorID ← uuidField ms "actor_id"
  let targetID ← uuidField ms "target_id"
  pure { ActorID := actorID, TargetID := targetID }

/-- `MoveRequest`: `actor_id`, `direction`. -/
def MoveRequest.toJSON (r : MoveRequest) : Value :=
  .object [("actor_id", .string (UUID.String r.ActorID)),
    ("direction", .number r.Direction)]

/-- Decoding a `MoveRequest`. -/
def MoveRequest.fromJSON (v : Value) : Decoded MoveRequest := do
  let ms ← v.members
  let actorID ← uuidField ms "actor_id"
  let direction ← intField ms "direction"
  pure { ActorID := actorID, Direction := direction }

/-- `ViewRequest`: `actor_id`. -/
def ViewRequest.toJSON (r : ViewRequest) : Value :=
  .object [("actor_id", .string (UUID.String r.ActorID))]

/-- Decoding a `ViewRequest`. -/
def ViewRequest.fromJSON (v : Value) : Decoded ViewRequest := do
  let ms ← v.members
  let actorID ← uuidField ms "actor_id"
  pure { ActorID := actorID }

/-- `json.Marshal(req)`: the JSON of the implementation held by the interface
value. -/
def Request.toJSON : Request → Value
  | .melee r => r.toJSON
  | .range r => r.toJSON
  | .close r => r.toJSON
  | .open_ r => r.toJSON
  | .move r => r.toJSON
  | .view r => r.toJSON

/-- `reflect.TypeOf(req).Name()`. -/
def Request.typeName : Request → String
  | .melee _ => "MeleeAttackRequest"
  | .range _ => "RangeAttackRequest"
  | .close _ => "CloseRequest"
  | .open_ _ => "OpenRequest"
  | .move _ => "MoveRequest"
  | .view _ => "ViewRequest"

/-- `type payload struct { Type string; Request json.RawMessage }`, tagged
`type` and `request`. -/
structure payload where
  Typ : String
  Request : RawMessage

/-- The JSON of a `payload`. -/
def payload.toJSON (p : payload) : Value :=
  .object [("type", .string p.Typ), ("request", RawMessage.toJSON p.Request)]

/-- Decoding a `payload`. -/
def payload.fromJSON (v : Value) : Decoded payload := do
  let ms ← v.members
  let typ ← stringField ms "type"
  pure { Typ := typ, Request := rawField ms "request" }

/-- `requests.Marshal`. -/
def Marshal (req : Request) : Decoded Value := do
  let bites := req.toJSON
  let p : payload := { Typ := req.typeName, Request := some bites }
  pure p.toJSON

/-- `requests.Unmarshal`: the switch on `p.Type` over the names of
`MeleeAttackRequest`, `RangeAttackRequest`, `CloseRequest`, `MoveRequest`,
`OpenRequest` and `ViewRequest`. -/
def Unmarshal (bites : Value) : Decoded Request := do
  let p ← payload.fromJSON bites
  if p.Typ = "MeleeAttackRequest" then do
    let r ← json.Unmarshal p.Request MeleeAttackRequest.fromJSON
    pure (.melee r)
  else if p.Typ = "RangeAttackRequest" then do
    let r ← json.Unmarshal p.Request RangeAttackRequest.fromJSON
    pure (.range r)
  else if p.Typ = "CloseRequest" then do
    let r ← json.Unmarshal p.Request CloseRequest.fromJSON
    pure (.close r)
  else if p.Typ = "MoveRequest" then do
    let r ← json.Unmarshal p.Request MoveRequest.fromJSON
    pure (.move r)
  else if p.Typ = "OpenRequest" then do
    let r ← json.Unmarshal p.Request OpenRequest.fromJSON
    pure (.open_ r)
  else if p.Typ = "ViewRequest" then do
    let r ← json.Unmarshal p.Request ViewRequest.fromJSON
    pure (.view r)
  else throw ("invalid request type: " ++ p.Typ)

end requests

/-! ## Vocabulary of the statements

The definitions below are not part of the program: they name the values that
the statements about the program speak of. -/

namespace objects

/-- The collection without the entities carrying the identifier. -/
def Collection.without (c : Collection) (id : UUID) : Collection :=
  c.filter (fun x => decide (x.ID ≠ id))

/-- The collection in which the entities with the identifier of `t` are `t`. -/
def Collection.withEntity (c : Collection) (t : Entity) : Collection :=
  c.map (fun x => if x.ID = t.ID then t else x)

/-- The identifiers of the collection, in order. -/
def Collection.ids (c : Collection) : List UUID := c.map (fun e => e.ID)

/-- No entity of the collection carries the identifier. -/
def Collection.Absent (c : Collection) (id : UUID) : Prop := ∀ x ∈ c, x.ID ≠ id

instance Collection.decidableAbsent (c : Collection) (id : UUID) : Decidable (c.Absent id) :=
  inferInstanceAs (Decidable (∀ x ∈ c, x.ID ≠ id))

end objects

namespace utils

/-- One die of `Roll`: the draw at the cursor, a zero counted as one. -/
def die (src : Source) (pos : Nat) (upperRange : Int) : Int :=
  if ((src pos % (wrap (upperRange + 1)).toNat : Nat) : Int) ≤ 0 then 1
  else ((src pos % (wrap (upperRange + 1)).toNat : Nat) : Int)

end utils

namespace requests

open objects entities responses

/-- The response of an attack, melee or range. -/
def attackResp (ranged : Bool) (attackerID targetID : UUID) (didHit : Bool)
    (damage health : Int) : Response :=
  if ranged then
    Response.range {
      AttackerID := attackerID, TargetID := targetID, DidHit := didHit,
      Damage := damage, HealthRemaining := health }
  else
    Response.melee {
      AttackerID := attackerID, TargetID := targetID, DidHit := didHit,
      Damage := damage, HealthRemaining := health }

/-- The d100 luck roll of an attack: the first die drawn. -/
def luckRollOf (src : Source) : Int := utils.die src 0 100

/-- The d20 roll of an attack: the second die drawn. -/
def d20Of (src : Source) : Int := utils.die src 1 20

/-- The attack roll: the d20 plus the Strength modifier of the attacker. -/
def attackRollOf (src : Source) (attacker : Entity) : Int :=
  d20Of src + Attribute.Modifier attacker.Attributes.Strength

/-- The critical flag: a natural 20, or the luck roll within Luck modifier + 5. -/
def criticalOf (src : Source) (attacker : Entity) : Bool :=
  if d20Of src = 20 then true
  else decide (Attribute.Modifier attacker.Attributes.Luck + 5 ≥ luckRollOf src)

/-- The armor class: ten plus the Dexterity modifier of the target. -/
def armorClassOf (target : Entity) : Int :=
  10 + Attribute.Modifier target.Attributes.Dexterity

/-- The variable `armor` of a melee attack after the lookup of the chest item. -/
def meleeReductionOf (world : World) (target : Entity) : Int :=
  match world.Items.FromID target.Equipment.ChestID with
  | (item, true) => wrap (0 + item.Armor.MeleeReduction)
  | (_, false) => 0

/-- The variable `armor` of a range attack after the lookup of the chest item. -/
def rangeReductionOf (world : World) (target : Entity) : Int :=
  match world.Items.FromID target.Equipment.ChestID with
  | (item, true) => wrap (0 + item.Armor.RangeReduction)
  | (_, false) => 0

/-- The variable `totalDamage` from `armor` and `damageAmount`. -/
def totalDamageOf (armor : Int) (damageAmount : Int) : Int :=
  let armor := if armor < 0 then 0 else armor
  let totalDamage := wrap (armor - damageAmount)
  if totalDamage < 0 then 0 else totalDamage

/-- The result of an attack that hit for `totalDamage`. -/
def landHit (mk : Bool → Int → Int → Response) (world : World) (target : Entity)
    (totalDamage : Int) : Result :=
  if wrap (target.Health - totalDamage) ≤ 0 then
    ({ world with Objects := world.Objects.without target.ID },
      some (mk true totalDamage 0), none)
  else
    ({ world with
        Objects := world.Objects.withEntity
          { target with Health := wrap (target.Health - totalDamage) } },
      some (mk true totalDamage (wrap (target.Health - totalDamage))), none)

/-- The objects of a view: the cells of the scanned square, column by column,
each with its entities in collection order. -/
def viewObjects (world : World) (actor : Entity) : List Entity :=
  let viewDist := Attribute.Modifier actor.Attributes.Wisdom + 10
  (loopRange (wrap (actor.Position.X - viewDist))
      (wrap (actor.Position.X + viewDist))).flatMap (fun x =>
    (loopRange (wrap (actor.Position.Y - viewDist))
        (wrap (actor.Position.Y + viewDist))).flatMap (fun y =>
      world.Objects.FromXY x y))

/-- The first AlwaysImpassible entity of a list, in list order. -/
def firstImpassible (l : List Entity) : Option Entity :=
  l.find? (fun e => decide (e.Passability.Typ = AlwaysImpassible))

/-- The first closed Toggleable entity of a list, in list order. -/
def firstClosed (l : List Entity) : Option Entity :=
  l.find? (fun e => decide (e.Passability.Typ = Toggleable) && !e.Passability.IsOpen)

/-- An entity that stops a move: always impassible, or a closed toggleable. -/
def blocks (e : Entity) : Bool :=
  decide (e.Passability.Typ = AlwaysImpassible) ||
    (decide (e.Passability.Typ = Toggleable) && !e.Passability.IsOpen)

/-- The actor (attacker) named by a request. -/
def Request.actorID : Request → UUID
  | .melee r => r.AttackerID
  | .range r => r.AttackerID
  | .close r => r.ActorID
  | .open_ r => r.ActorID
  | .move r => r.ActorID
  | .view r => r.ActorID

/-- The target named by a request, for the four variants that name one. -/
def Request.targetID : Request → Option UUID
  | .melee r => some r.TargetID
  | .range r => some r.TargetID
  | .close r => some r.TargetID
  | .open_ r => some r.TargetID
  | .move _ => none
  | .view _ => none

/-- The errors that report a missing actor, attacker or target. -/
def Err.isNotFound : Err → Bool
  | .moveActorNotFound _ => true
  | .actorNotFound => true
  | .attackerNotFound => true
  | .targetNotFound => true
  | _ => false

/-- What a successful `Execute` of a request other than a view can have done to
the world, with the response that reports it. -/
inductive Effect (world : World) : World → Response → Prop where
  | miss (ranged : Bool) (a tid : UUID) (t : Entity)
      (ht : world.Objects.FromID tid = (t, true)) :
      Effect world world (attackResp ranged a tid false 0 t.Health)
  | kill (ranged : Bool) (a tid : UUID) (t : Entity) (total : Int)
      (ht : world.Objects.FromID tid = (t, true)) (hle : wrap (t.Health - total) ≤ 0) :
      Effect world { world with Objects := world.Objects.without t.ID }
        (attackResp ranged a tid true total 0)
  | wound (ranged : Bool) (a tid : UUID) (t : Entity) (total : Int)
      (ht : world.Objects.FromID tid = (t, true)) (hpos : ¬ wrap (t.Health - total) ≤ 0) :
      Effect world
        { world with
          Objects := world.Objects.withEntity { t with Health := wrap (t.Health - total) } }
        (attackResp ranged a tid true total (wrap (t.Health - total)))
  | toggle (a tid : UUID) (t : Entity) (isOpen : Bool)
      (ht : world.Objects.FromID tid = (t, true)) :
      Effect world
        { world with
          Objects := world.Objects.withEntity
            { t with Passability := { t.Passability with IsOpen := isOpen } } }
        (Response.toggle { ActorID := a, TargetID := tid, IsOpen := isOpen })
  | move (aid : UUID) (actor : Entity) (x y : Int)
      (ha : world.Objects.FromID aid = (actor, true)) :
      Effect world
        { world with
          Objects := world.Objects.withEntity { actor with Position := { X := x, Y := y } } }
        (Response.move { ActorID := aid, X := x, Y := y })

/-- Every entity found by identifier in both worlds has the same position in
both. -/
def SamePositions (world world' : World) : Prop :=
  ∀ (id : UUID) (a a' : Entity), world.Objects.FromID id = (a, true) →
    world'.Objects.FromID id = (a', true) → a'.Position = a.Position

/-- What `Execute` keeps of every entity: for every entity of the second world
there is an entity of the first with the same identifier, timer, attributes,
equipment and passability type. -/
def SameFrame (world world' : World) : Prop :=
  ∀ e' ∈ world'.Objects, ∃ e ∈ world.Objects,
    e'.ID = e.ID ∧ e'.Timer = e.Timer ∧ e'.Attributes = e.Attributes ∧
    e'.Equipment = e.Equipment ∧ e'.Passability.Typ = e.Passability.Typ

/-- What a response says of the difference between the world before and the
world after: an attack response a changed health or a removed target, a toggle
response a changed open flag, a move response a changed position, a view
response nothing. -/
def Differs (world world' : World) : Response → Prop
  | .melee m =>
    world' = world ∨ ∃ t, world.Objects.FromID m.TargetID = (t, true) ∧
      (world'.Objects = world.Objects.without t.ID ∨
        world'.Objects = world.Objects.withEntity { t with Health := m.HealthRemaining })
  | .range m =>
    world' = world ∨ ∃ t, world.Objects.FromID m.TargetID = (t, true) ∧
      (world'.Objects = world.Objects.without t.ID ∨
        world'.Objects = world.Objects.withEntity { t with Health := m.HealthRemaining })
  | .toggle m =>
    ∃ t, world.Objects.FromID m.TargetID = (t, true) ∧
      world'.Objects = world.Objects.withEntity
        { t with Passability := { t.Passability with IsOpen := m.IsOpen } }
  | .move m =>
    ∃ a, world.Objects.FromID m.ActorID = (a, true) ∧
      world'.Objects = world.Objects.withEntity { a with Position := { X := m.X, Y := m.Y } }
  | .view _ => world' = world
  | .wrapper _ => False

end requests

namespace responses

open objects entities

/-- The left-to-right fold of `Apply` over a list of responses: from a world
reached without error the next response is applied; past an error or a panic
nothing is applied. -/
def foldApply (rs : List Response) (w : World) : Panics (World × Option Err) :=
  rs.foldl (fun (acc : Panics (World × Option Err)) r =>
    match acc with
    | .ok (w1, none) => r.Apply w1
    | stopped => stopped) (.ok (w, none))

/-- The response is a `Wrapper`. -/
def Response.isWrapper : Response → Bool
  | .wrapper _ => true
  | _ => false

end responses

/-! ### Sample worlds -/

namespace samples

open objects entities

/-- An actor at the origin: every attribute 10 (modifier 0), health 10, timer 0. -/
def actor : Entity :=
  { ID := 1, Timer := { NextTimestamp := 0 }, Position := { X := 0, Y := 0 },
    Passability := { Typ := AlwaysPassible, IsOpen := false },
    Attributes := { Dexterity := 10, Luck := 10, Strength := 10, Wisdom := 10 },
    Equipment := default, Health := 10 }

/-- A clock value: 2026-11-04 00:00:00 UTC. -/
def today : Int := 1793750400

/-- The same actor whose timer is ready from 2100-01-01 00:00:00 UTC on. -/
def lateActor : Entity :=
  { actor with Timer := { NextTimestamp := 4102444800 } }

/-- A closed door on the cell north of the actor. -/
def door : Entity :=
  { actor with
    ID := 2, Position := { X := 0, Y := -1 },
    Passability := { Typ := Toggleable, IsOpen := false } }

/-- A wall on the cell north of the actor, wearing the plate. -/
def wall : Entity :=
  { actor with
    ID := 3, Position := { X := 0, Y := -1 },
    Passability := { Typ := AlwaysImpassible, IsOpen := false },
    Equipment := { (default : Equipment) with ChestID := 7 } }

/-- A chest item with melee reduction 50. -/
def plate : items.Item :=
  { ID := 7, Damage := default, Armor := { MeleeReduction := 50, RangeReduction := 4 } }

/-- The item set of the sample worlds. -/
def armory : items.Collection := { mapping := [(7, plate)] }

/-- The actor alone. -/
def alone : World := { Objects := [actor], Items := armory }

/-- The actor, then the door, then the wall (both north of the actor). -/
def doorBeforeWall : World := { Objects := [actor, door, wall], Items := armory }

/-- The actor, then the wall, then the door (both north of the actor). -/
def wallBeforeDoor : World := { Objects := [actor, wall, door], Items := armory }

/-- The actor and the door. -/
def withDoor : World := { Objects := [actor, door], Items := armory }

/-- The actor whose timer is not ready, and the door. -/
def lateWithDoor : World := { Objects := [lateActor, door], Items := armory }

/-- The random stream that always yields 15: luck roll 15, d20 roll 15, d4 roll 1. -/
def fifteen : Source := fun _ => 15

/-- The actor with Strength 20 (modifier 5) and no primary item. -/
def strong : Entity :=
  { actor with Attributes := { actor.Attributes with Strength := 20 } }

/-- The strong actor alone. -/
def strongAlone : World := { Objects := [strong], Items := armory }

/-- A range weapon: one die of six. -/
def bow : items.Item :=
  { ID := 8,
    Damage := { DieRange := 6, Modifier := 0, RollAmount := 1, Typ := items.RangeDamage },
    Armor := default }

/-- The plate and the bow. -/
def armoryWithBow : items.Collection := { mapping := [(7, plate), (8, bow)] }

/-- The actor holding the bow as its primary item. -/
def archer : Entity :=
  { actor with Equipment := { (default : Equipment) with PrimaryItemID := 8 } }

/-- The archer and the wall. -/
def archerAndWall : World := { Objects := [archer, wall], Items := armoryWithBow }

/-- An entity ten cells east of the actor. -/
def east : Entity := { actor with ID := 4, Position := { X := 10, Y := 0 } }

/-- An entity ten cells west of the actor. -/
def west : Entity := { actor with ID := 5, Position := { X := -10, Y := 0 } }

/-- The actor (Wisdom 10, view distance 10) with the two entities at distance ten. -/
def eastWest : World := { Objects := [actor, east, west], Items := armory }

/-- The actor with Wisdom 20. -/
def sage : Entity :=
  { actor with Attributes := { actor.Attributes with Wisdom := 20 } }

/-- An entity twelve cells east of the origin. -/
def far : Entity := { actor with ID := 6, Position := { X := 12, Y := 0 } }

/-- The sage and the entity twelve cells east of it. -/
def sageAndFar : World := { Objects := [sage, far], Items := armory }

/-- The random stream that always yields 6: luck roll 6, d20 roll 6. -/
def six : Source := fun _ => 6

/-- The replay of a move of the actor to the cell `(5, 5)`. -/
def stepAside : responses.Response := .move { ActorID := 1, X := 5, Y := 5 }

/-- The replay of the opening of an entity that is on no sample world. -/
def knock : responses.Response := .toggle { ActorID := 1, TargetID := 9, IsOpen := true }

/-- The replay of a move of the actor to the cell `(0, 0)`. -/
def stepBack : responses.Response := .move { ActorID := 1, X := 0, Y := 0 }

/-- The actor on the cell `(5, 5)`. -/
def aside : World :=
  { Objects := [{ actor with Position := { X := 5, Y := 5 } }], Items := armory }

/-- An entity with the identifier of the actor, on another cell. -/
def twin : Entity := { actor with Position := { X := 3, Y := 3 }, Health := 4 }

/-- A weapon whose die range is negative: one die of minus one. -/
def cursed : items.Item :=
  { ID := 9,
    Damage := { DieRange := -1, Modifier := 0, RollAmount := 1, Typ := items.MeleeDamage },
    Armor := default }

/-- The actor holding the cursed weapon as its primary item. -/
def brawler : Entity :=
  { actor with Equipment := { (default : Equipment) with PrimaryItemID := 9 } }

/-- The brawler and the door, with the cursed weapon among the items. -/
def cursedWorld : World := { Objects := [brawler, door], Items := { mapping := [(9, cursed)] } }

/-- The actor on the easternmost column of the grid. -/
def edge : Entity := { actor with Position := { X := MaxInt64, Y := 0 } }

/-- The actor on the easternmost column, alone. -/
def edgeWorld : World := { Objects := [edge], Items := armory }

/-- The sage (Wisdom 20) on the easternmost column, alone. -/
def sageAtEdge : World :=
  { Objects := [{ sage with Position := { X := MaxInt64, Y := 0 } }], Items := armory }

/-- The random stream that always yields 20: luck roll 20, d20 roll 20. -/
def twenty : Source := fun _ => 20

/-- A melee weapon of one die of six whose modifier is `3 * 2^61 - 6`. -/
def colossus : items.Item :=
  { ID := 10,
    Damage := { DieRange := 6, Modifier := 6917529027641081850, RollAmount := 1,
                Typ := items.MeleeDamage },
    Armor := default }

/-- The actor holding the colossus as its primary item. -/
def giant : Entity :=
  { actor with Equipment := { (default : Equipment) with PrimaryItemID := 10 } }

/-- The giant and the door (which wears no chest item). -/
def giantWorld : World :=
  { Objects := [giant, door], Items := { mapping := [(10, colossus)] } }

/-- A melee weapon of one die of six whose modifier is `MaxInt64`. -/
def overloaded : items.Item :=
  { ID := 11,
    Damage := { DieRange := 6, Modifier := MaxInt64, RollAmount := 1,
                Typ := items.MeleeDamage },
    Armor := default }

/-- The actor holding the overloaded weapon as its primary item. -/
def bearer : Entity :=
  { actor with Equipment := { (default : Equipment) with PrimaryItemID := 11 } }

/-- The bearer and the door, with the overloaded weapon among the items. -/
def bearerWorld : World :=
  { Objects := [bearer, door], Items := { mapping := [(11, overloaded)] } }

/-- A melee weapon of one die whose range is `MaxInt64`. -/
def boundless : items.Item :=
  { ID := 12,
    Damage := { DieRange := MaxInt64, Modifier := 0, RollAmount := 1,
                Typ := items.MeleeDamage },
    Armor := default }

/-- The actor holding the boundless weapon as its primary item. -/
def reaver : Entity :=
  { actor with Equipment := { (default : Equipment) with PrimaryItemID := 12 } }

/-- The reaver and the door, with the boundless weapon among the items. -/
def boundlessWorld : World :=
  { Objects := [reaver, door], Items := { mapping := [(12, boundless)] } }

/-- The random stream that always yields `MaxInt64 - 1`. -/
def huge : Source := fun _ => 9223372036854775806

/-- The actor, and a second entity with its identifier whose timer is later. -/
def actorTwice : World := { Objects := [actor, lateActor], Items := armory }

/-- The door of the sample worlds, open. -/
def ajar : Entity :=
  { door with Passability := { Typ := Toggleable, IsOpen := true } }

/-- The actor, the door, and a second entity with the identifier of the door. -/
def doorTwice : World := { Objects := [actor, door, ajar], Items := armory }

end samples

end Pitch

/-! ## Lemmas on the machine arithmetic -/

namespace Pitch

theorem wrap_eq {n : Int} (h : IsInt64 n) : wrap n = n := by
  unfold IsInt64 MinInt64 MaxInt64 at h
  unfold wrap
  omega

theorem wrap_isInt64 (n : Int) : IsInt64 (wrap n) := by
  unfold IsInt64 MinInt64 MaxInt64 wrap
  omega

theorem ulp_cases (a : Nat) :
    (a < 9007199254740992 ∧ ulp a = 1) ∨
    (9007199254740992 ≤ a ∧ a < 18014398509481984 ∧ ulp a = 2) ∨
    (18014398509481984 ≤ a ∧ a < 36028797018963968 ∧ ulp a = 4) ∨
    (36028797018963968 ≤ a ∧ a < 72057594037927936 ∧ ulp a = 8) ∨
    (72057594037927936 ≤ a ∧ a < 144115188075855872 ∧ ulp a = 16) ∨
    (144115188075855872 ≤ a ∧ a < 288230376151711744 ∧ ulp a = 32) ∨
    (288230376151711744 ≤ a ∧ a < 576460752303423488 ∧ ulp a = 64) ∨
    (576460752303423488 ≤ a ∧ a < 1152921504606846976 ∧ ulp a = 128) ∨
    (1152921504606846976 ≤ a ∧ a < 2305843009213693952 ∧ ulp a = 256) ∨
    (2305843009213693952 ≤ a ∧ a < 4611686018427387904 ∧ ulp a = 512) ∨
    (4611686018427387904 ≤ a ∧ a < 9223372036854775808 ∧ ulp a = 1024) ∨
    (9223372036854775808 ≤ a ∧ ulp a = 2048) := by
  by_cases h0 : a < 9007199254740992
  · have hu : ulp a = 1 := by
      rw [ulp, if_pos h0]
    exact Or.inl ⟨h0, hu⟩
  right
  by_cases h1 : a < 18014398509481984
  · have hu : ulp a = 2 := by
      rw [ulp, if_neg h0, if_pos h1]
    exact Or.inl ⟨not_lt.1 h0, h1, hu⟩
  right
  by_cases h2 : a < 36028797018963968
  · have hu : ulp a = 4 := by
      rw [ulp, if_neg h0, if_neg h1, if_pos h2]
    exact Or.inl ⟨not_lt.1 h1, h2, hu⟩
  right
  by_cases h3 : a < 72057594037927936
  · have hu : ulp a = 8 := by
      rw [ulp, if_neg h0, if_neg h1, if_neg h2, if_pos h3]
    exact Or.inl ⟨not_lt.1 h2, h3, hu⟩
  right
  by_cases h4 : a < 144115188075855872
  · have hu : ulp a = 16 := by
      rw [ulp, if_neg h0, if_neg h1, if_neg h2, if_neg h3, if_pos h4]
    exact Or.inl ⟨not_lt.1 h3, h4, hu⟩
  right
  by_cases h5 : a < 288230376151711744
  · have hu : ulp a = 32 := by
      rw [ulp, if_neg h0, if_neg h1, if_neg h2, if_neg h3, if_neg h4, if_pos h5]
    exact Or.inl ⟨not_lt.1 h4, h5, hu⟩
  right
  by_cases h6 : a < 576460752303423488
  · have hu : ulp a = 64 := by
      rw [ulp, if_neg h0, if_neg h1, if_neg h2, if_neg h3, if_neg h4, if_neg h5, if_pos h6]
    exact Or.inl ⟨not_lt.1 h5, h6, hu⟩
  right
  by_cases h7 : a < 1152921504606846976
  · have hu : ulp a = 128 := by
      rw [ulp, if_neg h0, if_neg h1, if_neg h2, if_neg h3, if_neg h4, if_neg h5, if_neg h6, if_pos
        h7]
    exact Or.inl ⟨not_lt.1 h6, h7, hu⟩
  right
  by_cases h8 : a < 2305843009213693952
  · have hu : ulp a = 256 := by
      rw [ulp, if_neg h0, if_neg h1, if_neg h2, if_neg h3, if_neg h4, if_neg h5, if_neg h6, if_neg
        h7, if_pos h8]
    exact Or.inl ⟨not_lt.1 h7, h8, hu⟩
  right
  by_cases h9 : a < 4611686018427387904
  · have hu : ulp a = 512 := by
      rw [ulp, if_neg h0, if_neg h1, if_neg h2, if_neg h3, if_neg h4, if_neg h5, if_neg h6, if_neg
        h7, if_neg h8, if_pos h9]
    exact Or.inl ⟨not_lt.1 h8, h9, hu⟩
  right
  by_cases h10 : a < 9223372036854775808
  · have hu : ulp a = 1024 := by
      rw [ulp, if_neg h0, if_neg h1, if_neg h2, if_neg h3, if_neg h4, if_neg h5, if_neg h6, if_neg
        h7, if_neg h8, if_neg h9, if_pos h10]
    exact Or.inl ⟨not_lt.1 h9, h10, hu⟩
  right
  have hu : ulp a = 2048 := by
    rw [ulp, if_neg h0, if_neg h1, if_neg h2, if_neg h3, if_neg h4, if_neg h5, if_neg h6, if_neg
      h7, if_neg h8, if_neg h9, if_neg h10]
  exact ⟨not_lt.1 h10, hu⟩

theorem nearest_small {a : Nat} (h : a < 9007199254740992) : nearest a = a := by
  have hu : ulp a = 1 := by
    unfold ulp
    rw [if_pos h]
  unfold nearest
  rw [hu]
  split_ifs <;> omega

set_option maxHeartbeats 4000000 in
theorem nearest_mono {a b : Nat} (hab : a ≤ b) : nearest a ≤ nearest b := by
  unfold nearest
  rcases ulp_cases a with ⟨h1, ha⟩ | ⟨h0, h1, ha⟩ | ⟨h0, h1, ha⟩ | ⟨h0, h1, ha⟩ |
    ⟨h0, h1, ha⟩ | ⟨h0, h1, ha⟩ | ⟨h0, h1, ha⟩ | ⟨h0, h1, ha⟩ | ⟨h0, h1, ha⟩ |
    ⟨h0, h1, ha⟩ | ⟨h0, h1, ha⟩ | ⟨h0, ha⟩ <;>
  rcases ulp_cases b with ⟨g1, hb⟩ | ⟨g0, g1, hb⟩ | ⟨g0, g1, hb⟩ | ⟨g0, g1, hb⟩ |
    ⟨g0, g1, hb⟩ | ⟨g0, g1, hb⟩ | ⟨g0, g1, hb⟩ | ⟨g0, g1, hb⟩ | ⟨g0, g1, hb⟩ |
    ⟨g0, g1, hb⟩ | ⟨g0, g1, hb⟩ | ⟨g0, hb⟩ <;>
  rw [ha, hb] <;> split_ifs <;> omega

theorem float64_small {n : Int} (h0 : -9007199254740992 < n) (h1 : n < 9007199254740992) :
    float64 n = n := by
  unfold float64
  split_ifs with hn
  · rw [nearest_small (by omega)]
    omega
  · rw [nearest_small (by omega)]
    omega

theorem float64_nonneg {n : Int} (h : 0 ≤ n) : 0 ≤ float64 n := by
  unfold float64
  rw [if_neg (by omega)]
  exact Int.ofNat_nonneg _

theorem float64_mono {a b : Int} (h0 : -9007199254740992 < a) (hab : a ≤ b) :
    float64 a ≤ float64 b := by
  by_cases ha : a < 0
  · rw [float64_small h0 (by omega)]
    by_cases hb : b < 0
    · rw [float64_small (by omega) (by omega)]
      exact hab
    · have := float64_nonneg (not_lt.1 hb)
      omega
  · unfold float64
    rw [if_neg ha, if_neg (by omega)]
    exact Int.ofNat_le.2 (nearest_mono (by omega))

namespace objects

theorem Modifier_eq (a : Int) :
    Attribute.Modifier a = if a < 0 then -5 else float64 (float64 a / 2 - 5) := rfl

theorem Modifier_small {a : Int} (h0 : 0 ≤ a) (h1 : a < 9007199254740992) :
    Attribute.Modifier a = a / 2 - 5 := by
  rw [Modifier_eq, if_neg (by omega), float64_small (by omega) h1,
    float64_small (by omega) (by omega)]

theorem Modifier_ge (a : Int) : -5 ≤ Attribute.Modifier a := by
  rw [Modifier_eq]
  split_ifs with h
  · exact le_refl _
  · have hf := float64_nonneg (not_lt.1 h)
    have hm := float64_mono (a := -5) (b := float64 a / 2 - 5) (by decide) (by omega)
    rw [float64_small (by decide) (by decide)] at hm
    exact hm

theorem Modifier_mono {a b : Int} (hab : a ≤ b) :
    Attribute.Modifier a ≤ Attribute.Modifier b := by
  by_cases ha : a < 0
  · have hb := Modifier_ge b
    rw [Modifier_eq a, if_pos ha]
    exact hb
  · rw [Modifier_eq a, Modifier_eq b, if_neg ha, if_neg (by omega)]
    have hfa := float64_nonneg (not_lt.1 ha)
    have hfab := float64_mono (a := a) (b := b) (by omega) hab
    exact float64_mono (by omega) (by omega)

theorem Modifier_le {a : Int} (h : IsInt64 a) :
    Attribute.Modifier a ≤ 4611686018427387904 := by
  have hmax : Attribute.Modifier MaxInt64 = 4611686018427387904 := by decide
  have := Modifier_mono h.2
  rw [hmax] at this
  exact this

end objects

end Pitch

/-! ## Lemmas on the collections -/

namespace Pitch
open objects entities requests responses

namespace objects

theorem FromXY_eq_filter (c : Collection) (x y : Int) :
    c.FromXY x y = c.filter (fun e => decide (e.Position.X = x ∧ e.Position.Y = y)) := by
  unfold Collection.FromXY
  suffices h : ∀ (l acc : List Entity),
      l.foldl (fun foundEntities e =>
        if e.Position.X = x ∧ e.Position.Y = y then foundEntities ++ [e] else foundEntities) acc
        = acc ++ l.filter (fun e => decide (e.Position.X = x ∧ e.Position.Y = y)) by
    simpa using h c []
  intro l
  induction l with
  | nil => intro acc; simp
  | cons e rest ih =>
    intro acc
    by_cases hp : e.Position.X = x ∧ e.Position.Y = y
    · simp [List.foldl_cons, ih, hp, List.filter_cons]
    · simp [List.foldl_cons, ih, hp, List.filter_cons]

theorem Remove_eq (c : Collection) (e : Entity) :
    c.Remove e = (c.filter (fun x => decide (x.ID ≠ e.ID)), c.any (fun x => decide (x.ID = e.ID))) := by
  unfold Collection.Remove
  suffices h : ∀ (l : List Entity) (acc : Collection × Bool),
      l.foldl (fun (acc : Collection × Bool) currentEntity =>
        if ¬ currentEntity.ID = e.ID then (acc.1 ++ [currentEntity], acc.2)
        else (acc.1, true)) acc
        = (acc.1 ++ l.filter (fun x => decide (x.ID ≠ e.ID)),
            acc.2 || l.any (fun x => decide (x.ID = e.ID))) by
    simpa using h c ([], false)
  intro l
  induction l with
  | nil => intro acc; simp
  | cons a rest ih =>
    intro acc
    rw [List.foldl_cons, ih]
    by_cases hp : a.ID = e.ID <;> simp [hp, List.filter_cons]

theorem Update_eq (c : Collection) (t : Entity) :
    c.Update t = (c.map (fun x => if x.ID = t.ID then t else x),
      c.any (fun x => decide (x.ID = t.ID))) := by
  unfold Collection.Update
  suffices h : ∀ (l : List Entity) (acc : Collection × Bool),
      l.foldl (fun (acc : Collection × Bool) currentEntity =>
        if ¬ currentEntity.ID = t.ID then (acc.1 ++ [currentEntity], acc.2)
        else (acc.1 ++ [t], true)) acc
        = (acc.1 ++ l.map (fun x => if x.ID = t.ID then t else x),
            acc.2 || l.any (fun x => decide (x.ID = t.ID))) by
    simpa using h c ([], false)
  intro l
  induction l with
  | nil => intro acc; simp
  | cons a rest ih =>
    intro acc
    rw [List.foldl_cons, ih]
    by_cases hp : a.ID = t.ID <;> simp [hp]

theorem FromID_eq_find (c : Collection) (id : UUID) :
    c.FromID id = match c.find? (fun e => decide (e.ID = id)) with
      | some e => (e, true)
      | none => (default, false) := by
  induction c with
  | nil => simp [Collection.FromID]
  | cons a rest ih =>
    by_cases hp : a.ID = id
    · simp [Collection.FromID, hp]
    · simp [Collection.FromID, hp, ih, List.find?_cons]

theorem FromID_found {c : Collection} {id : UUID} {e : Entity}
    (h : c.FromID id = (e, true)) : e ∈ c ∧ e.ID = id := by
  induction c with
  | nil => simp [Collection.FromID] at h
  | cons a rest ih =>
    unfold Collection.FromID at h
    by_cases hp : a.ID = id
    · simp [hp] at h
      subst h
      exact ⟨List.mem_cons_self _ _, hp⟩
    · simp [hp] at h
      exact ⟨List.mem_cons_of_mem _ (ih h).1, (ih h).2⟩

theorem FromID_absent {c : Collection} {id : UUID} :
    (c.FromID id).2 = false ↔ c.Absent id := by
  unfold Collection.Absent
  induction c with
  | nil => simp [Collection.FromID]
  | cons a rest ih =>
    unfold Collection.FromID
    by_cases hp : a.ID = id
    · simp [hp]
    · simp [hp, ih]

theorem FromID_cases (c : Collection) (id : UUID) :
    (∃ e, c.FromID id = (e, true)) ∨ c.FromID id = (default, false) := by
  induction c with
  | nil => simp [Collection.FromID]
  | cons a rest ih =>
    unfold Collection.FromID
    by_cases hp : a.ID = id
    · simp [hp]
    · simpa [hp] using ih

theorem FromID_of_absent {c : Collection} {id : UUID} (h : c.Absent id) :
    c.FromID id = (default, false) := by
  rcases FromID_cases c id with ⟨e, he⟩ | hn
  · exact absurd (FromID_found he).2 (h e (FromID_found he).1)
  · exact hn

theorem FromID_of_mem {c : Collection} {e : Entity} (h : e ∈ c) :
    ∃ e', c.FromID e.ID = (e', true) := by
  rcases FromID_cases c e.ID with he | hn
  · exact he
  · have hab : c.Absent e.ID := FromID_absent.1 (by rw [hn])
    exact absurd rfl (hab e h)

theorem MustRemove_ok {c : Collection} {t : Entity} (h : ∃ x ∈ c, x.ID = t.ID) :
    c.MustRemove t = .ok (c.without t.ID) := by
  obtain ⟨x, hx, hid⟩ := h
  have hany : c.any (fun x => decide (x.ID = t.ID)) = true := by
    simp only [List.any_eq_true, decide_eq_true_eq]
    exact ⟨x, hx, hid⟩
  simp [Collection.MustRemove, Remove_eq, hany, Collection.without]

theorem MustUpdate_ok {c : Collection} {t : Entity} (h : ∃ x ∈ c, x.ID = t.ID) :
    c.MustUpdate t = .ok (c.withEntity t) := by
  obtain ⟨x, hx, hid⟩ := h
  have hany : c.any (fun x => decide (x.ID = t.ID)) = true := by
    simp only [List.any_eq_true, decide_eq_true_eq]
    exact ⟨x, hx, hid⟩
  simp [Collection.MustUpdate, Update_eq, hany, Collection.withEntity]

theorem eq_of_ids_nodup {c : Collection} (hn : c.ids.Nodup) {a b : Entity}
    (ha : a ∈ c) (hb : b ∈ c) (h : a.ID = b.ID) : a = b :=
  List.inj_on_of_nodup_map hn ha hb h

theorem withEntity_self {c : Collection} (hn : c.ids.Nodup) {t : Entity} (ht : t ∈ c) :
    c.withEntity t = c := by
  unfold Collection.withEntity
  conv_rhs => rw [← List.map_id c]
  apply List.map_congr_left
  intro x hx
  by_cases h : x.ID = t.ID
  · simp [h, eq_of_ids_nodup hn hx ht h]
  · simp [h]

theorem ids_withEntity (c : Collection) (t : Entity) : (c.withEntity t).ids = c.ids := by
  unfold Collection.withEntity Collection.ids
  rw [List.map_map]
  apply List.map_congr_left
  intro x _
  by_cases h : x.ID = t.ID <;> simp [h]

theorem ids_without_sublist (c : Collection) (id : UUID) :
    List.Sublist (c.without id).ids c.ids := by
  unfold Collection.without Collection.ids
  exact List.Sublist.map _ (List.filter_sublist c)

theorem mem_without {c : Collection} {id : UUID} {e : Entity} :
    e ∈ c.without id ↔ e ∈ c ∧ e.ID ≠ id := by
  simp [Collection.without]

theorem mem_withEntity {c : Collection} {t e : Entity} (h : e ∈ c.withEntity t) :
    e = t ∨ (e ∈ c ∧ e.ID ≠ t.ID) := by
  unfold Collection.withEntity at h
  rw [List.mem_map] at h
  obtain ⟨x, hx, hxe⟩ := h
  by_cases hid : x.ID = t.ID
  · simp [hid] at hxe
    exact Or.inl hxe.symm
  · simp [hid] at hxe
    subst hxe
    exact Or.inr ⟨hx, hid⟩

end objects

/-! ## Lemmas on the dice -/

namespace utils

theorem wrap_succ {u : Int} (hu : 0 ≤ u ∧ u < MaxInt64) : wrap (u + 1) = u + 1 := by
  obtain ⟨h0, h1⟩ := hu
  unfold MaxInt64 at h1
  unfold wrap
  omega

theorem Intn_bounds (src : Source) (pos : Nat) {u : Int} (hu : 0 ≤ u ∧ u < MaxInt64) :
    ∃ r, Intn src pos (wrap (u + 1)) = .ok (r, pos + 1) ∧ 0 ≤ r ∧ r ≤ u ∧
      die src pos u = if r ≤ 0 then 1 else r := by
  have hw := wrap_succ hu
  have h1 : ¬ (u + 1 ≤ 0) := by omega
  refine ⟨((src pos % (u + 1).toNat : Nat) : Int), ?_, ?_, ?_, ?_⟩
  · rw [hw]
    simp only [Intn, h1, if_false]
  · exact Int.ofNat_nonneg _
  · have hpos : 0 < (u + 1).toNat := by omega
    have hlt := Nat.mod_lt (src pos) hpos
    omega
  · unfold die
    rw [hw]

theorem die_pos (src : Source) (pos : Nat) (u : Int) : 1 ≤ die src pos u := by
  unfold die
  split_ifs <;> omega

theorem die_bounds (src : Source) (pos : Nat) {u : Int} (hu : 1 ≤ u ∧ u < MaxInt64) :
    1 ≤ die src pos u ∧ die src pos u ≤ u := by
  obtain ⟨r, -, h0, hr, hd⟩ := Intn_bounds src pos ⟨by omega, hu.2⟩
  rw [hd]
  split_ifs <;> omega

theorem rollLoop_succ (src : Source) {u : Int} (hu : 0 ≤ u ∧ u < MaxInt64) (k : Nat)
    (total : Int) (pos : Nat) :
    rollLoop src u (k + 1) total pos
      = rollLoop src u k (wrap (total + die src pos u)) (pos + 1) := by
  obtain ⟨r, hI, -, -, hd⟩ := Intn_bounds src pos hu
  rw [rollLoop, hI, hd]

theorem Roll_one (src : Source) (pos : Nat) {u : Int} (hu : 0 ≤ u ∧ u < MaxInt64) :
    Roll src pos 1 u = .ok (die src pos u, pos + 1) := by
  have hd1 := die_pos src pos u
  have hd2 : die src pos u ≤ MaxInt64 := by
    obtain ⟨r, -, h0, hr, hd⟩ := Intn_bounds src pos hu
    have h2 := hu.2
    rw [hd]
    unfold MaxInt64 at h2 ⊢
    split_ifs <;> omega
  have hw : wrap (0 + die src pos u) = die src pos u := by
    rw [Int.zero_add]
    exact wrap_eq ⟨by unfold MinInt64; omega, hd2⟩
  show rollLoop src u (0 + 1) 0 pos = _
  rw [rollLoop_succ src hu, hw]
  rfl

theorem rollLoop_returns (src : Source) {u : Int} (hu : 0 ≤ u ∧ u < MaxInt64) (k : Nat)
    (total : Int) (pos : Nat) : ∃ v, rollLoop src u k total pos = .ok v := by
  induction k generalizing total pos with
  | zero => exact ⟨_, rfl⟩
  | succ k ih =>
    rw [rollLoop_succ src hu]
    exact ih _ _

theorem Roll_returns (src : Source) (pos : Nat) {num u : Int}
    (h : (0 ≤ u ∧ u < MaxInt64) ∨ num ≤ 0) :
    ∃ v, Roll src pos num u = .ok v := by
  unfold Roll
  rcases h with h | h
  · exact rollLoop_returns src h _ _ _
  · have : num.toNat = 0 := by omega
    rw [this]
    exact ⟨_, rfl⟩

theorem Roll_panics (src : Source) (pos : Nat) {num u : Int} (hnum : 0 < num)
    (hu : wrap (u + 1) ≤ 0) :
    Roll src pos num u = .error "invalid argument to Intn" := by
  obtain ⟨k, hk⟩ : ∃ k, num.toNat = k + 1 := ⟨num.toNat - 1, by omega⟩
  unfold Roll
  rw [hk, rollLoop]
  simp only [Intn, hu, if_true]

theorem rollLoop_eq (src : Source) {u : Int} (hu : 1 ≤ u ∧ u < MaxInt64) (k : Nat)
    (total : Int) (pos : Nat) (h0 : 0 ≤ total) (hmax : total + (k : Int) * u ≤ MaxInt64) :
    rollLoop src u k total pos
      = .ok (total + ((List.range k).map (fun i => die src (pos + i) u)).sum, pos + k) := by
  induction k generalizing total pos with
  | zero => simp [rollLoop]
  | succ k ih =>
    have hb := die_bounds src pos hu
    have hk : ((k + 1 : Nat) : Int) * u = (k : Int) * u + u := by
      push_cast
      ring
    have hku : 0 ≤ (k : Int) * u := mul_nonneg (Int.ofNat_nonneg _) (by omega)
    rw [hk] at hmax
    have hw : wrap (total + die src pos u) = total + die src pos u := by
      apply wrap_eq
      unfold IsInt64 MinInt64
      unfold MaxInt64 at hmax ⊢
      omega
    rw [rollLoop_succ src ⟨by omega, hu.2⟩, hw, ih _ _ (by omega) (by omega)]
    rw [List.range_succ_eq_map, List.map_cons, List.sum_cons, List.map_map]
    have hshift : (List.range k).map (fun i => die src (pos + 1 + i) u)
        = (List.range k).map ((fun i => die src (pos + i) u) ∘ Nat.succ) := by
      apply List.map_congr_left
      intro i _
      show die src (pos + 1 + i) u = die src (pos + (i + 1)) u
      rw [Nat.add_assoc, Nat.add_comm 1 i]
    rw [hshift, Int.add_assoc, Nat.add_assoc, Nat.add_comm 1 k]
    rfl

theorem Roll_eq (src : Source) (pos : Nat) (num : Int) {u : Int}
    (hu : 1 ≤ u ∧ u < MaxInt64) (hmax : (num.toNat : Int) * u ≤ MaxInt64) :
    Roll src pos num u
      = .ok (((List.range num.toNat).map (fun i => die src (pos + i) u)).sum,
          pos + num.toNat) := by
  unfold Roll
  rw [rollLoop_eq src hu _ _ _ (le_refl _) (by omega), Int.zero_add]

theorem sum_dice_bounds (src : Source) (pos : Nat) {u : Int} (hu : 1 ≤ u ∧ u < MaxInt64)
    (k : Nat) :
    (k : Int) ≤ ((List.range k).map (fun i => die src (pos + i) u)).sum ∧
    ((List.range k).map (fun i => die src (pos + i) u)).sum ≤ (k : Int) * u := by
  induction k with
  | zero => simp
  | succ k ih =>
    rw [List.range_succ, List.map_append, List.sum_append]
    have hb := die_bounds src (pos + k) hu
    simp only [List.map_cons, List.map_nil, List.sum_cons, List.sum_nil, Int.add_zero]
    push_cast
    constructor
    · omega
    · nlinarith [ih.2, hb.2]

theorem Roll_nonpositive (src : Source) (pos : Nat) {num : Int} (u : Int) (h : num ≤ 0) :
    Roll src pos num u = .ok (0, pos) := by
  unfold Roll
  have : num.toNat = 0 := by omega
  rw [this]
  rfl

theorem rollLoop_ok_or_Intn (src : Source) (u : Int) (k : Nat) (total : Int) (pos : Nat) :
    (∃ v, rollLoop src u k total pos = .ok v) ∨
      rollLoop src u k total pos = .error "invalid argument to Intn" := by
  induction k generalizing total pos with
  | zero => exact Or.inl ⟨_, rfl⟩
  | succ k ih =>
    unfold rollLoop
    by_cases h1 : wrap (u + 1) ≤ 0
    · have herr : Intn src pos (wrap (u + 1)) = .error "invalid argument to Intn" := by
        simp only [Intn, h1, if_true]
      rw [herr]
      exact Or.inr rfl
    · simp only [Intn, h1, if_false]
      exact ih _ _

theorem Roll_ok_or_Intn (src : Source) (pos : Nat) (num u : Int) :
    (∃ v, Roll src pos num u = .ok v) ∨
      Roll src pos num u = .error "invalid argument to Intn" :=
  rollLoop_ok_or_Intn src u _ _ _

end utils

end Pitch

/-! ## Lemmas on the requests -/

namespace Pitch
open objects entities requests responses

namespace requests

theorem calcAttackRoll_eq (src : Source) (attacker : Entity) :
    calcAttackRoll src 0 attacker
      = .ok ((attackRollOf src attacker, criticalOf src attacker), 2) := by
  have h100 : utils.Roll src 0 1 100 = .ok (utils.die src 0 100, 1) :=
    utils.Roll_one src 0 (by decide)
  have h20 : utils.Roll src 1 1 20 = .ok (utils.die src 1 20, 2) :=
    utils.Roll_one src 1 (by decide)
  simp only [calcAttackRoll, calcLuckyCritical, h100, h20, bind, Except.bind, pure,
    Except.pure, attackRollOf, criticalOf, d20Of, luckRollOf]

theorem melee_Execute_eq (req : MeleeAttackRequest) (src : Source) (world : World)
    (attacker target : Entity)
    (hA : world.Objects.FromID req.AttackerID = (attacker, true))
    (hT : world.Objects.FromID req.TargetID = (target, true)) :
    req.Execute src world =
      if isHit (criticalOf src attacker) (armorClassOf target) (attackRollOf src attacker) then
        match calcDamageAmount src 2 world attacker with
        | .error m => .error m
        | .ok ((damageAmount, damageType), _) =>
          if damageType = items.MeleeDamage then
            .ok (landHit (attackResp false req.AttackerID req.TargetID) world target
              (totalDamageOf (meleeReductionOf world target)
                (if criticalOf src attacker then wrap (damageAmount * 2) else damageAmount)))
          else .ok (world, none, some Err.nonMeleeWeapon)
      else
        .ok (world, some (attackResp false req.AttackerID req.TargetID false 0 target.Health),
          none) := by
  have hmem := FromID_found hT
  have hrem : world.Objects.MustRemove { target with Health := 0 }
      = .ok (world.Objects.without target.ID) :=
    MustRemove_ok ⟨target, hmem.1, rfl⟩
  have hupd : ∀ h : Int, world.Objects.MustUpdate { target with Health := h }
      = .ok (world.Objects.withEntity { target with Health := h }) :=
    fun h => MustUpdate_ok ⟨target, hmem.1, rfl⟩
  unfold MeleeAttackRequest.Execute
  rw [hA]; dsimp only; rw [hT]; dsimp only
  rw [calcAttackRoll_eq]
  simp only [bind, Except.bind, pure, Except.pure, hrem, hupd]
  simp only [armorClassOf, landHit, totalDamageOf, meleeReductionOf, attackResp,
    Bool.false_eq_true, if_false]
  by_cases hhit : isHit (criticalOf src attacker)
      (10 + Attribute.Modifier target.Attributes.Dexterity) (attackRollOf src attacker) = true
  · simp only [hhit, not_true_eq_false, if_false, if_true]
    cases calcDamageAmount src 2 world attacker with
    | error m => rfl
    | ok v =>
      obtain ⟨⟨dmg, ty⟩, p⟩ := v
      dsimp only
      by_cases hty : ty = items.MeleeDamage
      · simp only [hty, ne_eq, not_true_eq_false, if_false, if_true]
        split_ifs <;> rfl
      · simp only [hty, ne_eq, not_false_eq_true, if_true, if_false]
  · simp only [hhit, Bool.false_eq_true, not_false_eq_true, if_true, if_false]

theorem range_Execute_eq (req : RangeAttackRequest) (src : Source) (world : World)
    (attacker target : Entity)
    (hA : world.Objects.FromID req.AttackerID = (attacker, true))
    (hT : world.Objects.FromID req.TargetID = (target, true)) :
    req.Execute src world =
      if isHit (criticalOf src attacker) (armorClassOf target) (attackRollOf src attacker) then
        match calcDamageAmount src 2 world attacker with
        | .error m => .error m
        | .ok ((damageAmount, damageType), _) =>
          if damageType = items.RangeDamage then
            .ok (landHit (attackResp true req.AttackerID req.TargetID) world target
              (totalDamageOf (rangeReductionOf world target)
                (if criticalOf src attacker then wrap (damageAmount * 2) else damageAmount)))
          else .ok (world, none, some Err.nonRangeWeapon)
      else
        .ok (world, some (attackResp true req.AttackerID req.TargetID false 0 target.Health),
          none) := by
  have hmem := FromID_found hT
  have hrem : world.Objects.MustRemove { target with Health := 0 }
      = .ok (world.Objects.without target.ID) :=
    MustRemove_ok ⟨target, hmem.1, rfl⟩
  have hupd : ∀ h : Int, world.Objects.MustUpdate { target with Health := h }
      = .ok (world.Objects.withEntity { target with Health := h }) :=
    fun h => MustUpdate_ok ⟨target, hmem.1, rfl⟩
  unfold RangeAttackRequest.Execute
  rw [hA]; dsimp only; rw [hT]; dsimp only
  rw [calcAttackRoll_eq]
  simp only [bind, Except.bind, pure, Except.pure, hrem, hupd]
  simp only [armorClassOf, landHit, totalDamageOf, rangeReductionOf, attackResp, if_true]
  by_cases hhit : isHit (criticalOf src attacker)
      (10 + Attribute.Modifier target.Attributes.Dexterity) (attackRollOf src attacker) = true
  · simp only [hhit, not_true_eq_false, if_false, if_true]
    cases calcDamageAmount src 2 world attacker with
    | error m => rfl
    | ok v =>
      obtain ⟨⟨dmg, ty⟩, p⟩ := v
      dsimp only
      by_cases hty : ty = items.RangeDamage
      · simp only [hty, ne_eq, not_true_eq_false, if_false, if_true]
        split_ifs <;> rfl
      · simp only [hty, ne_eq, not_false_eq_true, if_true, if_false]
  · simp only [hhit, Bool.false_eq_true, not_false_eq_true, if_true, if_false]

theorem open_Execute_eq (req : OpenRequest) (now : Int) (world : World)
    (actor target : Entity)
    (hA : world.Objects.FromID req.ActorID = (actor, true))
    (hT : world.Objects.FromID req.TargetID = (target, true)) :
    req.Execute now world =
      if ¬ actor.Timer.Ready now then .ok (world, none, some Err.timerNotReady)
      else if target.Passability.Typ ≠ Toggleable then .ok (world, none, some Err.notOpenable)
      else .ok ({ world with
          Objects := world.Objects.withEntity
            { target with Passability := { target.Passability with IsOpen := true } } },
        some (Response.toggle { ActorID := req.ActorID, TargetID := req.TargetID, IsOpen := true }),
        none) := by
  have hmem := FromID_found hT
  have hupd : ∀ p : Passability, world.Objects.MustUpdate { target with Passability := p }
      = .ok (world.Objects.withEntity { target with Passability := p }) :=
    fun p => MustUpdate_ok ⟨target, hmem.1, rfl⟩
  unfold OpenRequest.Execute
  rw [hA]; dsimp only; rw [hT]; dsimp only
  simp only [bind, Except.bind, pure, Except.pure, hupd]

theorem close_Execute_eq (req : CloseRequest) (now : Int) (world : World)
    (actor target : Entity)
    (hA : world.Objects.FromID req.ActorID = (actor, true))
    (hT : world.Objects.FromID req.TargetID = (target, true)) :
    req.Execute now world =
      if ¬ actor.Timer.Ready now then .ok (world, none, some Err.timerNotReady)
      else if target.Passability.Typ ≠ Toggleable then .ok (world, none, some Err.notClosable)
      else .ok ({ world with
          Objects := world.Objects.withEntity
            { target with Passability := { target.Passability with IsOpen := false } } },
        some (Response.toggle { ActorID := req.ActorID, TargetID := req.TargetID, IsOpen := false }),
        none) := by
  have hmem := FromID_found hT
  have hupd : ∀ p : Passability, world.Objects.MustUpdate { target with Passability := p }
      = .ok (world.Objects.withEntity { target with Passability := p }) :=
    fun p => MustUpdate_ok ⟨target, hmem.1, rfl⟩
  unfold CloseRequest.Execute
  rw [hA]; dsimp only; rw [hT]; dsimp only
  simp only [bind, Except.bind, pure, Except.pure, hupd]

theorem moveLoop_eq (actor : Entity) (src : Source) (now : Int) (world : World)
    (l : List Entity) :
    moveLoop actor src now world l =
      match l.find? blocks with
      | none => none
      | some e =>
        if e.Passability.Typ = AlwaysImpassible then
          some (MeleeAttackRequest.Execute { AttackerID := actor.ID, TargetID := e.ID } src world)
        else
          some (OpenRequest.Execute { ActorID := actor.ID, TargetID := e.ID } now world) := by
  induction l with
  | nil => rfl
  | cons e rest ih =>
    unfold moveLoop
    by_cases h1 : e.Passability.Typ = AlwaysImpassible
    · simp [h1, List.find?_cons, blocks]
    · by_cases h2 : e.Passability.Typ = Toggleable ∧ ¬ e.Passability.IsOpen
      · have hb : blocks e = true := by simp [blocks, h2.1, h2.2]
        simp [h1, h2, List.find?_cons, hb]
      · have hb : blocks e = false := by
          simp only [blocks, h1, decide_False, Bool.false_or, Bool.and_eq_false_iff,
            decide_eq_false_iff_not, Bool.not_eq_false']
          by_cases h3 : e.Passability.Typ = Toggleable
          · right
            simpa [h3] using h2
          · left; exact h3
        simp only [h1, h2, if_false, List.find?_cons, hb, ih]

theorem move_Execute_eq (req : MoveRequest) (src : Source) (now : Int) (world : World)
    (actor : Entity) (hA : world.Objects.FromID req.ActorID = (actor, true)) :
    req.Execute src now world =
      match (world.Objects.FromXY (coordsFromDirection actor req.Direction).1
          (coordsFromDirection actor req.Direction).2).find? blocks with
      | none =>
        .ok ({ world with
            Objects := world.Objects.withEntity { actor with Position := {
              X := (coordsFromDirection actor req.Direction).1,
              Y := (coordsFromDirection actor req.Direction).2 } } },
          some (Response.move {
            ActorID := req.ActorID,
            X := (coordsFromDirection actor req.Direction).1,
            Y := (coordsFromDirection actor req.Direction).2 }), none)
      | some e =>
        if e.Passability.Typ = AlwaysImpassible then
          MeleeAttackRequest.Execute { AttackerID := req.ActorID, TargetID := e.ID } src world
        else
          OpenRequest.Execute { ActorID := req.ActorID, TargetID := e.ID } now world := by
  have hmem := FromID_found hA
  have hupd : ∀ p : Position, world.Objects.MustUpdate { actor with Position := p }
      = .ok (world.Objects.withEntity { actor with Position := p }) :=
    fun p => MustUpdate_ok ⟨actor, hmem.1, rfl⟩
  unfold MoveRequest.Execute
  rw [hA]; dsimp only
  rw [moveLoop_eq]
  cases (world.Objects.FromXY (coordsFromDirection actor req.Direction).1
          (coordsFromDirection actor req.Direction).2).find? blocks with
  | none => simp only [bind, Except.bind, pure, Except.pure, hupd]
  | some e =>
    dsimp only
    rw [hmem.2]
    split_ifs <;> rfl

end requests

end Pitch

/-! ## What `Execute` can do, and the replay of its responses -/

namespace Pitch
open objects entities requests responses

namespace requests

theorem melee_Execute_absent (req : MeleeAttackRequest) (src : Source)
    (world : World)
    (h : world.Objects.Absent req.AttackerID ∨ world.Objects.Absent req.TargetID) :
    ∃ e, Err.isNotFound e = true ∧ req.Execute src world = .ok (world, none, some e) := by
  unfold MeleeAttackRequest.Execute
  rcases FromID_cases world.Objects req.AttackerID with ⟨a, ha⟩ | hn
  · rcases h with h | h
    · exact absurd (FromID_found ha).2 (h a (FromID_found ha).1)
    · rw [ha, FromID_of_absent h]
      exact ⟨Err.targetNotFound, rfl, rfl⟩
  · rw [hn]
    exact ⟨Err.attackerNotFound, rfl, rfl⟩

theorem range_Execute_absent (req : RangeAttackRequest) (src : Source)
    (world : World)
    (h : world.Objects.Absent req.AttackerID ∨ world.Objects.Absent req.TargetID) :
    ∃ e, Err.isNotFound e = true ∧ req.Execute src world = .ok (world, none, some e) := by
  unfold RangeAttackRequest.Execute
  rcases FromID_cases world.Objects req.AttackerID with ⟨a, ha⟩ | hn
  · rcases h with h | h
    · exact absurd (FromID_found ha).2 (h a (FromID_found ha).1)
    · rw [ha, FromID_of_absent h]
      exact ⟨Err.targetNotFound, rfl, rfl⟩
  · rw [hn]
    exact ⟨Err.attackerNotFound, rfl, rfl⟩

theorem open_Execute_absent (req : OpenRequest) (now : Int) (world : World)
    (h : world.Objects.Absent req.ActorID ∨ world.Objects.Absent req.TargetID) :
    ∃ e, Err.isNotFound e = true ∧ req.Execute now world = .ok (world, none, some e) := by
  unfold OpenRequest.Execute
  rcases FromID_cases world.Objects req.ActorID with ⟨a, ha⟩ | hn
  · rcases h with h | h
    · exact absurd (FromID_found ha).2 (h a (FromID_found ha).1)
    · rw [ha, FromID_of_absent h]
      exact ⟨Err.targetNotFound, rfl, rfl⟩
  · rw [hn]
    exact ⟨Err.actorNotFound, rfl, rfl⟩

theorem close_Execute_absent (req : CloseRequest) (now : Int) (world : World)
    (h : world.Objects.Absent req.ActorID ∨ world.Objects.Absent req.TargetID) :
    ∃ e, Err.isNotFound e = true ∧ req.Execute now world = .ok (world, none, some e) := by
  unfold CloseRequest.Execute
  rcases FromID_cases world.Objects req.ActorID with ⟨a, ha⟩ | hn
  · rcases h with h | h
    · exact absurd (FromID_found ha).2 (h a (FromID_found ha).1)
    · rw [ha, FromID_of_absent h]
      exact ⟨Err.targetNotFound, rfl, rfl⟩
  · rw [hn]
    exact ⟨Err.actorNotFound, rfl, rfl⟩

theorem move_Execute_absent (req : MoveRequest) (src : Source) (now : Int)
    (world : World) (h : world.Objects.Absent req.ActorID) :
    req.Execute src now world = .ok (world, none, some (Err.moveActorNotFound req.ActorID)) := by
  unfold MoveRequest.Execute
  rw [FromID_of_absent h]
  rfl

theorem view_Execute_absent (req : ViewRequest) (now : Int)
    (world : World) (h : world.Objects.Absent req.ActorID) :
    req.Execute now world = .ok (world, none, some Err.actorNotFound) := by
  unfold ViewRequest.Execute
  rw [FromID_of_absent h]
  rfl

/-- The outcomes of `Execute`: a failure that leaves the world untouched, or a
response together with its effect. -/
theorem attack_effect_aux {world world' : World} {resp : Option Response} {err : Option Err}
    (ranged : Bool) (a tid : UUID) (t : Entity)
    (ht : world.Objects.FromID tid = (t, true))
    (hit crit : Bool) (dmgRes : Panics ((Int × items.DamageType) × Nat))
    (T : items.DamageType) (red : Int) (e : Err)
    (h : (if hit then
            match dmgRes with
            | .error m => .error m
            | .ok ((damageAmount, damageType), _) =>
              if damageType = T then
                .ok (landHit (attackResp ranged a tid) world t
                  (totalDamageOf red (if crit then wrap (damageAmount * 2) else damageAmount)))
              else .ok (world, none, some e)
          else
            .ok (world, some (attackResp ranged a tid false 0 t.Health), none))
          = (.ok (world', resp, err) : Panics Result)) :
    (world' = world ∧ resp = none ∧ err ≠ none) ∨
      (err = none ∧ ∃ r, resp = some r ∧ Effect world world' r) := by
  cases hit with
  | false =>
    simp only [Bool.false_eq_true, if_false, Except.ok.injEq, Prod.mk.injEq] at h
    obtain ⟨rfl, rfl, rfl⟩ := h
    exact Or.inr ⟨rfl, _, rfl, Effect.miss ranged _ _ t ht⟩
  | true =>
    simp only [if_true] at h
    cases dmgRes with
    | error m => exact Except.noConfusion h
    | ok v =>
      obtain ⟨⟨dmg, ty⟩, p⟩ := v
      dsimp only at h
      by_cases hty : ty = T
      · rw [if_pos hty] at h
        unfold landHit at h
        by_cases hle : wrap (t.Health -
            totalDamageOf red (if crit = true then wrap (dmg * 2) else dmg)) ≤ 0
        · rw [if_pos hle] at h
          simp only [Except.ok.injEq, Prod.mk.injEq] at h
          obtain ⟨rfl, rfl, rfl⟩ := h
          exact Or.inr ⟨rfl, _, rfl, Effect.kill ranged _ _ t _ ht hle⟩
        · rw [if_neg hle] at h
          simp only [Except.ok.injEq, Prod.mk.injEq] at h
          obtain ⟨rfl, rfl, rfl⟩ := h
          exact Or.inr ⟨rfl, _, rfl, Effect.wound ranged _ _ t _ ht hle⟩
      · rw [if_neg hty] at h
        simp only [Except.ok.injEq, Prod.mk.injEq] at h
        obtain ⟨rfl, rfl, rfl⟩ := h
        exact Or.inl ⟨rfl, rfl, by simp⟩

theorem melee_Execute_effect (req : MeleeAttackRequest) (src : Source)
    (world world' : World) (resp : Option Response) (err : Option Err)
    (h : req.Execute src world = .ok (world', resp, err)) :
    (world' = world ∧ resp = none ∧ err ≠ none) ∨
      (err = none ∧ ∃ r, resp = some r ∧ Effect world world' r) := by
  by_cases hab : world.Objects.Absent req.AttackerID ∨ world.Objects.Absent req.TargetID
  · obtain ⟨e, -, he⟩ := melee_Execute_absent req src world hab
    rw [he] at h
    simp only [Except.ok.injEq, Prod.mk.injEq] at h
    obtain ⟨rfl, rfl, rfl⟩ := h
    exact Or.inl ⟨rfl, rfl, by simp⟩
  · rw [not_or] at hab
    rcases FromID_cases world.Objects req.AttackerID with ⟨a, ha⟩ | hn
    · rcases FromID_cases world.Objects req.TargetID with ⟨t, ht⟩ | hn
      · rw [melee_Execute_eq req src world a t ha ht] at h
        exact attack_effect_aux false _ _ t ht _ _ _ _ _ _ h
      · exact absurd ((FromID_absent).1 (by rw [hn])) hab.2
    · exact absurd ((FromID_absent).1 (by rw [hn])) hab.1

theorem range_Execute_effect (req : RangeAttackRequest) (src : Source)
    (world world' : World) (resp : Option Response) (err : Option Err)
    (h : req.Execute src world = .ok (world', resp, err)) :
    (world' = world ∧ resp = none ∧ err ≠ none) ∨
      (err = none ∧ ∃ r, resp = some r ∧ Effect world world' r) := by
  by_cases hab : world.Objects.Absent req.AttackerID ∨ world.Objects.Absent req.TargetID
  · obtain ⟨e, -, he⟩ := range_Execute_absent req src world hab
    rw [he] at h
    simp only [Except.ok.injEq, Prod.mk.injEq] at h
    obtain ⟨rfl, rfl, rfl⟩ := h
    exact Or.inl ⟨rfl, rfl, by simp⟩
  · rw [not_or] at hab
    rcases FromID_cases world.Objects req.AttackerID with ⟨a, ha⟩ | hn
    · rcases FromID_cases world.Objects req.TargetID with ⟨t, ht⟩ | hn
      · rw [range_Execute_eq req src world a t ha ht] at h
        exact attack_effect_aux true _ _ t ht _ _ _ _ _ _ h
      · exact absurd ((FromID_absent).1 (by rw [hn])) hab.2
    · exact absurd ((FromID_absent).1 (by rw [hn])) hab.1

theorem open_Execute_effect (req : OpenRequest) (now : Int)
    (world world' : World) (resp : Option Response) (err : Option Err)
    (h : req.Execute now world = .ok (world', resp, err)) :
    (world' = world ∧ resp = none ∧ err ≠ none) ∨
      (err = none ∧ ∃ r, resp = some r ∧ Effect world world' r) := by
  by_cases hab : world.Objects.Absent req.ActorID ∨ world.Objects.Absent req.TargetID
  · obtain ⟨e, -, he⟩ := open_Execute_absent req now world hab
    rw [he] at h
    simp only [Except.ok.injEq, Prod.mk.injEq] at h
    obtain ⟨rfl, rfl, rfl⟩ := h
    exact Or.inl ⟨rfl, rfl, by simp⟩
  · rw [not_or] at hab
    rcases FromID_cases world.Objects req.ActorID with ⟨a, ha⟩ | hn
    · rcases FromID_cases world.Objects req.TargetID with ⟨t, ht⟩ | hn
      · rw [open_Execute_eq req now world a t ha ht] at h
        by_cases hr : ¬ a.Timer.Ready now
        · rw [if_pos hr] at h
          simp only [Except.ok.injEq, Prod.mk.injEq] at h
          obtain ⟨rfl, rfl, rfl⟩ := h
          exact Or.inl ⟨rfl, rfl, by simp⟩
        · rw [if_neg hr] at h
          by_cases hty : t.Passability.Typ ≠ Toggleable
          · rw [if_pos hty] at h
            simp only [Except.ok.injEq, Prod.mk.injEq] at h
            obtain ⟨rfl, rfl, rfl⟩ := h
            exact Or.inl ⟨rfl, rfl, by simp⟩
          · rw [if_neg hty] at h
            simp only [Except.ok.injEq, Prod.mk.injEq] at h
            obtain ⟨rfl, rfl, rfl⟩ := h
            exact Or.inr ⟨rfl, _, rfl, Effect.toggle _ _ t true ht⟩
      · exact absurd ((FromID_absent).1 (by rw [hn])) hab.2
    · exact absurd ((FromID_absent).1 (by rw [hn])) hab.1

theorem close_Execute_effect (req : CloseRequest) (now : Int)
    (world world' : World) (resp : Option Response) (err : Option Err)
    (h : req.Execute now world = .ok (world', resp, err)) :
    (world' = world ∧ resp = none ∧ err ≠ none) ∨
      (err = none ∧ ∃ r, resp = some r ∧ Effect world world' r) := by
  by_cases hab : world.Objects.Absent req.ActorID ∨ world.Objects.Absent req.TargetID
  · obtain ⟨e, -, he⟩ := close_Execute_absent req now world hab
    rw [he] at h
    simp only [Except.ok.injEq, Prod.mk.injEq] at h
    obtain ⟨rfl, rfl, rfl⟩ := h
    exact Or.inl ⟨rfl, rfl, by simp⟩
  · rw [not_or] at hab
    rcases FromID_cases world.Objects req.ActorID with ⟨a, ha⟩ | hn
    · rcases FromID_cases world.Objects req.TargetID with ⟨t, ht⟩ | hn
      · rw [close_Execute_eq req now world a t ha ht] at h
        by_cases hr : ¬ a.Timer.Ready now
        · rw [if_pos hr] at h
          simp only [Except.ok.injEq, Prod.mk.injEq] at h
          obtain ⟨rfl, rfl, rfl⟩ := h
          exact Or.inl ⟨rfl, rfl, by simp⟩
        · rw [if_neg hr] at h
          by_cases hty : t.Passability.Typ ≠ Toggleable
          · rw [if_pos hty] at h
            simp only [Except.ok.injEq, Prod.mk.injEq] at h
            obtain ⟨rfl, rfl, rfl⟩ := h
            exact Or.inl ⟨rfl, rfl, by simp⟩
          · rw [if_neg hty] at h
            simp only [Except.ok.injEq, Prod.mk.injEq] at h
            obtain ⟨rfl, rfl, rfl⟩ := h
            exact Or.inr ⟨rfl, _, rfl, Effect.toggle _ _ t false ht⟩
      · exact absurd ((FromID_absent).1 (by rw [hn])) hab.2
    · exact absurd ((FromID_absent).1 (by rw [hn])) hab.1

theorem move_Execute_effect (req : MoveRequest) (src : Source) (now : Int)
    (world world' : World) (resp : Option Response) (err : Option Err)
    (h : req.Execute src now world = .ok (world', resp, err)) :
    (world' = world ∧ resp = none ∧ err ≠ none) ∨
      (err = none ∧ ∃ r, resp = some r ∧ Effect world world' r) := by
  rcases FromID_cases world.Objects req.ActorID with ⟨a, ha⟩ | hn
  · rw [move_Execute_eq req src now world a ha] at h
    split at h
    · simp only [Except.ok.injEq, Prod.mk.injEq] at h
      obtain ⟨rfl, rfl, rfl⟩ := h
      exact Or.inr ⟨rfl, _, rfl, Effect.move _ a _ _ ha⟩
    · rename_i e _
      by_cases hi : e.Passability.Typ = AlwaysImpassible
      · rw [if_pos hi] at h
        exact melee_Execute_effect _ src world world' resp err h
      · rw [if_neg hi] at h
        exact open_Execute_effect _ now world world' resp err h
  · rw [move_Execute_absent req src now world ((FromID_absent).1 (by rw [hn]))] at h
    simp only [Except.ok.injEq, Prod.mk.injEq] at h
    obtain ⟨rfl, rfl, rfl⟩ := h
    exact Or.inl ⟨rfl, rfl, by simp⟩

/-- Every request other than a view: `Execute` returns a failure that leaves the
world untouched, or a response together with its effect. -/
theorem request_Execute_effect (req : Request) (src : Source) (now : Int)
    (world world' : World) (resp : Option Response) (err : Option Err)
    (hreq : ∀ v, req ≠ Request.view v)
    (h : req.Execute src now world = .ok (world', resp, err)) :
    (world' = world ∧ resp = none ∧ err ≠ none) ∨
      (err = none ∧ ∃ r, resp = some r ∧ Effect world world' r) := by
  cases req with
  | melee r => exact melee_Execute_effect r src world world' resp err h
  | range r => exact range_Execute_effect r src world world' resp err h
  | close r => exact close_Execute_effect r now world world' resp err h
  | open_ r => exact open_Execute_effect r now world world' resp err h
  | move r => exact move_Execute_effect r src now world world' resp err h
  | view r => exact absurd rfl (hreq r)

end requests

end Pitch

/-! ## The replay of the responses -/

namespace Pitch
open objects entities requests responses

namespace responses

theorem attackResp_Apply (ranged : Bool) (a tid : UUID) (didHit : Bool) (damage health : Int)
    (w : World) (t : Entity) (ht : w.Objects.FromID tid = (t, true)) :
    (attackResp ranged a tid didHit damage health).Apply w =
      .ok (if health ≤ 0 then { w with Objects := w.Objects.without t.ID }
        else { w with Objects := w.Objects.withEntity { t with Health := health } }, none) := by
  have hmem := FromID_found ht
  have hrem : w.Objects.MustRemove { t with Health := 0 } = .ok (w.Objects.without t.ID) :=
    MustRemove_ok ⟨t, hmem.1, rfl⟩
  have hupd : ∀ h : Int, w.Objects.MustUpdate { t with Health := h }
      = .ok (w.Objects.withEntity { t with Health := h }) :=
    fun h => MustUpdate_ok ⟨t, hmem.1, rfl⟩
  cases ranged with
  | false =>
    simp only [attackResp, Bool.false_eq_true, if_false, Response.Apply,
      MeleeAttackResponse.Apply, ht, bind, Except.bind, pure, Except.pure, hrem, hupd]
    by_cases hh : health ≤ 0
    · rw [if_pos hh, if_pos hh]
    · rw [if_neg hh, if_neg hh]
  | true =>
    simp only [attackResp, if_true, Response.Apply,
      RangeAttackResponse.Apply, ht, bind, Except.bind, pure, Except.pure, hrem, hupd]
    by_cases hh : health ≤ 0
    · rw [if_pos hh, if_pos hh]
    · rw [if_neg hh, if_neg hh]

theorem attackResp_Apply_absent (ranged : Bool) (a tid : UUID) (didHit : Bool)
    (damage health : Int) (w : World) (ht : w.Objects.FromID tid = (default, false)) :
    (attackResp ranged a tid didHit damage health).Apply w
      = .ok (w, some Err.targetNotOnWorld) := by
  cases ranged with
  | false =>
    simp only [attackResp, Bool.false_eq_true, if_false, Response.Apply,
      MeleeAttackResponse.Apply, ht, pure, Except.pure]
  | true =>
    simp only [attackResp, if_true, Response.Apply,
      RangeAttackResponse.Apply, ht, pure, Except.pure]

theorem toggle_Apply (r : ToggleResponse) (w : World) (t : Entity)
    (ht : w.Objects.FromID r.TargetID = (t, true)) :
    (Response.toggle r).Apply w =
      .ok ({ w with
          Objects := w.Objects.withEntity
            { t with Passability := { t.Passability with IsOpen := r.IsOpen } } }, none) := by
  have hmem := FromID_found ht
  have hupd : ∀ p : Passability, w.Objects.MustUpdate { t with Passability := p }
      = .ok (w.Objects.withEntity { t with Passability := p }) :=
    fun p => MustUpdate_ok ⟨t, hmem.1, rfl⟩
  simp only [Response.Apply, ToggleResponse.Apply, ht, bind, Except.bind, pure, Except.pure, hupd]

theorem toggle_Apply_absent (r : ToggleResponse) (w : World)
    (ht : w.Objects.FromID r.TargetID = (default, false)) :
    (Response.toggle r).Apply w = .ok (w, some Err.targetNotOnWorld) := by
  simp only [Response.Apply, ToggleResponse.Apply, ht, pure, Except.pure]

theorem move_Apply (r : MoveResponse) (w : World) (actor : Entity)
    (ha : w.Objects.FromID r.ActorID = (actor, true)) :
    (Response.move r).Apply w =
      .ok ({ w with
          Objects := w.Objects.withEntity
            { actor with Position := { X := r.X, Y := r.Y } } }, none) := by
  have hmem := FromID_found ha
  have hupd : ∀ p : Position, w.Objects.MustUpdate { actor with Position := p }
      = .ok (w.Objects.withEntity { actor with Position := p }) :=
    fun p => MustUpdate_ok ⟨actor, hmem.1, rfl⟩
  simp only [Response.Apply, MoveResponse.Apply, ha, bind, Except.bind, pure, Except.pure, hupd]

theorem move_Apply_absent (r : MoveResponse) (w : World)
    (ha : w.Objects.FromID r.ActorID = (default, false)) :
    (Response.move r).Apply w = .ok (w, some Err.actorNotOnWorld) := by
  simp only [Response.Apply, MoveResponse.Apply, ha, pure, Except.pure]

theorem view_Apply (r : ViewResponse) (w : World) :
    (Response.view r).Apply w = .ok ({ w with Objects := r.Objects }, none) := by
  have h : ∀ (l acc : List Entity),
      l.foldl (fun (c : Collection) obj => c.Append obj) acc = acc ++ l := by
    intro l
    induction l with
    | nil => intro acc; simp
    | cons x rest ih =>
      intro acc
      rw [List.foldl_cons, ih]
      simp [Collection.Append]
  simp only [Response.Apply, ViewResponse.Apply, h, MakeCollection, List.nil_append, pure,
    Except.pure]

end responses

namespace requests

/-- Replaying the response of an effect on the world it came from gives the
world of the effect. -/
theorem Effect.replay {world world' : World} {r : Response} (h : Effect world world' r)
    (hn : world.Objects.ids.Nodup) (hh : ∀ e ∈ world.Objects, 0 < e.Health) :
    r.Apply world = .ok (world', none) := by
  cases h with
  | miss ranged a tid t ht =>
    rw [attackResp_Apply ranged a tid false 0 t.Health world t ht]
    have hpos := hh t (FromID_found ht).1
    rw [if_neg (by omega)]
    have : ({ t with Health := t.Health } : Entity) = t := rfl
    rw [this, withEntity_self hn (FromID_found ht).1]
  | kill ranged a tid t total ht hle =>
    rw [attackResp_Apply ranged a tid true total 0 world t ht, if_pos (le_refl 0)]
  | wound ranged a tid t total ht hpos =>
    rw [attackResp_Apply ranged a tid true total _ world t ht, if_neg hpos]
  | toggle a tid t isOpen ht =>
    rw [toggle_Apply _ world t ht]
  | move aid actor x y ha =>
    rw [move_Apply _ world actor ha]

/-- An effect keeps the health of every entity positive and reports a
remaining health that is not negative. -/
theorem Effect.health {world world' : World} {r : Response} (h : Effect world world' r)
    (hh : ∀ e ∈ world.Objects, 0 < e.Health) :
    (∀ e ∈ world'.Objects, 0 < e.Health) ∧
    (∀ m, r = Response.melee m → 0 ≤ m.HealthRemaining ∧
      (m.HealthRemaining = 0 → world'.Objects.Absent m.TargetID)) ∧
    (∀ m, r = Response.range m → 0 ≤ m.HealthRemaining ∧
      (m.HealthRemaining = 0 → world'.Objects.Absent m.TargetID)) := by
  have key : ∀ (ranged : Bool) (a tid : UUID) (hit : Bool) (d hr : Int),
      (0 ≤ hr ∧ (hr = 0 → world'.Objects.Absent tid)) →
      (∀ m, attackResp ranged a tid hit d hr = Response.melee m → 0 ≤ m.HealthRemaining ∧
        (m.HealthRemaining = 0 → world'.Objects.Absent m.TargetID)) ∧
      (∀ m, attackResp ranged a tid hit d hr = Response.range m → 0 ≤ m.HealthRemaining ∧
        (m.HealthRemaining = 0 → world'.Objects.Absent m.TargetID)) := by
    intro ranged a tid hit d hr hx
    cases ranged with
    | false =>
      refine ⟨fun m hm => ?_, fun m hm => ?_⟩
      · simp only [attackResp, Bool.false_eq_true, if_false, Response.melee.injEq] at hm
        subst hm
        exact hx
      · simp [attackResp] at hm
    | true =>
      refine ⟨fun m hm => ?_, fun m hm => ?_⟩
      · simp [attackResp] at hm
      · simp only [attackResp, if_true, Response.range.injEq] at hm
        subst hm
        exact hx
  cases h with
  | miss ranged a tid t ht =>
    have hpos := hh t (FromID_found ht).1
    exact ⟨hh, key ranged a tid false 0 t.Health ⟨by omega, fun h0 => by omega⟩⟩
  | kill ranged a tid t total ht hle =>
    refine ⟨fun e he => hh e (mem_without.1 he).1, key ranged a tid true total 0 ⟨le_refl 0, ?_⟩⟩
    intro _ x hx
    have := (mem_without.1 hx).2
    rwa [(FromID_found ht).2] at this
  | wound ranged a tid t total ht hpos =>
    refine ⟨fun e he => ?_, key ranged a tid true total _ ⟨by omega, fun h0 => by omega⟩⟩
    rcases mem_withEntity he with rfl | ⟨hm, -⟩
    · show 0 < wrap (t.Health - total)
      omega
    · exact hh e hm
  | toggle a tid t isOpen ht =>
    refine ⟨fun e he => ?_, ?_, ?_⟩
    · rcases mem_withEntity he with rfl | ⟨hm, -⟩
      · exact hh t (FromID_found ht).1
      · exact hh e hm
    · intro m hm
      cases hm
    · intro m hm
      cases hm
  | move aid actor x y ha =>
    refine ⟨fun e he => ?_, ?_, ?_⟩
    · rcases mem_withEntity he with rfl | ⟨hm, -⟩
      · exact hh actor (FromID_found ha).1
      · exact hh e hm
    · intro m hm
      cases hm
    · intro m hm
      cases hm

end requests

end Pitch

/-! ## The view -/

namespace Pitch
open objects entities requests responses

namespace requests

theorem foldl_flatMap_aux {α β : Type} (g : List α → β → List α) (f : β → List α)
    (hg : ∀ acc b, g acc b = acc ++ f b) (l : List β) (acc : List α) :
    l.foldl g acc = acc ++ l.flatMap f := by
  induction l generalizing acc with
  | nil => simp
  | cons b rest ih => rw [List.foldl_cons, ih, hg, List.flatMap_cons, List.append_assoc]

theorem view_Execute_eq (req : ViewRequest) (now : Int) (world : World) (actor : Entity)
    (hA : world.Objects.FromID req.ActorID = (actor, true)) :
    req.Execute now world =
      if ¬ actor.Timer.Ready now then .ok (world, none, some Err.timerNotReady)
      else .ok (world,
        some (Response.view { ActorID := req.ActorID, Objects := viewObjects world actor }),
        none) := by
  unfold ViewRequest.Execute
  rw [hA]
  dsimp only
  by_cases hr : ¬ actor.Timer.Ready now
  · rw [if_pos hr, if_pos hr]
    rfl
  · rw [if_neg hr, if_neg hr]
    have h1 : ∀ (l acc : List Entity),
        l.foldl (fun (acc : List Entity) obj => acc ++ [obj]) acc = acc ++ l := by
      intro l acc
      have := foldl_flatMap_aux (fun (acc : List Entity) obj => acc ++ [obj])
        (fun obj => [obj]) (fun _ _ => rfl) l acc
      simpa using this
    have h2 : ∀ (x : Int) (ys : List Int) (acc : List Entity),
        ys.foldl (fun (acc : List Entity) y =>
          (world.Objects.FromXY x y).foldl (fun (acc : List Entity) obj => acc ++ [obj]) acc) acc
        = acc ++ ys.flatMap (fun y => world.Objects.FromXY x y) :=
      fun x ys acc => foldl_flatMap_aux _ (fun y => world.Objects.FromXY x y)
        (fun acc y => h1 _ acc) ys acc
    have h3 : ∀ (xs ys : List Int) (acc : List Entity),
        xs.foldl (fun (acc : List Entity) x =>
          ys.foldl (fun (acc : List Entity) y =>
            (world.Objects.FromXY x y).foldl (fun (acc : List Entity) obj => acc ++ [obj]) acc)
            acc) acc
        = acc ++ xs.flatMap (fun x => ys.flatMap (fun y => world.Objects.FromXY x y)) :=
      fun xs ys acc => foldl_flatMap_aux _
        (fun x => ys.flatMap (fun y => world.Objects.FromXY x y))
        (fun acc x => h2 x ys acc) xs acc
    simp only [pure, Except.pure, h3, List.nil_append, viewObjects]

theorem loopRange_nodup (start stop : Int) : (loopRange start stop).Nodup := by
  unfold loopRange
  apply List.Nodup.map _ (List.nodup_range _)
  intro a b h
  simpa using h

theorem mem_viewObjects {world : World} {actor e : Entity} (h : e ∈ viewObjects world actor) :
    e ∈ world.Objects := by
  simp only [viewObjects, List.mem_flatMap, FromXY_eq_filter, List.mem_filter] at h
  obtain ⟨x, -, y, -, he, -⟩ := h
  exact he

theorem viewObjects_ids_nodup (world : World) (actor : Entity)
    (hn : world.Objects.ids.Nodup) : Collection.ids (viewObjects world actor) |>.Nodup := by
  have hsub : ∀ x y : Int, (List.map (fun e => e.ID) (world.Objects.FromXY x y)).Nodup := by
    intro x y
    rw [FromXY_eq_filter]
    exact List.Nodup.sublist (List.Sublist.map _ (List.filter_sublist _)) hn
  have hcell : ∀ {x y x' y' : Int} {id : UUID},
      id ∈ List.map (fun e => e.ID) (world.Objects.FromXY x y) →
      id ∈ List.map (fun e => e.ID) (world.Objects.FromXY x' y') → x = x' ∧ y = y' := by
    intro x y x' y' id h1 h2
    simp only [FromXY_eq_filter, List.mem_map, List.mem_filter, decide_eq_true_eq] at h1 h2
    obtain ⟨e1, ⟨he1, hx1, hy1⟩, hid1⟩ := h1
    obtain ⟨e2, ⟨he2, hx2, hy2⟩, hid2⟩ := h2
    have : e1 = e2 := eq_of_ids_nodup hn he1 he2 (hid1.trans hid2.symm)
    subst this
    exact ⟨hx1.symm.trans hx2, hy1.symm.trans hy2⟩
  unfold Collection.ids viewObjects
  simp only [List.map_flatMap]
  rw [List.nodup_flatMap]
  constructor
  · intro x _
    rw [List.nodup_flatMap]
    refine ⟨fun y _ => hsub x y, ?_⟩
    refine List.Pairwise.imp ?_ (loopRange_nodup _ _)
    intro y y' hne
    simp only [Function.onFun]
    intro id h1 h2
    exact hne (hcell h1 h2).2
  · refine List.Pairwise.imp ?_ (loopRange_nodup _ _)
    intro x x' hne
    simp only [Function.onFun]
    intro id h1 h2
    rw [List.mem_flatMap] at h1 h2
    obtain ⟨y, -, h1⟩ := h1
    obtain ⟨y', -, h2⟩ := h2
    exact hne (hcell h1 h2).1

end requests

end Pitch

/-! ## Views, identifiers, positions and the hit rule -/

namespace Pitch
open objects entities requests responses

namespace requests

/-- A view never changes the world and never answers with an attack response. -/
theorem view_Execute_cases (req : ViewRequest) (now : Int) (world : World) :
    (∃ e, req.Execute now world = .ok (world, none, some e)) ∨
    (∃ actor, world.Objects.FromID req.ActorID = (actor, true) ∧
      req.Execute now world = .ok (world,
        some (Response.view { ActorID := req.ActorID, Objects := viewObjects world actor }),
        none)) := by
  rcases FromID_cases world.Objects req.ActorID with ⟨a, ha⟩ | hn
  · rw [view_Execute_eq req now world a ha]
    by_cases hr : ¬ a.Timer.Ready now
    · rw [if_pos hr]
      exact Or.inl ⟨_, rfl⟩
    · rw [if_neg hr]
      exact Or.inr ⟨a, ha, rfl⟩
  · exact Or.inl ⟨_, view_Execute_absent req now world ((FromID_absent).1 (by rw [hn]))⟩

/-- The world of an effect has pairwise distinct identifiers if the input has. -/
theorem Effect.ids_nodup {world world' : World} {r : Response} (h : Effect world world' r)
    (hn : world.Objects.ids.Nodup) : world'.Objects.ids.Nodup := by
  cases h with
  | miss ranged a tid t ht => exact hn
  | kill ranged a tid t total ht hle =>
    exact List.Nodup.sublist (ids_without_sublist _ _) hn
  | wound ranged a tid t total ht hpos =>
    show (world.Objects.withEntity _).ids.Nodup
    rw [ids_withEntity]
    exact hn
  | toggle a tid t isOpen ht =>
    show (world.Objects.withEntity _).ids.Nodup
    rw [ids_withEntity]
    exact hn
  | move aid actor x y ha =>
    show (world.Objects.withEntity _).ids.Nodup
    rw [ids_withEntity]
    exact hn

/-- The response of an effect, replayed on any world with pairwise distinct
identifiers, returns a world with pairwise distinct identifiers. -/
theorem Effect.apply_ids_nodup {world world' : World} {r : Response}
    (h : Effect world world' r) (w2 : World) (hn : w2.Objects.ids.Nodup) :
    ∃ w3 e, r.Apply w2 = .ok (w3, e) ∧ w3.Objects.ids.Nodup := by
  have attack : ∀ (ranged : Bool) (a tid : UUID) (hit : Bool) (d hr : Int),
      ∃ w3 e, (attackResp ranged a tid hit d hr).Apply w2 = .ok (w3, e) ∧
        w3.Objects.ids.Nodup := by
    intro ranged a tid hit d hr
    rcases FromID_cases w2.Objects tid with ⟨t2, ht2⟩ | hn2
    · rw [attackResp_Apply ranged a tid hit d hr w2 t2 ht2]
      refine ⟨_, none, rfl, ?_⟩
      by_cases hh : hr ≤ 0
      · rw [if_pos hh]
        exact List.Nodup.sublist (ids_without_sublist _ _) hn
      · rw [if_neg hh]
        show (w2.Objects.withEntity _).ids.Nodup
        rw [ids_withEntity]
        exact hn
    · exact ⟨w2, _, attackResp_Apply_absent ranged a tid hit d hr w2 hn2, hn⟩
  cases h with
  | miss ranged a tid t ht => exact attack ranged a tid false 0 _
  | kill ranged a tid t total ht hle => exact attack ranged a tid true total 0
  | wound ranged a tid t total ht hpos => exact attack ranged a tid true total _
  | toggle a tid t isOpen ht =>
    rcases FromID_cases w2.Objects tid with ⟨t2, ht2⟩ | hn2
    · refine ⟨_, none, toggle_Apply _ w2 t2 ht2, ?_⟩
      show (w2.Objects.withEntity _).ids.Nodup
      rw [ids_withEntity]
      exact hn
    · exact ⟨w2, _, toggle_Apply_absent _ w2 hn2, hn⟩
  | move aid actor x y ha =>
    rcases FromID_cases w2.Objects aid with ⟨t2, ht2⟩ | hn2
    · refine ⟨_, none, move_Apply _ w2 t2 ht2, ?_⟩
      show (w2.Objects.withEntity _).ids.Nodup
      rw [ids_withEntity]
      exact hn
    · exact ⟨w2, _, move_Apply_absent _ w2 hn2, hn⟩

end requests

namespace objects

theorem FromID_withEntity {c : Collection} {id : UUID} {a : Entity} (t : Entity)
    (h : c.FromID id = (a, true)) :
    (c.withEntity t).FromID id = (if a.ID = t.ID then t else a, true) := by
  induction c with
  | nil => simp [Collection.FromID] at h
  | cons x rest ih =>
    unfold Collection.FromID at h
    unfold Collection.withEntity
    rw [List.map_cons]
    unfold Collection.FromID
    by_cases hx : x.ID = id
    · rw [if_pos hx] at h
      simp only [Prod.mk.injEq, and_true] at h
      subst h
      by_cases hxt : x.ID = t.ID
      · rw [if_pos hxt, if_pos (hxt.symm.trans hx)]
      · rw [if_neg hxt, if_pos hx]
    · rw [if_neg hx] at h
      have hne : (if x.ID = t.ID then t else x).ID ≠ id := by
        by_cases hxt : x.ID = t.ID
        · rw [if_pos hxt]
          exact fun h' => hx (hxt.trans h')
        · rw [if_neg hxt]
          exact hx
      rw [if_neg hne]
      exact ih h

theorem FromID_without {c : Collection} {id tid : UUID} {a' : Entity}
    (h : (c.without tid).FromID id = (a', true)) : c.FromID id = (a', true) := by
  induction c with
  | nil => simp [Collection.without, Collection.FromID] at h
  | cons x rest ih =>
    unfold Collection.without at h
    rw [List.filter_cons] at h
    by_cases hx : x.ID = tid
    · have hd : decide (x.ID ≠ tid) = false := by simp [hx]
      rw [hd] at h
      have hid : id ≠ tid := by
        intro hc
        have := (FromID_found h)
        have hm := (List.mem_filter.1 this.1).2
        simp only [ne_eq, decide_not, Bool.not_eq_true', decide_eq_false_iff_not] at hm
        exact hm (this.2.trans hc)
      unfold Collection.FromID
      rw [if_neg (fun h' => hid (h'.symm.trans hx))]
      exact ih h
    · have hd : decide (x.ID ≠ tid) = true := by simp [hx]
      rw [hd] at h
      simp only [if_true] at h
      unfold Collection.FromID at h ⊢
      by_cases hxi : x.ID = id
      · rw [if_pos hxi] at h ⊢
        exact h
      · rw [if_neg hxi] at h ⊢
        exact ih h

end objects

namespace requests

theorem SamePositions.refl (world : World) : SamePositions world world := by
  intro id a a' h h'
  rw [h] at h'
  simp only [Prod.mk.injEq, and_true] at h'
  rw [h']

theorem SamePositions.without (world : World) (tid : UUID) :
    SamePositions world { world with Objects := world.Objects.without tid } := by
  intro id a a' h h'
  have := FromID_without h'
  rw [h] at this
  simp only [Prod.mk.injEq, and_true] at this
  rw [this]

theorem SamePositions.withEntity (world : World) {tid : UUID} {t : Entity} (t' : Entity)
    (ht : world.Objects.FromID tid = (t, true)) (hid : t'.ID = t.ID)
    (hpos : t'.Position = t.Position) :
    SamePositions world { world with Objects := world.Objects.withEntity t' } := by
  intro id a a' h h'
  have h2 : (world.Objects.withEntity t').FromID id = (a', true) := h'
  rw [FromID_withEntity t' h] at h2
  simp only [Prod.mk.injEq, and_true] at h2
  by_cases hat : a.ID = t'.ID
  · rw [if_pos hat] at h2
    have h1 : id = tid := by
      rw [← (FromID_found h).2, hat, hid, (FromID_found ht).2]
    rw [h1, ht] at h
    simp only [Prod.mk.injEq, and_true] at h
    rw [← h2, hpos, h]
  · rw [if_neg hat] at h2
    rw [h2]

theorem attack_positions_aux {world world' : World} {resp : Option Response} {err : Option Err}
    (mk : Bool → Int → Int → Response) (tid : UUID) (t : Entity)
    (ht : world.Objects.FromID tid = (t, true))
    (hit crit : Bool) (dmgRes : Panics ((Int × items.DamageType) × Nat))
    (T : items.DamageType) (red : Int) (e : Err)
    (h : (if hit then
            match dmgRes with
            | .error m => .error m
            | .ok ((damageAmount, damageType), _) =>
              if damageType = T then
                .ok (landHit mk world t
                  (totalDamageOf red (if crit then wrap (damageAmount * 2) else damageAmount)))
              else .ok (world, none, some e)
          else
            .ok (world, some (mk false 0 t.Health), none))
          = (.ok (world', resp, err) : Panics Result)) :
    SamePositions world world' ∧ (err = none ∨ err = some e) := by
  cases hit with
  | false =>
    simp only [Bool.false_eq_true, if_false, Except.ok.injEq, Prod.mk.injEq] at h
    obtain ⟨rfl, rfl, rfl⟩ := h
    exact ⟨SamePositions.refl _, Or.inl rfl⟩
  | true =>
    simp only [if_true] at h
    cases dmgRes with
    | error m => exact Except.noConfusion h
    | ok v =>
      obtain ⟨⟨dmg, ty⟩, p⟩ := v
      dsimp only at h
      by_cases hty : ty = T
      · rw [if_pos hty] at h
        unfold landHit at h
        by_cases hle : wrap (t.Health -
            totalDamageOf red (if crit = true then wrap (dmg * 2) else dmg)) ≤ 0
        · rw [if_pos hle] at h
          simp only [Except.ok.injEq, Prod.mk.injEq] at h
          obtain ⟨rfl, rfl, rfl⟩ := h
          exact ⟨SamePositions.without _ _, Or.inl rfl⟩
        · rw [if_neg hle] at h
          simp only [Except.ok.injEq, Prod.mk.injEq] at h
          obtain ⟨rfl, rfl, rfl⟩ := h
          exact ⟨SamePositions.withEntity _ _ ht rfl rfl, Or.inl rfl⟩
      · rw [if_neg hty] at h
        simp only [Except.ok.injEq, Prod.mk.injEq] at h
        obtain ⟨rfl, rfl, rfl⟩ := h
        exact ⟨SamePositions.refl _, Or.inr rfl⟩

/-- A melee attack moves nobody and never fails on the timer. -/
theorem melee_Execute_positions (req : MeleeAttackRequest) (src : Source)
    (world world' : World) (resp : Option Response) (err : Option Err)
    (h : req.Execute src world = .ok (world', resp, err)) :
    SamePositions world world' ∧ err ≠ some Err.timerNotReady := by
  by_cases hab : world.Objects.Absent req.AttackerID ∨ world.Objects.Absent req.TargetID
  · obtain ⟨e, hnf, he⟩ := melee_Execute_absent req src world hab
    rw [he] at h
    simp only [Except.ok.injEq, Prod.mk.injEq] at h
    obtain ⟨rfl, rfl, rfl⟩ := h
    refine ⟨SamePositions.refl _, ?_⟩
    intro hc
    cases hc
    cases hnf
  · rw [not_or] at hab
    rcases FromID_cases world.Objects req.AttackerID with ⟨a, ha⟩ | hn
    · rcases FromID_cases world.Objects req.TargetID with ⟨t, ht⟩ | hn
      · rw [melee_Execute_eq req src world a t ha ht] at h
        obtain ⟨h1, h2⟩ := attack_positions_aux _ _ t ht _ _ _ _ _ _ h
        refine ⟨h1, ?_⟩
        rcases h2 with h2 | h2 <;> rw [h2] <;> simp
      · exact absurd ((FromID_absent).1 (by rw [hn])) hab.2
    · exact absurd ((FromID_absent).1 (by rw [hn])) hab.1

/-- An open request moves nobody. -/
theorem open_Execute_positions (req : OpenRequest) (now : Int)
    (world world' : World) (resp : Option Response) (err : Option Err)
    (h : req.Execute now world = .ok (world', resp, err)) :
    SamePositions world world' := by
  by_cases hab : world.Objects.Absent req.ActorID ∨ world.Objects.Absent req.TargetID
  · obtain ⟨e, -, he⟩ := open_Execute_absent req now world hab
    rw [he] at h
    simp only [Except.ok.injEq, Prod.mk.injEq] at h
    obtain ⟨rfl, rfl, rfl⟩ := h
    exact SamePositions.refl _
  · rw [not_or] at hab
    rcases FromID_cases world.Objects req.ActorID with ⟨a, ha⟩ | hn
    · rcases FromID_cases world.Objects req.TargetID with ⟨t, ht⟩ | hn
      · rw [open_Execute_eq req now world a t ha ht] at h
        by_cases hr : ¬ a.Timer.Ready now
        · rw [if_pos hr] at h
          simp only [Except.ok.injEq, Prod.mk.injEq] at h
          obtain ⟨rfl, rfl, rfl⟩ := h
          exact SamePositions.refl _
        · rw [if_neg hr] at h
          by_cases hty : t.Passability.Typ ≠ Toggleable
          · rw [if_pos hty] at h
            simp only [Except.ok.injEq, Prod.mk.injEq] at h
            obtain ⟨rfl, rfl, rfl⟩ := h
            exact SamePositions.refl _
          · rw [if_neg hty] at h
            simp only [Except.ok.injEq, Prod.mk.injEq] at h
            obtain ⟨rfl, rfl, rfl⟩ := h
            exact SamePositions.withEntity _ _ ht rfl rfl
      · exact absurd ((FromID_absent).1 (by rw [hn])) hab.2
    · exact absurd ((FromID_absent).1 (by rw [hn])) hab.1

theorem mem_of_find_FromXY {world : World} {x y : Int} {p : Entity → Bool} {e : Entity}
    (h : (world.Objects.FromXY x y).find? p = some e) :
    e ∈ world.Objects ∧ p e = true := by
  have hm := List.mem_of_find?_eq_some h
  rw [FromXY_eq_filter] at hm
  exact ⟨(List.mem_filter.1 hm).1, List.find?_some h⟩

theorem find_blocks_impassible {l : List Entity} {e : Entity}
    (h : l.find? blocks = some e) (hi : e.Passability.Typ = AlwaysImpassible) :
    firstImpassible l = some e := by
  unfold firstImpassible
  induction l with
  | nil => simp at h
  | cons x rest ih =>
    rw [List.find?_cons] at h ⊢
    by_cases hb : blocks x = true
    · rw [hb] at h
      simp only [Option.some.injEq] at h
      subst h
      simp [hi]
    · have hb' : blocks x = false := by simpa using hb
      rw [hb'] at h
      have hx : ¬ x.Passability.Typ = AlwaysImpassible := by
        intro hc
        simp [blocks, hc] at hb'
      simp only [hx, decide_False]
      exact ih h

theorem find_blocks_closed {l : List Entity} {e : Entity}
    (h : l.find? blocks = some e) (hi : ¬ e.Passability.Typ = AlwaysImpassible) :
    firstClosed l = some e := by
  unfold firstClosed
  induction l with
  | nil => simp at h
  | cons x rest ih =>
    rw [List.find?_cons] at h ⊢
    by_cases hb : blocks x = true
    · rw [hb] at h
      simp only [Option.some.injEq] at h
      subst h
      have hc : (decide (x.Passability.Typ = Toggleable) && !x.Passability.IsOpen) = true := by
        simpa [blocks, hi] using hb
      rw [hc]
    · have hb' : blocks x = false := by simpa using hb
      rw [hb'] at h
      have hc : (decide (x.Passability.Typ = Toggleable) && !x.Passability.IsOpen) = false := by
        simp only [blocks, Bool.or_eq_false_iff] at hb'
        exact hb'.2
      rw [hc]
      exact ih h

theorem find_blocks_of_no_impassible {l : List Entity}
    (h : ∀ e ∈ l, e.Passability.Typ ≠ AlwaysImpassible) :
    l.find? blocks = firstClosed l := by
  unfold firstClosed
  induction l with
  | nil => rfl
  | cons x rest ih =>
    have hx := h x (List.mem_cons_self _ _)
    have hb : blocks x
        = (decide (x.Passability.Typ = Toggleable) && !x.Passability.IsOpen) := by
      simp [blocks, hx]
    rw [List.find?_cons, List.find?_cons, hb, ih (fun e he => h e (List.mem_cons_of_mem _ he))]

end requests

namespace requests

theorem isHit_iff (isCritical : Bool) (armorClass attackRoll : Int) :
    isHit isCritical armorClass attackRoll = true ↔
      (isCritical = true ∨ attackRoll ≥ armorClass) := by
  simp [isHit]

/-- Every response of an attack carries the value of `isHit` as `DidHit`. -/
theorem attack_hit_aux {world world' : World} {r : Response} {err : Option Err}
    (mk : Bool → Int → Int → Response) (t : Entity)
    (hit crit : Bool) (dmgRes : Panics ((Int × items.DamageType) × Nat))
    (T : items.DamageType) (red : Int) (e : Err)
    (h : (if hit then
            match dmgRes with
            | .error m => .error m
            | .ok ((damageAmount, damageType), _) =>
              if damageType = T then
                .ok (landHit mk world t
                  (totalDamageOf red (if crit then wrap (damageAmount * 2) else damageAmount)))
              else .ok (world, none, some e)
          else
            .ok (world, some (mk false 0 t.Health), none))
          = (.ok (world', some r, err) : Panics Result)) :
    ∃ d hr, r = mk hit d hr := by
  cases hit with
  | false =>
    simp only [Bool.false_eq_true, if_false, Except.ok.injEq, Prod.mk.injEq,
      Option.some.injEq] at h
    exact ⟨_, _, h.2.1.symm⟩
  | true =>
    simp only [if_true] at h
    cases dmgRes with
    | error m => exact Except.noConfusion h
    | ok v =>
      obtain ⟨⟨dmg, ty⟩, p⟩ := v
      dsimp only at h
      by_cases hty : ty = T
      · rw [if_pos hty] at h
        unfold landHit at h
        by_cases hle : wrap (t.Health -
            totalDamageOf red (if crit = true then wrap (dmg * 2) else dmg)) ≤ 0
        · rw [if_pos hle] at h
          simp only [Except.ok.injEq, Prod.mk.injEq, Option.some.injEq] at h
          exact ⟨_, _, h.2.1.symm⟩
        · rw [if_neg hle] at h
          simp only [Except.ok.injEq, Prod.mk.injEq, Option.some.injEq] at h
          exact ⟨_, _, h.2.1.symm⟩
      · rw [if_neg hty] at h
        simp only [Except.ok.injEq, Prod.mk.injEq] at h
        exact absurd h.2.1 (by simp)

end requests

end Pitch

/-! ## `Execute` returns -/

namespace Pitch
open objects entities requests responses

namespace requests

/-- The dice of every item of the world can be rolled: the die range is not
negative and below `MaxInt64`, or there is nothing to roll. -/
theorem calcDamageAmount_returns (src : Source) (pos : Nat) (world : World) (attacker : Entity)
    (hd : ∀ item, world.Items.FromID attacker.Equipment.PrimaryItemID = (item, true) →
      (0 ≤ item.Damage.DieRange ∧ item.Damage.DieRange < MaxInt64) ∨
        item.Damage.RollAmount ≤ 0) :
    ∃ v, calcDamageAmount src pos world attacker = .ok v := by
  unfold calcDamageAmount
  rw [utils.Roll_one src pos (by decide)]
  simp only [bind, Except.bind, pure, Except.pure]
  rcases hI : world.Items.FromID attacker.Equipment.PrimaryItemID with ⟨item, b⟩
  cases b with
  | false => exact ⟨_, rfl⟩
  | true =>
    obtain ⟨v, hv⟩ := utils.Roll_returns src (pos + 1) (hd item hI)
    simp only [items.Damage.Calculate, hv, bind, Except.bind, pure, Except.pure]
    exact ⟨_, rfl⟩

theorem attack_returns_aux {world : World}
    (mk : Bool → Int → Int → Response) (t : Entity)
    (hit crit : Bool) (dmgRes : Panics ((Int × items.DamageType) × Nat))
    (T : items.DamageType) (red : Int) (e : Err) :
    (∃ v, dmgRes = .ok v) →
    ∃ r, (if hit then
            match dmgRes with
            | .error m => .error m
            | .ok ((damageAmount, damageType), _) =>
              if damageType = T then
                .ok (landHit mk world t
                  (totalDamageOf red (if crit then wrap (damageAmount * 2) else damageAmount)))
              else .ok (world, none, some e)
          else
            .ok (world, some (mk false 0 t.Health), none))
          = (.ok r : Panics Result) := by
  rintro ⟨⟨⟨dmg, ty⟩, p⟩, rfl⟩
  cases hit with
  | false => exact ⟨_, rfl⟩
  | true =>
    simp only [if_true]
    by_cases hty : ty = T
    · rw [if_pos hty]
      exact ⟨_, rfl⟩
    · rw [if_neg hty]
      exact ⟨_, rfl⟩

/-- `Execute` returns (it does not panic) for every request, dice stream and
clock, in every world in which the primary item of each entity can be rolled:
its die range is not negative and below `MaxInt64`, or its roll amount is not
positive. -/
theorem request_Execute_returns (req : Request) (src : Source) (now : Int) (world : World)
    (hd : ∀ e ∈ world.Objects, ∀ item,
      world.Items.FromID e.Equipment.PrimaryItemID = (item, true) →
      (0 ≤ item.Damage.DieRange ∧ item.Damage.DieRange < MaxInt64) ∨
        item.Damage.RollAmount ≤ 0) :
    ∃ r, req.Execute src now world = .ok r := by
  have melee : ∀ r : MeleeAttackRequest, ∃ x, r.Execute src world = .ok x := by
    intro r
    by_cases hab : world.Objects.Absent r.AttackerID ∨ world.Objects.Absent r.TargetID
    · obtain ⟨e, -, he⟩ := melee_Execute_absent r src world hab
      exact ⟨_, he⟩
    · rw [not_or] at hab
      rcases FromID_cases world.Objects r.AttackerID with ⟨a, ha⟩ | hn
      · rcases FromID_cases world.Objects r.TargetID with ⟨t, ht⟩ | hn
        · rw [melee_Execute_eq r src world a t ha ht]
          exact attack_returns_aux _ t _ _ _ _ _ _
            (calcDamageAmount_returns src 2 world a (hd a (FromID_found ha).1))
        · exact absurd ((FromID_absent).1 (by rw [hn])) hab.2
      · exact absurd ((FromID_absent).1 (by rw [hn])) hab.1
  have opens : ∀ r : OpenRequest, ∃ x, r.Execute now world = .ok x := by
    intro r
    by_cases hab : world.Objects.Absent r.ActorID ∨ world.Objects.Absent r.TargetID
    · obtain ⟨e, -, he⟩ := open_Execute_absent r now world hab
      exact ⟨_, he⟩
    · rw [not_or] at hab
      rcases FromID_cases world.Objects r.ActorID with ⟨a, ha⟩ | hn
      · rcases FromID_cases world.Objects r.TargetID with ⟨t, ht⟩ | hn
        · rw [open_Execute_eq r now world a t ha ht]
          by_cases hr : ¬ a.Timer.Ready now
          · rw [if_pos hr]
            exact ⟨_, rfl⟩
          · rw [if_neg hr]
            by_cases hty : t.Passability.Typ ≠ Toggleable
            · rw [if_pos hty]
              exact ⟨_, rfl⟩
            · rw [if_neg hty]
              exact ⟨_, rfl⟩
        · exact absurd ((FromID_absent).1 (by rw [hn])) hab.2
      · exact absurd ((FromID_absent).1 (by rw [hn])) hab.1
  cases req with
  | melee r => exact melee r
  | range r =>
    show ∃ x, r.Execute src world = .ok x
    by_cases hab : world.Objects.Absent r.AttackerID ∨ world.Objects.Absent r.TargetID
    · obtain ⟨e, -, he⟩ := range_Execute_absent r src world hab
      exact ⟨_, he⟩
    · rw [not_or] at hab
      rcases FromID_cases world.Objects r.AttackerID with ⟨a, ha⟩ | hn
      · rcases FromID_cases world.Objects r.TargetID with ⟨t, ht⟩ | hn
        · rw [range_Execute_eq r src world a t ha ht]
          exact attack_returns_aux _ t _ _ _ _ _ _
            (calcDamageAmount_returns src 2 world a (hd a (FromID_found ha).1))
        · exact absurd ((FromID_absent).1 (by rw [hn])) hab.2
      · exact absurd ((FromID_absent).1 (by rw [hn])) hab.1
  | close r =>
    show ∃ x, r.Execute now world = .ok x
    by_cases hab : world.Objects.Absent r.ActorID ∨ world.Objects.Absent r.TargetID
    · obtain ⟨e, -, he⟩ := close_Execute_absent r now world hab
      exact ⟨_, he⟩
    · rw [not_or] at hab
      rcases FromID_cases world.Objects r.ActorID with ⟨a, ha⟩ | hn
      · rcases FromID_cases world.Objects r.TargetID with ⟨t, ht⟩ | hn
        · rw [close_Execute_eq r now world a t ha ht]
          by_cases hr : ¬ a.Timer.Ready now
          · rw [if_pos hr]
            exact ⟨_, rfl⟩
          · rw [if_neg hr]
            by_cases hty : t.Passability.Typ ≠ Toggleable
            · rw [if_pos hty]
              exact ⟨_, rfl⟩
            · rw [if_neg hty]
              exact ⟨_, rfl⟩
        · exact absurd ((FromID_absent).1 (by rw [hn])) hab.2
      · exact absurd ((FromID_absent).1 (by rw [hn])) hab.1
  | open_ r => exact opens r
  | move r =>
    show ∃ x, r.Execute src now world = .ok x
    rcases FromID_cases world.Objects r.ActorID with ⟨a, ha⟩ | hn
    · rw [move_Execute_eq r src now world a ha]
      split
      · exact ⟨_, rfl⟩
      · rename_i e _
        by_cases hi : e.Passability.Typ = AlwaysImpassible
        · rw [if_pos hi]
          exact melee _
        · rw [if_neg hi]
          exact opens _
    · exact ⟨_, move_Execute_absent r src now world ((FromID_absent).1 (by rw [hn]))⟩
  | view r =>
    show ∃ x, r.Execute now world = .ok x
    rcases view_Execute_cases r now world with ⟨e, he⟩ | ⟨a, -, he⟩
    · exact ⟨_, he⟩
    · exact ⟨_, he⟩

end requests

end Pitch

/-! ## Damage, armor and the scanned square -/

namespace Pitch
open objects entities requests responses

namespace requests

theorem totalDamageOf_eq (armor damageAmount : Int) :
    totalDamageOf armor damageAmount = max 0 (wrap (max 0 armor - damageAmount)) := by
  unfold totalDamageOf
  by_cases h1 : armor < 0
  · rw [if_pos h1, max_eq_left (le_of_lt h1)]
    by_cases h2 : wrap ((0 : Int) - damageAmount) < 0
    · rw [if_pos h2, max_eq_left (le_of_lt h2)]
    · rw [if_neg h2, max_eq_right (not_lt.1 h2)]
  · rw [if_neg h1, max_eq_right (not_lt.1 h1)]
    by_cases h2 : wrap (armor - damageAmount) < 0
    · rw [if_pos h2, max_eq_left (le_of_lt h2)]
    · rw [if_neg h2, max_eq_right (not_lt.1 h2)]

/-- Without overflow of the subtraction the total is `max 0 (max 0 armor - d)`. -/
theorem totalDamageOf_exact {armor d : Int} (h : IsInt64 (max 0 armor - d)) :
    totalDamageOf armor d = max 0 (max 0 armor - d) := by
  rw [totalDamageOf_eq, wrap_eq h]

/-- The subtraction does not overflow for an `int` armor and a damage amount in
`0 .. MaxInt64`. -/
theorem isInt64_armor_sub {armor d : Int} (ha : IsInt64 armor) (h0 : 0 ≤ d)
    (h1 : d ≤ MaxInt64) : IsInt64 (max 0 armor - d) := by
  unfold IsInt64 MinInt64 MaxInt64 at *
  rcases max_cases 0 armor with ⟨h, -⟩ | ⟨h, -⟩ <;> rw [h] <;> omega

theorem calcDamageAmount_unarmed (src : Source) (pos : Nat) (world : World) (attacker : Entity)
    (hI : (world.Items.FromID attacker.Equipment.PrimaryItemID).2 = false) :
    calcDamageAmount src pos world attacker
      = .ok ((max 0 (utils.die src pos 4), items.MeleeDamage), pos + 1) := by
  have hdie : 1 ≤ utils.die src pos 4 := utils.die_pos src pos 4
  unfold calcDamageAmount
  rw [utils.Roll_one src pos (by decide)]
  simp only [bind, Except.bind, pure, Except.pure]
  rcases hF : world.Items.FromID attacker.Equipment.PrimaryItemID with ⟨item, b⟩
  rw [hF] at hI
  simp only at hI
  subst hI
  simp only
  rw [if_neg (by omega), max_eq_right (by omega)]

/-- The value of `calcDamageAmount` with a primary item, every sum reduced to
64 bits as the code computes it. -/
theorem calcDamageAmount_item (src : Source) (pos : Nat) (world : World) (attacker : Entity)
    (item : items.Item) (roll : Int) (p : Nat)
    (hI : world.Items.FromID attacker.Equipment.PrimaryItemID = (item, true))
    (hroll : utils.Roll src (pos + 1) item.Damage.RollAmount item.Damage.DieRange
      = .ok (roll, p)) :
    calcDamageAmount src pos world attacker
      = .ok ((max 0
          (if item.Damage.Typ = items.MeleeDamage then
            wrap (wrap (roll + item.Damage.Modifier) +
              Attribute.Modifier attacker.Attributes.Strength)
          else if item.Damage.Typ = items.RangeDamage then
            wrap (wrap (roll + item.Damage.Modifier) +
              Attribute.Modifier attacker.Attributes.Dexterity)
          else wrap (roll + item.Damage.Modifier)), item.Damage.Typ), p) := by
  unfold calcDamageAmount
  rw [utils.Roll_one src pos (by decide)]
  simp only [bind, Except.bind, pure, Except.pure, hI, items.Damage.Calculate, hroll]
  by_cases hm : item.Damage.Typ = items.MeleeDamage
  · simp only [hm, if_true]
    by_cases hn : wrap (wrap (roll + item.Damage.Modifier) +
        Attribute.Modifier attacker.Attributes.Strength) < 0
    · rw [if_pos hn, max_eq_left (le_of_lt hn)]
    · rw [if_neg hn, max_eq_right (not_lt.1 hn)]
  · simp only [hm, if_false]
    by_cases hr : item.Damage.Typ = items.RangeDamage
    · simp only [hr, if_true]
      by_cases hn : wrap (wrap (roll + item.Damage.Modifier) +
          Attribute.Modifier attacker.Attributes.Dexterity) < 0
      · rw [if_pos hn, max_eq_left (le_of_lt hn)]
      · rw [if_neg hn, max_eq_right (not_lt.1 hn)]
    · simp only [hr, if_false]
      by_cases hn : wrap (roll + item.Damage.Modifier) < 0
      · rw [if_pos hn, max_eq_left (le_of_lt hn)]
      · rw [if_neg hn, max_eq_right (not_lt.1 hn)]

/-- The value of `calcDamageAmount` with a primary item when no sum overflows. -/
theorem calcDamageAmount_item_exact (src : Source) (pos : Nat) (world : World)
    (attacker : Entity) (item : items.Item) (roll : Int) (p : Nat)
    (hI : world.Items.FromID attacker.Equipment.PrimaryItemID = (item, true))
    (hroll : utils.Roll src (pos + 1) item.Damage.RollAmount item.Damage.DieRange
      = .ok (roll, p))
    (hbase : IsInt64 (roll + item.Damage.Modifier))
    (hsum : IsInt64 (roll + item.Damage.Modifier +
      (if item.Damage.Typ = items.MeleeDamage then
        Attribute.Modifier attacker.Attributes.Strength
      else if item.Damage.Typ = items.RangeDamage then
        Attribute.Modifier attacker.Attributes.Dexterity
      else 0))) :
    calcDamageAmount src pos world attacker
      = .ok ((max 0 (roll + item.Damage.Modifier +
          (if item.Damage.Typ = items.MeleeDamage then
            Attribute.Modifier attacker.Attributes.Strength
          else if item.Damage.Typ = items.RangeDamage then
            Attribute.Modifier attacker.Attributes.Dexterity
          else 0)), item.Damage.Typ), p) := by
  rw [calcDamageAmount_item src pos world attacker item roll p hI hroll, wrap_eq hbase]
  by_cases hm : item.Damage.Typ = items.MeleeDamage
  · simp only [hm, if_true] at hsum ⊢
    rw [wrap_eq hsum]
  · simp only [hm, if_false] at hsum ⊢
    by_cases hr : item.Damage.Typ = items.RangeDamage
    · simp only [hr, if_true] at hsum ⊢
      rw [wrap_eq hsum]
    · simp only [hr, if_false, add_zero] at hsum ⊢

theorem mem_loopRange {start stop v : Int} :
    v ∈ loopRange start stop ↔ start ≤ v ∧ v < stop := by
  unfold loopRange
  simp only [List.mem_map, List.mem_range]
  constructor
  · rintro ⟨i, hi, rfl⟩
    omega
  · rintro ⟨h1, h2⟩
    refine ⟨(v - start).toNat, ?_, ?_⟩
    · omega
    · omega

theorem mem_viewObjects_iff {world : World} {actor e : Entity} :
    e ∈ viewObjects world actor ↔
      e ∈ world.Objects ∧
      wrap (actor.Position.X - (Attribute.Modifier actor.Attributes.Wisdom + 10))
        ≤ e.Position.X ∧
      e.Position.X
        < wrap (actor.Position.X + (Attribute.Modifier actor.Attributes.Wisdom + 10)) ∧
      wrap (actor.Position.Y - (Attribute.Modifier actor.Attributes.Wisdom + 10))
        ≤ e.Position.Y ∧
      e.Position.Y
        < wrap (actor.Position.Y + (Attribute.Modifier actor.Attributes.Wisdom + 10)) := by
  simp only [viewObjects, List.mem_flatMap, FromXY_eq_filter, List.mem_filter, mem_loopRange,
    decide_eq_true_eq]
  constructor
  · rintro ⟨x, ⟨hx1, hx2⟩, y, ⟨hy1, hy2⟩, he, hex, hey⟩
    subst hex
    subst hey
    exact ⟨he, hx1, hx2, hy1, hy2⟩
  · rintro ⟨he, hx1, hx2, hy1, hy2⟩
    exact ⟨e.Position.X, ⟨hx1, hx2⟩, e.Position.Y, ⟨hy1, hy2⟩, he, rfl, rfl⟩

end requests

namespace objects

theorem withEntity_idem (c : Collection) (t : Entity) :
    (c.withEntity t).withEntity t = c.withEntity t := by
  unfold Collection.withEntity
  rw [List.map_map]
  apply List.map_congr_left
  intro x _
  by_cases h : x.ID = t.ID
  · simp [h]
  · simp [h]

end objects

end Pitch

namespace Pitch
open objects entities requests responses

namespace requests

/-- The outcome of an attack that hits with a weapon of the matching type, every
operation reduced to 64 bits as the code computes it. -/
theorem attack_hit_outcome (world : World) (src : Source) (a tid : UUID)
    (attacker target : Entity) (damageAmount d r total : Int) (p : Nat) (ranged : Bool)
    (hA : world.Objects.FromID a = (attacker, true))
    (hT : world.Objects.FromID tid = (target, true))
    (hhit : criticalOf src attacker = true ∨
      d20Of src + Attribute.Modifier attacker.Attributes.Strength
        ≥ 10 + Attribute.Modifier target.Attributes.Dexterity)
    (hdmg : calcDamageAmount src 2 world attacker
      = .ok ((damageAmount, if ranged then items.RangeDamage else items.MeleeDamage), p))
    (hd : d = if criticalOf src attacker then wrap (damageAmount * 2) else damageAmount)
    (hr : (∃ item, world.Items.FromID target.Equipment.ChestID = (item, true) ∧
        r = if ranged then item.Armor.RangeReduction else item.Armor.MeleeReduction) ∨
      ((world.Items.FromID target.Equipment.ChestID).2 = false ∧ r = 0))
    (hr64 : IsInt64 r)
    (htotal : total = max 0 (wrap (max 0 r - d))) :
    (if ranged then RangeAttackRequest.Execute { AttackerID := a, TargetID := tid } src world
      else MeleeAttackRequest.Execute { AttackerID := a, TargetID := tid } src world) =
      if wrap (target.Health - total) ≤ 0 then
        .ok ({ world with Objects := world.Objects.without target.ID },
          some (attackResp ranged a tid true total 0), none)
      else
        .ok ({ world with
            Objects := world.Objects.withEntity
              { target with Health := wrap (target.Health - total) } },
          some (attackResp ranged a tid true total (wrap (target.Health - total))), none) := by
  have hit : isHit (criticalOf src attacker) (armorClassOf target)
      (attackRollOf src attacker) = true := (isHit_iff _ _ _).2 hhit
  cases ranged with
  | false =>
    have hred : meleeReductionOf world target = r := by
      unfold meleeReductionOf
      rcases hr with ⟨item, hI, hr⟩ | ⟨hI, hr⟩
      · rw [hI]
        simp only [Bool.false_eq_true, if_false] at hr
        show wrap (0 + item.Armor.MeleeReduction) = r
        rw [← hr, Int.zero_add, wrap_eq hr64]
      · rcases hF : world.Items.FromID target.Equipment.ChestID with ⟨item, b⟩
        rw [hF] at hI
        simp only at hI
        subst hI
        rw [hr]
    simp only [Bool.false_eq_true, if_false] at hdmg ⊢
    rw [melee_Execute_eq _ src world attacker target hA hT, if_pos hit, hdmg]
    simp only [if_true, totalDamageOf_eq, hred, ← hd, ← htotal, landHit]
    by_cases hle : wrap (target.Health - total) ≤ 0
    · rw [if_pos hle, if_pos hle]
    · rw [if_neg hle, if_neg hle]
  | true =>
    have hred : rangeReductionOf world target = r := by
      unfold rangeReductionOf
      rcases hr with ⟨item, hI, hr⟩ | ⟨hI, hr⟩
      · rw [hI]
        simp only [if_true] at hr
        show wrap (0 + item.Armor.RangeReduction) = r
        rw [← hr, Int.zero_add, wrap_eq hr64]
      · rcases hF : world.Items.FromID target.Equipment.ChestID with ⟨item, b⟩
        rw [hF] at hI
        simp only at hI
        subst hI
        rw [hr]
    simp only [if_true] at hdmg ⊢
    rw [range_Execute_eq _ src world attacker target hA hT, if_pos hit, hdmg]
    simp only [if_true, totalDamageOf_eq, hred, ← hd, ← htotal, landHit]
    by_cases hle : wrap (target.Health - total) ≤ 0
    · rw [if_pos hle, if_pos hle]
    · rw [if_neg hle, if_neg hle]

end requests

end Pitch

/-! ## Open and close -/

namespace Pitch
open objects entities requests responses

namespace objects

theorem withEntity_eq_map {c : Collection} (hn : c.ids.Nodup) {id : UUID} {t : Entity}
    (ht : c.FromID id = (t, true)) (f : Entity → Entity) (hf : (f t).ID = t.ID) :
    c.withEntity (f t) = c.map (fun e => if e.ID = id then f e else e) := by
  have hmem := FromID_found ht
  unfold Collection.withEntity
  apply List.map_congr_left
  intro e he
  rw [hf, hmem.2]
  by_cases hid : e.ID = id
  · rw [if_pos hid, if_pos hid, eq_of_ids_nodup hn he hmem.1 (hid.trans hmem.2.symm)]
  · rw [if_neg hid, if_neg hid]

end objects

namespace requests

/-- An open request returns, and it returns an error exactly in the four cases
of rejection; the world is then the input world. -/
theorem open_error_iff (req : OpenRequest) (now : Int) (world : World) :
    (∃ x, req.Execute now world = .ok x) ∧
    ((∃ world' resp e, req.Execute now world = .ok (world', resp, some e)) ↔
      (world.Objects.Absent req.ActorID ∨ world.Objects.Absent req.TargetID ∨
        (∃ actor, world.Objects.FromID req.ActorID = (actor, true) ∧
          actor.Timer.Ready now = false) ∨
        (∃ target, world.Objects.FromID req.TargetID = (target, true) ∧
          target.Passability.Typ ≠ Toggleable))) ∧
    (∀ world' resp e, req.Execute now world = .ok (world', resp, some e) →
      world' = world ∧ resp = none) := by
  by_cases hab : world.Objects.Absent req.ActorID ∨ world.Objects.Absent req.TargetID
  · obtain ⟨e, -, he⟩ := open_Execute_absent req now world hab
    refine ⟨⟨_, he⟩, ⟨fun _ => ?_, fun _ => ⟨world, none, e, he⟩⟩, ?_⟩
    · rcases hab with h | h
      · exact Or.inl h
      · exact Or.inr (Or.inl h)
    · intro world' resp e' h
      rw [he] at h
      simp only [Except.ok.injEq, Prod.mk.injEq] at h
      exact ⟨h.1.symm, h.2.1.symm⟩
  · rw [not_or] at hab
    rcases FromID_cases world.Objects req.ActorID with ⟨a, ha⟩ | hn
    swap
    · exact absurd ((FromID_absent).1 (by rw [hn])) hab.1
    rcases FromID_cases world.Objects req.TargetID with ⟨t, ht⟩ | hn
    swap
    · exact absurd ((FromID_absent).1 (by rw [hn])) hab.2
    rw [open_Execute_eq req now world a t ha ht]
    by_cases hr : ¬ a.Timer.Ready now
    · rw [if_pos hr]
      refine ⟨⟨_, rfl⟩, ⟨fun _ => ?_, fun _ => ⟨world, none, _, rfl⟩⟩, ?_⟩
      · exact Or.inr (Or.inr (Or.inl ⟨a, ha, by simpa using hr⟩))
      · intro world' resp e' h
        simp only [Except.ok.injEq, Prod.mk.injEq] at h
        exact ⟨h.1.symm, h.2.1.symm⟩
    · rw [if_neg hr]
      by_cases hty : t.Passability.Typ ≠ Toggleable
      · rw [if_pos hty]
        refine ⟨⟨_, rfl⟩, ⟨fun _ => ?_, fun _ => ⟨world, none, _, rfl⟩⟩, ?_⟩
        · exact Or.inr (Or.inr (Or.inr ⟨t, ht, hty⟩))
        · intro world' resp e' h
          simp only [Except.ok.injEq, Prod.mk.injEq] at h
          exact ⟨h.1.symm, h.2.1.symm⟩
      · rw [if_neg hty]
        refine ⟨⟨_, rfl⟩, ⟨?_, ?_⟩, ?_⟩
        · rintro ⟨world', resp, e, h⟩
          simp only [Except.ok.injEq, Prod.mk.injEq] at h
          exact absurd h.2.2 (by simp)
        · rintro (h | h | ⟨a', ha', hr'⟩ | ⟨t', ht', hty'⟩)
          · exact absurd h hab.1
          · exact absurd h hab.2
          · rw [ha] at ha'
            simp only [Prod.mk.injEq, and_true] at ha'
            subst ha'
            rw [hr'] at hr
            exact absurd (by simp) hr
          · rw [ht] at ht'
            simp only [Prod.mk.injEq, and_true] at ht'
            subst ht'
            exact absurd hty' hty
        · intro world' resp e' h
          simp only [Except.ok.injEq, Prod.mk.injEq] at h
          exact absurd h.2.2 (by simp)

/-- A close request returns, and it returns an error exactly in the four cases
of rejection; the world is then the input world. -/
theorem close_error_iff (req : CloseRequest) (now : Int) (world : World) :
    (∃ x, req.Execute now world = .ok x) ∧
    ((∃ world' resp e, req.Execute now world = .ok (world', resp, some e)) ↔
      (world.Objects.Absent req.ActorID ∨ world.Objects.Absent req.TargetID ∨
        (∃ actor, world.Objects.FromID req.ActorID = (actor, true) ∧
          actor.Timer.Ready now = false) ∨
        (∃ target, world.Objects.FromID req.TargetID = (target, true) ∧
          target.Passability.Typ ≠ Toggleable))) ∧
    (∀ world' resp e, req.Execute now world = .ok (world', resp, some e) →
      world' = world ∧ resp = none) := by
  by_cases hab : world.Objects.Absent req.ActorID ∨ world.Objects.Absent req.TargetID
  · obtain ⟨e, -, he⟩ := close_Execute_absent req now world hab
    refine ⟨⟨_, he⟩, ⟨fun _ => ?_, fun _ => ⟨world, none, e, he⟩⟩, ?_⟩
    · rcases hab with h | h
      · exact Or.inl h
      · exact Or.inr (Or.inl h)
    · intro world' resp e' h
      rw [he] at h
      simp only [Except.ok.injEq, Prod.mk.injEq] at h
      exact ⟨h.1.symm, h.2.1.symm⟩
  · rw [not_or] at hab
    rcases FromID_cases world.Objects req.ActorID with ⟨a, ha⟩ | hn
    swap
    · exact absurd ((FromID_absent).1 (by rw [hn])) hab.1
    rcases FromID_cases world.Objects req.TargetID with ⟨t, ht⟩ | hn
    swap
    · exact absurd ((FromID_absent).1 (by rw [hn])) hab.2
    rw [close_Execute_eq req now world a t ha ht]
    by_cases hr : ¬ a.Timer.Ready now
    · rw [if_pos hr]
      refine ⟨⟨_, rfl⟩, ⟨fun _ => ?_, fun _ => ⟨world, none, _, rfl⟩⟩, ?_⟩
      · exact Or.inr (Or.inr (Or.inl ⟨a, ha, by simpa using hr⟩))
      · intro world' resp e' h
        simp only [Except.ok.injEq, Prod.mk.injEq] at h
        exact ⟨h.1.symm, h.2.1.symm⟩
    · rw [if_neg hr]
      by_cases hty : t.Passability.Typ ≠ Toggleable
      · rw [if_pos hty]
        refine ⟨⟨_, rfl⟩, ⟨fun _ => ?_, fun _ => ⟨world, none, _, rfl⟩⟩, ?_⟩
        · exact Or.inr (Or.inr (Or.inr ⟨t, ht, hty⟩))
        · intro world' resp e' h
          simp only [Except.ok.injEq, Prod.mk.injEq] at h
          exact ⟨h.1.symm, h.2.1.symm⟩
      · rw [if_neg hty]
        refine ⟨⟨_, rfl⟩, ⟨?_, ?_⟩, ?_⟩
        · rintro ⟨world', resp, e, h⟩
          simp only [Except.ok.injEq, Prod.mk.injEq] at h
          exact absurd h.2.2 (by simp)
        · rintro (h | h | ⟨a', ha', hr'⟩ | ⟨t', ht', hty'⟩)
          · exact absurd h hab.1
          · exact absurd h hab.2
          · rw [ha] at ha'
            simp only [Prod.mk.injEq, and_true] at ha'
            subst ha'
            rw [hr'] at hr
            exact absurd (by simp) hr
          · rw [ht] at ht'
            simp only [Prod.mk.injEq, and_true] at ht'
            subst ht'
            exact absurd hty' hty
        · intro world' resp e' h
          simp only [Except.ok.injEq, Prod.mk.injEq] at h
          exact absurd h.2.2 (by simp)

end requests

end Pitch

/-! ## The scanned square -/

namespace Pitch
open objects entities requests responses

namespace requests

/-- The objects of a successful view are exactly the entities of the world on
the cells from `wrap (X - d)` to `wrap (X + d)` and from `wrap (Y - d)` to
`wrap (Y + d)`, the upper ends excluded, with `d` the Wisdom modifier of the
actor plus 10. -/
theorem view_Execute_mem_wrap (req : ViewRequest) (now : Int) (world : World)
    (actor : Entity) (d : Int)
    (hA : world.Objects.FromID req.ActorID = (actor, true))
    (hready : actor.Timer.Ready now = true)
    (hd : Attribute.Modifier actor.Attributes.Wisdom + 10 = d) :
    ∃ objs,
      req.Execute now world
        = .ok (world, some (Response.view { ActorID := req.ActorID, Objects := objs }), none) ∧
      ∀ e, e ∈ objs ↔
        (e ∈ world.Objects ∧
          wrap (actor.Position.X - d) ≤ e.Position.X ∧
          e.Position.X < wrap (actor.Position.X + d) ∧
          wrap (actor.Position.Y - d) ≤ e.Position.Y ∧
          e.Position.Y < wrap (actor.Position.Y + d)) := by
  refine ⟨viewObjects world actor, ?_, ?_⟩
  · rw [view_Execute_eq req now world actor hA, if_neg (not_not.2 hready)]
  · intro e
    rw [mem_viewObjects_iff, hd]

/-- The objects of a successful view are exactly the entities of the world on
the cells `X - d <= x < X + d`, `Y - d <= y < Y + d`, with `d` the Wisdom
modifier of the actor plus 10, when the four bounds are values of `int`. -/
theorem view_Execute_mem_iff (req : ViewRequest) (now : Int) (world : World) (actor : Entity)
    (d : Int)
    (hA : world.Objects.FromID req.ActorID = (actor, true))
    (hready : actor.Timer.Ready now = true)
    (hd : Attribute.Modifier actor.Attributes.Wisdom + 10 = d)
    (hx : MinInt64 + d ≤ actor.Position.X ∧ actor.Position.X ≤ MaxInt64 - d)
    (hy : MinInt64 + d ≤ actor.Position.Y ∧ actor.Position.Y ≤ MaxInt64 - d) :
    ∃ objs,
      req.Execute now world
        = .ok (world, some (Response.view { ActorID := req.ActorID, Objects := objs }), none) ∧
      ∀ e, e ∈ objs ↔
        (e ∈ world.Objects ∧
          actor.Position.X - d ≤ e.Position.X ∧ e.Position.X < actor.Position.X + d ∧
          actor.Position.Y - d ≤ e.Position.Y ∧ e.Position.Y < actor.Position.Y + d) := by
  have hd5 : 5 ≤ d := by
    have := Modifier_ge actor.Attributes.Wisdom
    omega
  obtain ⟨objs, hex, hmem⟩ := view_Execute_mem_wrap req now world actor d hA hready hd
  refine ⟨objs, hex, ?_⟩
  intro e
  rw [hmem e]
  have w1 : wrap (actor.Position.X - d) = actor.Position.X - d :=
    wrap_eq ⟨by omega, by unfold MinInt64 MaxInt64 at *; omega⟩
  have w2 : wrap (actor.Position.X + d) = actor.Position.X + d :=
    wrap_eq ⟨by unfold MinInt64 MaxInt64 at *; omega, by omega⟩
  have w3 : wrap (actor.Position.Y - d) = actor.Position.Y - d :=
    wrap_eq ⟨by omega, by unfold MinInt64 MaxInt64 at *; omega⟩
  have w4 : wrap (actor.Position.Y + d) = actor.Position.Y + d :=
    wrap_eq ⟨by unfold MinInt64 MaxInt64 at *; omega, by omega⟩
  rw [w1, w2, w3, w4]

/-- The half-open square contains the open box of half-width `d` and is
contained in the closed one, when its four bounds are values of `int`. -/
theorem view_Execute_box (req : ViewRequest) (now : Int) (world : World) (actor : Entity)
    (d : Int)
    (hA : world.Objects.FromID req.ActorID = (actor, true))
    (hready : actor.Timer.Ready now = true)
    (hd : Attribute.Modifier actor.Attributes.Wisdom + 10 = d)
    (hx : MinInt64 + d ≤ actor.Position.X ∧ actor.Position.X ≤ MaxInt64 - d)
    (hy : MinInt64 + d ≤ actor.Position.Y ∧ actor.Position.Y ≤ MaxInt64 - d) :
    ∃ objs,
      req.Execute now world
        = .ok (world, some (Response.view { ActorID := req.ActorID, Objects := objs }), none) ∧
      (∀ e ∈ world.Objects, |e.Position.X - actor.Position.X| < d →
        |e.Position.Y - actor.Position.Y| < d → e ∈ objs) ∧
      (∀ e ∈ objs, e ∈ world.Objects ∧ |e.Position.X - actor.Position.X| ≤ d ∧
        |e.Position.Y - actor.Position.Y| ≤ d) := by
  obtain ⟨objs, hex, hmem⟩ := view_Execute_mem_iff req now world actor d hA hready hd hx hy
  refine ⟨objs, hex, ?_, ?_⟩
  · intro e he hx hy
    rw [abs_lt] at hx hy
    rw [hmem]
    refine ⟨he, ?_, ?_, ?_, ?_⟩ <;> omega
  · intro e he
    rw [hmem] at he
    obtain ⟨hm, h1, h2, h3, h4⟩ := he
    refine ⟨hm, ?_, ?_⟩
    · rw [abs_le]
      constructor <;> omega
    · rw [abs_le]
      constructor <;> omega

end requests

end Pitch

/-! ## The wrapper and the identifiers of a response -/

namespace Pitch
open objects entities requests responses

namespace responses

theorem foldApply_stopped (rs : List Response) (acc : Panics (World × Option Err))
    (h : ∀ w1, acc ≠ .ok (w1, none)) :
    rs.foldl (fun (acc : Panics (World × Option Err)) r =>
      match acc with
      | .ok (w1, none) => r.Apply w1
      | stopped => stopped) acc = acc := by
  induction rs with
  | nil => rfl
  | cons r rest ih =>
    rw [List.foldl_cons]
    rcases acc with m | ⟨w1, _ | e⟩
    · exact ih
    · exact absurd rfl (h w1)
    · exact ih

theorem foldApply_cons (r : Response) (rest : List Response) (w : World) :
    foldApply (r :: rest) w =
      rest.foldl (fun (acc : Panics (World × Option Err)) r =>
        match acc with
        | .ok (w1, none) => r.Apply w1
        | stopped => stopped) (r.Apply w) := rfl

theorem applyLoop_eq_foldApply (rs : List Response) (w : World) :
    Wrapper.applyLoop rs w = foldApply rs w := by
  induction rs generalizing w with
  | nil =>
    rw [Wrapper.applyLoop]
    rfl
  | cons r rest ih =>
    rw [Wrapper.applyLoop, foldApply_cons]
    rcases hr : r.Apply w with m | ⟨w1, _ | e⟩
    · exact (foldApply_stopped rest (.error m) (fun w1 h => by cases h)).symm
    · exact ih w1
    · exact (foldApply_stopped rest (.ok (w1, some e)) (fun w2 h => by cases h)).symm

theorem applyLoop_stop (pre : List Response) (r : Response) (post : List Response)
    (w wk w1 : World) (e : Err)
    (hpre : Wrapper.applyLoop pre w = .ok (wk, none))
    (hr : r.Apply wk = .ok (w1, some e)) :
    Wrapper.applyLoop (pre ++ r :: post) w = .ok (w1, some e) := by
  induction pre generalizing w with
  | nil =>
    rw [Wrapper.applyLoop] at hpre
    cases hpre
    rw [List.nil_append, Wrapper.applyLoop, hr]
  | cons p rest ih =>
    rw [Wrapper.applyLoop] at hpre
    rw [List.cons_append, Wrapper.applyLoop]
    rcases hp : p.Apply w with m | ⟨w2, _ | e2⟩
    · rw [hp] at hpre
      cases hpre
    · rw [hp] at hpre
      exact ih w2 hpre
    · rw [hp] at hpre
      cases hpre

theorem applyLoop_append_ok (pre post : List Response) (w wk : World)
    (hpre : Wrapper.applyLoop pre w = .ok (wk, none)) :
    Wrapper.applyLoop (pre ++ post) w = Wrapper.applyLoop post wk := by
  induction pre generalizing w with
  | nil =>
    rw [Wrapper.applyLoop] at hpre
    cases hpre
    rfl
  | cons p rest ih =>
    rw [Wrapper.applyLoop] at hpre
    rw [List.cons_append, Wrapper.applyLoop]
    rcases hp : p.Apply w with m | ⟨w2, _ | e2⟩
    · rw [hp] at hpre
      cases hpre
    · rw [hp] at hpre
      exact ih w2 hpre
    · rw [hp] at hpre
      cases hpre

theorem Apply_error_world (r : Response) (hw : r.isWrapper = false) (w w1 : World) (e : Err)
    (h : r.Apply w = .ok (w1, some e)) : w1 = w := by
  have hattack : ∀ (ranged : Bool) (a tid : UUID) (didHit : Bool) (damage health : Int),
      (attackResp ranged a tid didHit damage health).Apply w = .ok (w1, some e) → w1 = w := by
    intro ranged a tid didHit damage health h
    rcases FromID_cases w.Objects tid with ⟨t, ht⟩ | hn
    · rw [attackResp_Apply ranged a tid didHit damage health w t ht] at h
      cases h
    · rw [attackResp_Apply_absent ranged a tid didHit damage health w hn] at h
      cases h
      rfl
  cases r with
  | melee r => exact hattack false r.AttackerID r.TargetID r.DidHit r.Damage r.HealthRemaining h
  | range r => exact hattack true r.AttackerID r.TargetID r.DidHit r.Damage r.HealthRemaining h
  | toggle r =>
    rcases FromID_cases w.Objects r.TargetID with ⟨t, ht⟩ | hn
    · rw [toggle_Apply r w t ht] at h
      cases h
    · rw [toggle_Apply_absent r w hn] at h
      cases h
      rfl
  | move r =>
    rcases FromID_cases w.Objects r.ActorID with ⟨t, ht⟩ | hn
    · rw [move_Apply r w t ht] at h
      cases h
    · rw [move_Apply_absent r w hn] at h
      cases h
      rfl
  | view r =>
    rw [view_Apply r w] at h
    cases h
  | wrapper rs => cases hw

theorem basic_Apply_returns (r : Response) (hw : r.isWrapper = false) (w : World) :
    ∃ res, r.Apply w = .ok res := by
  have hattack : ∀ (ranged : Bool) (a tid : UUID) (didHit : Bool) (damage health : Int),
      ∃ res, (attackResp ranged a tid didHit damage health).Apply w = .ok res := by
    intro ranged a tid didHit damage health
    rcases FromID_cases w.Objects tid with ⟨t, ht⟩ | hn
    · exact ⟨_, attackResp_Apply ranged a tid didHit damage health w t ht⟩
    · exact ⟨_, attackResp_Apply_absent ranged a tid didHit damage health w hn⟩
  cases r with
  | melee r => exact hattack false r.AttackerID r.TargetID r.DidHit r.Damage r.HealthRemaining
  | range r => exact hattack true r.AttackerID r.TargetID r.DidHit r.Damage r.HealthRemaining
  | toggle r =>
    rcases FromID_cases w.Objects r.TargetID with ⟨t, ht⟩ | hn
    · exact ⟨_, toggle_Apply r w t ht⟩
    · exact ⟨_, toggle_Apply_absent r w hn⟩
  | move r =>
    rcases FromID_cases w.Objects r.ActorID with ⟨t, ht⟩ | hn
    · exact ⟨_, move_Apply r w t ht⟩
    · exact ⟨_, move_Apply_absent r w hn⟩
  | view r => exact ⟨_, view_Apply r w⟩
  | wrapper rs => cases hw

mutual
theorem Apply_returns : ∀ (r : Response) (w : World), ∃ res, r.Apply w = .ok res
  | .melee r, w => basic_Apply_returns (.melee r) rfl w
  | .range r, w => basic_Apply_returns (.range r) rfl w
  | .toggle r, w => basic_Apply_returns (.toggle r) rfl w
  | .move r, w => basic_Apply_returns (.move r) rfl w
  | .view r, w => basic_Apply_returns (.view r) rfl w
  | .wrapper rs, w => by
    rw [Response.Apply]
    exact applyLoop_returns rs w
theorem applyLoop_returns : ∀ (rs : List Response) (w : World),
    ∃ res, Wrapper.applyLoop rs w = .ok res
  | [], w => ⟨(w, none), by rw [Wrapper.applyLoop]; rfl⟩
  | r :: rest, w => by
    obtain ⟨⟨w1, e1⟩, h⟩ := Apply_returns r w
    rw [Wrapper.applyLoop, h]
    cases e1 with
    | none => exact applyLoop_returns rest w1
    | some e => exact ⟨_, rfl⟩
end

theorem idsLoop_eq (rs : List Response) (ids : List UUID) :
    Wrapper.idsLoop rs ids = ids ++ rs.flatMap Response.IDs := by
  induction rs generalizing ids with
  | nil =>
    rw [Wrapper.idsLoop]
    simp
  | cons r rest ih =>
    rw [Wrapper.idsLoop, ih, List.flatMap_cons, List.append_assoc]

end responses

namespace server

theorem publish_eq (resp : Response) :
    publish resp = resp.IDs.map (fun id => { Topic := UUID.String id, Resp := resp }) := by
  unfold publish
  suffices h : ∀ (l : List UUID) (acc : List Emission),
      l.foldl (fun (emitted : List Emission) id =>
        emitted ++ [{ Topic := UUID.String id, Resp := resp }]) acc
        = acc ++ l.map (fun id => { Topic := UUID.String id, Resp := resp }) by
    simpa using h resp.IDs []
  intro l
  induction l with
  | nil => intro acc; simp
  | cons x rest ih =>
    intro acc
    rw [List.foldl_cons, ih]
    simp

end server

end Pitch

/-! ## The JSON of the requests and of the responses -/

namespace Pitch
open objects entities requests responses

theorem hexValue_hexDigit (d : Nat) (h : d < 16) : hexValue (hexDigit d) = some d := by
  interval_cases d <;> rfl

theorem mapM_hexValue (ds : List Nat) (h : ∀ d ∈ ds, d < 16) :
    (ds.map hexDigit).mapM hexValue = some ds := by
  induction ds with
  | nil => rfl
  | cons d rest ih =>
    rw [List.map_cons, List.mapM_cons, hexValue_hexDigit d (h d (List.mem_cons_self _ _)),
      ih (fun x hx => h x (List.mem_cons_of_mem _ hx))]
    rfl

theorem FromString_String (u : UUID) : uuid.FromString (UUID.String u) = some u := by
  unfold uuid.FromString UUID.String
  rw [mapM_hexValue]
  · simp [Nat.ofDigits_digits]
  · intro d hd
    exact Nat.digits_lt_base (by decide) (List.mem_reverse.1 hd)

namespace json

theorem mapM_fromJSON {α : Type} (enc : α → Value) (dec : Value → Decoded α)
    (h : ∀ a, dec (enc a) = .ok a) (l : List α) :
    (l.map enc).mapM dec = .ok l := by
  induction l with
  | nil => rfl
  | cons a rest ih =>
    rw [List.map_cons, List.mapM_cons, h a, ih]
    rfl

end json

namespace objects

open json

theorem Timer_fromJSON_toJSON (t : Timer) : Timer.fromJSON t.toJSON = .ok t := by
  simp [Timer.fromJSON, Timer.toJSON, Value.members, intField, List.lookup, bind, Except.bind,
    pure, Except.pure]

theorem Position_fromJSON_toJSON (p : Position) : Position.fromJSON p.toJSON = .ok p := by
  simp [Position.fromJSON, Position.toJSON, Value.members, intField, List.lookup, bind,
    Except.bind, pure, Except.pure]

theorem Passability_fromJSON_toJSON (p : Passability) :
    Passability.fromJSON p.toJSON = .ok p := by
  simp [Passability.fromJSON, Passability.toJSON, Value.members, intField, boolField,
    List.lookup, bind, Except.bind, pure, Except.pure]

theorem Attributes_fromJSON_toJSON (a : Attributes) :
    Attributes.fromJSON a.toJSON = .ok a := by
  simp [Attributes.fromJSON, Attributes.toJSON, Value.members, intField, List.lookup, bind,
    Except.bind, pure, Except.pure]

theorem Equipment_fromJSON_toJSON (e : Equipment) :
    Equipment.fromJSON e.toJSON = .ok e := by
  simp [Equipment.fromJSON, Equipment.toJSON, Value.members, uuidField, List.lookup, bind,
    Except.bind, pure, Except.pure, FromString_String]

theorem Entity_fromJSON_toJSON (e : Entity) : Entity.fromJSON e.toJSON = .ok e := by
  simp [Entity.fromJSON, Entity.toJSON, Value.members, uuidField, intField, structField,
    List.lookup, bind, Except.bind, pure, Except.pure, FromString_String,
    Timer_fromJSON_toJSON, Position_fromJSON_toJSON, Passability_fromJSON_toJSON,
    Attributes_fromJSON_toJSON, Equipment_fromJSON_toJSON]

end objects

namespace responses

open json

theorem MeleeAttackResponse_fromJSON_toJSON (r : MeleeAttackResponse) :
    MeleeAttackResponse.fromJSON r.toJSON = .ok r := by
  simp [MeleeAttackResponse.fromJSON, MeleeAttackResponse.toJSON, Value.members, uuidField,
    intField, boolField, List.lookup, bind, Except.bind, pure, Except.pure, FromString_String]

theorem RangeAttackResponse_fromJSON_toJSON (r : RangeAttackResponse) :
    RangeAttackResponse.fromJSON r.toJSON = .ok r := by
  simp [RangeAttackResponse.fromJSON, RangeAttackResponse.toJSON, Value.members, uuidField,
    intField, boolField, List.lookup, bind, Except.bind, pure, Except.pure, FromString_String]

theorem ToggleResponse_fromJSON_toJSON (r : ToggleResponse) :
    ToggleResponse.fromJSON r.toJSON = .ok r := by
  simp [ToggleResponse.fromJSON, ToggleResponse.toJSON, Value.members, uuidField,
    boolField, List.lookup, bind, Except.bind, pure, Except.pure, FromString_String]

theorem MoveResponse_fromJSON_toJSON (r : MoveResponse) :
    MoveResponse.fromJSON r.toJSON = .ok r := by
  simp [MoveResponse.fromJSON, MoveResponse.toJSON, Value.members, uuidField,
    intField, List.lookup, bind, Except.bind, pure, Except.pure, FromString_String]

theorem ViewResponse_fromJSON_toJSON (r : ViewResponse) :
    ViewResponse.fromJSON r.toJSON = .ok r := by
  have hs : sliceField [("actor_id", Value.string (UUID.String r.ActorID)),
      ("objects", Value.array (r.Objects.map Entity.toJSON))] "objects" Entity.fromJSON
      = .ok r.Objects :=
    (rfl : _ = (r.Objects.map Entity.toJSON).mapM Entity.fromJSON).trans
      (mapM_fromJSON Entity.toJSON Entity.fromJSON Entity_fromJSON_toJSON r.Objects)
  simp only [ViewResponse.fromJSON, ViewResponse.toJSON, Value.members, bind, Except.bind,
    pure, Except.pure, hs]
  simp [uuidField, List.lookup, FromString_String, pure, Except.pure]

theorem Marshal_eq (resp : Response) :
    responses.Marshal resp
      = .ok (.object [("type", .string resp.typeName), ("response", resp.toJSON)]) := rfl

theorem payload_fromJSON_envelope (name : String) (v : Value) :
    responses.payload.fromJSON (.object [("type", .string name), ("response", v)])
      = .ok { Typ := name, Response := some v } := by
  simp [responses.payload.fromJSON, Value.members, stringField, rawField, List.lookup, bind,
    Except.bind, pure, Except.pure]

theorem Unmarshal_Marshal_basic (resp : Response) (h : resp.isWrapper = false) :
    responses.Unmarshal (.object [("type", .string resp.typeName), ("response", resp.toJSON)])
      = .ok resp := by
  unfold responses.Unmarshal
  rw [payload_fromJSON_envelope]
  cases resp with
  | melee r =>
    simp [Response.typeName, Response.toJSON, json.Unmarshal, bind, Except.bind, pure,
      Except.pure, MeleeAttackResponse_fromJSON_toJSON]
  | range r =>
    simp [Response.typeName, Response.toJSON, json.Unmarshal, bind, Except.bind, pure,
      Except.pure, RangeAttackResponse_fromJSON_toJSON]
  | toggle r =>
    simp [Response.typeName, Response.toJSON, json.Unmarshal, bind, Except.bind, pure,
      Except.pure, ToggleResponse_fromJSON_toJSON]
  | move r =>
    simp [Response.typeName, Response.toJSON, json.Unmarshal, bind, Except.bind, pure,
      Except.pure, MoveResponse_fromJSON_toJSON]
  | view r =>
    simp [Response.typeName, Response.toJSON, json.Unmarshal, bind, Except.bind, pure,
      Except.pure, ViewResponse_fromJSON_toJSON]
  | wrapper rs => cases h

theorem Unmarshal_wrapper (rs : List Response) :
    responses.Unmarshal
        (.object [("type", .string (Response.wrapper rs).typeName),
          ("response", (Response.wrapper rs).toJSON)])
      = .error "invalid response type" := by
  unfold responses.Unmarshal
  rw [payload_fromJSON_envelope]
  simp [Response.typeName, bind, Except.bind, throw, throwThe, MonadExceptOf.throw]

theorem Unmarshal_unknown (bites : Value) (p : responses.payload)
    (hp : responses.payload.fromJSON bites = .ok p)
    (h : p.Typ ∉ ["MeleeAttackResponse", "RangeAttackResponse", "MoveResponse",
      "ToggleResponse", "ViewResponse"]) :
    responses.Unmarshal bites = .error "invalid response type" := by
  simp only [List.mem_cons, List.mem_singleton, List.not_mem_nil, or_false, not_or] at h
  obtain ⟨h1, h2, h3, h4, h5⟩ := h
  unfold responses.Unmarshal
  rw [hp]
  simp only [bind, Except.bind]
  rw [if_neg h1, if_neg h2, if_neg h3, if_neg h4, if_neg h5]
  rfl

end responses

namespace requests

open json

theorem MeleeAttackRequest_fromJSON_toJSON (r : MeleeAttackRequest) :
    MeleeAttackRequest.fromJSON r.toJSON = .ok r := by
  simp [MeleeAttackRequest.fromJSON, MeleeAttackRequest.toJSON, Value.members, uuidField,
    List.lookup, bind, Except.bind, pure, Except.pure, FromString_String]

theorem RangeAttackRequest_fromJSON_toJSON (r : RangeAttackRequest) :
    RangeAttackRequest.fromJSON r.toJSON = .ok r := by
  simp [RangeAttackRequest.fromJSON, RangeAttackRequest.toJSON, Value.members, uuidField,
    List.lookup, bind, Except.bind, pure, Except.pure, FromString_String]

theorem CloseRequest_fromJSON_toJSON (r : CloseRequest) :
    CloseRequest.fromJSON r.toJSON = .ok r := by
  simp [CloseRequest.fromJSON, CloseRequest.toJSON, Value.members, uuidField,
    List.lookup, bind, Except.bind, pure, Except.pure, FromString_String]

theorem OpenRequest_fromJSON_toJSON (r : OpenRequest) :
    OpenRequest.fromJSON r.toJSON = .ok r := by
  simp [OpenRequest.fromJSON, OpenRequest.toJSON, Value.members, uuidField,
    List.lookup, bind, Except.bind, pure, Except.pure, FromString_String]

theorem MoveRequest_fromJSON_toJSON (r : MoveRequest) :
    MoveRequest.fromJSON r.toJSON = .ok r := by
  simp [MoveRequest.fromJSON, MoveRequest.toJSON, Value.members, uuidField, intField,
    List.lookup, bind, Except.bind, pure, Except.pure, FromString_String]

theorem ViewRequest_fromJSON_toJSON (r : ViewRequest) :
    ViewRequest.fromJSON r.toJSON = .ok r := by
  simp [ViewRequest.fromJSON, ViewRequest.toJSON, Value.members, uuidField,
    List.lookup, bind, Except.bind, pure, Except.pure, FromString_String]

theorem request_Marshal_eq (req : Request) :
    requests.Marshal req
      = .ok (.object [("type", .string req.typeName), ("request", req.toJSON)]) := rfl

theorem request_payload_envelope (name : String) (v : Value) :
    requests.payload.fromJSON (.object [("type", .string name), ("request", v)])
      = .ok { Typ := name, Request := some v } := by
  simp [requests.payload.fromJSON, Value.members, stringField, rawField, List.lookup, bind,
    Except.bind, pure, Except.pure]

theorem request_Unmarshal_Marshal (req : Request) :
    requests.Unmarshal (.object [("type", .string req.typeName), ("request", req.toJSON)])
      = .ok req := by
  unfold requests.Unmarshal
  rw [request_payload_envelope]
  cases req with
  | melee r =>
    simp [Request.typeName, Request.toJSON, json.Unmarshal, bind, Except.bind, pure,
      Except.pure, MeleeAttackRequest_fromJSON_toJSON]
  | range r =>
    simp [Request.typeName, Request.toJSON, json.Unmarshal, bind, Except.bind, pure,
      Except.pure, RangeAttackRequest_fromJSON_toJSON]
  | close r =>
    simp [Request.typeName, Request.toJSON, json.Unmarshal, bind, Except.bind, pure,
      Except.pure, CloseRequest_fromJSON_toJSON]
  | open_ r =>
    simp [Request.typeName, Request.toJSON, json.Unmarshal, bind, Except.bind, pure,
      Except.pure, OpenRequest_fromJSON_toJSON]
  | move r =>
    simp [Request.typeName, Request.toJSON, json.Unmarshal, bind, Except.bind, pure,
      Except.pure, MoveRequest_fromJSON_toJSON]
  | view r =>
    simp [Request.typeName, Request.toJSON, json.Unmarshal, bind, Except.bind, pure,
      Except.pure, ViewRequest_fromJSON_toJSON]

theorem request_Unmarshal_unknown (bites : Value) (p : requests.payload)
    (hp : requests.payload.fromJSON bites = .ok p)
    (h : p.Typ ∉ ["MeleeAttackRequest", "RangeAttackRequest", "CloseRequest", "MoveRequest",
      "OpenRequest", "ViewRequest"]) :
    requests.Unmarshal bites = .error ("invalid request type: " ++ p.Typ) := by
  simp only [List.mem_cons, List.mem_singleton, List.not_mem_nil, or_false, not_or] at h
  obtain ⟨h1, h2, h3, h4, h5, h6⟩ := h
  unfold requests.Unmarshal
  rw [hp]
  simp only [bind, Except.bind]
  rw [if_neg h1, if_neg h2, if_neg h3, if_neg h4, if_neg h5, if_neg h6]
  rfl

end requests

end Pitch

/-! ## Lookup, removal and update in a collection -/

namespace Pitch
open objects entities requests responses

namespace objects

theorem Replace_eq (c : Collection) (o r : Entity) :
    c.Replace o r = (c.map (fun x => if x.ID = o.ID then r else x),
      c.any (fun x => decide (x.ID = o.ID))) := by
  unfold Collection.Replace
  suffices h : ∀ (l : List Entity) (acc : Collection × Bool),
      l.foldl (fun (acc : Collection × Bool) currentEntity =>
        if ¬ currentEntity.ID = o.ID then (acc.1 ++ [currentEntity], acc.2)
        else (acc.1 ++ [r], true)) acc
        = (acc.1 ++ l.map (fun x => if x.ID = o.ID then r else x),
            acc.2 || l.any (fun x => decide (x.ID = o.ID))) by
    simpa using h c ([], false)
  intro l
  induction l with
  | nil => intro acc; simp
  | cons a rest ih =>
    intro acc
    rw [List.foldl_cons, ih]
    by_cases hp : a.ID = o.ID <;> simp [hp]

theorem FromID_first {c : Collection} {id : UUID} {e : Entity}
    (h : c.FromID id = (e, true)) :
    ∃ pre post, c = pre ++ e :: post ∧ (∀ x ∈ pre, x.ID ≠ id) ∧ e.ID = id := by
  induction c with
  | nil => simp [Collection.FromID] at h
  | cons a rest ih =>
    unfold Collection.FromID at h
    by_cases hp : a.ID = id
    · rw [if_pos hp] at h
      have hae : a = e := (Prod.mk.inj h).1
      subst hae
      refine ⟨[], rest, rfl, ?_, hp⟩
      intro x hx
      cases hx
    · rw [if_neg hp] at h
      obtain ⟨pre, post, hc, hpre, hid⟩ := ih h
      refine ⟨a :: pre, post, by rw [hc]; rfl, ?_, hid⟩
      intro x hx
      rcases List.mem_cons.1 hx with hxa | hx
      · rw [hxa]
        exact hp
      · exact hpre x hx

theorem FromID_found_iff (c : Collection) (id : UUID) :
    (c.FromID id).2 = true ↔ ∃ e ∈ c, e.ID = id := by
  constructor
  · intro h
    rcases FromID_cases c id with ⟨e, he⟩ | hn
    · exact ⟨e, (FromID_found he).1, (FromID_found he).2⟩
    · rw [hn] at h
      cases h
  · rintro ⟨e, he, hid⟩
    rcases FromID_cases c id with ⟨e', he'⟩ | hn
    · rw [he']
    · have hab : c.Absent id := FromID_absent.1 (by rw [hn])
      exact absurd hid (hab e he)

theorem length_without_of_nodup {c : Collection} (hn : c.ids.Nodup) {e : Entity} (he : e ∈ c) :
    (c.without e.ID).length + 1 = c.length := by
  induction c with
  | nil => cases he
  | cons a rest ih =>
    have hn' : (Collection.ids rest).Nodup := (List.nodup_cons.1 hn).2
    have hnot : a.ID ∉ Collection.ids rest := (List.nodup_cons.1 hn).1
    unfold Collection.without
    rw [List.filter_cons]
    rcases List.mem_cons.1 he with hea | her
    · subst hea
      have hd : decide (e.ID ≠ e.ID) = false := by simp
      rw [hd]
      have hall : rest.filter (fun x => decide (x.ID ≠ e.ID)) = rest := by
        apply List.filter_eq_self.2
        intro x hx
        have : x.ID ≠ e.ID := fun h => hnot (h ▸ List.mem_map_of_mem (fun e => e.ID) hx)
        simp [this]
      simp only [Bool.false_eq_true, if_false]
      rw [hall]
      rfl
    · have hne : a.ID ≠ e.ID := fun h =>
        hnot (h ▸ List.mem_map_of_mem (fun e => e.ID) her)
      have hd : decide (a.ID ≠ e.ID) = true := by simp [hne]
      rw [hd]
      have := ih hn' her
      unfold Collection.without at this
      simp only [if_true, List.length_cons]
      omega

end objects

end Pitch

/-! ## The damage that a hit applies -/

namespace Pitch
open objects entities requests responses

namespace requests

theorem totalDamageOf_nonneg (armor d : Int) : 0 ≤ totalDamageOf armor d := by
  rw [totalDamageOf_eq]
  exact le_max_left _ _

theorem totalDamageOf_bounds {armor d : Int} (ha : IsInt64 armor) (hd : 0 ≤ d)
    (hd1 : d ≤ MaxInt64) :
    0 ≤ totalDamageOf armor d ∧ totalDamageOf armor d ≤ max 0 armor := by
  rw [totalDamageOf_exact (isInt64_armor_sub ha hd hd1)]
  simp only [max_def]
  split_ifs <;> constructor <;> omega

theorem totalDamageOf_antitone {armor d1 d2 : Int} (ha : IsInt64 armor) (h0 : 0 ≤ d1)
    (h : d1 ≤ d2) (h2 : d2 ≤ MaxInt64) :
    totalDamageOf armor d2 ≤ totalDamageOf armor d1 := by
  rw [totalDamageOf_exact (isInt64_armor_sub ha h0 (le_trans h h2)),
    totalDamageOf_exact (isInt64_armor_sub ha (le_trans h0 h) h2)]
  simp only [max_def]
  split_ifs <;> omega

theorem totalDamageOf_unarmoured {armor d : Int} (ha : armor ≤ 0) (hd : 0 ≤ d)
    (hd1 : d ≤ MaxInt64) :
    totalDamageOf armor d = 0 := by
  have h64 : IsInt64 (max 0 armor - d) := by
    rw [max_eq_left ha]
    unfold IsInt64 MinInt64
    unfold MaxInt64 at hd1 ⊢
    omega
  rw [totalDamageOf_exact h64]
  simp only [max_def]
  split_ifs <;> omega

theorem meleeReductionOf_isInt64 (world : World) (target : Entity) :
    IsInt64 (meleeReductionOf world target) := by
  unfold meleeReductionOf
  split
  · exact wrap_isInt64 _
  · unfold IsInt64 MinInt64 MaxInt64
    omega

theorem rangeReductionOf_isInt64 (world : World) (target : Entity) :
    IsInt64 (rangeReductionOf world target) := by
  unfold rangeReductionOf
  split
  · exact wrap_isInt64 _
  · unfold IsInt64 MinInt64 MaxInt64
    omega

/-- The doubling of a critical hit does not overflow below `2^62`. -/
theorem wrap_double {d : Int} (h0 : 0 ≤ d) (h1 : d < 4611686018427387904) :
    wrap (d * 2) = d * 2 := by
  unfold wrap
  omega

theorem calcDamageAmount_nonneg {src : Source} {pos : Nat} {world : World} {attacker : Entity}
    {d : Int} {ty : items.DamageType} {p : Nat}
    (h : calcDamageAmount src pos world attacker = .ok ((d, ty), p)) : 0 ≤ d := by
  rcases hI : world.Items.FromID attacker.Equipment.PrimaryItemID with ⟨item, b⟩
  cases b with
  | false =>
    rw [calcDamageAmount_unarmed src pos world attacker (by rw [hI])] at h
    simp only [Except.ok.injEq, Prod.mk.injEq] at h
    rw [← h.1.1]
    exact le_max_left _ _
  | true =>
    rcases hroll : utils.Roll src (pos + 1) item.Damage.RollAmount item.Damage.DieRange with
      m | ⟨roll, q⟩
    · unfold calcDamageAmount at h
      rw [utils.Roll_one src pos (by decide)] at h
      simp only [bind, Except.bind, pure, Except.pure, hI, items.Damage.Calculate, hroll] at h
      cases h
    · rw [calcDamageAmount_item src pos world attacker item roll q hI hroll] at h
      simp only [Except.ok.injEq, Prod.mk.injEq] at h
      rw [← h.1.1]
      exact le_max_left _ _

/-- The value of `calcDamageAmount` is a value of `int`. -/
theorem calcDamageAmount_le {src : Source} {pos : Nat} {world : World} {attacker : Entity}
    {d : Int} {ty : items.DamageType} {p : Nat}
    (h : calcDamageAmount src pos world attacker = .ok ((d, ty), p)) : d ≤ MaxInt64 := by
  have hmax : ∀ x : Int, x ≤ MaxInt64 → max 0 x ≤ MaxInt64 := by
    intro x hx
    exact max_le (by decide) hx
  rcases hI : world.Items.FromID attacker.Equipment.PrimaryItemID with ⟨item, b⟩
  cases b with
  | false =>
    rw [calcDamageAmount_unarmed src pos world attacker (by rw [hI])] at h
    simp only [Except.ok.injEq, Prod.mk.injEq] at h
    rw [← h.1.1]
    apply hmax
    have := (utils.die_bounds src pos (u := 4) (by decide)).2
    unfold MaxInt64
    omega
  | true =>
    rcases hroll : utils.Roll src (pos + 1) item.Damage.RollAmount item.Damage.DieRange with
      m | ⟨roll, q⟩
    · unfold calcDamageAmount at h
      rw [utils.Roll_one src pos (by decide)] at h
      simp only [bind, Except.bind, pure, Except.pure, hI, items.Damage.Calculate, hroll] at h
      cases h
    · rw [calcDamageAmount_item src pos world attacker item roll q hI hroll] at h
      simp only [Except.ok.injEq, Prod.mk.injEq] at h
      rw [← h.1.1]
      apply hmax
      split_ifs
      · exact (wrap_isInt64 _).2
      · exact (wrap_isInt64 _).2
      · exact (wrap_isInt64 _).2

theorem attackResp_inj {ranged : Bool} {a tid : UUID} {h1 h2 : Bool} {d1 d2 r1 r2 : Int}
    (h : attackResp ranged a tid h1 d1 r1 = attackResp ranged a tid h2 d2 r2) :
    h1 = h2 ∧ d1 = d2 ∧ r1 = r2 := by
  cases ranged with
  | false =>
    simp only [attackResp, Bool.false_eq_true, if_false, Response.melee.injEq,
      MeleeAttackResponse.mk.injEq, true_and] at h
    exact h
  | true =>
    simp only [attackResp, if_true, Response.range.injEq,
      RangeAttackResponse.mk.injEq, true_and] at h
    exact h

/-- The damage reported by an attack lies between zero and the armor reduction
floored at zero when the doubling of a critical hit does not overflow; with no
reduction the world of a living target is then unchanged, the identifiers of the
world being pairwise distinct. -/
theorem attack_damage_aux {world world' : World} {resp : Option Response} {err : Option Err}
    (ranged : Bool) (a tid : UUID) (t : Entity)
    (ht : world.Objects.FromID tid = (t, true))
    (hit crit : Bool) (dmgRes : Panics ((Int × items.DamageType) × Nat))
    (T : items.DamageType) (red : Int) (e : Err)
    (h : (if hit then
            match dmgRes with
            | .error m => .error m
            | .ok ((damageAmount, damageType), _) =>
              if damageType = T then
                .ok (landHit (attackResp ranged a tid) world t
                  (totalDamageOf red (if crit then wrap (damageAmount * 2) else damageAmount)))
              else .ok (world, none, some e)
          else
            .ok (world, some (attackResp ranged a tid false 0 t.Health), none))
          = (.ok (world', resp, err) : Panics Result)) :
    IsInt64 red →
    (∀ d ty p, dmgRes = .ok ((d, ty), p) →
      0 ≤ d ∧ d ≤ MaxInt64 ∧ (crit = true → d < 4611686018427387904)) →
    (∀ didHit dmg hr, resp = some (attackResp ranged a tid didHit dmg hr) →
      0 ≤ dmg ∧ dmg ≤ max 0 red ∧ (red ≤ 0 → dmg = 0)) ∧
    (red ≤ 0 → world.Objects.ids.Nodup → 0 < t.Health → t.Health ≤ MaxInt64 →
      world' = world) := by
  intro hred64 hnn
  cases hit with
  | false =>
    simp only [Bool.false_eq_true, if_false, Except.ok.injEq, Prod.mk.injEq] at h
    obtain ⟨rfl, rfl, rfl⟩ := h
    refine ⟨?_, fun _ _ _ _ => rfl⟩
    intro didHit dmg hr hresp
    obtain ⟨-, hd, -⟩ := attackResp_inj (Option.some.inj hresp)
    rw [← hd]
    exact ⟨le_refl _, le_max_left _ _, fun _ => rfl⟩
  | true =>
    simp only [if_true] at h
    cases dmgRes with
    | error m => exact Except.noConfusion h
    | ok v =>
      obtain ⟨⟨dmg0, ty⟩, p⟩ := v
      obtain ⟨h0, h1, h2⟩ := hnn dmg0 ty p rfl
      have hd0 : 0 ≤ (if crit = true then wrap (dmg0 * 2) else dmg0) ∧
          (if crit = true then wrap (dmg0 * 2) else dmg0) ≤ MaxInt64 := by
        by_cases hc : crit = true
        · rw [if_pos hc, wrap_double h0 (h2 hc)]
          have := h2 hc
          unfold MaxInt64
          constructor <;> omega
        · rw [if_neg hc]
          exact ⟨h0, h1⟩
      have hb := totalDamageOf_bounds hred64 hd0.1 hd0.2
      dsimp only at h
      by_cases hty : ty = T
      · rw [if_pos hty] at h
        unfold landHit at h
        by_cases hle : wrap (t.Health -
            totalDamageOf red (if crit = true then wrap (dmg0 * 2) else dmg0)) ≤ 0
        · rw [if_pos hle] at h
          simp only [Except.ok.injEq, Prod.mk.injEq] at h
          obtain ⟨rfl, rfl, rfl⟩ := h
          constructor
          · intro didHit dmg hr hresp
            obtain ⟨-, hd, -⟩ := attackResp_inj (Option.some.inj hresp)
            rw [← hd]
            exact ⟨hb.1, hb.2, fun hred => totalDamageOf_unarmoured hred hd0.1 hd0.2⟩
          · intro hred _ hpos hmax
            rw [totalDamageOf_unarmoured hred hd0.1 hd0.2, Int.sub_zero,
              wrap_eq ⟨by unfold MinInt64; omega, hmax⟩] at hle
            omega
        · rw [if_neg hle] at h
          simp only [Except.ok.injEq, Prod.mk.injEq] at h
          obtain ⟨rfl, rfl, rfl⟩ := h
          constructor
          · intro didHit dmg hr hresp
            obtain ⟨-, hd, -⟩ := attackResp_inj (Option.some.inj hresp)
            rw [← hd]
            exact ⟨hb.1, hb.2, fun hred => totalDamageOf_unarmoured hred hd0.1 hd0.2⟩
          · intro hred hn hpos hmax
            rw [totalDamageOf_unarmoured hred hd0.1 hd0.2]
            have hsame : ({ t with Health := wrap (t.Health - 0) } : Entity) = t := by
              rw [Int.sub_zero, wrap_eq ⟨by unfold MinInt64; omega, hmax⟩]
            rw [hsame, withEntity_self hn (FromID_found ht).1]
      · rw [if_neg hty] at h
        simp only [Except.ok.injEq, Prod.mk.injEq] at h
        obtain ⟨rfl, rfl, rfl⟩ := h
        refine ⟨?_, fun _ _ _ _ => rfl⟩
        intro didHit dmg hr hresp
        cases hresp

end requests

end Pitch

/-! ## The number of occurrences of an entity in a view -/
namespace Pitch
open objects entities requests responses

namespace requests

theorem count_flatMap_sum {α β : Type} [DecidableEq β] (e : β) (l : List α)
    (f : α → List β) :
    (l.flatMap f).count e = (l.map (fun x => (f x).count e)).sum := by
  induction l with
  | nil => rfl
  | cons a rest ih =>
    rw [List.flatMap_cons, List.count_append, ih, List.map_cons, List.sum_cons]

theorem sum_map_ite_nodup (l : List Int) (hn : l.Nodup) (p : Int → Prop) [DecidablePred p]
    (v : Int) (n : Nat) (hp : ∀ y, p y ↔ v = y) :
    (l.map (fun y => if p y then n else 0)).sum = if v ∈ l then n else 0 := by
  induction l with
  | nil => rfl
  | cons a rest ih =>
    rw [List.map_cons, List.sum_cons, ih (List.nodup_cons.1 hn).2]
    have hnot : a ∉ rest := (List.nodup_cons.1 hn).1
    by_cases hva : v = a
    · have hpa : p a := (hp a).2 hva
      have hvr : v ∉ rest := hva ▸ hnot
      rw [if_pos hpa, if_neg hvr, if_pos (by rw [hva]; exact List.mem_cons_self _ _)]
      rfl
    · have hpa : ¬ p a := fun h => hva ((hp a).1 h)
      rw [if_neg hpa, Nat.zero_add]
      by_cases hvr : v ∈ rest
      · rw [if_pos hvr, if_pos (List.mem_cons_of_mem _ hvr)]
      · rw [if_neg hvr, if_neg (fun h => (List.mem_cons.1 h).elim hva hvr)]

theorem count_FromXY (c : Collection) (e : Entity) (x y : Int) :
    (c.FromXY x y).count e
      = if e.Position.X = x ∧ e.Position.Y = y then c.count e else 0 := by
  rw [FromXY_eq_filter]
  by_cases hp : e.Position.X = x ∧ e.Position.Y = y
  · rw [if_pos hp]
    exact List.count_filter (by simpa using hp)
  · rw [if_neg hp]
    apply List.count_eq_zero_of_not_mem
    intro hmem
    have := (List.mem_filter.1 hmem).2
    simp only [decide_eq_true_eq] at this
    exact hp this

theorem count_viewObjects (world : World) (actor e : Entity) :
    (viewObjects world actor).count e
      = if wrap (actor.Position.X - (Attribute.Modifier actor.Attributes.Wisdom + 10))
              ≤ e.Position.X ∧
            e.Position.X
              < wrap (actor.Position.X + (Attribute.Modifier actor.Attributes.Wisdom + 10)) ∧
            wrap (actor.Position.Y - (Attribute.Modifier actor.Attributes.Wisdom + 10))
              ≤ e.Position.Y ∧
            e.Position.Y
              < wrap (actor.Position.Y + (Attribute.Modifier actor.Attributes.Wisdom + 10))
        then world.Objects.count e else 0 := by
  unfold viewObjects
  simp only []
  rw [count_flatMap_sum]
  have hinner : ∀ x : Int,
      ((loopRange (wrap (actor.Position.Y - (Attribute.Modifier actor.Attributes.Wisdom + 10)))
          (wrap (actor.Position.Y + (Attribute.Modifier actor.Attributes.Wisdom + 10)))).flatMap
        (fun y => world.Objects.FromXY x y)).count e
      = if e.Position.X = x then
          (if e.Position.Y ∈ loopRange
              (wrap (actor.Position.Y - (Attribute.Modifier actor.Attributes.Wisdom + 10)))
              (wrap (actor.Position.Y + (Attribute.Modifier actor.Attributes.Wisdom + 10)))
            then world.Objects.count e else 0)
        else 0 := by
    intro x
    rw [count_flatMap_sum]
    by_cases hx : e.Position.X = x
    · rw [if_pos hx]
      rw [← sum_map_ite_nodup _ (loopRange_nodup _ _) (fun y => e.Position.Y = y)
        e.Position.Y (world.Objects.count e) (fun y => Iff.rfl)]
      congr 1
      apply List.map_congr_left
      intro y _
      rw [count_FromXY]
      by_cases hy : e.Position.Y = y
      · rw [if_pos ⟨hx, hy⟩, if_pos hy]
      · rw [if_neg (fun h => hy h.2), if_neg hy]
    · rw [if_neg hx]
      apply List.sum_eq_zero
      intro n hn
      obtain ⟨y, -, hy⟩ := List.mem_map.1 hn
      rw [count_FromXY, if_neg (fun h => hx h.1)] at hy
      exact hy.symm
  simp only [hinner]
  rw [sum_map_ite_nodup _ (loopRange_nodup _ _) (fun x => e.Position.X = x) e.Position.X _
    (fun x => Iff.rfl)]
  simp only [mem_loopRange]
  by_cases h1 : wrap (actor.Position.X - (Attribute.Modifier actor.Attributes.Wisdom + 10))
      ≤ e.Position.X ∧
      e.Position.X < wrap (actor.Position.X + (Attribute.Modifier actor.Attributes.Wisdom + 10))
  · by_cases h2 : wrap (actor.Position.Y - (Attribute.Modifier actor.Attributes.Wisdom + 10))
        ≤ e.Position.Y ∧
        e.Position.Y < wrap (actor.Position.Y + (Attribute.Modifier actor.Attributes.Wisdom + 10))
    · rw [if_pos h1, if_pos h2, if_pos ⟨h1.1, h1.2, h2.1, h2.2⟩]
    · rw [if_pos h1, if_neg h2, if_neg (fun h => h2 ⟨h.2.2.1, h.2.2.2⟩)]
  · rw [if_neg h1, if_neg (fun h => h1 ⟨h.1, h.2.1⟩)]

end requests

end Pitch

/-! ## The frame of `Execute` -/

namespace Pitch
open objects entities requests responses

namespace requests

theorem SameFrame.same (world : World) : SameFrame world world :=
  fun e he => ⟨e, he, rfl, rfl, rfl, rfl, rfl⟩

theorem SameFrame.of_without (world : World) (id : UUID) :
    SameFrame world { world with Objects := world.Objects.without id } :=
  fun e he => ⟨e, (mem_without.1 he).1, rfl, rfl, rfl, rfl, rfl⟩

theorem SameFrame.of_withEntity (world : World) (t t' : Entity) (ht : t ∈ world.Objects)
    (hid : t'.ID = t.ID) (htimer : t'.Timer = t.Timer) (hattr : t'.Attributes = t.Attributes)
    (heq : t'.Equipment = t.Equipment) (hty : t'.Passability.Typ = t.Passability.Typ) :
    SameFrame world { world with Objects := world.Objects.withEntity t' } := by
  intro e he
  rcases mem_withEntity he with h | ⟨h, -⟩
  · rw [h]
    exact ⟨t, ht, hid, htimer, hattr, heq, hty⟩
  · exact ⟨e, h, rfl, rfl, rfl, rfl, rfl⟩

theorem Effect.frame {world world' : World} {r : Response} (h : Effect world world' r) :
    world'.Items = world.Items ∧
    List.Sublist world'.Objects.ids world.Objects.ids ∧
    SameFrame world world' ∧
    Differs world world' r := by
  cases h with
  | miss ranged a tid t ht =>
    refine ⟨rfl, List.Sublist.refl _, SameFrame.same world, ?_⟩
    cases ranged
    · exact Or.inl rfl
    · exact Or.inl rfl
  | kill ranged a tid t total ht hle =>
    refine ⟨rfl, ids_without_sublist _ _, SameFrame.of_without world t.ID, ?_⟩
    cases ranged
    · exact Or.inr ⟨t, ht, Or.inl rfl⟩
    · exact Or.inr ⟨t, ht, Or.inl rfl⟩
  | wound ranged a tid t total ht hpos =>
    refine ⟨rfl, ?_, SameFrame.of_withEntity world t _ (FromID_found ht).1 rfl rfl rfl rfl rfl,
      ?_⟩
    · show List.Sublist (Collection.ids (world.Objects.withEntity _)) _
      rw [ids_withEntity]
    · cases ranged
      · exact Or.inr ⟨t, ht, Or.inr rfl⟩
      · exact Or.inr ⟨t, ht, Or.inr rfl⟩
  | toggle a tid t isOpen ht =>
    refine ⟨rfl, ?_, SameFrame.of_withEntity world t _ (FromID_found ht).1 rfl rfl rfl rfl rfl,
      ⟨t, ht, rfl⟩⟩
    show List.Sublist (Collection.ids (world.Objects.withEntity _)) _
    rw [ids_withEntity]
  | move aid actor x y ha =>
    refine ⟨rfl, ?_,
      SameFrame.of_withEntity world actor _ (FromID_found ha).1 rfl rfl rfl rfl rfl,
      ⟨actor, ha, rfl⟩⟩
    show List.Sublist (Collection.ids (world.Objects.withEntity _)) _
    rw [ids_withEntity]

end requests

end Pitch

/-! ## The panics of `Execute` -/

namespace Pitch
open objects entities requests responses

namespace requests

theorem calcDamageAmount_ok_or_Intn (src : Source) (pos : Nat) (world : World)
    (attacker : Entity) :
    (∃ v, calcDamageAmount src pos world attacker = .ok v) ∨
      calcDamageAmount src pos world attacker = .error "invalid argument to Intn" := by
  unfold calcDamageAmount
  rw [utils.Roll_one src pos (by decide)]
  simp only [bind, Except.bind, pure, Except.pure]
  rcases hI : world.Items.FromID attacker.Equipment.PrimaryItemID with ⟨item, b⟩
  cases b with
  | false => exact Or.inl ⟨_, rfl⟩
  | true =>
    rcases utils.Roll_ok_or_Intn src (pos + 1) item.Damage.RollAmount item.Damage.DieRange with
      ⟨v, hv⟩ | hv
    · simp only [items.Damage.Calculate, hv, bind, Except.bind, pure, Except.pure]
      exact Or.inl ⟨_, rfl⟩
    · simp only [items.Damage.Calculate, hv, bind, Except.bind, pure, Except.pure]
      exact Or.inr trivial

theorem attack_ok_or_Intn_aux {world : World}
    (mk : Bool → Int → Int → Response) (t : Entity)
    (hit crit : Bool) (dmgRes : Panics ((Int × items.DamageType) × Nat))
    (T : items.DamageType) (red : Int) (e : Err) :
    ((∃ v, dmgRes = .ok v) ∨ dmgRes = .error "invalid argument to Intn") →
    (∃ r, (if hit then
            match dmgRes with
            | .error m => .error m
            | .ok ((damageAmount, damageType), _) =>
              if damageType = T then
                .ok (landHit mk world t
                  (totalDamageOf red (if crit then wrap (damageAmount * 2) else damageAmount)))
              else .ok (world, none, some e)
          else
            .ok (world, some (mk false 0 t.Health), none))
          = (.ok r : Panics Result)) ∨
      (if hit then
            match dmgRes with
            | .error m => .error m
            | .ok ((damageAmount, damageType), _) =>
              if damageType = T then
                .ok (landHit mk world t
                  (totalDamageOf red (if crit then wrap (damageAmount * 2) else damageAmount)))
              else .ok (world, none, some e)
          else
            .ok (world, some (mk false 0 t.Health), none))
          = (.error "invalid argument to Intn" : Panics Result) := by
  rintro (hok | rfl)
  · exact Or.inl (attack_returns_aux mk t hit crit dmgRes T red e hok)
  · cases hit with
    | false => exact Or.inl ⟨_, rfl⟩
    | true => exact Or.inr rfl

theorem open_Execute_returns (r : OpenRequest) (now : Int) (world : World) :
    ∃ x, r.Execute now world = .ok x := by
  by_cases hab : world.Objects.Absent r.ActorID ∨ world.Objects.Absent r.TargetID
  · obtain ⟨e, -, he⟩ := open_Execute_absent r now world hab
    exact ⟨_, he⟩
  · rw [not_or] at hab
    rcases FromID_cases world.Objects r.ActorID with ⟨a, ha⟩ | hn
    · rcases FromID_cases world.Objects r.TargetID with ⟨t, ht⟩ | hn
      · rw [open_Execute_eq r now world a t ha ht]
        by_cases hr : ¬ a.Timer.Ready now
        · rw [if_pos hr]
          exact ⟨_, rfl⟩
        · rw [if_neg hr]
          by_cases hty : t.Passability.Typ ≠ Toggleable
          · rw [if_pos hty]
            exact ⟨_, rfl⟩
          · rw [if_neg hty]
            exact ⟨_, rfl⟩
      · exact absurd ((FromID_absent).1 (by rw [hn])) hab.2
    · exact absurd ((FromID_absent).1 (by rw [hn])) hab.1

theorem close_Execute_returns (r : CloseRequest) (now : Int) (world : World) :
    ∃ x, r.Execute now world = .ok x := by
  by_cases hab : world.Objects.Absent r.ActorID ∨ world.Objects.Absent r.TargetID
  · obtain ⟨e, -, he⟩ := close_Execute_absent r now world hab
    exact ⟨_, he⟩
  · rw [not_or] at hab
    rcases FromID_cases world.Objects r.ActorID with ⟨a, ha⟩ | hn
    · rcases FromID_cases world.Objects r.TargetID with ⟨t, ht⟩ | hn
      · rw [close_Execute_eq r now world a t ha ht]
        by_cases hr : ¬ a.Timer.Ready now
        · rw [if_pos hr]
          exact ⟨_, rfl⟩
        · rw [if_neg hr]
          by_cases hty : t.Passability.Typ ≠ Toggleable
          · rw [if_pos hty]
            exact ⟨_, rfl⟩
          · rw [if_neg hty]
            exact ⟨_, rfl⟩
      · exact absurd ((FromID_absent).1 (by rw [hn])) hab.2
    · exact absurd ((FromID_absent).1 (by rw [hn])) hab.1

/-- `Execute` returns or panics inside `rand.Intn`: the panics of `MustUpdate`
and of `MustRemove` are not reached. -/
theorem request_Execute_ok_or_Intn (req : Request) (src : Source) (now : Int) (world : World) :
    (∃ r, req.Execute src now world = .ok r) ∨
      req.Execute src now world = .error "invalid argument to Intn" := by
  have melee : ∀ r : MeleeAttackRequest,
      (∃ x, r.Execute src world = .ok x) ∨
        r.Execute src world = .error "invalid argument to Intn" := by
    intro r
    rcases FromID_cases world.Objects r.AttackerID with ⟨a, ha⟩ | hn
    · rcases FromID_cases world.Objects r.TargetID with ⟨t, ht⟩ | hn
      · rw [melee_Execute_eq r src world a t ha ht]
        exact attack_ok_or_Intn_aux _ t _ _ _ _ _ _ (calcDamageAmount_ok_or_Intn src 2 world a)
      · obtain ⟨e, -, he⟩ := melee_Execute_absent r src world
          (Or.inr ((FromID_absent).1 (by rw [hn])))
        exact Or.inl ⟨_, he⟩
    · obtain ⟨e, -, he⟩ := melee_Execute_absent r src world
        (Or.inl ((FromID_absent).1 (by rw [hn])))
      exact Or.inl ⟨_, he⟩
  cases req with
  | melee r => exact melee r
  | range r =>
    show (∃ x, r.Execute src world = .ok x) ∨ r.Execute src world = .error _
    rcases FromID_cases world.Objects r.AttackerID with ⟨a, ha⟩ | hn
    · rcases FromID_cases world.Objects r.TargetID with ⟨t, ht⟩ | hn
      · rw [range_Execute_eq r src world a t ha ht]
        exact attack_ok_or_Intn_aux _ t _ _ _ _ _ _ (calcDamageAmount_ok_or_Intn src 2 world a)
      · obtain ⟨e, -, he⟩ := range_Execute_absent r src world
          (Or.inr ((FromID_absent).1 (by rw [hn])))
        exact Or.inl ⟨_, he⟩
    · obtain ⟨e, -, he⟩ := range_Execute_absent r src world
        (Or.inl ((FromID_absent).1 (by rw [hn])))
      exact Or.inl ⟨_, he⟩
  | close r =>
    exact Or.inl (close_Execute_returns r now world)
  | open_ r =>
    exact Or.inl (open_Execute_returns r now world)
  | move r =>
    show (∃ x, r.Execute src now world = .ok x) ∨ r.Execute src now world = .error _
    rcases FromID_cases world.Objects r.ActorID with ⟨a, ha⟩ | hn
    · rw [move_Execute_eq r src now world a ha]
      split
      · exact Or.inl ⟨_, rfl⟩
      · rename_i e _
        by_cases hi : e.Passability.Typ = AlwaysImpassible
        · rw [if_pos hi]
          exact melee _
        · rw [if_neg hi]
          exact Or.inl (open_Execute_returns _ now world)
    · exact Or.inl ⟨_, move_Execute_absent r src now world ((FromID_absent).1 (by rw [hn]))⟩
  | view r =>
    show (∃ x, r.Execute now world = .ok x) ∨ r.Execute now world = .error _
    rcases view_Execute_cases r now world with ⟨e, he⟩ | ⟨a, -, he⟩
    · exact Or.inl ⟨_, he⟩
    · exact Or.inl ⟨_, he⟩

end requests

end Pitch

/-! ## The loop of the worker -/

namespace Pitch
open objects entities requests responses

namespace server

/-- The world in which the request after a prefix of the dequeued requests is
executed is the world that the loop over the prefix returns. -/
theorem processLoop_append (pre post : List Turn) (w w1 : World) (em1 : List Emission)
    (hpre : processLoop pre w = .ok (w1, em1)) :
    processLoop (pre ++ post) w =
      match processLoop post w1 with
      | .error m => .error m
      | .ok (w2, em2) => .ok (w2, em1 ++ em2) := by
  induction pre generalizing w em1 with
  | nil =>
    rw [processLoop] at hpre
    cases hpre
    rw [List.nil_append]
    rcases processLoop post w1 with m | ⟨w2, em2⟩
    · rfl
    · rfl
  | cons t rest ih =>
    rw [processLoop] at hpre
    rw [List.cons_append, processLoop]
    rcases ht : processRequest t.Src t.Now w t.Req with m | ⟨w', em⟩
    · rw [ht] at hpre
      cases hpre
    · rw [ht] at hpre
      dsimp only at hpre ⊢
      rcases hrest : processLoop rest w' with m | ⟨w'', em'⟩
      · rw [hrest] at hpre
        cases hpre
      · rw [hrest] at hpre
        cases hpre
        rw [ih w' em' hrest]
        rcases processLoop post w1 with m | ⟨w2, em2⟩
        · rfl
        · simp only [List.append_assoc]

/-- After a prefix of the dequeued requests, the next request is executed on
the world that the prefix left. -/
theorem processLoop_snoc (pre : List Turn) (t : Turn) (w w1 : World) (em1 : List Emission)
    (hpre : processLoop pre w = .ok (w1, em1)) :
    processLoop (pre ++ [t]) w =
      match processRequest t.Src t.Now w1 t.Req with
      | .error m => .error m
      | .ok (w2, em2) => .ok (w2, em1 ++ em2) := by
  have hsingle : processLoop [t] w1 =
      match processRequest t.Src t.Now w1 t.Req with
      | .error m => .error m
      | .ok (w2, em2) => .ok (w2, em2) := by
    rw [processLoop]
    rcases processRequest t.Src t.Now w1 t.Req with m | ⟨w2, em2⟩
    · rfl
    · simp [processLoop, pure, Except.pure]
  rw [processLoop_append pre [t] w w1 em1 hpre, hsingle]
  rcases processRequest t.Src t.Now w1 t.Req with m | ⟨w2, em2⟩
  · rfl
  · rfl

end server

end Pitch

/-! ## The specification, statement by statement -/

namespace Pitch
open objects entities requests responses

/-- C1. Replay mirrors execution: in a world whose entity identifiers are
pairwise distinct and whose entities all have positive health, for every dice
stream and clock value, whenever `Execute` of a move, open, close, melee or range
request returns a world and a response without error, `Apply` of that response
to the input world succeeds and returns exactly the world `Execute` returned. -/
theorem C1_replay_mirrors_execution (world : World) (src : Source) (now : Int) (req : Request)
    (hreq : ∀ v, req ≠ Request.view v)
    (hids : world.Objects.ids.Nodup) (hhealth : ∀ e ∈ world.Objects, 0 < e.Health)
    (world' : World) (resp : Response)
    (h : req.Execute src now world = .ok (world', some resp, none)) :
    resp.Apply world = .ok (world', none) := by
  rcases request_Execute_effect req src now world world' (some resp) none hreq h with
    ⟨-, -, hne⟩ | ⟨-, r, hr, heff⟩
  · exact absurd rfl hne
  · cases hr
    exact heff.replay hids hhealth

/-- C1 at a melee attack that kills the wall: the replay removes it as well. -/
theorem C1_replay_mirrors_execution_witness :
    samples.doorBeforeWall.Objects.ids.Nodup ∧
    (Request.melee { AttackerID := 1, TargetID := 3 }).Execute samples.fifteen 0
        samples.doorBeforeWall
      = .ok ({ samples.doorBeforeWall with Objects := [samples.actor, samples.door] },
          some (Response.melee {
            AttackerID := 1, TargetID := 3, DidHit := true, Damage := 49,
            HealthRemaining := 0 }), none) ∧
    (Response.melee {
        AttackerID := 1, TargetID := 3, DidHit := true, Damage := 49,
        HealthRemaining := 0 }).Apply samples.doorBeforeWall
      = .ok ({ samples.doorBeforeWall with Objects := [samples.actor, samples.door] }, none) :=
  ⟨by decide, rfl,
    C1_replay_mirrors_execution samples.doorBeforeWall samples.fifteen 0
      (Request.melee { AttackerID := 1, TargetID := 3 }) (fun v hv => by cases hv)
      (by decide) (by decide) _ _ rfl⟩

/-- C2. Health invariant: if every entity of the world has positive health, then
for every request of the six variants, every dice stream and every clock value,
every entity of the world that `Execute` returns has positive health; every
attack response reports a remaining health that is not negative, and when it
reports 0 no entity with the identifier of the target is left in the returned
world. -/
theorem C2_health_invariant (world : World) (src : Source) (now : Int) (req : Request)
    (hhealth : ∀ e ∈ world.Objects, 0 < e.Health)
    (world' : World) (resp : Option Response) (err : Option Err)
    (h : req.Execute src now world = .ok (world', resp, err)) :
    (∀ e ∈ world'.Objects, 0 < e.Health) ∧
    (∀ m, resp = some (Response.melee m) → 0 ≤ m.HealthRemaining ∧
      (m.HealthRemaining = 0 → world'.Objects.Absent m.TargetID)) ∧
    (∀ m, resp = some (Response.range m) → 0 ≤ m.HealthRemaining ∧
      (m.HealthRemaining = 0 → world'.Objects.Absent m.TargetID)) := by
  by_cases hv : ∃ v, req = Request.view v
  · obtain ⟨v, rfl⟩ := hv
    rcases view_Execute_cases v now world with ⟨e, he⟩ | ⟨a, -, he⟩
    · have h' : (Except.ok (world, none, some e) : Panics Result) = .ok (world', resp, err) :=
        he.symm.trans h
      simp only [Except.ok.injEq, Prod.mk.injEq] at h'
      obtain ⟨rfl, rfl, rfl⟩ := h'
      refine ⟨hhealth, ?_, ?_⟩ <;> intro m hm <;> cases hm
    · have h' := he.symm.trans h
      simp only [Except.ok.injEq, Prod.mk.injEq] at h'
      obtain ⟨rfl, rfl, rfl⟩ := h'
      refine ⟨hhealth, ?_, ?_⟩ <;> intro m hm <;> cases hm
  · have hreq : ∀ v, req ≠ Request.view v := fun v hv' => hv ⟨v, hv'⟩
    rcases request_Execute_effect req src now world world' resp err hreq h with
      ⟨rfl, rfl, -⟩ | ⟨-, r, rfl, heff⟩
    · refine ⟨hhealth, ?_, ?_⟩ <;> intro m hm <;> cases hm
    · obtain ⟨h1, h2, h3⟩ := heff.health hhealth
      refine ⟨h1, fun m hm => h2 m ?_, fun m hm => h3 m ?_⟩
      · exact Option.some.inj hm
      · exact Option.some.inj hm

/-- C2 at a melee attack that brings the wall to health 0: the wall is gone. -/
theorem C2_health_invariant_witness :
    (∀ e ∈ samples.doorBeforeWall.Objects, 0 < e.Health) ∧
    (∀ e ∈ [samples.actor, samples.door], 0 < e.Health) ∧
    Collection.Absent [samples.actor, samples.door] 3 :=
  ⟨by decide,
    (C2_health_invariant samples.doorBeforeWall samples.fifteen 0
      (Request.melee { AttackerID := 1, TargetID := 3 }) (by decide)
      { samples.doorBeforeWall with Objects := [samples.actor, samples.door] }
      (some (Response.melee {
        AttackerID := 1, TargetID := 3, DidHit := true, Damage := 49,
        HealthRemaining := 0 })) none rfl).1,
    ((C2_health_invariant samples.doorBeforeWall samples.fifteen 0
      (Request.melee { AttackerID := 1, TargetID := 3 }) (by decide)
      { samples.doorBeforeWall with Objects := [samples.actor, samples.door] }
      (some (Response.melee {
        AttackerID := 1, TargetID := 3, DidHit := true, Damage := 49,
        HealthRemaining := 0 })) none rfl).2.1 _ rfl).2 rfl⟩

/-- C3. Identifier uniqueness is preserved: if the entity identifiers of a world
are pairwise distinct, then for every request of the six variants the world
returned by `Execute` has pairwise distinct identifiers, and `Apply` of the
response it returned (a view response included), on any world with pairwise
distinct identifiers, returns a world with pairwise distinct identifiers. -/
theorem C3_identifiers_stay_unique (world : World) (src : Source) (now : Int) (req : Request)
    (hids : world.Objects.ids.Nodup)
    (world' : World) (resp : Option Response) (err : Option Err)
    (h : req.Execute src now world = .ok (world', resp, err)) :
    world'.Objects.ids.Nodup ∧
    ∀ r, resp = some r → ∀ w2 : World, w2.Objects.ids.Nodup →
      ∃ w3 e, r.Apply w2 = .ok (w3, e) ∧ w3.Objects.ids.Nodup := by
  by_cases hv : ∃ v, req = Request.view v
  · obtain ⟨v, rfl⟩ := hv
    rcases view_Execute_cases v now world with ⟨e, he⟩ | ⟨a, -, he⟩
    · have h' : (Except.ok (world, none, some e) : Panics Result) = .ok (world', resp, err) :=
        he.symm.trans h
      simp only [Except.ok.injEq, Prod.mk.injEq] at h'
      obtain ⟨rfl, rfl, rfl⟩ := h'
      refine ⟨hids, ?_⟩
      intro r hr
      cases hr
    · have h' := he.symm.trans h
      simp only [Except.ok.injEq, Prod.mk.injEq] at h'
      obtain ⟨rfl, rfl, rfl⟩ := h'
      refine ⟨hids, fun r hr w2 _ => ?_⟩
      cases hr
      exact ⟨_, none, view_Apply _ w2, viewObjects_ids_nodup world a hids⟩
  · have hreq : ∀ v, req ≠ Request.view v := fun v hv' => hv ⟨v, hv'⟩
    rcases request_Execute_effect req src now world world' resp err hreq h with
      ⟨rfl, rfl, -⟩ | ⟨-, r, rfl, heff⟩
    · refine ⟨hids, ?_⟩
      intro r hr
      cases hr
    · refine ⟨heff.ids_nodup hids, fun r' hr w2 hw2 => ?_⟩
      cases hr
      exact heff.apply_ids_nodup w2 hw2

/-- C3 at a view of the actor in the world with the door and the wall. -/
theorem C3_identifiers_stay_unique_witness :
    samples.doorBeforeWall.Objects.ids.Nodup ∧
    ∃ w3 e, (Response.view {
        ActorID := 1,
        Objects := viewObjects samples.doorBeforeWall samples.actor }).Apply samples.alone
      = .ok (w3, e) ∧ w3.Objects.ids.Nodup :=
  ⟨by decide,
    (C3_identifiers_stay_unique samples.doorBeforeWall samples.fifteen 0
      (Request.view { ActorID := 1 }) (by decide) samples.doorBeforeWall
      (some (Response.view {
        ActorID := 1, Objects := viewObjects samples.doorBeforeWall samples.actor }))
      none
      ((view_Execute_eq { ActorID := 1 } 0 samples.doorBeforeWall samples.actor
        rfl).trans rfl)).2 _ rfl samples.alone (by decide)⟩

/-- C4. NotFound with no mutation: for each of the six request variants, if the
actor (attacker) identifier is absent from `world.Objects`, or, for a melee,
range, open or close request, the target identifier is absent, `Execute` returns
the input world, no response, and one of the not-found errors. -/
theorem C4_not_found_no_mutation (world : World) (src : Source) (now : Int) (req : Request)
    (h : world.Objects.Absent req.actorID ∨
      ∃ tid, req.targetID = some tid ∧ world.Objects.Absent tid) :
    ∃ e, Err.isNotFound e = true ∧ req.Execute src now world = .ok (world, none, some e) := by
  cases req with
  | melee r =>
    refine melee_Execute_absent r src world ?_
    rcases h with h | ⟨tid, ht, h⟩
    · exact Or.inl h
    · cases ht
      exact Or.inr h
  | range r =>
    refine range_Execute_absent r src world ?_
    rcases h with h | ⟨tid, ht, h⟩
    · exact Or.inl h
    · cases ht
      exact Or.inr h
  | close r =>
    refine close_Execute_absent r now world ?_
    rcases h with h | ⟨tid, ht, h⟩
    · exact Or.inl h
    · cases ht
      exact Or.inr h
  | open_ r =>
    refine open_Execute_absent r now world ?_
    rcases h with h | ⟨tid, ht, h⟩
    · exact Or.inl h
    · cases ht
      exact Or.inr h
  | move r =>
    rcases h with h | ⟨tid, ht, h⟩
    · exact ⟨Err.moveActorNotFound r.ActorID, rfl, move_Execute_absent r src now world h⟩
    · cases ht
  | view r =>
    rcases h with h | ⟨tid, ht, h⟩
    · exact ⟨Err.actorNotFound, rfl, view_Execute_absent r now world h⟩
    · cases ht

/-- C4 at an open request whose target 9 is not in the world. -/
theorem C4_not_found_no_mutation_witness :
    samples.withDoor.Objects.Absent 9 ∧
    ∃ e, Err.isNotFound e = true ∧
      (Request.open_ { ActorID := 1, TargetID := 9 }).Execute samples.fifteen 0 samples.withDoor
        = .ok (samples.withDoor, none, some e) :=
  ⟨by decide,
    C4_not_found_no_mutation samples.withDoor samples.fifteen 0
      (Request.open_ { ActorID := 1, TargetID := 9 }) (Or.inr ⟨9, rfl, by decide⟩)⟩

/-- C5. Free move: in a world with pairwise distinct identifiers, for a present
actor and any direction, if no entity on the destination cell is
AlwaysImpassible or a closed Toggleable, `MoveRequest.Execute` succeeds with the
`MoveResponse` that carries the actor identifier and the destination
coordinates, and the returned world is the input world in which the entity with
the actor identifier has the destination as its position: the order of the
collection, every other entity, every other field of the actor and the items
are unchanged. -/
theorem C5_free_move (world : World) (src : Source) (now : Int) (req : MoveRequest)
    (actor : Entity) (hids : world.Objects.ids.Nodup)
    (hA : world.Objects.FromID req.ActorID = (actor, true))
    (hfree : ∀ e ∈ world.Objects,
      e.Position.X = (coordsFromDirection actor req.Direction).1 →
      e.Position.Y = (coordsFromDirection actor req.Direction).2 →
      e.Passability.Typ ≠ AlwaysImpassible ∧
        ¬ (e.Passability.Typ = Toggleable ∧ e.Passability.IsOpen = false)) :
    req.Execute src now world =
      .ok ({ world with
          Objects := world.Objects.map (fun e =>
            if e.ID = req.ActorID then
              { e with Position := {
                  X := (coordsFromDirection actor req.Direction).1,
                  Y := (coordsFromDirection actor req.Direction).2 } }
            else e) },
        some (Response.move {
          ActorID := req.ActorID,
          X := (coordsFromDirection actor req.Direction).1,
          Y := (coordsFromDirection actor req.Direction).2 }), none) := by
  have hmem := FromID_found hA
  have hnone : (world.Objects.FromXY (coordsFromDirection actor req.Direction).1
      (coordsFromDirection actor req.Direction).2).find? blocks = none := by
    rw [List.find?_eq_none]
    intro e he
    rw [FromXY_eq_filter, List.mem_filter] at he
    obtain ⟨hm, hpos⟩ := he
    simp only [decide_eq_true_eq] at hpos
    obtain ⟨h1, h2⟩ := hfree e hm hpos.1 hpos.2
    have h3 : ¬ (e.Passability.Typ = Toggleable ∧ e.Passability.IsOpen = false) := h2
    simp only [blocks, h1, decide_False, Bool.false_or, Bool.and_eq_true, decide_eq_true_eq,
      Bool.not_eq_true', not_and, Bool.not_eq_false]
    intro ht
    simpa [ht] using h3
  rw [move_Execute_eq req src now world actor hA, hnone]
  dsimp only
  have hmap : world.Objects.withEntity { actor with Position := {
        X := (coordsFromDirection actor req.Direction).1,
        Y := (coordsFromDirection actor req.Direction).2 } }
      = world.Objects.map (fun e =>
          if e.ID = req.ActorID then
            { e with Position := {
                X := (coordsFromDirection actor req.Direction).1,
                Y := (coordsFromDirection actor req.Direction).2 } }
          else e) := by
    unfold Collection.withEntity
    apply List.map_congr_left
    intro e he
    show (if e.ID = actor.ID then _ else e) = _
    by_cases hid : e.ID = req.ActorID
    · rw [if_pos hid, if_pos (hid.trans hmem.2.symm),
        eq_of_ids_nodup hids he hmem.1 (hid.trans hmem.2.symm)]
    · rw [if_neg hid, if_neg (fun h => hid (h.trans hmem.2))]
  rw [hmap]

/-- C5 at a move east of the actor next to the door and the wall. -/
theorem C5_free_move_witness :
    samples.doorBeforeWall.Objects.ids.Nodup ∧
    MoveRequest.Execute { ActorID := 1, Direction := East } samples.fifteen 0
        samples.doorBeforeWall
      = .ok ({ samples.doorBeforeWall with
          Objects := [{ samples.actor with Position := { X := 1, Y := 0 } },
            samples.door, samples.wall] },
        some (Response.move { ActorID := 1, X := 1, Y := 0 }), none) :=
  ⟨by decide,
    C5_free_move samples.doorBeforeWall samples.fifteen 0 { ActorID := 1, Direction := East }
      samples.actor (by decide) rfl (by decide)⟩

/-- C6, as stated, fails: the actor is present, the cell north of it holds the
AlwaysImpassible wall 3, which is the first AlwaysImpassible entity there, but a
closed door precedes the wall in the collection and the move opens the door
instead of attacking the wall. -/
theorem C6_counterexample :
    samples.doorBeforeWall.Objects.FromID 1 = (samples.actor, true) ∧
    coordsFromDirection samples.actor North = (0, -1) ∧
    firstImpassible (samples.doorBeforeWall.Objects.FromXY 0 (-1)) = some samples.wall ∧
    MoveRequest.Execute { ActorID := 1, Direction := North } samples.fifteen 0
        samples.doorBeforeWall
      = .ok ({ samples.doorBeforeWall with
          Objects := [samples.actor,
            { samples.door with Passability := { Typ := Toggleable, IsOpen := true } },
            samples.wall] },
        some (Response.toggle { ActorID := 1, TargetID := 2, IsOpen := true }), none) ∧
    MeleeAttackRequest.Execute { AttackerID := 1, TargetID := 3 } samples.fifteen
        samples.doorBeforeWall
      = .ok ({ samples.doorBeforeWall with Objects := [samples.actor, samples.door] },
        some (Response.melee {
          AttackerID := 1, TargetID := 3, DidHit := true, Damage := 49,
          HealthRemaining := 0 }), none) ∧
    MoveRequest.Execute { ActorID := 1, Direction := North } samples.fifteen 0
        samples.doorBeforeWall
      ≠ MeleeAttackRequest.Execute { AttackerID := 1, TargetID := 3 } samples.fifteen
        samples.doorBeforeWall := by
  refine ⟨rfl, rfl, rfl, rfl, rfl, ?_⟩
  intro h
  have h2 := congrArg
    (fun r : Panics Result => (r.toOption.map (fun x => x.1.Objects.length))) h
  revert h2
  decide

/-- C6, amended. For every world, present actor and direction, if the
destination cell contains an AlwaysImpassible entity, `MoveRequest.Execute`
never changes the position of the actor, and it returns what the request for the
first entity `e` on that cell, in collection order, that is AlwaysImpassible or
a closed Toggleable returns: if `e` is AlwaysImpassible (no closed Toggleable
precedes the first AlwaysImpassible entity) it is the first AlwaysImpassible
entity there and the result is exactly that of the melee attack of the actor
against it on the same world with the same dice; otherwise `e` is the first
closed Toggleable entity there and the result is that of the open request of the
actor against it. -/
theorem C6_blocked_move_is_melee (world : World) (src : Source) (now : Int)
    (req : MoveRequest) (actor : Entity)
    (hA : world.Objects.FromID req.ActorID = (actor, true))
    (himp : ∃ e ∈ world.Objects.FromXY (coordsFromDirection actor req.Direction).1
      (coordsFromDirection actor req.Direction).2, e.Passability.Typ = AlwaysImpassible) :
    (∀ world' resp err, req.Execute src now world = .ok (world', resp, err) →
      ∀ a', world'.Objects.FromID req.ActorID = (a', true) → a'.Position = actor.Position) ∧
    ∃ e, (world.Objects.FromXY (coordsFromDirection actor req.Direction).1
        (coordsFromDirection actor req.Direction).2).find? blocks = some e ∧
      (e.Passability.Typ = AlwaysImpassible →
        firstImpassible (world.Objects.FromXY (coordsFromDirection actor req.Direction).1
          (coordsFromDirection actor req.Direction).2) = some e ∧
        req.Execute src now world
          = MeleeAttackRequest.Execute { AttackerID := req.ActorID, TargetID := e.ID } src
            world) ∧
      (e.Passability.Typ ≠ AlwaysImpassible →
        firstClosed (world.Objects.FromXY (coordsFromDirection actor req.Direction).1
          (coordsFromDirection actor req.Direction).2) = some e ∧
        req.Execute src now world
          = OpenRequest.Execute { ActorID := req.ActorID, TargetID := e.ID } now world) := by
  have hsome : ∃ e, (world.Objects.FromXY (coordsFromDirection actor req.Direction).1
      (coordsFromDirection actor req.Direction).2).find? blocks = some e := by
    obtain ⟨w, hw, hty⟩ := himp
    cases hf : (world.Objects.FromXY (coordsFromDirection actor req.Direction).1
        (coordsFromDirection actor req.Direction).2).find? blocks with
    | some e => exact ⟨e, rfl⟩
    | none =>
      rw [List.find?_eq_none] at hf
      have := hf w hw
      simp [blocks, hty] at this
  obtain ⟨e, he⟩ := hsome
  have hmelee : e.Passability.Typ = AlwaysImpassible → req.Execute src now world
      = MeleeAttackRequest.Execute { AttackerID := req.ActorID, TargetID := e.ID } src
        world := by
    intro hi
    rw [move_Execute_eq req src now world actor hA, he]
    dsimp only
    rw [if_pos hi]
  have hopen : e.Passability.Typ ≠ AlwaysImpassible → req.Execute src now world
      = OpenRequest.Execute { ActorID := req.ActorID, TargetID := e.ID } now world := by
    intro hi
    rw [move_Execute_eq req src now world actor hA, he]
    dsimp only
    rw [if_neg hi]
  refine ⟨?_, e, he, fun hi => ⟨find_blocks_impassible he hi, hmelee hi⟩,
    fun hi => ⟨find_blocks_closed he hi, hopen hi⟩⟩
  intro world' resp err h a' ha'
  by_cases hi : e.Passability.Typ = AlwaysImpassible
  · rw [hmelee hi] at h
    exact (melee_Execute_positions _ src world world' resp err h).1
      req.ActorID actor a' hA ha'
  · rw [hopen hi] at h
    exact open_Execute_positions _ now world world' resp err h req.ActorID actor a' hA ha'

/-- C6, amended, at the world where the wall precedes the door: the move north
is the melee attack on the wall. -/
theorem C6_blocked_move_is_melee_witness :
    samples.wallBeforeDoor.Objects.FromID 1 = (samples.actor, true) ∧
    samples.wall ∈ samples.wallBeforeDoor.Objects.FromXY 0 (-1) ∧
    (samples.wallBeforeDoor.Objects.FromXY 0 (-1)).find? blocks = some samples.wall ∧
    MoveRequest.Execute { ActorID := 1, Direction := North } samples.fifteen 0
        samples.wallBeforeDoor
      = MeleeAttackRequest.Execute { AttackerID := 1, TargetID := 3 } samples.fifteen
        samples.wallBeforeDoor := by
  refine ⟨rfl, by decide, rfl, ?_⟩
  obtain ⟨-, e, he, hm, -⟩ := C6_blocked_move_is_melee samples.wallBeforeDoor samples.fifteen 0
    { ActorID := 1, Direction := North } samples.actor rfl ⟨samples.wall, by decide, rfl⟩
  have hw : e = samples.wall := Option.some.inj (he.symm.trans rfl)
  subst hw
  exact (hm rfl).2

/-- C7. Move into a closed door becomes Open: for a present actor and any
direction, if no entity on the destination cell is AlwaysImpassible and at least
one is Toggleable with `IsOpen = false`, then there is a first closed Toggleable
entity there, `MoveRequest.Execute` returns exactly what the open request of the
actor against it returns on the same world, and the position of the actor is
unchanged in the returned world. -/
theorem C7_move_into_closed_door_is_open (world : World) (src : Source) (now : Int)
    (req : MoveRequest) (actor : Entity)
    (hA : world.Objects.FromID req.ActorID = (actor, true))
    (hnoimp : ∀ e ∈ world.Objects.FromXY (coordsFromDirection actor req.Direction).1
      (coordsFromDirection actor req.Direction).2, e.Passability.Typ ≠ AlwaysImpassible)
    (hclosed : ∃ e ∈ world.Objects.FromXY (coordsFromDirection actor req.Direction).1
      (coordsFromDirection actor req.Direction).2,
      e.Passability.Typ = Toggleable ∧ e.Passability.IsOpen = false) :
    ∃ e, firstClosed (world.Objects.FromXY (coordsFromDirection actor req.Direction).1
        (coordsFromDirection actor req.Direction).2) = some e ∧
      req.Execute src now world
        = OpenRequest.Execute { ActorID := req.ActorID, TargetID := e.ID } now world ∧
      ∀ world' resp err, req.Execute src now world = .ok (world', resp, err) →
        ∀ a', world'.Objects.FromID req.ActorID = (a', true) →
          a'.Position = actor.Position := by
  have hfind := find_blocks_of_no_impassible hnoimp
  have hsome : ∃ e, firstClosed (world.Objects.FromXY (coordsFromDirection actor req.Direction).1
        (coordsFromDirection actor req.Direction).2) = some e := by
    obtain ⟨d, hd, hty, hop⟩ := hclosed
    cases hf : firstClosed (world.Objects.FromXY (coordsFromDirection actor req.Direction).1
        (coordsFromDirection actor req.Direction).2) with
    | some e => exact ⟨e, rfl⟩
    | none =>
      unfold firstClosed at hf
      rw [List.find?_eq_none] at hf
      have := hf d hd
      simp [hty, hop] at this
  obtain ⟨e, he⟩ := hsome
  have hne : ¬ e.Passability.Typ = AlwaysImpassible :=
    hnoimp e (List.mem_of_find?_eq_some he)
  have heq : req.Execute src now world
      = OpenRequest.Execute { ActorID := req.ActorID, TargetID := e.ID } now world := by
    rw [move_Execute_eq req src now world actor hA, hfind, he]
    dsimp only
    rw [if_neg hne]
  refine ⟨e, he, heq, ?_⟩
  intro world' resp err h a' ha'
  rw [heq] at h
  exact open_Execute_positions _ now world world' resp err h req.ActorID actor a' hA ha'

/-- C7 at the actor and the closed door north of it. -/
theorem C7_move_into_closed_door_is_open_witness :
    samples.withDoor.Objects.FromID 1 = (samples.actor, true) ∧
    ∃ e, firstClosed (samples.withDoor.Objects.FromXY 0 (-1)) = some e ∧
      MoveRequest.Execute { ActorID := 1, Direction := North } samples.fifteen 0 samples.withDoor
        = OpenRequest.Execute { ActorID := 1, TargetID := e.ID } 0 samples.withDoor ∧
      ∀ world' resp err,
        MoveRequest.Execute { ActorID := 1, Direction := North } samples.fifteen 0
          samples.withDoor = .ok (world', resp, err) →
        ∀ a', world'.Objects.FromID 1 = (a', true) → a'.Position = samples.actor.Position :=
  ⟨rfl,
    C7_move_into_closed_door_is_open samples.withDoor samples.fifteen 0
      { ActorID := 1, Direction := North } samples.actor rfl (by decide)
      ⟨samples.door, by decide, rfl, rfl⟩⟩

/-- C8, refuted as stated: `x++` wraps around. For the actor on the column
`MaxInt64`, East gives the column `MinInt64`: the axis changes by `2^64 - 1`
in absolute value, not by 1. -/
theorem C8_counterexample :
    samples.edge.Position.X = MaxInt64 ∧
    coordsFromDirection samples.edge East = (MinInt64, 0) ∧
    |(coordsFromDirection samples.edge East).1 - samples.edge.Position.X|
      = 18446744073709551615 ∧
    coordsFromDirection samples.edge East ≠ (samples.edge.Position.X + 1, 0) := by
  refine ⟨rfl, rfl, by decide, by decide⟩

/-- C8, amended. For every actor position `(x, y)` of `int` coordinates,
`coordsFromDirection` gives `(x, y-1)` for North when `y` is above `MinInt64`,
`(x+1, y)` for East when `x` is below `MaxInt64`, `(x, y+1)` for South when `y`
is below `MaxInt64` and `(x-1, y)` for West when `x` is above `MinInt64`; so for
each of the four directions, away from that end of the range, exactly one axis
changes, by exactly 1 in absolute value, and the other axis is unchanged. In
every case the changed coordinate is the 64-bit wrap-around of that value. -/
theorem C8_coordsFromDirection (actor : Entity)
    (hX : IsInt64 actor.Position.X) (hY : IsInt64 actor.Position.Y) :
    (MinInt64 < actor.Position.Y →
      coordsFromDirection actor North = (actor.Position.X, actor.Position.Y - 1)) ∧
    (actor.Position.X < MaxInt64 →
      coordsFromDirection actor East = (actor.Position.X + 1, actor.Position.Y)) ∧
    (actor.Position.Y < MaxInt64 →
      coordsFromDirection actor South = (actor.Position.X, actor.Position.Y + 1)) ∧
    (MinInt64 < actor.Position.X →
      coordsFromDirection actor West = (actor.Position.X - 1, actor.Position.Y)) ∧
    (∀ d : Direction,
      (d = North ∧ MinInt64 < actor.Position.Y) ∨ (d = East ∧ actor.Position.X < MaxInt64) ∨
        (d = South ∧ actor.Position.Y < MaxInt64) ∨ (d = West ∧ MinInt64 < actor.Position.X) →
      (|(coordsFromDirection actor d).1 - actor.Position.X| = 1 ∧
          (coordsFromDirection actor d).2 = actor.Position.Y) ∨
      ((coordsFromDirection actor d).1 = actor.Position.X ∧
          |(coordsFromDirection actor d).2 - actor.Position.Y| = 1)) ∧
    coordsFromDirection actor North = (actor.Position.X, wrap (actor.Position.Y - 1)) ∧
    coordsFromDirection actor East = (wrap (actor.Position.X + 1), actor.Position.Y) ∧
    coordsFromDirection actor South = (actor.Position.X, wrap (actor.Position.Y + 1)) ∧
    coordsFromDirection actor West = (wrap (actor.Position.X - 1), actor.Position.Y) := by
  have hN : coordsFromDirection actor North
      = (actor.Position.X, wrap (actor.Position.Y - 1)) := by
    simp [coordsFromDirection, North]
  have hE : coordsFromDirection actor East
      = (wrap (actor.Position.X + 1), actor.Position.Y) := by
    simp [coordsFromDirection, North, East]
  have hS : coordsFromDirection actor South
      = (actor.Position.X, wrap (actor.Position.Y + 1)) := by
    simp [coordsFromDirection, North, East, South]
  have hW : coordsFromDirection actor West
      = (wrap (actor.Position.X - 1), actor.Position.Y) := by
    simp [coordsFromDirection, North, East, South, West]
  have hN1 : MinInt64 < actor.Position.Y →
      coordsFromDirection actor North = (actor.Position.X, actor.Position.Y - 1) := by
    intro h
    rw [hN, wrap_eq ⟨by omega, by have := hY.2; omega⟩]
  have hE1 : actor.Position.X < MaxInt64 →
      coordsFromDirection actor East = (actor.Position.X + 1, actor.Position.Y) := by
    intro h
    rw [hE, wrap_eq ⟨by have := hX.1; omega, by omega⟩]
  have hS1 : actor.Position.Y < MaxInt64 →
      coordsFromDirection actor South = (actor.Position.X, actor.Position.Y + 1) := by
    intro h
    rw [hS, wrap_eq ⟨by have := hY.1; omega, by omega⟩]
  have hW1 : MinInt64 < actor.Position.X →
      coordsFromDirection actor West = (actor.Position.X - 1, actor.Position.Y) := by
    intro h
    rw [hW, wrap_eq ⟨by omega, by have := hX.2; omega⟩]
  refine ⟨hN1, hE1, hS1, hW1, ?_, hN, hE, hS, hW⟩
  intro d hd
  rcases hd with ⟨rfl, h⟩ | ⟨rfl, h⟩ | ⟨rfl, h⟩ | ⟨rfl, h⟩
  · right
    rw [hN1 h]
    simp
  · left
    rw [hE1 h]
    simp
  · right
    rw [hS1 h]
    simp
  · left
    rw [hW1 h]
    simp

/-- C8 at the sample actor moving east. -/
theorem C8_coordsFromDirection_witness :
    IsInt64 samples.actor.Position.X ∧ IsInt64 samples.actor.Position.Y ∧
    ((|(coordsFromDirection samples.actor East).1 - samples.actor.Position.X| = 1 ∧
        (coordsFromDirection samples.actor East).2 = samples.actor.Position.Y) ∨
    ((coordsFromDirection samples.actor East).1 = samples.actor.Position.X ∧
        |(coordsFromDirection samples.actor East).2 - samples.actor.Position.Y| = 1)) :=
  ⟨by decide, by decide,
    (C8_coordsFromDirection samples.actor (by decide) (by decide)).2.2.2.2.1 East
      (Or.inr (Or.inl ⟨rfl, by decide⟩))⟩

/-- C9, as stated, fails: the actor is present, its timer is not ready at the
clock value `samples.today`, the cell north of it holds a closed door, and the
move north fails with "timer not ready". -/
theorem C9_counterexample :
    samples.lateWithDoor.Objects.FromID 1 = (samples.lateActor, true) ∧
    MoveRequest.Execute { ActorID := 1, Direction := North } samples.fifteen samples.today
        samples.lateWithDoor
      = .ok (samples.lateWithDoor, none, some Err.timerNotReady) :=
  ⟨rfl, rfl⟩

/-- C9, amended. `MoveRequest.Execute` has no timer check of its own: for a
present actor it fails with "timer not ready" exactly when it hands over to
`OpenRequest.Execute`, that is when the first entity on the destination cell
that is AlwaysImpassible or a closed Toggleable is a closed Toggleable, and the
timer of the actor is not ready; in every other case it does not fail with that
error, whatever the timer and the clock. -/
theorem C9_move_timer_only_through_open (world : World) (src : Source) (now : Int)
    (req : MoveRequest) (actor : Entity)
    (hA : world.Objects.FromID req.ActorID = (actor, true)) :
    (∃ world' resp, req.Execute src now world = .ok (world', resp, some Err.timerNotReady)) ↔
      (∃ e, (world.Objects.FromXY (coordsFromDirection actor req.Direction).1
          (coordsFromDirection actor req.Direction).2).find? blocks = some e ∧
        e.Passability.Typ = Toggleable ∧ e.Passability.IsOpen = false ∧
        actor.Timer.Ready now = false) := by
  rw [move_Execute_eq req src now world actor hA]
  cases hf : (world.Objects.FromXY (coordsFromDirection actor req.Direction).1
      (coordsFromDirection actor req.Direction).2).find? blocks with
  | none =>
    dsimp only
    constructor
    · rintro ⟨world', resp, h⟩
      simp only [Except.ok.injEq, Prod.mk.injEq] at h
      exact absurd h.2.2 (by simp)
    · rintro ⟨e, he, -⟩
      cases he
  | some e =>
    dsimp only
    obtain ⟨hmem, hb⟩ := mem_of_find_FromXY hf
    by_cases himp : e.Passability.Typ = AlwaysImpassible
    · rw [if_pos himp]
      constructor
      · rintro ⟨world', resp, h⟩
        exact absurd rfl (melee_Execute_positions _ src world world' resp _ h).2
      · rintro ⟨e', he', hty, -⟩
        simp only [Option.some.injEq] at he'
        subst he'
        rw [himp] at hty
        exact absurd hty (by decide)
    · rw [if_neg himp]
      have hclosed : e.Passability.Typ = Toggleable ∧ e.Passability.IsOpen = false := by
        simpa [blocks, himp] using hb
      obtain ⟨t, ht⟩ := FromID_of_mem hmem
      rw [open_Execute_eq { ActorID := req.ActorID, TargetID := e.ID } now world actor t
        hA ht]
      by_cases hr : actor.Timer.Ready now = true
      · rw [if_neg (not_not.2 hr)]
        constructor
        · rintro ⟨world', resp, h⟩
          by_cases hty : t.Passability.Typ ≠ Toggleable
          · rw [if_pos hty] at h
            simp only [Except.ok.injEq, Prod.mk.injEq] at h
            exact absurd h.2.2 (by simp)
          · rw [if_neg hty] at h
            simp only [Except.ok.injEq, Prod.mk.injEq] at h
            exact absurd h.2.2 (by simp)
        · rintro ⟨e', -, -, -, hnr⟩
          rw [hr] at hnr
          cases hnr
      · rw [if_pos hr]
        constructor
        · intro _
          exact ⟨e, rfl, hclosed.1, hclosed.2, by simpa using hr⟩
        · intro _
          exact ⟨world, none, rfl⟩

/-- C9, amended, at the late actor next to the closed door. -/
theorem C9_move_timer_only_through_open_witness :
    samples.lateWithDoor.Objects.FromID 1 = (samples.lateActor, true) ∧
    ∃ world' resp,
      MoveRequest.Execute { ActorID := 1, Direction := North } samples.fifteen samples.today
        samples.lateWithDoor = .ok (world', resp, some Err.timerNotReady) :=
  ⟨rfl,
    (C9_move_timer_only_through_open samples.lateWithDoor samples.fifteen samples.today
      { ActorID := 1, Direction := North } samples.lateActor rfl).2
      ⟨samples.door, rfl, rfl, rfl, rfl⟩⟩

/-- C10. Hit rule: in `MeleeAttackRequest.Execute` and `RangeAttackRequest.Execute`
with attacker and target present, the attack roll is the d20 roll plus the
Strength modifier of the attacker, the armor class is 10 plus the Dexterity
modifier of the target, `isHit` holds iff the attack is critical or the attack
roll is at least the armor class, and the attack is answered as a hit by this
rule: `Execute` returns the miss response exactly when the rule fails, and every
attack response it returns has `DidHit` true exactly when the rule holds. -/
theorem C10_hit_rule (world : World) (src : Source) (a tid : UUID) (attacker target : Entity)
    (hA : world.Objects.FromID a = (attacker, true))
    (hT : world.Objects.FromID tid = (target, true)) :
    utils.Roll src 1 1 20 = .ok (d20Of src, 2) ∧
    calcAttackRoll src 0 attacker
      = .ok ((d20Of src + Attribute.Modifier attacker.Attributes.Strength,
          criticalOf src attacker), 2) ∧
    (∀ (c : Bool) (ac roll : Int), isHit c ac roll = true ↔ (c = true ∨ roll ≥ ac)) ∧
    ((MeleeAttackRequest.Execute { AttackerID := a, TargetID := tid } src world
        = .ok (world, some (Response.melee {
            AttackerID := a, TargetID := tid, DidHit := false, Damage := 0,
            HealthRemaining := target.Health }), none)) ↔
      ¬ (criticalOf src attacker = true ∨
        d20Of src + Attribute.Modifier attacker.Attributes.Strength
          ≥ 10 + Attribute.Modifier target.Attributes.Dexterity)) ∧
    (∀ world' m err,
      MeleeAttackRequest.Execute { AttackerID := a, TargetID := tid } src world
        = .ok (world', some (Response.melee m), err) →
      (m.DidHit = true ↔ (criticalOf src attacker = true ∨
        d20Of src + Attribute.Modifier attacker.Attributes.Strength
          ≥ 10 + Attribute.Modifier target.Attributes.Dexterity))) ∧
    ((RangeAttackRequest.Execute { AttackerID := a, TargetID := tid } src world
        = .ok (world, some (Response.range {
            AttackerID := a, TargetID := tid, DidHit := false, Damage := 0,
            HealthRemaining := target.Health }), none)) ↔
      ¬ (criticalOf src attacker = true ∨
        d20Of src + Attribute.Modifier attacker.Attributes.Strength
          ≥ 10 + Attribute.Modifier target.Attributes.Dexterity)) ∧
    (∀ world' m err,
      RangeAttackRequest.Execute { AttackerID := a, TargetID := tid } src world
        = .ok (world', some (Response.range m), err) →
      (m.DidHit = true ↔ (criticalOf src attacker = true ∨
        d20Of src + Attribute.Modifier attacker.Attributes.Strength
          ≥ 10 + Attribute.Modifier target.Attributes.Dexterity))) := by
  have hrule : isHit (criticalOf src attacker) (armorClassOf target) (attackRollOf src attacker)
      = true ↔ (criticalOf src attacker = true ∨
        d20Of src + Attribute.Modifier attacker.Attributes.Strength
          ≥ 10 + Attribute.Modifier target.Attributes.Dexterity) :=
    isHit_iff _ _ _
  refine ⟨utils.Roll_one src 1 (by decide), calcAttackRoll_eq src attacker, isHit_iff,
    ?_, ?_, ?_, ?_⟩
  · rw [← hrule]
    constructor
    · intro h
      rw [melee_Execute_eq _ src world attacker target hA hT] at h
      obtain ⟨d, hr, hm⟩ := attack_hit_aux _ target _ _ _ _ _ _ h
      intro hhit
      rw [hhit] at hm
      simp [attackResp] at hm
    · intro h
      rw [melee_Execute_eq _ src world attacker target hA hT, if_neg h]
      rfl
  · intro world' m err h
    rw [← hrule]
    rw [melee_Execute_eq _ src world attacker target hA hT] at h
    obtain ⟨d, hr, hm⟩ := attack_hit_aux _ target _ _ _ _ _ _ h
    simp only [attackResp, Bool.false_eq_true, if_false, Response.melee.injEq] at hm
    rw [hm]
  · rw [← hrule]
    constructor
    · intro h
      rw [range_Execute_eq _ src world attacker target hA hT] at h
      obtain ⟨d, hr, hm⟩ := attack_hit_aux _ target _ _ _ _ _ _ h
      intro hhit
      rw [hhit] at hm
      simp [attackResp] at hm
    · intro h
      rw [range_Execute_eq _ src world attacker target hA hT, if_neg h]
      rfl
  · intro world' m err h
    rw [← hrule]
    rw [range_Execute_eq _ src world attacker target hA hT] at h
    obtain ⟨d, hr, hm⟩ := attack_hit_aux _ target _ _ _ _ _ _ h
    simp only [attackResp, if_true, Response.range.injEq] at hm
    rw [hm]

/-- C10 at an attack roll equal to the armor class: the actor (Strength 10)
rolls 10 against the wall (Dexterity 10, armor class 10), not critical, and the
melee attack is answered as a hit. -/
theorem C10_hit_rule_witness :
    samples.doorBeforeWall.Objects.FromID 1 = (samples.actor, true) ∧
    samples.doorBeforeWall.Objects.FromID 3 = (samples.wall, true) ∧
    d20Of (fun _ => 10) + Attribute.Modifier samples.actor.Attributes.Strength = 10 ∧
    10 + Attribute.Modifier samples.wall.Attributes.Dexterity = 10 ∧
    criticalOf (fun _ => 10) samples.actor = false ∧
    ¬ (MeleeAttackRequest.Execute { AttackerID := 1, TargetID := 3 } (fun _ => 10)
        samples.doorBeforeWall
      = .ok (samples.doorBeforeWall, some (Response.melee {
          AttackerID := 1, TargetID := 3, DidHit := false, Damage := 0,
          HealthRemaining := samples.wall.Health }), none)) :=
  ⟨rfl, rfl, by decide, by decide, by decide,
    fun h => ((C10_hit_rule samples.doorBeforeWall (fun _ => 10) 1 3 samples.actor samples.wall
      rfl rfl).2.2.2.1.1 h) (Or.inr (by decide))⟩

/-- C11, refuted as stated: `damageAmount *= 2` wraps around from `2^62` on. The
giant rolls a natural 20 against the door; `calcDamageAmount` returns
`3 * 2^61`, whose 64-bit double is `-2^62`, not `3 * 2^62`: the door, which
wears no armor, takes the damage `2^62` and is removed, where twice the value
would give the damage 0. -/
theorem C11_counterexample :
    samples.giantWorld.Objects.FromID 1 = (samples.giant, true) ∧
    samples.giantWorld.Objects.FromID 2 = (samples.door, true) ∧
    d20Of samples.twenty = 20 ∧
    criticalOf samples.twenty samples.giant = true ∧
    calcDamageAmount samples.twenty 2 samples.giantWorld samples.giant
      = .ok ((6917529027641081856, items.MeleeDamage), 4) ∧
    wrap (6917529027641081856 * 2) = -4611686018427387904 ∧
    meleeReductionOf samples.giantWorld samples.door = 0 ∧
    MeleeAttackRequest.Execute { AttackerID := 1, TargetID := 2 } samples.twenty
        samples.giantWorld
      = .ok ({ samples.giantWorld with Objects := [samples.giant] },
          some (Response.melee {
            AttackerID := 1, TargetID := 2, DidHit := true,
            Damage := 4611686018427387904, HealthRemaining := 0 }), none) ∧
    max 0 (max 0 (meleeReductionOf samples.giantWorld samples.door)
      - 2 * 6917529027641081856) = 0 :=
  ⟨rfl, rfl, by decide, by decide, rfl, by decide, by decide, rfl, by decide⟩

/-- C11, amended. Critical hits: the critical flag returned by `calcAttackRoll`
is true iff the d100 luck roll (the first die) is at most the Luck modifier of
the attacker plus 5, or the base d20 roll (the second die) is 20; `isHit` holds
for a critical attack whatever the armor class and the attack roll, so every
response of a critical melee or range attack has `DidHit` true; and when the
weapon type matches, the damage value that enters the armor combination is the
64-bit double of the value returned by `calcDamageAmount`: exactly twice that
value when it is below `2^62`. -/
theorem C11_critical_hits (world : World) (src : Source) (a tid : UUID)
    (attacker target : Entity)
    (hA : world.Objects.FromID a = (attacker, true))
    (hT : world.Objects.FromID tid = (target, true)) :
    utils.Roll src 0 1 100 = .ok (luckRollOf src, 1) ∧
    utils.Roll src 1 1 20 = .ok (d20Of src, 2) ∧
    (∃ roll, calcAttackRoll src 0 attacker = .ok ((roll, criticalOf src attacker), 2)) ∧
    (criticalOf src attacker = true ↔
      (luckRollOf src ≤ Attribute.Modifier attacker.Attributes.Luck + 5 ∨ d20Of src = 20)) ∧
    (∀ armorClass attackRoll : Int, isHit true armorClass attackRoll = true) ∧
    (criticalOf src attacker = true →
      (∀ world' m err,
        MeleeAttackRequest.Execute { AttackerID := a, TargetID := tid } src world
          = .ok (world', some (Response.melee m), err) → m.DidHit = true) ∧
      (∀ world' m err,
        RangeAttackRequest.Execute { AttackerID := a, TargetID := tid } src world
          = .ok (world', some (Response.range m), err) → m.DidHit = true) ∧
      (∀ damageAmount p,
        calcDamageAmount src 2 world attacker = .ok ((damageAmount, items.MeleeDamage), p) →
        MeleeAttackRequest.Execute { AttackerID := a, TargetID := tid } src world
            = .ok (landHit (attackResp false a tid) world target
                (totalDamageOf (meleeReductionOf world target) (wrap (damageAmount * 2)))) ∧
        (damageAmount < 4611686018427387904 →
          wrap (damageAmount * 2) = 2 * damageAmount ∧
          MeleeAttackRequest.Execute { AttackerID := a, TargetID := tid } src world
            = .ok (landHit (attackResp false a tid) world target
                (max 0 (max 0 (meleeReductionOf world target) - 2 * damageAmount))))) ∧
      (∀ damageAmount p,
        calcDamageAmount src 2 world attacker = .ok ((damageAmount, items.RangeDamage), p) →
        RangeAttackRequest.Execute { AttackerID := a, TargetID := tid } src world
            = .ok (landHit (attackResp true a tid) world target
                (totalDamageOf (rangeReductionOf world target) (wrap (damageAmount * 2)))) ∧
        (damageAmount < 4611686018427387904 →
          wrap (damageAmount * 2) = 2 * damageAmount ∧
          RangeAttackRequest.Execute { AttackerID := a, TargetID := tid } src world
            = .ok (landHit (attackResp true a tid) world target
                (max 0 (max 0 (rangeReductionOf world target) - 2 * damageAmount)))))) := by
  refine ⟨utils.Roll_one src 0 (by decide), utils.Roll_one src 1 (by decide),
    ⟨_, calcAttackRoll_eq src attacker⟩, ?_, ?_, ?_⟩
  · unfold criticalOf
    by_cases h20 : d20Of src = 20
    · simp [h20]
    · simp [h20]
  · intro ac roll
    simp [isHit]
  · intro hcrit
    have hhit : isHit (criticalOf src attacker) (armorClassOf target)
        (attackRollOf src attacker) = true := by
      rw [hcrit]
      simp [isHit]
    have hexact : ∀ (red dmg : Int), IsInt64 red → 0 ≤ dmg → dmg < 4611686018427387904 →
        wrap (dmg * 2) = 2 * dmg ∧
        totalDamageOf red (wrap (dmg * 2)) = max 0 (max 0 red - 2 * dmg) := by
      intro red dmg hred h0 h1
      have hw : wrap (dmg * 2) = 2 * dmg := by
        rw [wrap_double h0 h1, mul_comm]
      refine ⟨hw, ?_⟩
      rw [hw]
      exact totalDamageOf_exact
        (isInt64_armor_sub hred (by omega) (by unfold MaxInt64; omega))
    refine ⟨?_, ?_, ?_, ?_⟩
    · intro world' m err h
      rw [melee_Execute_eq _ src world attacker target hA hT] at h
      obtain ⟨d, hr, hm⟩ := attack_hit_aux _ target _ _ _ _ _ _ h
      simp only [attackResp, Bool.false_eq_true, if_false, Response.melee.injEq] at hm
      rw [hm, hhit]
    · intro world' m err h
      rw [range_Execute_eq _ src world attacker target hA hT] at h
      obtain ⟨d, hr, hm⟩ := attack_hit_aux _ target _ _ _ _ _ _ h
      simp only [attackResp, if_true, Response.range.injEq] at hm
      rw [hm, hhit]
    · intro dmg p hd
      have hex : MeleeAttackRequest.Execute { AttackerID := a, TargetID := tid } src world
          = .ok (landHit (attackResp false a tid) world target
              (totalDamageOf (meleeReductionOf world target) (wrap (dmg * 2)))) := by
        rw [melee_Execute_eq _ src world attacker target hA hT, if_pos hhit, hd]
        simp only [if_true, hcrit]
      refine ⟨hex, fun hlt => ?_⟩
      obtain ⟨hw, ht⟩ := hexact _ dmg (meleeReductionOf_isInt64 world target)
        (calcDamageAmount_nonneg hd) hlt
      exact ⟨hw, by rw [hex, ht]⟩
    · intro dmg p hd
      have hex : RangeAttackRequest.Execute { AttackerID := a, TargetID := tid } src world
          = .ok (landHit (attackResp true a tid) world target
              (totalDamageOf (rangeReductionOf world target) (wrap (dmg * 2)))) := by
        rw [range_Execute_eq _ src world attacker target hA hT, if_pos hhit, hd]
        simp only [if_true, hcrit]
      refine ⟨hex, fun hlt => ?_⟩
      obtain ⟨hw, ht⟩ := hexact _ dmg (rangeReductionOf_isInt64 world target)
        (calcDamageAmount_nonneg hd) hlt
      exact ⟨hw, by rw [hex, ht]⟩

/-- C11 at a natural 20: the actor rolls 20 on the d20 against the wall, the
attack is critical and the unarmed damage 1 enters the armor combination as 2:
the plate (melee reduction 50) makes it 48. -/
theorem C11_critical_hits_witness :
    samples.doorBeforeWall.Objects.FromID 1 = (samples.actor, true) ∧
    samples.doorBeforeWall.Objects.FromID 3 = (samples.wall, true) ∧
    d20Of (fun _ => 20) = 20 ∧
    criticalOf (fun _ => 20) samples.actor = true ∧
    calcDamageAmount (fun _ => 20) 2 samples.doorBeforeWall samples.actor
      = .ok ((1, items.MeleeDamage), 3) ∧
    MeleeAttackRequest.Execute { AttackerID := 1, TargetID := 3 } (fun _ => 20)
        samples.doorBeforeWall
      = .ok (landHit (attackResp false 1 3) samples.doorBeforeWall samples.wall
          (max 0 (max 0 (meleeReductionOf samples.doorBeforeWall samples.wall) - 2 * 1))) ∧
    max 0 (max 0 (meleeReductionOf samples.doorBeforeWall samples.wall) - 2 * 1) = 48 :=
  ⟨rfl, rfl, by decide, by decide, rfl,
    ((C11_critical_hits samples.doorBeforeWall (fun _ => 20) 1 3 samples.actor samples.wall
      rfl rfl).2.2.2.2.2 (by decide) |>.2.2.1 1 3 rfl).2 (by decide) |>.2,
    by decide⟩

/-- C12. Miss: for every melee or range attack with attacker and target present
that is not a hit (not critical, attack roll below the armor class), `Execute`
succeeds, returns the input world unchanged, and the response has
`DidHit = false`, `Damage = 0` and `HealthRemaining` equal to the current health
of the target. -/
theorem C12_miss (world : World) (src : Source) (a tid : UUID) (attacker target : Entity)
    (hA : world.Objects.FromID a = (attacker, true))
    (hT : world.Objects.FromID tid = (target, true))
    (hmiss : ¬ (criticalOf src attacker = true ∨
      d20Of src + Attribute.Modifier attacker.Attributes.Strength
        ≥ 10 + Attribute.Modifier target.Attributes.Dexterity)) :
    MeleeAttackRequest.Execute { AttackerID := a, TargetID := tid } src world
      = .ok (world, some (Response.melee {
          AttackerID := a, TargetID := tid, DidHit := false, Damage := 0,
          HealthRemaining := target.Health }), none) ∧
    RangeAttackRequest.Execute { AttackerID := a, TargetID := tid } src world
      = .ok (world, some (Response.range {
          AttackerID := a, TargetID := tid, DidHit := false, Damage := 0,
          HealthRemaining := target.Health }), none) := by
  have hno : ¬ isHit (criticalOf src attacker) (armorClassOf target)
      (attackRollOf src attacker) = true := by
    intro h
    exact hmiss ((isHit_iff _ _ _).1 h)
  constructor
  · rw [melee_Execute_eq _ src world attacker target hA hT, if_neg hno]
    rfl
  · rw [range_Execute_eq _ src world attacker target hA hT, if_neg hno]
    rfl

/-- C12 at the actor rolling 6 against the wall (armor class 10). -/
theorem C12_miss_witness :
    samples.doorBeforeWall.Objects.FromID 1 = (samples.actor, true) ∧
    samples.doorBeforeWall.Objects.FromID 3 = (samples.wall, true) ∧
    MeleeAttackRequest.Execute { AttackerID := 1, TargetID := 3 } samples.six
        samples.doorBeforeWall
      = .ok (samples.doorBeforeWall, some (Response.melee {
          AttackerID := 1, TargetID := 3, DidHit := false, Damage := 0,
          HealthRemaining := 10 }), none) :=
  ⟨rfl, rfl,
    (C12_miss samples.doorBeforeWall samples.six 1 3 samples.actor samples.wall rfl rfl
      (by decide)).1⟩

/-- C13, refuted as stated: the doubling wraps around. The giant rolls a natural
20 against the door (health 10, no chest item); `calcDamageAmount` returns
`3 * 2^61`, so `d = 3 * 2^62`, `total = max 0 (max 0 0 - d) = 0` and the new
health would be 10, the door updated in place with `Damage = 0`; the code
removes the door and reports `Damage = 2^62`, `HealthRemaining = 0`. -/
theorem C13_counterexample :
    samples.giantWorld.Objects.FromID 1 = (samples.giant, true) ∧
    samples.giantWorld.Objects.FromID 2 = (samples.door, true) ∧
    criticalOf samples.twenty samples.giant = true ∧
    calcDamageAmount samples.twenty 2 samples.giantWorld samples.giant
      = .ok ((6917529027641081856, items.MeleeDamage), 4) ∧
    (samples.giantWorld.Items.FromID samples.door.Equipment.ChestID).2 = false ∧
    max 0 (max 0 0 - 6917529027641081856 * 2) = (0 : Int) ∧
    ¬ (samples.door.Health - 0 ≤ 0) ∧
    MeleeAttackRequest.Execute { AttackerID := 1, TargetID := 2 } samples.twenty
        samples.giantWorld
      = .ok ({ samples.giantWorld with Objects := [samples.giant] },
          some (Response.melee {
            AttackerID := 1, TargetID := 2, DidHit := true,
            Damage := 4611686018427387904, HealthRemaining := 0 }), none) :=
  ⟨rfl, rfl, by decide, rfl, rfl, by decide, by decide, rfl⟩

/-- C13, amended. Hit outcome: for every melee (resp. range) attack with
attacker and target present that hits, with `calcDamageAmount` returning a
damage of the melee (resp. range) type, let `d` be that damage, doubled on a
critical, `r` the `MeleeReduction` (resp. `RangeReduction`) of the chest item of
the target, or 0 if it has none, and `total = max 0 (max 0 r - d)`. Provided no
operation overflows 64 bits (the damage is below `2^62` when it is doubled, and
`Health - total` is a value of `int`): if `Health - total <= 0` the entities
with the identifier of the target are removed and the response reports
`HealthRemaining = 0`; otherwise the target is replaced in place by itself with
health `Health - total` and the response reports that health. In both cases
`DidHit = true` and `Damage = total`. -/
theorem C13_hit_outcome (world : World) (src : Source) (a tid : UUID)
    (attacker target : Entity) (damageAmount d r total : Int) (p : Nat)
    (hA : world.Objects.FromID a = (attacker, true))
    (hT : world.Objects.FromID tid = (target, true))
    (hhit : criticalOf src attacker = true ∨
      d20Of src + Attribute.Modifier attacker.Attributes.Strength
        ≥ 10 + Attribute.Modifier target.Attributes.Dexterity)
    (hd : d = if criticalOf src attacker then damageAmount * 2 else damageAmount)
    (hdouble : criticalOf src attacker = true → damageAmount < 4611686018427387904)
    (hr64 : IsInt64 r)
    (htotal : total = max 0 (max 0 r - d))
    (hhealth : IsInt64 (target.Health - total)) :
    (calcDamageAmount src 2 world attacker = .ok ((damageAmount, items.MeleeDamage), p) →
      ((∃ item, world.Items.FromID target.Equipment.ChestID = (item, true) ∧
          r = item.Armor.MeleeReduction) ∨
        ((world.Items.FromID target.Equipment.ChestID).2 = false ∧ r = 0)) →
      MeleeAttackRequest.Execute { AttackerID := a, TargetID := tid } src world =
        if target.Health - total ≤ 0 then
          .ok ({ world with Objects := world.Objects.without target.ID },
            some (Response.melee {
              AttackerID := a, TargetID := tid, DidHit := true, Damage := total,
              HealthRemaining := 0 }), none)
        else
          .ok ({ world with
              Objects := world.Objects.withEntity
                { target with Health := target.Health - total } },
            some (Response.melee {
              AttackerID := a, TargetID := tid, DidHit := true, Damage := total,
              HealthRemaining := target.Health - total }), none)) ∧
    (calcDamageAmount src 2 world attacker = .ok ((damageAmount, items.RangeDamage), p) →
      ((∃ item, world.Items.FromID target.Equipment.ChestID = (item, true) ∧
          r = item.Armor.RangeReduction) ∨
        ((world.Items.FromID target.Equipment.ChestID).2 = false ∧ r = 0)) →
      RangeAttackRequest.Execute { AttackerID := a, TargetID := tid } src world =
        if target.Health - total ≤ 0 then
          .ok ({ world with Objects := world.Objects.without target.ID },
            some (Response.range {
              AttackerID := a, TargetID := tid, DidHit := true, Damage := total,
              HealthRemaining := 0 }), none)
        else
          .ok ({ world with
              Objects := world.Objects.withEntity
                { target with Health := target.Health - total } },
            some (Response.range {
              AttackerID := a, TargetID := tid, DidHit := true, Damage := total,
              HealthRemaining := target.Health - total }), none)) := by
  have key : ∀ ty, calcDamageAmount src 2 world attacker = .ok ((damageAmount, ty), p) →
      d = (if criticalOf src attacker then wrap (damageAmount * 2) else damageAmount) ∧
      total = max 0 (wrap (max 0 r - d)) := by
    intro ty hdmg
    have h0 := calcDamageAmount_nonneg hdmg
    have h1 := calcDamageAmount_le hdmg
    have hd' : d = (if criticalOf src attacker then wrap (damageAmount * 2)
        else damageAmount) := by
      rw [hd]
      by_cases hc : criticalOf src attacker = true
      · rw [if_pos hc, if_pos hc, wrap_double h0 (hdouble hc)]
      · rw [if_neg hc, if_neg hc]
    have hdb : 0 ≤ d ∧ d ≤ MaxInt64 := by
      rw [hd]
      by_cases hc : criticalOf src attacker = true
      · rw [if_pos hc]
        have := hdouble hc
        unfold MaxInt64
        constructor <;> omega
      · rw [if_neg hc]
        exact ⟨h0, h1⟩
    exact ⟨hd', by rw [htotal, wrap_eq (isInt64_armor_sub hr64 hdb.1 hdb.2)]⟩
  constructor
  · intro hdmg hr
    obtain ⟨hd', ht'⟩ := key _ hdmg
    have h := attack_hit_outcome world src a tid attacker target damageAmount d r total p false
      hA hT hhit hdmg hd' hr hr64 ht'
    rw [wrap_eq hhealth] at h
    exact h
  · intro hdmg hr
    obtain ⟨hd', ht'⟩ := key _ hdmg
    have h := attack_hit_outcome world src a tid attacker target damageAmount d r total p true
      hA hT hhit hdmg hd' hr hr64 ht'
    rw [wrap_eq hhealth] at h
    exact h

/-- C13 at the archer shooting the wall: the damage 1 against the range
reduction 4 of the plate gives total 3, and the wall stays with health 7. -/
theorem C13_hit_outcome_witness :
    samples.archerAndWall.Objects.FromID 1 = (samples.archer, true) ∧
    samples.archerAndWall.Objects.FromID 3 = (samples.wall, true) ∧
    calcDamageAmount samples.fifteen 2 samples.archerAndWall samples.archer
      = .ok ((1, items.RangeDamage), 4) ∧
    samples.archerAndWall.Items.FromID samples.wall.Equipment.ChestID = (samples.plate, true) ∧
    RangeAttackRequest.Execute { AttackerID := 1, TargetID := 3 } samples.fifteen
        samples.archerAndWall
      = .ok ({ samples.archerAndWall with
            Objects := [samples.archer, { samples.wall with Health := 7 }] },
          some (Response.range {
            AttackerID := 1, TargetID := 3, DidHit := true, Damage := 3,
            HealthRemaining := 7 }), none) :=
  ⟨rfl, rfl, rfl, rfl,
    ((C13_hit_outcome samples.archerAndWall samples.fifteen 1 3 samples.archer samples.wall
      1 1 4 3 4 rfl rfl (by decide) (by decide) (by decide) (by decide) (by decide)
      (by decide)).2 rfl (Or.inl ⟨samples.plate, rfl, rfl⟩)).trans rfl⟩

/-- C14, as stated, fails: the strong actor (Strength 20, modifier 5) has no
primary item, the unarmed d4 roll is 1, and `calcDamageAmount` returns 1, not
`max 0 (1 + 5)`: no modifier is added to the unarmed roll. And the sums wrap
around: the bearer (Strength modifier 0) holds a weapon of modifier `MaxInt64`
whose die shows 1, and `calcDamageAmount` returns 0, not
`max 0 (1 + MaxInt64 + 0)`. -/
theorem C14_counterexample :
    (samples.strongAlone.Items.FromID samples.strong.Equipment.PrimaryItemID).2 = false ∧
    utils.Roll samples.fifteen 2 1 4 = .ok (1, 3) ∧
    Attribute.Modifier samples.strong.Attributes.Strength = 5 ∧
    calcDamageAmount samples.fifteen 2 samples.strongAlone samples.strong
      = .ok ((1, items.MeleeDamage), 3) ∧
    (1 : Int) ≠ max 0 (1 + Attribute.Modifier samples.strong.Attributes.Strength) ∧
    samples.bearerWorld.Items.FromID samples.bearer.Equipment.PrimaryItemID
      = (samples.overloaded, true) ∧
    utils.Roll samples.fifteen 3 samples.overloaded.Damage.RollAmount
        samples.overloaded.Damage.DieRange = .ok (1, 4) ∧
    Attribute.Modifier samples.bearer.Attributes.Strength = 0 ∧
    calcDamageAmount samples.fifteen 2 samples.bearerWorld samples.bearer
      = .ok ((0, items.MeleeDamage), 4) ∧
    (0 : Int) ≠ max 0 (1 + samples.overloaded.Damage.Modifier +
      Attribute.Modifier samples.bearer.Attributes.Strength) :=
  ⟨rfl, rfl, by decide, rfl, by decide, rfl, rfl, by decide, rfl, by decide⟩

/-- C14, amended. `calcDamageAmount` returns `max 0 (base + m)` and the damage
type. If the primary item of the attacker is not in `world.Items`, `base` is the
unarmed 1d4 roll, the type is melee and `m = 0`: no attribute modifier is added
to the unarmed default. If it is, then whenever its dice are rolled (which
happens as soon as `0 <= DieRange < MaxInt64` or `RollAmount <= 0`) and the
sums `base` and `base + m` are values of `int` (they wrap around otherwise),
`base` is that roll of `RollAmount` dice of `DieRange` plus the `Modifier` of
the item, the type is that of the item, and `m` is the Strength modifier of the
attacker for a melee item, the Dexterity modifier for a range item, and 0 for
any other type. -/
theorem C14_damage_value (world : World) (src : Source) (pos : Nat) (attacker : Entity) :
    ((world.Items.FromID attacker.Equipment.PrimaryItemID).2 = false →
      utils.Roll src pos 1 4 = .ok (utils.die src pos 4, pos + 1) ∧
      calcDamageAmount src pos world attacker
        = .ok ((max 0 (utils.die src pos 4 + 0), items.MeleeDamage), pos + 1)) ∧
    (∀ item, world.Items.FromID attacker.Equipment.PrimaryItemID = (item, true) →
      (∀ roll p,
        utils.Roll src (pos + 1) item.Damage.RollAmount item.Damage.DieRange = .ok (roll, p) →
        IsInt64 (roll + item.Damage.Modifier) →
        IsInt64 (roll + item.Damage.Modifier +
          (if item.Damage.Typ = items.MeleeDamage then
            Attribute.Modifier attacker.Attributes.Strength
          else if item.Damage.Typ = items.RangeDamage then
            Attribute.Modifier attacker.Attributes.Dexterity
          else 0)) →
        calcDamageAmount src pos world attacker
          = .ok ((max 0 (roll + item.Damage.Modifier +
              (if item.Damage.Typ = items.MeleeDamage then
                Attribute.Modifier attacker.Attributes.Strength
              else if item.Damage.Typ = items.RangeDamage then
                Attribute.Modifier attacker.Attributes.Dexterity
              else 0)), item.Damage.Typ), p)) ∧
      ((0 ≤ item.Damage.DieRange ∧ item.Damage.DieRange < MaxInt64) ∨
          item.Damage.RollAmount ≤ 0 →
        ∃ roll p,
          utils.Roll src (pos + 1) item.Damage.RollAmount item.Damage.DieRange
            = .ok (roll, p))) := by
  refine ⟨fun hI => ⟨utils.Roll_one src pos (by decide), ?_⟩, fun item hI => ⟨?_, ?_⟩⟩
  · rw [add_zero]
    exact calcDamageAmount_unarmed src pos world attacker hI
  · intro roll p hroll hbase hsum
    exact calcDamageAmount_item_exact src pos world attacker item roll p hI hroll hbase hsum
  · intro hdice
    obtain ⟨⟨roll, p⟩, h⟩ := utils.Roll_returns src (pos + 1) hdice
    exact ⟨roll, p, h⟩

/-- C14, amended, at the archer: the bow rolls 1, the Dexterity modifier of the
archer is 0 and the damage is 1 of the range type. -/
theorem C14_damage_value_witness :
    samples.archerAndWall.Items.FromID samples.archer.Equipment.PrimaryItemID
      = (samples.bow, true) ∧
    utils.Roll samples.fifteen 3 samples.bow.Damage.RollAmount samples.bow.Damage.DieRange
      = .ok (1, 4) ∧
    calcDamageAmount samples.fifteen 2 samples.archerAndWall samples.archer
      = .ok ((1, items.RangeDamage), 4) :=
  ⟨rfl, rfl,
    (((C14_damage_value samples.archerAndWall samples.fifteen 2 samples.archer).2
      samples.bow rfl).1 1 4 rfl (by decide) (by decide)).trans rfl⟩

/-- C15, as stated, fails: the archer holds the bow, a range weapon, and its
melee attack on the wall with a d20 roll of 6 is answered by the miss response,
without error. -/
theorem C15_counterexample :
    samples.archerAndWall.Objects.FromID 1 = (samples.archer, true) ∧
    samples.archerAndWall.Objects.FromID 3 = (samples.wall, true) ∧
    samples.archerAndWall.Items.FromID samples.archer.Equipment.PrimaryItemID
      = (samples.bow, true) ∧
    samples.bow.Damage.Typ ≠ items.MeleeDamage ∧
    MeleeAttackRequest.Execute { AttackerID := 1, TargetID := 3 } samples.six
        samples.archerAndWall
      = .ok (samples.archerAndWall, some (Response.melee {
          AttackerID := 1, TargetID := 3, DidHit := false, Damage := 0,
          HealthRemaining := 10 }), none) :=
  ⟨rfl, rfl, rfl, by decide, rfl⟩

/-- C15, amended. With attacker and target present, the weapon is examined only
when the attack hits. If it hits, `MeleeAttackRequest.Execute` fails with the
world unchanged whenever the primary item of the attacker exists, has a
non-melee damage type and its dice can be rolled, and
`RangeAttackRequest.Execute` fails with the world unchanged whenever the
attacker has no primary item, or has one whose damage type is not range and
whose dice can be rolled. If it misses, both return the miss response without
error, whatever the weapon. (The dice of an item can be rolled when its
`RollAmount` is not positive, or its `DieRange` is not negative and below
`MaxInt64`: `rand.Intn(DieRange + 1)` then gets a positive argument.) -/
theorem C15_weapon_mismatch (world : World) (src : Source) (a tid : UUID)
    (attacker target : Entity)
    (hA : world.Objects.FromID a = (attacker, true))
    (hT : world.Objects.FromID tid = (target, true)) :
    ((criticalOf src attacker = true ∨
        d20Of src + Attribute.Modifier attacker.Attributes.Strength
          ≥ 10 + Attribute.Modifier target.Attributes.Dexterity) →
      (∀ item, world.Items.FromID attacker.Equipment.PrimaryItemID = (item, true) →
        item.Damage.Typ ≠ items.MeleeDamage →
        ((0 ≤ item.Damage.DieRange ∧ item.Damage.DieRange < MaxInt64) ∨
          item.Damage.RollAmount ≤ 0) →
        MeleeAttackRequest.Execute { AttackerID := a, TargetID := tid } src world
          = .ok (world, none, some Err.nonMeleeWeapon)) ∧
      ((world.Items.FromID attacker.Equipment.PrimaryItemID).2 = false →
        RangeAttackRequest.Execute { AttackerID := a, TargetID := tid } src world
          = .ok (world, none, some Err.nonRangeWeapon)) ∧
      (∀ item, world.Items.FromID attacker.Equipment.PrimaryItemID = (item, true) →
        item.Damage.Typ ≠ items.RangeDamage →
        ((0 ≤ item.Damage.DieRange ∧ item.Damage.DieRange < MaxInt64) ∨
          item.Damage.RollAmount ≤ 0) →
        RangeAttackRequest.Execute { AttackerID := a, TargetID := tid } src world
          = .ok (world, none, some Err.nonRangeWeapon))) ∧
    (¬ (criticalOf src attacker = true ∨
        d20Of src + Attribute.Modifier attacker.Attributes.Strength
          ≥ 10 + Attribute.Modifier target.Attributes.Dexterity) →
      MeleeAttackRequest.Execute { AttackerID := a, TargetID := tid } src world
        = .ok (world, some (Response.melee {
            AttackerID := a, TargetID := tid, DidHit := false, Damage := 0,
            HealthRemaining := target.Health }), none) ∧
      RangeAttackRequest.Execute { AttackerID := a, TargetID := tid } src world
        = .ok (world, some (Response.range {
            AttackerID := a, TargetID := tid, DidHit := false, Damage := 0,
            HealthRemaining := target.Health }), none)) := by
  constructor
  · intro hhit
    have hit : isHit (criticalOf src attacker) (armorClassOf target)
        (attackRollOf src attacker) = true := (isHit_iff _ _ _).2 hhit
    refine ⟨?_, ?_, ?_⟩
    · intro item hI hty hdice
      obtain ⟨⟨roll, p⟩, hroll⟩ := utils.Roll_returns src (2 + 1) hdice
      rw [melee_Execute_eq _ src world attacker target hA hT, if_pos hit,
        calcDamageAmount_item src 2 world attacker item roll p hI hroll]
      dsimp only
      rw [if_neg hty]
    · intro hI
      rw [range_Execute_eq _ src world attacker target hA hT, if_pos hit,
        calcDamageAmount_unarmed src 2 world attacker hI]
      dsimp only
      rw [if_neg (by decide)]
    · intro item hI hty hdice
      obtain ⟨⟨roll, p⟩, hroll⟩ := utils.Roll_returns src (2 + 1) hdice
      rw [range_Execute_eq _ src world attacker target hA hT, if_pos hit,
        calcDamageAmount_item src 2 world attacker item roll p hI hroll]
      dsimp only
      rw [if_neg hty]
  · intro hmiss
    have hno : ¬ isHit (criticalOf src attacker) (armorClassOf target)
        (attackRollOf src attacker) = true := fun h => hmiss ((isHit_iff _ _ _).1 h)
    constructor
    · rw [melee_Execute_eq _ src world attacker target hA hT, if_neg hno]
      rfl
    · rw [range_Execute_eq _ src world attacker target hA hT, if_neg hno]
      rfl

/-- C15, amended, at the archer hitting the wall in melee with the bow. -/
theorem C15_weapon_mismatch_witness :
    samples.archerAndWall.Objects.FromID 1 = (samples.archer, true) ∧
    samples.archerAndWall.Objects.FromID 3 = (samples.wall, true) ∧
    samples.archerAndWall.Items.FromID samples.archer.Equipment.PrimaryItemID
      = (samples.bow, true) ∧
    MeleeAttackRequest.Execute { AttackerID := 1, TargetID := 3 } samples.fifteen
        samples.archerAndWall
      = .ok (samples.archerAndWall, none, some Err.nonMeleeWeapon) :=
  ⟨rfl, rfl, rfl,
    ((C15_weapon_mismatch samples.archerAndWall samples.fifteen 1 3 samples.archer
      samples.wall rfl rfl).1 (by decide)).1 samples.bow rfl (by decide) (by decide)⟩

/-- C16. Open/Close effect: in a world with pairwise distinct identifiers in
which actor and target are present, the timer of the actor is ready and the
target is Toggleable, `OpenRequest.Execute` (resp. `CloseRequest.Execute`)
succeeds with the `ToggleResponse` naming actor and target with `IsOpen` true
(resp. false), and the returned world is the input world in which the entity
with the identifier of the target has `Passability.IsOpen` true (resp. false):
the order of the collection, every other entity, every other field of the
target and the items are unchanged. -/
theorem C16_open_close_effect (world : World) (now : Int) (a tid : UUID)
    (actor target : Entity) (hids : world.Objects.ids.Nodup)
    (hA : world.Objects.FromID a = (actor, true))
    (hT : world.Objects.FromID tid = (target, true))
    (hready : actor.Timer.Ready now = true)
    (hty : target.Passability.Typ = Toggleable) :
    OpenRequest.Execute { ActorID := a, TargetID := tid } now world
      = .ok ({ world with
          Objects := world.Objects.map (fun e =>
            if e.ID = tid then
              { e with Passability := { e.Passability with IsOpen := true } }
            else e) },
        some (Response.toggle { ActorID := a, TargetID := tid, IsOpen := true }), none) ∧
    CloseRequest.Execute { ActorID := a, TargetID := tid } now world
      = .ok ({ world with
          Objects := world.Objects.map (fun e =>
            if e.ID = tid then
              { e with Passability := { e.Passability with IsOpen := false } }
            else e) },
        some (Response.toggle { ActorID := a, TargetID := tid, IsOpen := false }), none) := by
  constructor
  · rw [open_Execute_eq _ now world actor target hA hT, if_neg (not_not.2 hready),
      if_neg (not_not.2 hty)]
    have := withEntity_eq_map hids hT
      (fun e => { e with Passability := { e.Passability with IsOpen := true } }) rfl
    dsimp only at this
    rw [this]
  · rw [close_Execute_eq _ now world actor target hA hT, if_neg (not_not.2 hready),
      if_neg (not_not.2 hty)]
    have := withEntity_eq_map hids hT
      (fun e => { e with Passability := { e.Passability with IsOpen := false } }) rfl
    dsimp only at this
    rw [this]

/-- C16 at the actor opening the closed door. -/
theorem C16_open_close_effect_witness :
    samples.withDoor.Objects.ids.Nodup ∧
    samples.withDoor.Objects.FromID 1 = (samples.actor, true) ∧
    samples.withDoor.Objects.FromID 2 = (samples.door, true) ∧
    OpenRequest.Execute { ActorID := 1, TargetID := 2 } 0 samples.withDoor
      = .ok ({ samples.withDoor with
          Objects := [samples.actor,
            { samples.door with Passability := { Typ := Toggleable, IsOpen := true } }] },
        some (Response.toggle { ActorID := 1, TargetID := 2, IsOpen := true }), none) :=
  ⟨by decide, rfl, rfl,
    (C16_open_close_effect samples.withDoor 0 1 2 samples.actor samples.door (by decide)
      rfl rfl rfl rfl).1.trans rfl⟩

/-- C17. Open/Close fail exactly when required: `OpenRequest.Execute` and
`CloseRequest.Execute` always return, and they return an error iff the actor is
absent, or the target is absent, or the timer of the actor is not ready, or the
passability type of the target is not Toggleable; with every error the returned
world is the input world and there is no response. -/
theorem C17_open_close_fail_iff (world : World) (now : Int) (a tid : UUID) :
    ((∃ x, OpenRequest.Execute { ActorID := a, TargetID := tid } now world = .ok x) ∧
      ((∃ world' resp e, OpenRequest.Execute { ActorID := a, TargetID := tid } now world
          = .ok (world', resp, some e)) ↔
        (world.Objects.Absent a ∨ world.Objects.Absent tid ∨
          (∃ actor, world.Objects.FromID a = (actor, true) ∧ actor.Timer.Ready now = false) ∨
          (∃ target, world.Objects.FromID tid = (target, true) ∧
            target.Passability.Typ ≠ Toggleable))) ∧
      (∀ world' resp e, OpenRequest.Execute { ActorID := a, TargetID := tid } now world
          = .ok (world', resp, some e) → world' = world ∧ resp = none)) ∧
    ((∃ x, CloseRequest.Execute { ActorID := a, TargetID := tid } now world = .ok x) ∧
      ((∃ world' resp e, CloseRequest.Execute { ActorID := a, TargetID := tid } now world
          = .ok (world', resp, some e)) ↔
        (world.Objects.Absent a ∨ world.Objects.Absent tid ∨
          (∃ actor, world.Objects.FromID a = (actor, true) ∧ actor.Timer.Ready now = false) ∨
          (∃ target, world.Objects.FromID tid = (target, true) ∧
            target.Passability.Typ ≠ Toggleable))) ∧
      (∀ world' resp e, CloseRequest.Execute { ActorID := a, TargetID := tid } now world
          = .ok (world', resp, some e) → world' = world ∧ resp = none)) :=
  ⟨open_error_iff { ActorID := a, TargetID := tid } now world,
    close_error_iff { ActorID := a, TargetID := tid } now world⟩

/-- C17 at the actor closing the wall, which is not Toggleable: an error, and
the world is returned as it was. -/
theorem C17_open_close_fail_iff_witness :
    (∃ world' resp e, CloseRequest.Execute { ActorID := 1, TargetID := 3 } 0
        samples.doorBeforeWall = .ok (world', resp, some e)) ∧
    (∀ world' resp e, CloseRequest.Execute { ActorID := 1, TargetID := 3 } 0
        samples.doorBeforeWall = .ok (world', resp, some e) →
      world' = samples.doorBeforeWall ∧ resp = none) :=
  ⟨(C17_open_close_fail_iff samples.doorBeforeWall 0 1 3).2.2.1.2
      (Or.inr (Or.inr (Or.inr ⟨samples.wall, rfl, by decide⟩))),
    (C17_open_close_fail_iff samples.doorBeforeWall 0 1 3).2.2.2⟩

/-- C18, as stated, fails: the actor opens the closed door at the clock value `samples.today` and
gets `IsOpen = true`; the same request repeated at once on the returned world,
at the same clock value, is not rejected: it succeeds again. -/
theorem C18_counterexample :
    samples.withDoor.Objects.FromID 1 = (samples.actor, true) ∧
    samples.actor.Timer.Ready samples.today = true ∧
    samples.withDoor.Objects.FromID 2 = (samples.door, true) ∧
    samples.door.Passability = { Typ := Toggleable, IsOpen := false } ∧
    OpenRequest.Execute { ActorID := 1, TargetID := 2 } samples.today samples.withDoor
      = .ok ({ samples.withDoor with
          Objects := [samples.actor,
            { samples.door with Passability := { Typ := Toggleable, IsOpen := true } }] },
        some (Response.toggle { ActorID := 1, TargetID := 2, IsOpen := true }), none) ∧
    OpenRequest.Execute { ActorID := 1, TargetID := 2 } samples.today
        { samples.withDoor with
          Objects := [samples.actor,
            { samples.door with Passability := { Typ := Toggleable, IsOpen := true } }] }
      = .ok ({ samples.withDoor with
          Objects := [samples.actor,
            { samples.door with Passability := { Typ := Toggleable, IsOpen := true } }] },
        some (Response.toggle { ActorID := 1, TargetID := 2, IsOpen := true }), none) :=
  ⟨rfl, rfl, rfl, rfl, rfl, rfl⟩

/-- C18, amended. An open request against a Toggleable target by a present
actor whose timer is ready returns a response with `IsOpen = true` and leaves
the timer of the actor as it was; the same request repeated at once on the
returned world, at the same clock value, succeeds again with `IsOpen = true`
and returns that world unchanged. -/
theorem C18_repeated_open (world : World) (now : Int) (a tid : UUID) (actor target : Entity)
    (hA : world.Objects.FromID a = (actor, true))
    (hT : world.Objects.FromID tid = (target, true))
    (hready : actor.Timer.Ready now = true)
    (hty : target.Passability.Typ = Toggleable) :
    ∃ world1,
      OpenRequest.Execute { ActorID := a, TargetID := tid } now world
        = .ok (world1,
            some (Response.toggle { ActorID := a, TargetID := tid, IsOpen := true }), none) ∧
      (∃ actor1, world1.Objects.FromID a = (actor1, true) ∧ actor1.Timer = actor.Timer) ∧
      OpenRequest.Execute { ActorID := a, TargetID := tid } now world1
        = .ok (world1,
            some (Response.toggle { ActorID := a, TargetID := tid, IsOpen := true }), none) := by
  have hfirst := open_Execute_eq { ActorID := a, TargetID := tid } now world actor target hA hT
  rw [if_neg (not_not.2 hready), if_neg (not_not.2 hty)] at hfirst
  have hA1 := FromID_withEntity
    { target with Passability := { target.Passability with IsOpen := true } } hA
  have hT1 := FromID_withEntity
    { target with Passability := { target.Passability with IsOpen := true } } hT
  rw [if_pos rfl] at hT1
  have htimer : (if actor.ID = target.ID then
      ({ target with Passability := { target.Passability with IsOpen := true } } : Entity)
      else actor).Timer = actor.Timer := by
    by_cases hid : actor.ID = target.ID
    · have hat : a = tid := by
        rw [← (FromID_found hA).2, ← (FromID_found hT).2, hid]
      rw [hat, hT] at hA
      simp only [Prod.mk.injEq, and_true] at hA
      rw [if_pos hid, ← hA]
    · rw [if_neg hid]
  refine ⟨_, hfirst, ⟨_, hA1, htimer⟩, ?_⟩
  have hsecond := open_Execute_eq { ActorID := a, TargetID := tid } now
    { world with
      Objects := world.Objects.withEntity
        { target with Passability := { target.Passability with IsOpen := true } } }
    _ _ hA1 hT1
  have hready1 : ¬ ¬ Timer.Ready (if actor.ID = target.ID then
      ({ target with Passability := { target.Passability with IsOpen := true } } : Entity)
      else actor).Timer now = true := by
    rw [htimer]
    exact not_not.2 hready
  rw [if_neg hready1, if_neg (not_not.2 hty)] at hsecond
  rw [hsecond]
  dsimp only
  rw [withEntity_idem]

/-- C18, amended, at the actor opening the closed door twice. -/
theorem C18_repeated_open_witness :
    samples.withDoor.Objects.FromID 1 = (samples.actor, true) ∧
    samples.withDoor.Objects.FromID 2 = (samples.door, true) ∧
    ∃ world1,
      OpenRequest.Execute { ActorID := 1, TargetID := 2 } 0 samples.withDoor
        = .ok (world1,
            some (Response.toggle { ActorID := 1, TargetID := 2, IsOpen := true }), none) ∧
      (∃ actor1, world1.Objects.FromID 1 = (actor1, true) ∧
        actor1.Timer = samples.actor.Timer) ∧
      OpenRequest.Execute { ActorID := 1, TargetID := 2 } 0 world1
        = .ok (world1,
            some (Response.toggle { ActorID := 1, TargetID := 2, IsOpen := true }), none) :=
  ⟨rfl, rfl,
    C18_repeated_open samples.withDoor 0 1 2 samples.actor samples.door rfl rfl rfl rfl⟩

/-- C19 at the failing input: the actor at the origin has Wisdom 10, so the view
distance is 10 and its timer is ready; the entities `east` at `(10, 0)` and
`west` at `(-10, 0)` are both at distance 10 on the x axis, inside the box of the
statement; the view returns `west` and the actor, and not `east`: the loops stop
before `X + d` and before `Y + d`. -/
theorem C19_view_box_misses_far_side :
    samples.eastWest.Objects.FromID 1 = (samples.actor, true) ∧
    samples.actor.Timer.Ready samples.today = true ∧
    Attribute.Modifier samples.actor.Attributes.Wisdom + 10 = 10 ∧
    samples.east ∈ samples.eastWest.Objects ∧
    |samples.east.Position.X - samples.actor.Position.X| ≤ 10 ∧
    |samples.east.Position.Y - samples.actor.Position.Y| ≤ 10 ∧
    |samples.west.Position.X - samples.actor.Position.X| ≤ 10 ∧
    ViewRequest.Execute { ActorID := 1 } samples.today samples.eastWest
      = .ok (samples.eastWest,
          some (Response.view { ActorID := 1, Objects := [samples.west, samples.actor] }),
          none) ∧
    samples.east ∉ [samples.west, samples.actor] := by
  refine ⟨rfl, rfl, by decide, by decide, by decide, by decide, by decide, ?_, by decide⟩
  rw [view_Execute_eq { ActorID := 1 } samples.today samples.eastWest samples.actor rfl]
  have hobjs : viewObjects samples.eastWest samples.actor = [samples.west, samples.actor] := by
    decide
  rw [hobjs]
  rfl

/-- C20, as stated, fails: the Wisdom modifier of 20 is 5, not 0, and the view
of the sage (Wisdom 20) at the origin contains the entity `far` at `(12, 0)`,
outside every box of half-width 10. And the box is not scanned at the end of
the grid: for the sage on the column `MaxInt64` the bound `X + 15` wraps around
below `X - 15`, the loops do not run and the view is empty, the sage itself
left out. -/
theorem C20_counterexample :
    samples.sage.Attributes.Wisdom = 20 ∧
    Attribute.Modifier 20 = 5 ∧
    samples.sageAndFar.Objects.FromID 1 = (samples.sage, true) ∧
    |samples.far.Position.X - samples.sage.Position.X| = 12 ∧
    ViewRequest.Execute { ActorID := 1 } samples.today samples.sageAndFar
      = .ok (samples.sageAndFar,
          some (Response.view { ActorID := 1, Objects := [samples.sage, samples.far] }),
          none) ∧
    samples.sageAtEdge.Objects.FromID 1
      = ({ samples.sage with Position := { X := MaxInt64, Y := 0 } }, true) ∧
    wrap (MaxInt64 - 15) = 9223372036854775792 ∧
    wrap (MaxInt64 + 15) = -9223372036854775794 ∧
    ViewRequest.Execute { ActorID := 1 } samples.today samples.sageAtEdge
      = .ok (samples.sageAtEdge, some (Response.view { ActorID := 1, Objects := [] }),
          none) := by
  refine ⟨rfl, by decide, rfl, by decide, ?_, rfl, by decide, by decide, ?_⟩
  · rw [view_Execute_eq { ActorID := 1 } samples.today samples.sageAndFar samples.sage rfl]
    have hobjs : viewObjects samples.sageAndFar samples.sage = [samples.sage, samples.far] := by
      decide
    rw [hobjs]
    rfl
  · rw [view_Execute_eq { ActorID := 1 } samples.today samples.sageAtEdge
      { samples.sage with Position := { X := MaxInt64, Y := 0 } } rfl]
    have hobjs : viewObjects samples.sageAtEdge
        { samples.sage with Position := { X := MaxInt64, Y := 0 } } = [] := by
      decide
    rw [hobjs]
    rfl

/-- C20, amended. For an actor with Wisdom 20 the Wisdom modifier is 5 and a
successful `ViewRequest.Execute` scans, for an actor at least 15 cells away
from the ends of the `int` range on both axes, a bounding box of half-width 15
around the position of the actor: its objects contain every entity of the world
at a distance below 15 on both axes and no entity at a distance above 15 on an
axis. The modifier 0 and the half-width 10 are those of an actor with
Wisdom 10. -/
theorem C20_view_distance (req : ViewRequest) (now : Int) (world : World) (actor : Entity)
    (hA : world.Objects.FromID req.ActorID = (actor, true))
    (hready : actor.Timer.Ready now = true) :
    (actor.Attributes.Wisdom = 20 →
      Attribute.Modifier actor.Attributes.Wisdom = 5 ∧
      (MinInt64 + 15 ≤ actor.Position.X ∧ actor.Position.X ≤ MaxInt64 - 15 →
        MinInt64 + 15 ≤ actor.Position.Y ∧ actor.Position.Y ≤ MaxInt64 - 15 →
        ∃ objs,
          req.Execute now world
            = .ok (world, some (Response.view { ActorID := req.ActorID, Objects := objs }),
                none) ∧
          (∀ e ∈ world.Objects, |e.Position.X - actor.Position.X| < 15 →
            |e.Position.Y - actor.Position.Y| < 15 → e ∈ objs) ∧
          (∀ e ∈ objs, e ∈ world.Objects ∧ |e.Position.X - actor.Position.X| ≤ 15 ∧
            |e.Position.Y - actor.Position.Y| ≤ 15))) ∧
    (actor.Attributes.Wisdom = 10 →
      Attribute.Modifier actor.Attributes.Wisdom = 0 ∧
      (MinInt64 + 10 ≤ actor.Position.X ∧ actor.Position.X ≤ MaxInt64 - 10 →
        MinInt64 + 10 ≤ actor.Position.Y ∧ actor.Position.Y ≤ MaxInt64 - 10 →
        ∃ objs,
          req.Execute now world
            = .ok (world, some (Response.view { ActorID := req.ActorID, Objects := objs }),
                none) ∧
          (∀ e ∈ world.Objects, |e.Position.X - actor.Position.X| < 10 →
            |e.Position.Y - actor.Position.Y| < 10 → e ∈ objs) ∧
          (∀ e ∈ objs, e ∈ world.Objects ∧ |e.Position.X - actor.Position.X| ≤ 10 ∧
            |e.Position.Y - actor.Position.Y| ≤ 10))) := by
  constructor
  · intro hw
    have hm : Attribute.Modifier actor.Attributes.Wisdom = 5 := by
      rw [hw]
      decide
    exact ⟨hm, fun hx hy =>
      view_Execute_box req now world actor 15 hA hready (by rw [hm]; rfl) hx hy⟩
  · intro hw
    have hm : Attribute.Modifier actor.Attributes.Wisdom = 0 := by
      rw [hw]
      decide
    exact ⟨hm, fun hx hy =>
      view_Execute_box req now world actor 10 hA hready (by rw [hm]; rfl) hx hy⟩

/-- C20, amended, at the sage: modifier 5, and the entity at distance 12 is in
the view. -/
theorem C20_view_distance_witness :
    samples.sageAndFar.Objects.FromID 1 = (samples.sage, true) ∧
    samples.sage.Timer.Ready samples.today = true ∧
    samples.sage.Attributes.Wisdom = 20 ∧
    Attribute.Modifier samples.sage.Attributes.Wisdom = 5 ∧
    ∃ objs,
      ViewRequest.Execute { ActorID := 1 } samples.today samples.sageAndFar
        = .ok (samples.sageAndFar, some (Response.view { ActorID := 1, Objects := objs }),
            none) ∧
      samples.far ∈ objs := by
  obtain ⟨hm, hbox⟩ :=
    (C20_view_distance { ActorID := 1 } samples.today samples.sageAndFar samples.sage
      rfl rfl).1 rfl
  obtain ⟨objs, hex, hin, -⟩ := hbox (by decide) (by decide)
  exact ⟨rfl, rfl, rfl, hm, objs, hex, hin samples.far (by decide) (by decide) (by decide)⟩

/-- C21. View is read-only and fails exactly when required: for every world,
clock and request, `ViewRequest.Execute` returns; the returned world is the
input world, with or without error; and the error is non-nil exactly when no
entity carries the identifier of the actor or the timer of the actor found is
not ready (and then no response is returned). -/
theorem C21_view_read_only (req : ViewRequest) (now : Int) (world : World) :
    ∃ resp err,
      req.Execute now world = .ok (world, resp, err) ∧
      (err ≠ none ↔
        (world.Objects.Absent req.ActorID ∨
          ∃ actor, world.Objects.FromID req.ActorID = (actor, true) ∧
            actor.Timer.Ready now = false)) ∧
      (err ≠ none → resp = none) ∧
      (world.Objects.Absent req.ActorID → err = some Err.actorNotFound) ∧
      (∀ actor, world.Objects.FromID req.ActorID = (actor, true) →
        actor.Timer.Ready now = false → err = some Err.timerNotReady) := by
  rcases FromID_cases world.Objects req.ActorID with ⟨a, ha⟩ | hn
  · have hpres : ¬ world.Objects.Absent req.ActorID := fun hab =>
      absurd (FromID_found ha).2 (hab a (FromID_found ha).1)
    have huniq : ∀ actor, world.Objects.FromID req.ActorID = (actor, true) → actor = a := by
      intro actor h
      rw [ha] at h
      exact (Prod.mk.inj h).1.symm
    rw [view_Execute_eq req now world a ha]
    by_cases hr : a.Timer.Ready now = true
    · rw [if_neg (not_not.2 hr)]
      refine ⟨_, none, rfl, ?_, ?_, ?_, ?_⟩
      · constructor
        · intro h
          exact absurd rfl h
        · rintro (hab | ⟨actor, hact, hnr⟩)
          · exact absurd hab hpres
          · rw [huniq actor hact, hr] at hnr
            cases hnr
      · intro h
        exact absurd rfl h
      · intro hab
        exact absurd hab hpres
      · intro actor hact hnr
        rw [huniq actor hact, hr] at hnr
        cases hnr
    · rw [if_pos hr]
      have hf : a.Timer.Ready now = false := by
        cases h : a.Timer.Ready now
        · rfl
        · exact absurd h hr
      refine ⟨none, some Err.timerNotReady, rfl, ?_, ?_, ?_, ?_⟩
      · constructor
        · intro _
          exact Or.inr ⟨a, ha, hf⟩
        · intro _ h
          cases h
      · intro _
        rfl
      · intro hab
        exact absurd hab hpres
      · intro _ _ _
        rfl
  · have hab : world.Objects.Absent req.ActorID := FromID_absent.1 (by rw [hn])
    rw [view_Execute_absent req now world hab]
    refine ⟨none, some Err.actorNotFound, rfl, ?_, ?_, ?_, ?_⟩
    · constructor
      · intro _
        exact Or.inl hab
      · intro _ h
        cases h
    · intro _
      rfl
    · intro _
      rfl
    · intro actor hact _
      rw [hn] at hact
      cases hact

/-- C21 on the samples: the late actor (timer not ready) gets the error and the
world back; an absent actor gets the error and the world back. -/
theorem C21_view_read_only_witness :
    ViewRequest.Execute { ActorID := 1 } samples.today samples.lateWithDoor
      = .ok (samples.lateWithDoor, none, some Err.timerNotReady) ∧
    ViewRequest.Execute { ActorID := 9 } samples.today samples.withDoor
      = .ok (samples.withDoor, none, some Err.actorNotFound) := by
  constructor
  · obtain ⟨resp, err, hex, -, hresp, -, htimer⟩ :=
      C21_view_read_only { ActorID := 1 } samples.today samples.lateWithDoor
    have herr : err = some Err.timerNotReady := htimer samples.lateActor rfl rfl
    have hnone : resp = none := hresp (by rw [herr]; exact fun h => by cases h)
    rw [hex, herr, hnone]
  · obtain ⟨resp, err, hex, -, hresp, habs, -⟩ :=
      C21_view_read_only { ActorID := 9 } samples.today samples.withDoor
    have herr : err = some Err.actorNotFound := habs (by decide)
    have hnone : resp = none := hresp (by rw [herr]; exact fun h => by cases h)
    rw [hex, herr, hnone]

/-- C22. View replay is a full replacement: for every world and every
`ViewResponse`, `Apply` returns without error a world whose entity collection is
exactly the `Objects` of the response, in list order, and whose items are the
items of the input world; an entity of the input world that the response does
not list is absent from the result. -/
theorem C22_view_replay_replaces (r : ViewResponse) (w : World) :
    ∃ w1,
      r.Apply w = .ok (w1, none) ∧
      (Response.view r).Apply w = .ok (w1, none) ∧
      w1.Objects = r.Objects ∧
      w1.Items = w.Items ∧
      ∀ e ∈ w.Objects, e ∉ r.Objects → e ∉ w1.Objects := by
  refine ⟨{ w with Objects := r.Objects }, ?_, view_Apply r w, rfl, rfl, ?_⟩
  · have h := view_Apply r w
    rw [Response.Apply] at h
    exact h
  · intro e _ hne
    exact hne

/-- C23. Replay idempotence: for every world and every `MeleeAttackResponse`,
`RangeAttackResponse` or `ToggleResponse`, `Apply` returns a world `w1`, and
`Apply` on `w1` returns the world `w1` again. (The second replay of a response
that removed its target reports that the target is not on the world; its world
is still `w1`.) -/
theorem C23_replay_idempotent (w : World) :
    (∀ r : MeleeAttackResponse, ∃ w1 e1 e2,
      r.Apply w = .ok (w1, e1) ∧ r.Apply w1 = .ok (w1, e2)) ∧
    (∀ r : RangeAttackResponse, ∃ w1 e1 e2,
      r.Apply w = .ok (w1, e1) ∧ r.Apply w1 = .ok (w1, e2)) ∧
    (∀ r : ToggleResponse, ∃ w1 e1 e2,
      r.Apply w = .ok (w1, e1) ∧ r.Apply w1 = .ok (w1, e2)) := by
  have hattack : ∀ (ranged : Bool) (a tid : UUID) (didHit : Bool) (damage health : Int),
      ∃ w1 e1 e2,
        (attackResp ranged a tid didHit damage health).Apply w = .ok (w1, e1) ∧
        (attackResp ranged a tid didHit damage health).Apply w1 = .ok (w1, e2) := by
    intro ranged a tid didHit damage health
    rcases FromID_cases w.Objects tid with ⟨t, ht⟩ | hn
    · have hid := (FromID_found ht).2
      rw [attackResp_Apply ranged a tid didHit damage health w t ht]
      by_cases hh : health ≤ 0
      · rw [if_pos hh]
        refine ⟨_, none, some Err.targetNotOnWorld, rfl, ?_⟩
        apply attackResp_Apply_absent
        apply FromID_of_absent
        intro x hx
        rw [hid] at hx
        exact (mem_without.1 hx).2
      · rw [if_neg hh]
        refine ⟨_, none, none, rfl, ?_⟩
        have hfound : ({ w with Objects := w.Objects.withEntity { t with Health := health } }
            : World).Objects.FromID tid = ({ t with Health := health }, true) := by
          have h := FromID_withEntity { t with Health := health } ht
          rw [if_pos rfl] at h
          exact h
        rw [attackResp_Apply ranged a tid didHit damage health _ _ hfound, if_neg hh]
        simp only [withEntity_idem]
    · rw [attackResp_Apply_absent ranged a tid didHit damage health w hn]
      exact ⟨w, _, some Err.targetNotOnWorld, rfl,
        attackResp_Apply_absent ranged a tid didHit damage health w hn⟩
  refine ⟨?_, ?_, ?_⟩
  · intro r
    exact hattack false r.AttackerID r.TargetID r.DidHit r.Damage r.HealthRemaining
  · intro r
    exact hattack true r.AttackerID r.TargetID r.DidHit r.Damage r.HealthRemaining
  · intro r
    have happ : ∀ w0 : World, r.Apply w0 = (Response.toggle r).Apply w0 := by
      intro w0
      rw [Response.Apply]
    rcases FromID_cases w.Objects r.TargetID with ⟨t, ht⟩ | hn
    · refine ⟨_, none, none, (happ w).trans (toggle_Apply r w t ht), ?_⟩
      have hfound : ({ w with
          Objects := w.Objects.withEntity
            { t with Passability := { t.Passability with IsOpen := r.IsOpen } } }
            : World).Objects.FromID r.TargetID
            = ({ t with Passability := { t.Passability with IsOpen := r.IsOpen } }, true) := by
        have h := FromID_withEntity
          { t with Passability := { t.Passability with IsOpen := r.IsOpen } } ht
        rw [if_pos rfl] at h
        exact h
      rw [happ, toggle_Apply r _ _ hfound]
      simp only [withEntity_idem]
    · exact ⟨w, _, some Err.targetNotOnWorld, (happ w).trans (toggle_Apply_absent r w hn),
        (happ w).trans (toggle_Apply_absent r w hn)⟩

/-- C24, as stated, fails on a nested wrapper. In the list
`[Wrapper [stepAside, knock], stepBack]` the first sub-response is the one whose
`Apply` fails; no sub-response precedes it, so the world produced by the
sub-responses before it is the input world `alone`; the wrapper returns the
world `aside`, in which the inner wrapper has already moved the actor. -/
theorem C24_counterexample :
    (Response.wrapper [samples.stepAside, samples.knock]).Apply samples.alone
      = .ok (samples.aside, some Err.targetNotOnWorld) ∧
    (Response.wrapper
        [Response.wrapper [samples.stepAside, samples.knock], samples.stepBack]).Apply
        samples.alone
      = .ok (samples.aside, some Err.targetNotOnWorld) ∧
    (Response.wrapper []).Apply samples.alone = .ok (samples.alone, none) ∧
    samples.aside ≠ samples.alone :=
  ⟨rfl, rfl, rfl, by decide⟩

/-- C24, amended. Wrapper replay: for every world `w` and list of responses
`rs`, `Wrapper{rs}.Apply(w)` returns, and equals the left-to-right fold of
`Apply` over `rs`; it stops at the first sub-response whose `Apply` fails,
returning that error together with the world that this failing `Apply` returns
(later sub-responses are not applied): for a failing sub-response that is not
itself a Wrapper this is the world produced by the sub-responses before it; on
an empty list it returns `w` unchanged without error. -/
theorem C24_wrapper_replay (w : World) (rs : List Response) :
    (∃ res, (Response.wrapper rs).Apply w = .ok res) ∧
    (Response.wrapper rs).Apply w = foldApply rs w ∧
    (∀ pre r post wk w1 e, rs = pre ++ r :: post →
      (Response.wrapper pre).Apply w = .ok (wk, none) →
      r.Apply wk = .ok (w1, some e) →
      (Response.wrapper rs).Apply w = .ok (w1, some e) ∧
      (Response.wrapper (pre ++ [r])).Apply w = .ok (w1, some e) ∧
      (r.isWrapper = false → w1 = wk)) ∧
    (Response.wrapper []).Apply w = .ok (w, none) := by
  refine ⟨Apply_returns (.wrapper rs) w, ?_, ?_, ?_⟩
  · rw [Response.Apply]
    exact applyLoop_eq_foldApply rs w
  · intro pre r post wk w1 e hrs hpre hr
    rw [Response.Apply] at hpre
    refine ⟨?_, ?_, ?_⟩
    · rw [hrs, Response.Apply]
      exact applyLoop_stop pre r post w wk w1 e hpre hr
    · rw [Response.Apply]
      exact applyLoop_stop pre r [] w wk w1 e hpre hr
    · intro hw
      exact Apply_error_world r hw wk w1 e hr
  · rw [Response.Apply, Wrapper.applyLoop]
    rfl

/-- C24, amended, on the list `[stepAside, knock, stepBack]`: the move is
applied, the toggle of the absent target fails, and the wrapper returns that
error with the world after the move; the last move is not applied. -/
theorem C24_wrapper_replay_witness :
    (Response.wrapper [samples.stepAside]).Apply samples.alone = .ok (samples.aside, none) ∧
    samples.knock.Apply samples.aside = .ok (samples.aside, some Err.targetNotOnWorld) ∧
    (Response.wrapper [samples.stepAside, samples.knock, samples.stepBack]).Apply samples.alone
      = .ok (samples.aside, some Err.targetNotOnWorld) :=
  ⟨rfl, rfl,
    ((C24_wrapper_replay samples.alone [samples.stepAside, samples.knock, samples.stepBack]).2.2.1
      [samples.stepAside] samples.knock [samples.stepBack] samples.aside samples.aside
      Err.targetNotOnWorld rfl rfl rfl).1⟩

/-- C25. Affected identifiers: `IDs()` of a `MeleeAttackResponse` or
`RangeAttackResponse` is `[AttackerID, TargetID]`, of a `ToggleResponse`
`[ActorID, TargetID]`, of a `MoveResponse` or `ViewResponse` `[ActorID]`, and of
a `Wrapper` the concatenation, in list order, of the `IDs()` of its
sub-responses. The publishing loop of the worker calls `Emit` once per element
of this list, in order, with the text of the element as topic and the response
as argument, and makes no other call; a turn of the worker whose `Execute`
returns a response without error publishes it so. -/
theorem C25_affected_identifiers :
    (∀ r : MeleeAttackResponse, (Response.melee r).IDs = [r.AttackerID, r.TargetID]) ∧
    (∀ r : RangeAttackResponse, (Response.range r).IDs = [r.AttackerID, r.TargetID]) ∧
    (∀ r : ToggleResponse, (Response.toggle r).IDs = [r.ActorID, r.TargetID]) ∧
    (∀ r : MoveResponse, (Response.move r).IDs = [r.ActorID]) ∧
    (∀ r : ViewResponse, (Response.view r).IDs = [r.ActorID]) ∧
    (∀ rs : List Response, (Response.wrapper rs).IDs = (rs.map Response.IDs).flatten) ∧
    (∀ resp : Response,
      server.publish resp
        = resp.IDs.map (fun id => { Topic := UUID.String id, Resp := resp })) ∧
    (∀ (src : Source) (now : Int) (world world1 : World) (req : Request) (resp : Response),
      req.Execute src now world = .ok (world1, some resp, none) →
      server.processRequest src now world req
        = .ok (world1, resp.IDs.map (fun id => { Topic := UUID.String id, Resp := resp }))) := by
  refine ⟨fun _ => rfl, fun _ => rfl, fun _ => rfl, fun _ => rfl, fun _ => rfl, ?_,
    server.publish_eq, ?_⟩
  · intro rs
    rw [Response.IDs, idsLoop_eq, List.nil_append, List.flatMap]
  · intro src now world world1 req resp h
    unfold server.processRequest
    rw [h]
    simp only [bind, Except.bind, pure, Except.pure, server.publish_eq]

/-- C25 at the actor opening the closed door: the toggle response is published
on the topic of the actor and on the topic of the door. -/
theorem C25_affected_identifiers_witness :
    Request.Execute (.open_ { ActorID := 1, TargetID := 2 }) samples.fifteen 0 samples.withDoor
      = .ok ({ samples.withDoor with
          Objects := [samples.actor,
            { samples.door with Passability := { Typ := Toggleable, IsOpen := true } }] },
        some (Response.toggle { ActorID := 1, TargetID := 2, IsOpen := true }), none) ∧
    server.processRequest samples.fifteen 0 samples.withDoor
        (.open_ { ActorID := 1, TargetID := 2 })
      = .ok ({ samples.withDoor with
          Objects := [samples.actor,
            { samples.door with Passability := { Typ := Toggleable, IsOpen := true } }] },
        [{ Topic := UUID.String 1,
           Resp := Response.toggle { ActorID := 1, TargetID := 2, IsOpen := true } },
         { Topic := UUID.String 2,
           Resp := Response.toggle { ActorID := 1, TargetID := 2, IsOpen := true } }]) :=
  ⟨rfl,
    C25_affected_identifiers.2.2.2.2.2.2.2 samples.fifteen 0 samples.withDoor _
      (.open_ { ActorID := 1, TargetID := 2 }) _ rfl⟩

/-- C26, refuted as stated: at `a = 2^54 + 2` the conversion `float64(a)` rounds
to `2^54`, and `Attribute.Modifier` returns `2^53 - 5`, one less than
`floor(a / 2) - 5 = 2^53 - 4`. -/
theorem C26_counterexample :
    float64 18014398509481986 = 18014398509481984 ∧
    Attribute.Modifier 18014398509481986 = 9007199254740987 ∧
    ⌊((18014398509481986 : Int) : ℚ) / 2⌋ - 5 = 9007199254740988 := by
  have hfloor : ⌊((18014398509481986 : Int) : ℚ) / 2⌋ = 18014398509481986 / 2 := by
    have h := Rat.floor_intCast_div_natCast 18014398509481986 2
    simpa using h
  refine ⟨by decide, by decide, ?_⟩
  rw [hfloor]
  decide

/-- C26, amended. For every integer attribute `a` below `2^53`,
`Attribute.Modifier` is `floor(a / 2) - 5` when `a ≥ 0`; it is `-5` when
`a < 0`; and for every integer attribute it is never below `-5`, it is
monotonically non-decreasing, and it is 10 at 30. -/
theorem C26_modifier (a : Attribute) :
    (0 ≤ a → a < 9007199254740992 →
      Attribute.Modifier a = ⌊((a : Int) : ℚ) / 2⌋ - 5) ∧
    (a < 0 → Attribute.Modifier a = -5) ∧
    -5 ≤ Attribute.Modifier a ∧
    (∀ b : Attribute, a ≤ b → Attribute.Modifier a ≤ Attribute.Modifier b) ∧
    Attribute.Modifier 30 = 10 := by
  have hfloor : ∀ n : Int, ⌊(n : ℚ) / 2⌋ = n / 2 := by
    intro n
    have h := Rat.floor_intCast_div_natCast n 2
    simpa using h
  refine ⟨?_, ?_, Modifier_ge a, fun b hab => Modifier_mono hab, by decide⟩
  · intro h0 h1
    rw [Modifier_small h0 h1, hfloor]
  · intro h
    rw [Modifier_eq, if_pos h]

/-- C26 at the attributes 17 and -3: the modifiers are 3 and -5. -/
theorem C26_modifier_witness :
    Attribute.Modifier 17 = ⌊((17 : Int) : ℚ) / 2⌋ - 5 ∧
    Attribute.Modifier (-3) = -5 ∧
    Attribute.Modifier 17 ≤ Attribute.Modifier 30 :=
  ⟨(C26_modifier 17).1 (by decide) (by decide), (C26_modifier (-3)).2.1 (by decide),
    (C26_modifier 17).2.2.2.1 30 (by decide)⟩

/-- C27. Request envelope round trip: for every request of the six variants
`MeleeAttackRequest`, `RangeAttackRequest`, `CloseRequest`, `OpenRequest`,
`MoveRequest`, `ViewRequest`, `requests.Marshal` succeeds, the `type` member of
its envelope is the name of the variant, and `requests.Unmarshal` on the
envelope succeeds and returns the same request, of the same variant. -/
theorem C27_request_round_trip (q : Request) :
    ∃ bites,
      requests.Marshal q = .ok bites ∧
      bites = .object [("type", .string q.typeName), ("request", q.toJSON)] ∧
      q.typeName = (match q with
        | .melee _ => "MeleeAttackRequest"
        | .range _ => "RangeAttackRequest"
        | .close _ => "CloseRequest"
        | .open_ _ => "OpenRequest"
        | .move _ => "MoveRequest"
        | .view _ => "ViewRequest") ∧
      requests.Unmarshal bites = .ok q := by
  refine ⟨_, request_Marshal_eq q, rfl, ?_, request_Unmarshal_Marshal q⟩
  cases q <;> rfl

/-- C28, as stated, fails on the composite `Wrapper`: `responses.Marshal`
writes the envelope of type `Wrapper`, and `responses.Unmarshal`, whose switch
has no case for that name, rejects it. -/
theorem C28_counterexample :
    responses.Marshal (Response.wrapper [samples.stepAside])
      = .ok (.object [("type", .string "Wrapper"),
          ("response", .object [("responses", .array [
            .object [("actor_id", .string (UUID.String 1)), ("x", .number 5),
              ("y", .number 5)]])])]) ∧
    responses.Unmarshal
        (.object [("type", .string "Wrapper"),
          ("response", .object [("responses", .array [
            .object [("actor_id", .string (UUID.String 1)), ("x", .number 5),
              ("y", .number 5)]])])])
      = .error "invalid response type" :=
  ⟨rfl, Unmarshal_wrapper [samples.stepAside]⟩

/-- C28, amended. Response envelope round trip: for every response of the
variants `MeleeAttackResponse`, `RangeAttackResponse`, `ToggleResponse`,
`MoveResponse`, `ViewResponse`, `responses.Marshal` succeeds and
`responses.Unmarshal` on its envelope succeeds and returns the same response,
of the same variant; for the composite `Wrapper`, `responses.Marshal` succeeds
and `responses.Unmarshal` rejects its envelope as an invalid response type. -/
theorem C28_response_round_trip (r : Response) :
    ∃ bites,
      responses.Marshal r = .ok bites ∧
      (r.isWrapper = false → responses.Unmarshal bites = .ok r) ∧
      (r.isWrapper = true → responses.Unmarshal bites = .error "invalid response type") := by
  refine ⟨_, Marshal_eq r, Unmarshal_Marshal_basic r, ?_⟩
  intro h
  cases r with
  | wrapper rs => exact Unmarshal_wrapper rs
  | melee r => cases h
  | range r => cases h
  | toggle r => cases h
  | move r => cases h
  | view r => cases h

/-- C28, amended, on the replay of a move and on the wrapper of it. -/
theorem C28_response_round_trip_witness :
    (∃ bites, responses.Marshal samples.stepAside = .ok bites ∧
      responses.Unmarshal bites = .ok samples.stepAside) ∧
    (∃ bites, responses.Marshal (Response.wrapper [samples.stepAside]) = .ok bites ∧
      responses.Unmarshal bites = .error "invalid response type") := by
  constructor
  · obtain ⟨bites, hm, hbasic, -⟩ := C28_response_round_trip samples.stepAside
    exact ⟨bites, hm, hbasic rfl⟩
  · obtain ⟨bites, hm, -, hwrap⟩ :=
      C28_response_round_trip (Response.wrapper [samples.stepAside])
    exact ⟨bites, hm, hwrap rfl⟩

/-- C29. Unknown discriminant is rejected: for every envelope that decodes to
a payload whose type string is not the name of one of the six request variants,
`requests.Unmarshal` returns the error of the invalid request type and no
request; and `responses.Unmarshal` returns the error of the invalid response
type and no response for every type string that is not one of the five names
`MeleeAttackResponse`, `RangeAttackResponse`, `MoveResponse`, `ToggleResponse`,
`ViewResponse`. -/
theorem C29_unknown_discriminant (bites : json.Value) :
    (∀ p : requests.payload, requests.payload.fromJSON bites = .ok p →
      p.Typ ∉ ["MeleeAttackRequest", "RangeAttackRequest", "CloseRequest", "MoveRequest",
        "OpenRequest", "ViewRequest"] →
      requests.Unmarshal bites = .error ("invalid request type: " ++ p.Typ)) ∧
    (∀ p : responses.payload, responses.payload.fromJSON bites = .ok p →
      p.Typ ∉ ["MeleeAttackResponse", "RangeAttackResponse", "MoveResponse",
        "ToggleResponse", "ViewResponse"] →
      responses.Unmarshal bites = .error "invalid response type") :=
  ⟨request_Unmarshal_unknown bites, Unmarshal_unknown bites⟩

/-- C29 on an envelope of type `JumpRequest` and on an envelope of type
`Wrapper`. -/
theorem C29_unknown_discriminant_witness :
    requests.Unmarshal
        (.object [("type", .string "JumpRequest"),
          ("request", .object [("actor_id", .string (UUID.String 1))])])
      = .error "invalid request type: JumpRequest" ∧
    responses.Unmarshal
        (.object [("type", .string "Wrapper"),
          ("response", .object [("responses", .array [])])])
      = .error "invalid response type" :=
  ⟨(C29_unknown_discriminant
      (.object [("type", .string "JumpRequest"),
        ("request", .object [("actor_id", .string (UUID.String 1))])])).1
      { Typ := "JumpRequest",
        Request := some (.object [("actor_id", .string (UUID.String 1))]) }
      rfl (by decide),
   (C29_unknown_discriminant
      (.object [("type", .string "Wrapper"),
        ("response", .object [("responses", .array [])])])).2
      { Typ := "Wrapper", Response := some (.object [("responses", .array [])]) }
      rfl (by decide)⟩

/-- C30 at the failing input, the response of the actor 1 opening the entity 2:
the payload that `responses.Marshal` writes carries the members `actor_id`,
`target_id` and `is_closed`; it has no member `is_open`, and the value of
`IsOpen`, here `true`, is the member `is_closed`. -/
theorem C30_toggle_payload_has_is_closed :
    responses.Marshal (Response.toggle { ActorID := 1, TargetID := 2, IsOpen := true })
      = .ok (.object [("type", .string "ToggleResponse"),
          ("response", .object [("actor_id", .string (UUID.String 1)),
            ("target_id", .string (UUID.String 2)), ("is_closed", .bool true)])]) ∧
    ([("actor_id", json.Value.string (UUID.String 1)),
      ("target_id", json.Value.string (UUID.String 2)),
      ("is_closed", json.Value.bool true)].map Prod.fst)
      = ["actor_id", "target_id", "is_closed"] ∧
    [("actor_id", json.Value.string (UUID.String 1)),
      ("target_id", json.Value.string (UUID.String 2)),
      ("is_closed", json.Value.bool true)].lookup "is_open" = none ∧
    [("actor_id", json.Value.string (UUID.String 1)),
      ("target_id", json.Value.string (UUID.String 2)),
      ("is_closed", json.Value.bool true)].lookup "is_closed" = some (.bool true) :=
  ⟨rfl, rfl, rfl, rfl⟩

/-- C32. Lookup by identifier: for every collection and identifier,
`Collection.FromID` reports found iff some entity of the collection carries the
identifier; when found it returns the first entity with that identifier in
collection order (no entity before it carries the identifier); when not found
it returns the zero `Entity`. -/
theorem C32_lookup_by_identifier (c : Collection) (id : UUID) :
    ((c.FromID id).2 = true ↔ ∃ e ∈ c, e.ID = id) ∧
    (∀ e, c.FromID id = (e, true) →
      ∃ pre post, c = pre ++ e :: post ∧ (∀ x ∈ pre, x.ID ≠ id) ∧ e.ID = id) ∧
    ((c.FromID id).2 = false →
      c.FromID id =
        ({ ID := 0, Timer := { NextTimestamp := 0 }, Position := { X := 0, Y := 0 },
           Passability := { Typ := 0, IsOpen := false },
           Attributes := { Dexterity := 0, Luck := 0, Strength := 0, Wisdom := 0 },
           Equipment := { HeadID := 0, HandsID := 0, PrimaryItemID := 0,
                          SecondaryItemID := 0, LegsID := 0, ChestID := 0 },
           Health := 0 }, false)) := by
  refine ⟨FromID_found_iff c id, fun e h => FromID_first h, ?_⟩
  intro h
  rcases FromID_cases c id with ⟨e, he⟩ | hn
  · rw [he] at h
    cases h
  · rw [hn]
    rfl

/-- C32 on the collection `[actor, twin]`, two entities with the identifier 1:
the lookup returns the first, and the lookup of the identifier 9 the zero
entity. -/
theorem C32_lookup_by_identifier_witness :
    Collection.FromID [samples.actor, samples.twin] 1 = (samples.actor, true) ∧
    (∃ pre post, [samples.actor, samples.twin] = pre ++ samples.actor :: post ∧
      (∀ x ∈ pre, x.ID ≠ 1) ∧ samples.actor.ID = 1) ∧
    Collection.FromID [samples.actor, samples.twin] 9 = (default, false) :=
  ⟨rfl, (C32_lookup_by_identifier [samples.actor, samples.twin] 1).2.1 samples.actor rfl,
    (C32_lookup_by_identifier [samples.actor, samples.twin] 9).2.2 rfl⟩

/-- C33 at the failing input, the collection `[actor, twin]` whose two entities
carry the identifier 1: `Collection.Remove` of the actor reports found and
returns the empty collection; the second entity with the identifier is removed
as well, and the length drops from 2 to 0. -/
theorem C33_remove_drops_every_match :
    samples.actor.ID = samples.twin.ID ∧
    samples.actor ≠ samples.twin ∧
    Collection.Remove [samples.actor, samples.twin] samples.actor = ([], true) ∧
    Collection.MustRemove [samples.actor, samples.twin] samples.actor = .ok [] ∧
    ([samples.actor, samples.twin] : Collection).length = 2 ∧
    (Collection.Remove [samples.actor, samples.twin] samples.actor).1.length = 0 :=
  ⟨rfl, by decide, rfl, rfl, rfl, rfl⟩

/-- C34. `Collection.Update` returns a collection of the same length and order
in which every entity whose identifier is that of the target is replaced by the
target and every other entity is untouched; it returns true iff at least one
entity matched; when it returns true, `FromID` of the identifier of the target
on the result returns the target; and `Update(target)` equals
`Replace(target, target)`. -/
theorem C34_update (c : Collection) (target : Entity) :
    (c.Update target).1 = c.map (fun x => if x.ID = target.ID then target else x) ∧
    (c.Update target).1.length = c.length ∧
    ((c.Update target).2 = true ↔ ∃ x ∈ c, x.ID = target.ID) ∧
    ((c.Update target).2 = true →
      (c.Update target).1.FromID target.ID = (target, true)) ∧
    c.Update target = c.Replace target target := by
  have hfound : (c.Update target).2 = true ↔ ∃ x ∈ c, x.ID = target.ID := by
    rw [Update_eq]
    simp [List.any_eq_true]
  refine ⟨by rw [Update_eq], by rw [Update_eq]; simp, hfound, ?_, ?_⟩
  · intro h
    obtain ⟨x, hx, hid⟩ := hfound.1 h
    obtain ⟨a, ha⟩ := FromID_of_mem hx
    rw [hid] at ha
    have := FromID_withEntity target ha
    rw [if_pos (FromID_found ha).2] at this
    rw [Update_eq]
    exact this
  · rw [Update_eq, Replace_eq]

/-- C34 on the collection `[actor, twin]`: updating with the twin replaces both
entities of the identifier 1. -/
theorem C34_update_witness :
    Collection.Update [samples.actor, samples.twin] samples.twin
      = ([samples.twin, samples.twin], true) ∧
    Collection.FromID [samples.twin, samples.twin] 1 = (samples.twin, true) := by
  have h := C34_update [samples.actor, samples.twin] samples.twin
  exact ⟨rfl, (congrArg (fun c => Collection.FromID c 1)
    (rfl : [samples.twin, samples.twin]
      = (Collection.Update [samples.actor, samples.twin] samples.twin).1)).trans
    (h.2.2.2.1 rfl)⟩

/-- C35, refuted as stated: `Roll(1, MaxInt64)` calls `rand.Intn(MinInt64)`,
which panics, and the sum of two dice of `MaxInt64 - 1` that both show
`MaxInt64 - 1` wraps around to `-4`, below `num = 2`. -/
theorem C35_counterexample :
    wrap (MaxInt64 + 1) = MinInt64 ∧
    utils.Roll samples.fifteen 0 1 MaxInt64 = .error "invalid argument to Intn" ∧
    utils.die samples.huge 0 9223372036854775806 = 9223372036854775806 ∧
    utils.die samples.huge 1 9223372036854775806 = 9223372036854775806 ∧
    utils.Roll samples.huge 0 2 9223372036854775806 = .ok (-4, 2) ∧
    ¬ ((2 : Int) ≤ -4) := by
  refine ⟨by decide, rfl, by decide, by decide, rfl, by decide⟩

/-- C35, amended. Dice bounds: for every `upperRange` with
`1 ≤ upperRange < MaxInt64`, every cursor and every random source, the draw
`rand.Intn(upperRange + 1)` lies in `0..upperRange` and the die counted by
`Roll` (a zero counted as one) lies in `1..upperRange`; for every `num ≥ 0` with
`num * upperRange ≤ MaxInt64`, `Roll(num, upperRange)` returns the sum of the
`num` dice drawn from the cursor on, so
`num ≤ Roll(num, upperRange) ≤ num * upperRange`; the 1d20 attack roll is in
`1..20`, the 1d100 luck roll in `1..100` and the unarmed 1d4 roll in `1..4`;
and `Roll` returns 0 when `num ≤ 0`. -/
theorem C35_dice_bounds (src : Source) (pos : Nat) (num upperRange : Int) :
    (1 ≤ upperRange → upperRange < MaxInt64 →
      (∀ i, ∃ r, utils.Intn src i (upperRange + 1) = .ok (r, i + 1) ∧
        0 ≤ r ∧ r ≤ upperRange ∧
        utils.die src i upperRange = (if r ≤ 0 then 1 else r) ∧
        1 ≤ utils.die src i upperRange ∧ utils.die src i upperRange ≤ upperRange) ∧
      (0 ≤ num → num * upperRange ≤ MaxInt64 → ∃ total,
        utils.Roll src pos num upperRange = .ok (total, pos + num.toNat) ∧
        total = ((List.range num.toNat).map
          (fun i => utils.die src (pos + i) upperRange)).sum ∧
        num ≤ total ∧ total ≤ num * upperRange)) ∧
    (utils.Roll src 0 1 100 = .ok (luckRollOf src, 1) ∧
      1 ≤ luckRollOf src ∧ luckRollOf src ≤ 100) ∧
    (utils.Roll src 1 1 20 = .ok (d20Of src, 2) ∧ 1 ≤ d20Of src ∧ d20Of src ≤ 20) ∧
    (utils.Roll src pos 1 4 = .ok (utils.die src pos 4, pos + 1) ∧
      1 ≤ utils.die src pos 4 ∧ utils.die src pos 4 ≤ 4) ∧
    (num ≤ 0 → utils.Roll src pos num upperRange = .ok (0, pos)) := by
  refine ⟨?_, ⟨utils.Roll_one src 0 (by decide), utils.die_bounds src 0 (by decide)⟩,
    ⟨utils.Roll_one src 1 (by decide), utils.die_bounds src 1 (by decide)⟩,
    ⟨utils.Roll_one src pos (by decide), utils.die_bounds src pos (by decide)⟩,
    utils.Roll_nonpositive src pos upperRange⟩
  intro hu hmax
  constructor
  · intro i
    obtain ⟨r, hr, h0, hle, hd⟩ := utils.Intn_bounds src i ⟨by omega, hmax⟩
    rw [utils.wrap_succ ⟨by omega, hmax⟩] at hr
    exact ⟨r, hr, h0, hle, hd, utils.die_bounds src i ⟨hu, hmax⟩⟩
  · intro hnum hprod
    have hcast : ((num.toNat : Nat) : Int) = num := Int.toNat_of_nonneg hnum
    refine ⟨_, utils.Roll_eq src pos num ⟨hu, hmax⟩ (by rw [hcast]; exact hprod), rfl, ?_⟩
    have hb := utils.sum_dice_bounds src pos ⟨hu, hmax⟩ num.toNat
    rw [hcast] at hb
    exact hb

/-- C35 on the stream that always yields 15, for three dice of six: every draw
is `15 % 7 = 1`, every die is 1, and the roll is 3. -/
theorem C35_dice_bounds_witness :
    utils.Roll samples.fifteen 0 3 6 = .ok (3, 3) ∧
    (3 : Int) ≤ 3 ∧ (3 : Int) ≤ 3 * 6 := by
  obtain ⟨total, hroll, hsum, hlo, hhi⟩ :=
    ((C35_dice_bounds samples.fifteen 0 3 6).1 (by decide) (by decide)).2 (by decide)
      (by decide)
  have h3 : total = 3 := by
    rw [hsum]
    decide
  rw [h3] at hroll hlo hhi
  exact ⟨hroll, hlo, hhi⟩

/-- C36, refuted as stated, twice. With two entities carrying the identifier of
the target, a hit of damage 0 on a target of health 10 that wears no armor
rewrites the second of them: the returned world is not the input world. And the
doubling of a critical hit wraps around: the giant, whose damage value is
`3 * 2^61`, applies the damage `2^62` to the door, which wears no armor, and
the door is removed. -/
theorem C36_counterexample :
    samples.doorTwice.Objects.FromID 1 = (samples.actor, true) ∧
    samples.doorTwice.Objects.FromID 2 = (samples.door, true) ∧
    (samples.doorTwice.Items.FromID samples.door.Equipment.ChestID).2 = false ∧
    0 < samples.door.Health ∧
    MeleeAttackRequest.Execute { AttackerID := 1, TargetID := 2 } samples.fifteen
        samples.doorTwice
      = .ok ({ samples.doorTwice with
            Objects := [samples.actor, samples.door, samples.door] },
          some (Response.melee {
            AttackerID := 1, TargetID := 2, DidHit := true, Damage := 0,
            HealthRemaining := 10 }), none) ∧
    ({ samples.doorTwice with Objects := [samples.actor, samples.door, samples.door] } : World)
      ≠ samples.doorTwice ∧
    samples.giantWorld.Objects.FromID 1 = (samples.giant, true) ∧
    samples.giantWorld.Objects.FromID 2 = (samples.door, true) ∧
    (samples.giantWorld.Items.FromID samples.door.Equipment.ChestID).2 = false ∧
    meleeReductionOf samples.giantWorld samples.door = 0 ∧
    MeleeAttackRequest.Execute { AttackerID := 1, TargetID := 2 } samples.twenty
        samples.giantWorld
      = .ok ({ samples.giantWorld with Objects := [samples.giant] },
          some (Response.melee {
            AttackerID := 1, TargetID := 2, DidHit := true,
            Damage := 4611686018427387904, HealthRemaining := 0 }), none) ∧
    ¬ ((4611686018427387904 : Int)
      ≤ max 0 (meleeReductionOf samples.giantWorld samples.door)) :=
  ⟨rfl, rfl, rfl, by decide, rfl, by decide, rfl, rfl, rfl, by decide, rfl, by decide⟩

/-- C36, amended. An attack whose doubling does not overflow can never harm an
unarmoured target. For a melee (resp. range) attack whose attacker and target
are present and whose damage value, if the attack is critical, is below `2^62`,
whatever the dice: the `Damage` of the response lies between 0 and the melee
(resp. range) reduction of the chest item of the target floored at 0, the
reduction being 0 when `Equipment.ChestID` matches no item; when that reduction
is `≤ 0` the `Damage` is 0 and, in a world with pairwise distinct identifiers
and a target of positive health, the returned world is the input world. -/
theorem C36_unarmoured_target (world : World) (src : Source) (a tid : UUID)
    (attacker target : Entity)
    (hA : world.Objects.FromID a = (attacker, true))
    (hT : world.Objects.FromID tid = (target, true))
    (hdouble : ∀ d ty p, calcDamageAmount src 2 world attacker = .ok ((d, ty), p) →
      criticalOf src attacker = true → d < 4611686018427387904)
    (world' : World) (resp : Option Response) (err : Option Err) :
    ((world.Items.FromID target.Equipment.ChestID).2 = false →
      meleeReductionOf world target = 0 ∧ rangeReductionOf world target = 0) ∧
    (MeleeAttackRequest.Execute { AttackerID := a, TargetID := tid } src world
        = .ok (world', resp, err) →
      (∀ m, resp = some (Response.melee m) →
        0 ≤ m.Damage ∧ m.Damage ≤ max 0 (meleeReductionOf world target)) ∧
      (meleeReductionOf world target ≤ 0 →
        (∀ m, resp = some (Response.melee m) → m.Damage = 0) ∧
        (world.Objects.ids.Nodup → 0 < target.Health → target.Health ≤ MaxInt64 →
          world' = world))) ∧
    (RangeAttackRequest.Execute { AttackerID := a, TargetID := tid } src world
        = .ok (world', resp, err) →
      (∀ m, resp = some (Response.range m) →
        0 ≤ m.Damage ∧ m.Damage ≤ max 0 (rangeReductionOf world target)) ∧
      (rangeReductionOf world target ≤ 0 →
        (∀ m, resp = some (Response.range m) → m.Damage = 0) ∧
        (world.Objects.ids.Nodup → 0 < target.Health → target.Health ≤ MaxInt64 →
          world' = world))) := by
  have hnn : ∀ d ty p, calcDamageAmount src 2 world attacker = .ok ((d, ty), p) →
      0 ≤ d ∧ d ≤ MaxInt64 ∧ (criticalOf src attacker = true → d < 4611686018427387904) :=
    fun d ty p hd => ⟨calcDamageAmount_nonneg hd, calcDamageAmount_le hd, hdouble d ty p hd⟩
  refine ⟨?_, ?_, ?_⟩
  · intro hno
    unfold meleeReductionOf rangeReductionOf
    rcases hI : world.Items.FromID target.Equipment.ChestID with ⟨item, b⟩
    rw [hI] at hno
    cases hno
    exact ⟨rfl, rfl⟩
  · intro h
    rw [melee_Execute_eq _ src world attacker target hA hT] at h
    have haux := attack_damage_aux false a tid target hT _ _ _ _ _ _ h
      (meleeReductionOf_isInt64 world target) hnn
    refine ⟨?_, fun hred => ⟨?_, haux.2 hred⟩⟩
    · intro m hm
      have := haux.1 m.DidHit m.Damage m.HealthRemaining
        (by rw [hm]; cases hm; rcases attack_hit_aux _ _ _ _ _ _ _ _ h with ⟨d, hr, hresp⟩
            cases hresp; rfl)
      exact ⟨this.1, this.2.1⟩
    · intro m hm
      have := haux.1 m.DidHit m.Damage m.HealthRemaining
        (by rw [hm]; cases hm; rcases attack_hit_aux _ _ _ _ _ _ _ _ h with ⟨d, hr, hresp⟩
            cases hresp; rfl)
      exact this.2.2 hred
  · intro h
    rw [range_Execute_eq _ src world attacker target hA hT] at h
    have haux := attack_damage_aux true a tid target hT _ _ _ _ _ _ h
      (rangeReductionOf_isInt64 world target) hnn
    refine ⟨?_, fun hred => ⟨?_, haux.2 hred⟩⟩
    · intro m hm
      have := haux.1 m.DidHit m.Damage m.HealthRemaining
        (by rw [hm]; cases hm; rcases attack_hit_aux _ _ _ _ _ _ _ _ h with ⟨d, hr, hresp⟩
            cases hresp; rfl)
      exact ⟨this.1, this.2.1⟩
    · intro m hm
      have := haux.1 m.DidHit m.Damage m.HealthRemaining
        (by rw [hm]; cases hm; rcases attack_hit_aux _ _ _ _ _ _ _ _ h with ⟨d, hr, hresp⟩
            cases hresp; rfl)
      exact this.2.2 hred

/-- C36 at the actor hitting the door, which wears no chest item: the d20 of
the stream is 15 against the armor class 10, the attack is not critical, the
damage is 0 and the world is returned as it was. -/
theorem C36_unarmoured_target_witness :
    samples.withDoor.Objects.FromID 1 = (samples.actor, true) ∧
    samples.withDoor.Objects.FromID 2 = (samples.door, true) ∧
    criticalOf samples.fifteen samples.actor = false ∧
    meleeReductionOf samples.withDoor samples.door ≤ 0 ∧
    MeleeAttackRequest.Execute { AttackerID := 1, TargetID := 2 } samples.fifteen
        samples.withDoor
      = .ok (samples.withDoor,
          some (Response.melee {
            AttackerID := 1, TargetID := 2, DidHit := true, Damage := 0,
            HealthRemaining := 10 }), none) ∧
    (0 : Int) ≤ 0 ∧
    samples.withDoor = samples.withDoor := by
  have hex : MeleeAttackRequest.Execute { AttackerID := 1, TargetID := 2 } samples.fifteen
      samples.withDoor
      = .ok (samples.withDoor,
          some (Response.melee {
            AttackerID := 1, TargetID := 2, DidHit := true, Damage := 0,
            HealthRemaining := 10 }), none) := rfl
  have hcrit : criticalOf samples.fifteen samples.actor = false := by decide
  have h := (C36_unarmoured_target samples.withDoor samples.fifteen 1 2 samples.actor
    samples.door rfl rfl
    (fun d ty p _ hc => absurd (hcrit.symm.trans hc) (by decide))
    samples.withDoor
    (some (Response.melee {
      AttackerID := 1, TargetID := 2, DidHit := true, Damage := 0,
      HealthRemaining := 10 })) none).2.1 hex
  exact ⟨rfl, rfl, hcrit, by decide, hex, (h.1 _ rfl).1,
    (h.2 (by decide)).2 (by decide) (by decide) (by decide)⟩

/-- C37, refuted as stated: the doubling of a critical hit wraps around. The
giant, whose damage value is `3 * 2^61`, rolls a natural 20 against the door,
which wears no armor: the 64-bit double of the value is `-2^62` and the critical
hit applies the damage `2^62`, where the same hit without the critical applies
the damage 0. -/
theorem C37_counterexample :
    samples.giantWorld.Objects.FromID 1 = (samples.giant, true) ∧
    samples.giantWorld.Objects.FromID 2 = (samples.door, true) ∧
    criticalOf samples.twenty samples.giant = true ∧
    calcDamageAmount samples.twenty 2 samples.giantWorld samples.giant
      = .ok ((6917529027641081856, items.MeleeDamage), 4) ∧
    wrap (6917529027641081856 * 2) = -4611686018427387904 ∧
    totalDamageOf (meleeReductionOf samples.giantWorld samples.door)
      (wrap (6917529027641081856 * 2)) = 4611686018427387904 ∧
    totalDamageOf (meleeReductionOf samples.giantWorld samples.door)
      6917529027641081856 = 0 ∧
    MeleeAttackRequest.Execute { AttackerID := 1, TargetID := 2 } samples.twenty
        samples.giantWorld
      = .ok ({ samples.giantWorld with Objects := [samples.giant] },
          some (Response.melee {
            AttackerID := 1, TargetID := 2, DidHit := true,
            Damage := 4611686018427387904, HealthRemaining := 0 }), none) :=
  ⟨rfl, rfl, by decide, rfl, by decide, by decide, by decide, rfl⟩

/-- C37, amended. Applied damage is antitone in the damage roll. The total
damage of a hit, `max(0, max(0, armor) - damageAmount)` for an `int` armor and
a damage amount in `0 .. MaxInt64`, is non-increasing in the damage amount; the
value returned by `calcDamageAmount` is in `0 .. MaxInt64`, so, when it is below
`2^62`, its double (the critical) never gives more total damage than the value
itself; and the `Damage` that a melee (resp. range) hit reports and subtracts
from the health of the target is that total, for the value of
`calcDamageAmount`, doubled in 64 bits on a critical. -/
theorem C37_damage_antitone (world : World) (src : Source) (a tid : UUID)
    (attacker target : Entity)
    (hA : world.Objects.FromID a = (attacker, true))
    (hT : world.Objects.FromID tid = (target, true)) :
    (∀ armor d1 d2 : Int, IsInt64 armor → 0 ≤ d1 → d1 ≤ d2 → d2 ≤ MaxInt64 →
      totalDamageOf armor d2 ≤ totalDamageOf armor d1 ∧
      totalDamageOf armor d1 = max 0 (max 0 armor - d1)) ∧
    (∀ damageAmount ty p,
      calcDamageAmount src 2 world attacker = .ok ((damageAmount, ty), p) →
      0 ≤ damageAmount ∧ damageAmount ≤ MaxInt64 ∧
      (damageAmount < 4611686018427387904 →
        wrap (damageAmount * 2) = damageAmount * 2 ∧
        ∀ armor, IsInt64 armor →
          totalDamageOf armor (wrap (damageAmount * 2)) ≤ totalDamageOf armor damageAmount)) ∧
    IsInt64 (meleeReductionOf world target) ∧
    IsInt64 (rangeReductionOf world target) ∧
    (∀ damageAmount p,
      isHit (criticalOf src attacker) (armorClassOf target) (attackRollOf src attacker) = true →
      calcDamageAmount src 2 world attacker = .ok ((damageAmount, items.MeleeDamage), p) →
      MeleeAttackRequest.Execute { AttackerID := a, TargetID := tid } src world
        = .ok (landHit (attackResp false a tid) world target
            (totalDamageOf (meleeReductionOf world target)
              (if criticalOf src attacker then wrap (damageAmount * 2) else damageAmount)))) ∧
    (∀ damageAmount p,
      isHit (criticalOf src attacker) (armorClassOf target) (attackRollOf src attacker) = true →
      calcDamageAmount src 2 world attacker = .ok ((damageAmount, items.RangeDamage), p) →
      RangeAttackRequest.Execute { AttackerID := a, TargetID := tid } src world
        = .ok (landHit (attackResp true a tid) world target
            (totalDamageOf (rangeReductionOf world target)
              (if criticalOf src attacker then wrap (damageAmount * 2) else damageAmount)))) ∧
    (∀ (mk : Bool → Int → Int → Response) (total : Int),
      ∃ world' hp, landHit mk world target total = (world', some (mk true total hp), none) ∧
        (hp = 0 ∨ hp = wrap (target.Health - total))) := by
  refine ⟨?_, ?_, meleeReductionOf_isInt64 world target, rangeReductionOf_isInt64 world target,
    ?_, ?_, ?_⟩
  · intro armor d1 d2 ha h0 h h2
    exact ⟨totalDamageOf_antitone ha h0 h h2,
      totalDamageOf_exact (isInt64_armor_sub ha h0 (le_trans h h2))⟩
  · intro damageAmount ty p h
    have h0 := calcDamageAmount_nonneg h
    have h1 := calcDamageAmount_le h
    refine ⟨h0, h1, fun hlt => ?_⟩
    have hw := wrap_double h0 hlt
    refine ⟨hw, fun armor ha => ?_⟩
    rw [hw]
    exact totalDamageOf_antitone ha h0 (by omega) (by unfold MaxInt64; omega)
  · intro damageAmount p hhit hdmg
    rw [melee_Execute_eq _ src world attacker target hA hT, if_pos hhit, hdmg]
    rfl
  · intro damageAmount p hhit hdmg
    rw [range_Execute_eq _ src world attacker target hA hT, if_pos hhit, hdmg]
    rfl
  · intro mk total
    unfold landHit
    by_cases hle : wrap (target.Health - total) ≤ 0
    · rw [if_pos hle]
      exact ⟨_, 0, rfl, Or.inl rfl⟩
    · rw [if_neg hle]
      exact ⟨_, _, rfl, Or.inr rfl⟩

/-- C37 at the actor attacking the wall, whose plate has the melee reduction
50: the unarmed damage is `1` and the total damage `49`; doubled by a critical
the damage is `2` and the total damage `48`. -/
theorem C37_damage_antitone_witness :
    calcDamageAmount samples.fifteen 2 samples.doorBeforeWall samples.actor
      = .ok ((1, items.MeleeDamage), 3) ∧
    totalDamageOf 50 (wrap (1 * 2)) ≤ totalDamageOf 50 1 ∧
    totalDamageOf 50 1 = 49 ∧ totalDamageOf 50 (wrap (1 * 2)) = 48 :=
  ⟨rfl,
    (((C37_damage_antitone samples.doorBeforeWall samples.fifteen 1 3 samples.actor
      samples.wall rfl rfl).2.1 1 items.MeleeDamage 3 rfl).2.2 (by decide)).2 50 (by decide),
    by decide, by decide⟩

/-- C38, refuted as stated: at the end of the grid the viewer is not shown. For
the actor on the column `MaxInt64` (view distance 10) the bound `X + 10` wraps
around below `X - 10`: the view succeeds with no object, and after the replay
of the response `FromID` does not find the actor. -/
theorem C38_counterexample :
    samples.edgeWorld.Objects.FromID 1 = (samples.edge, true) ∧
    Attribute.Modifier samples.edge.Attributes.Wisdom + 10 = 10 ∧
    wrap (samples.edge.Position.X - 10) = 9223372036854775797 ∧
    wrap (samples.edge.Position.X + 10) = -9223372036854775799 ∧
    ViewRequest.Execute { ActorID := 1 } samples.today samples.edgeWorld
      = .ok (samples.edgeWorld, some (Response.view { ActorID := 1, Objects := [] }),
          none) ∧
    samples.edge ∉ ([] : List Entity) ∧
    (Response.view { ActorID := 1, Objects := [] }).Apply samples.edgeWorld
      = .ok ({ samples.edgeWorld with Objects := [] }, none) ∧
    (({ samples.edgeWorld with Objects := [] } : World).Objects.FromID 1).2 = false := by
  refine ⟨rfl, by decide, by decide, by decide, ?_, by simp, rfl, rfl⟩
  rw [view_Execute_eq { ActorID := 1 } samples.today samples.edgeWorld samples.edge rfl]
  have hobjs : viewObjects samples.edgeWorld samples.edge = [] := by
    decide
  rw [hobjs]
  rfl

/-- C38, amended. A view shows the viewer away from the ends of the grid. For
every world and every successful `ViewRequest.Execute`: the view distance `d`,
Wisdom modifier + 10, is at least 5; when the actor is at least `d` cells away
from the ends of the `int` range on both axes, the entity of the actor is among
the `Objects` of the response and `Apply` of the response to any local world
returns a world in which `FromID` finds an entity with the identifier of the
actor, the entity of the actor itself when the identifiers of the world are
pairwise distinct; and each entity inside the scanned region (the cells from
`wrap (X - d)` to `wrap (X + d)` and from `wrap (Y - d)` to `wrap (Y + d)`, the
upper ends excluded) occurs in the response exactly as many times as in the
world collection (and an entity outside of it does not occur). -/
theorem C38_view_shows_viewer (req : ViewRequest) (now : Int) (world world' : World)
    (r : Response) (h : req.Execute now world = .ok (world', some r, none)) :
    ∃ actor objs,
      world.Objects.FromID req.ActorID = (actor, true) ∧
      r = Response.view { ActorID := req.ActorID, Objects := objs } ∧
      5 ≤ Attribute.Modifier actor.Attributes.Wisdom + 10 ∧
      (MinInt64 + (Attribute.Modifier actor.Attributes.Wisdom + 10) ≤ actor.Position.X ∧
          actor.Position.X ≤ MaxInt64 - (Attribute.Modifier actor.Attributes.Wisdom + 10) →
        MinInt64 + (Attribute.Modifier actor.Attributes.Wisdom + 10) ≤ actor.Position.Y ∧
          actor.Position.Y ≤ MaxInt64 - (Attribute.Modifier actor.Attributes.Wisdom + 10) →
        actor ∈ objs ∧
        ∀ w2 : World, ∃ w3 e,
          r.Apply w2 = .ok (w3, none) ∧ w3.Objects.FromID req.ActorID = (e, true) ∧
          (world.Objects.ids.Nodup → e = actor)) ∧
      (∀ e : Entity,
        objs.count e =
          if wrap (actor.Position.X - (Attribute.Modifier actor.Attributes.Wisdom + 10))
                ≤ e.Position.X ∧
              e.Position.X
                < wrap (actor.Position.X + (Attribute.Modifier actor.Attributes.Wisdom + 10)) ∧
              wrap (actor.Position.Y - (Attribute.Modifier actor.Attributes.Wisdom + 10))
                ≤ e.Position.Y ∧
              e.Position.Y
                < wrap (actor.Position.Y + (Attribute.Modifier actor.Attributes.Wisdom + 10))
          then world.Objects.count e else 0) := by
  rcases FromID_cases world.Objects req.ActorID with ⟨actor, ha⟩ | hn
  · rw [view_Execute_eq req now world actor ha] at h
    by_cases hr : ¬ actor.Timer.Ready now
    · rw [if_pos hr] at h
      simp only [Except.ok.injEq, Prod.mk.injEq] at h
      exact absurd h.2.1 (by simp)
    · rw [if_neg hr] at h
      simp only [Except.ok.injEq, Prod.mk.injEq, Option.some.injEq] at h
      obtain ⟨-, hresp, -⟩ := h
      have hdist : 5 ≤ Attribute.Modifier actor.Attributes.Wisdom + 10 := by
        have := Modifier_ge actor.Attributes.Wisdom
        omega
      refine ⟨actor, viewObjects world actor, ha, hresp.symm, hdist, ?_,
        count_viewObjects world actor⟩
      intro hx hy
      have w1 : wrap (actor.Position.X - (Attribute.Modifier actor.Attributes.Wisdom + 10))
          = actor.Position.X - (Attribute.Modifier actor.Attributes.Wisdom + 10) :=
        wrap_eq ⟨by omega, by unfold MinInt64 MaxInt64 at *; omega⟩
      have w2 : wrap (actor.Position.X + (Attribute.Modifier actor.Attributes.Wisdom + 10))
          = actor.Position.X + (Attribute.Modifier actor.Attributes.Wisdom + 10) :=
        wrap_eq ⟨by unfold MinInt64 MaxInt64 at *; omega, by omega⟩
      have w3 : wrap (actor.Position.Y - (Attribute.Modifier actor.Attributes.Wisdom + 10))
          = actor.Position.Y - (Attribute.Modifier actor.Attributes.Wisdom + 10) :=
        wrap_eq ⟨by omega, by unfold MinInt64 MaxInt64 at *; omega⟩
      have w4 : wrap (actor.Position.Y + (Attribute.Modifier actor.Attributes.Wisdom + 10))
          = actor.Position.Y + (Attribute.Modifier actor.Attributes.Wisdom + 10) :=
        wrap_eq ⟨by unfold MinInt64 MaxInt64 at *; omega, by omega⟩
      have hmem : actor ∈ viewObjects world actor := by
        rw [mem_viewObjects_iff, w1, w2, w3, w4]
        exact ⟨(FromID_found ha).1, by omega, by omega, by omega, by omega⟩
      refine ⟨hmem, ?_⟩
      intro v2
      obtain ⟨e, he⟩ := FromID_of_mem hmem
      rw [(FromID_found ha).2] at he
      refine ⟨{ v2 with Objects := viewObjects world actor }, e, ?_, he, ?_⟩
      · rw [← hresp]
        exact view_Apply _ v2
      · intro hnodup
        exact eq_of_ids_nodup (viewObjects_ids_nodup world actor hnodup) (FromID_found he).1
          hmem ((FromID_found he).2.trans (FromID_found ha).2.symm)
  · rw [view_Execute_absent req now world (FromID_absent.1 (by rw [hn]))] at h
    simp only [Except.ok.injEq, Prod.mk.injEq] at h
    exact absurd h.2.1 (by simp)

/-- C38 at the view of the actor among the entities ten cells east and west of
it: the actor is listed, once, and is found after the replay on the empty
world. -/
theorem C38_view_shows_viewer_witness :
    ViewRequest.Execute { ActorID := 1 } samples.today samples.eastWest
      = .ok (samples.eastWest,
          some (Response.view { ActorID := 1, Objects := [samples.west, samples.actor] }),
          none) ∧
    samples.actor ∈ [samples.west, samples.actor] ∧
    List.count samples.actor [samples.west, samples.actor] = 1 ∧
    ∃ w3 e,
      (Response.view { ActorID := 1, Objects := [samples.west, samples.actor] }).Apply
        { Objects := [], Items := samples.armory } = .ok (w3, none) ∧
      w3.Objects.FromID 1 = (e, true) ∧ e = samples.actor := by
  have hex : ViewRequest.Execute { ActorID := 1 } samples.today samples.eastWest
      = .ok (samples.eastWest,
          some (Response.view { ActorID := 1, Objects := [samples.west, samples.actor] }),
          none) := by
    rw [view_Execute_eq { ActorID := 1 } samples.today samples.eastWest samples.actor rfl]
    have hobjs : viewObjects samples.eastWest samples.actor = [samples.west, samples.actor] := by
      decide
    rw [hobjs]
    rfl
  obtain ⟨actor, objs, hA, hresp, -, hin, -⟩ :=
    C38_view_shows_viewer { ActorID := 1 } samples.today samples.eastWest samples.eastWest
      _ hex
  have hactor : actor = samples.actor := by
    have : samples.eastWest.Objects.FromID 1 = (samples.actor, true) := rfl
    rw [this] at hA
    exact ((Prod.mk.inj hA).1).symm
  subst hactor
  obtain ⟨-, happly⟩ := hin (by decide) (by decide)
  obtain ⟨w3, e, hap, hfind, huniq⟩ := happly { Objects := [], Items := samples.armory }
  exact ⟨hex, by decide, by decide, w3, e, hap, hfind, huniq (by decide)⟩

/-- C39, refuted as stated: with two entities carrying the identifier of the
actor, a free move rewrites both with the moved actor: the second entity, whose
timer was ready from 4102444800 on, stays in the world with the timer 0 of the
actor. -/
theorem C39_counterexample :
    samples.actorTwice.Objects = [samples.actor, samples.lateActor] ∧
    samples.actorTwice.Objects.map (fun e => e.Timer.NextTimestamp) = [0, 4102444800] ∧
    Request.Execute (.move { ActorID := 1, Direction := North }) samples.fifteen
        samples.today samples.actorTwice
      = .ok ({ samples.actorTwice with
            Objects := [{ samples.actor with Position := { X := 0, Y := -1 } },
              { samples.actor with Position := { X := 0, Y := -1 } }] },
          some (Response.move { ActorID := 1, X := 0, Y := -1 }), none) ∧
    [{ samples.actor with Position := { X := 0, Y := -1 } },
      { samples.actor with Position := { X := 0, Y := -1 } }].map
        (fun e => e.Timer.NextTimestamp) = [0, 0] :=
  ⟨rfl, rfl, rfl, rfl⟩

/-- C39, amended. Execution frame: for every world, request of the six variants,
dice stream and clock, a returning `Execute` leaves `world.Items` unchanged,
adds no entity and keeps the order of the identifiers, and every entity of the
returned world has the identifier, timer, attributes, equipment and passability
type of an entity of the input world; in a world whose identifiers are pairwise
distinct, it never changes the identifier, timer, attributes or equipment of an
entity that remains in the world: no timer is advanced. The worlds differ only
as the response says: not at all without a response or with a view response; by
the health or the presence of the target with an attack response; by the open
flag of the target with a toggle response; by the position of the actor with a
move response. -/
theorem C39_execution_frame (world : World) (src : Source) (now : Int) (req : Request)
    (world' : World) (resp : Option Response) (err : Option Err)
    (h : req.Execute src now world = .ok (world', resp, err)) :
    world'.Items = world.Items ∧
    List.Sublist world'.Objects.ids world.Objects.ids ∧
    SameFrame world world' ∧
    (world.Objects.ids.Nodup → ∀ id e e',
      world.Objects.FromID id = (e, true) → world'.Objects.FromID id = (e', true) →
      e'.ID = e.ID ∧ e'.Timer = e.Timer ∧ e'.Timer.NextTimestamp = e.Timer.NextTimestamp ∧
      e'.Attributes = e.Attributes ∧ e'.Equipment = e.Equipment) ∧
    (resp = none → world' = world) ∧
    (∀ r, resp = some r → Differs world world' r) := by
  have key : world'.Items = world.Items ∧
      List.Sublist world'.Objects.ids world.Objects.ids ∧
      SameFrame world world' ∧
      (resp = none → world' = world) ∧
      (∀ r, resp = some r → Differs world world' r) := by
    by_cases hview : ∃ v, req = Request.view v
    · obtain ⟨v, rfl⟩ := hview
      have h' : v.Execute now world = .ok (world', resp, err) := h
      rcases view_Execute_cases v now world with ⟨e, he⟩ | ⟨a, -, he⟩
      · rw [he] at h'
        simp only [Except.ok.injEq, Prod.mk.injEq] at h'
        obtain ⟨rfl, rfl, rfl⟩ := h'
        refine ⟨rfl, List.Sublist.refl _, SameFrame.same _, fun _ => rfl, ?_⟩
        intro r hr
        cases hr
      · rw [he] at h'
        simp only [Except.ok.injEq, Prod.mk.injEq] at h'
        obtain ⟨rfl, rfl, rfl⟩ := h'
        refine ⟨rfl, List.Sublist.refl _, SameFrame.same _, fun _ => rfl, ?_⟩
        intro r hr
        cases hr
        exact rfl
    · have hreq : ∀ v, req ≠ Request.view v := fun v hv => hview ⟨v, hv⟩
      rcases request_Execute_effect req src now world world' resp err hreq h with
        ⟨rfl, rfl, -⟩ | ⟨-, r, rfl, heff⟩
      · refine ⟨rfl, List.Sublist.refl _, SameFrame.same _, fun _ => rfl, ?_⟩
        intro r hr
        cases hr
      · obtain ⟨hitems, hsub, hframe, hdiff⟩ := heff.frame
        refine ⟨hitems, hsub, hframe, ?_, ?_⟩
        · intro hr
          cases hr
        · intro r' hr'
          cases hr'
          exact hdiff
  obtain ⟨hitems, hsub, hframe, hnone, hdiff⟩ := key
  refine ⟨hitems, hsub, hframe, ?_, hnone, hdiff⟩
  intro hn id e e' he he'
  obtain ⟨e0, he0, hid, htimer, hattr, hequip, -⟩ := hframe e' (FromID_found he').1
  have heq : e0 = e := eq_of_ids_nodup hn he0 (FromID_found he).1
    (hid.symm.trans ((FromID_found he').2.trans (FromID_found he).2.symm))
  rw [heq] at hid htimer hattr hequip
  exact ⟨hid, htimer, by rw [htimer], hattr, hequip⟩

/-- C39 at the actor opening the closed door: the items, the identifiers and the
timers are those of the input world, and the worlds differ by the open flag of
the door. -/
theorem C39_execution_frame_witness :
    Request.Execute (.open_ { ActorID := 1, TargetID := 2 }) samples.fifteen 0 samples.withDoor
      = .ok ({ samples.withDoor with
          Objects := [samples.actor,
            { samples.door with Passability := { Typ := Toggleable, IsOpen := true } }] },
        some (Response.toggle { ActorID := 1, TargetID := 2, IsOpen := true }), none) ∧
    ({ samples.withDoor with
        Objects := [samples.actor,
          { samples.door with Passability := { Typ := Toggleable, IsOpen := true } }] }
      : World).Items = samples.withDoor.Items ∧
    (∀ e', samples.withDoor.Objects.FromID 2 = (samples.door, true) →
      Collection.FromID [samples.actor,
        { samples.door with Passability := { Typ := Toggleable, IsOpen := true } }] 2
        = (e', true) →
      e'.Timer = samples.door.Timer) := by
  have hex : Request.Execute (.open_ { ActorID := 1, TargetID := 2 }) samples.fifteen 0
      samples.withDoor
      = .ok ({ samples.withDoor with
          Objects := [samples.actor,
            { samples.door with Passability := { Typ := Toggleable, IsOpen := true } }] },
        some (Response.toggle { ActorID := 1, TargetID := 2, IsOpen := true }), none) := rfl
  have h := C39_execution_frame samples.withDoor samples.fifteen 0
    (.open_ { ActorID := 1, TargetID := 2 }) _ _ _ hex
  exact ⟨hex, h.1, fun e' hd he' => (h.2.2.2.1 (by decide) 2 samples.door e' hd he').2.1⟩

/-- C40, as stated, fails: a panic is reachable in `Execute`. The brawler holds
a weapon with `RollAmount` 1 and `DieRange` -1; its melee attack on the door
hits (d20 15 against armor class 10), `calcDamageAmount` rolls the weapon, and
`utils.Roll(1, -1)` calls `rand.Intn(0)`, which panics: `Execute` returns
neither a result nor an error. The same happens with the reaver, whose weapon
has the `DieRange` `MaxInt64`: `DieRange + 1` wraps around to `MinInt64`. And
`logging.Logger`, the first call of the attack and view `Execute` and of the
toggle and view `Apply`, panics when the log file cannot be opened. -/
theorem C40_counterexample :
    samples.cursedWorld.Objects.FromID 1 = (samples.brawler, true) ∧
    samples.cursedWorld.Objects.FromID 2 = (samples.door, true) ∧
    samples.cursedWorld.Items.FromID samples.brawler.Equipment.PrimaryItemID
      = (samples.cursed, true) ∧
    samples.cursed.Damage.RollAmount = 1 ∧ samples.cursed.Damage.DieRange = -1 ∧
    isHit (criticalOf samples.fifteen samples.brawler) (armorClassOf samples.door)
      (attackRollOf samples.fifteen samples.brawler) = true ∧
    utils.Intn samples.fifteen 3 (samples.cursed.Damage.DieRange + 1)
      = .error "invalid argument to Intn" ∧
    MeleeAttackRequest.Execute { AttackerID := 1, TargetID := 2 } samples.fifteen
        samples.cursedWorld
      = .error "invalid argument to Intn" ∧
    Request.Execute (.melee { AttackerID := 1, TargetID := 2 }) samples.fifteen samples.today
        samples.cursedWorld
      = .error "invalid argument to Intn" ∧
    samples.boundlessWorld.Objects.FromID 1 = (samples.reaver, true) ∧
    samples.boundlessWorld.Objects.FromID 2 = (samples.door, true) ∧
    samples.boundlessWorld.Items.FromID samples.reaver.Equipment.PrimaryItemID
      = (samples.boundless, true) ∧
    samples.boundless.Damage.RollAmount = 1 ∧ samples.boundless.Damage.DieRange = MaxInt64 ∧
    wrap (samples.boundless.Damage.DieRange + 1) = MinInt64 ∧
    Request.Execute (.melee { AttackerID := 1, TargetID := 2 }) samples.fifteen samples.today
        samples.boundlessWorld
      = .error "invalid argument to Intn" ∧
    logging.Logger false = .error "os.OpenFile" :=
  ⟨rfl, rfl, rfl, rfl, rfl, by decide, rfl, rfl, rfl, rfl, rfl, rfl, rfl, rfl, by decide, rfl,
    rfl⟩

/-- C40, amended. No reachable panic of `MustUpdate` and `MustRemove`: they
return for every entity carrying the identifier of an entity that `FromID` has
found in the same collection, which is how `Execute` and `Apply` call them.
`logging.Logger` and its closing function return exactly when the log file can
be opened and closed; past them, for every world and every response variant
`Apply` returns, its failures being returned errors; for every world, request
of the six variants, dice stream and clock, `Execute` returns (its failures
being returned errors) or panics inside `rand.Intn`, and it returns in every
world in which the primary item of each entity has a die range that is not
negative and below `MaxInt64`, or a roll amount that is not positive. -/
theorem C40_no_reachable_panic (world : World) (src : Source) (now : Int) (req : Request)
    (r : Response) :
    (∀ (c : Collection) (id : UUID) (e t : Entity), c.FromID id = (e, true) → t.ID = e.ID →
      c.MustUpdate t = .ok (c.withEntity t) ∧ c.MustRemove t = .ok (c.without t.ID)) ∧
    (∀ opened closed : Bool,
      ((∃ u, logging.Logger opened = .ok u) ↔ opened = true) ∧
      ((∃ u, logging.close closed = .ok u) ↔ closed = true)) ∧
    (∃ world' err, r.Apply world = .ok (world', err)) ∧
    ((∃ res, req.Execute src now world = .ok res) ∨
      req.Execute src now world = .error "invalid argument to Intn") ∧
    ((∀ e ∈ world.Objects, ∀ item,
        world.Items.FromID e.Equipment.PrimaryItemID = (item, true) →
        (0 ≤ item.Damage.DieRange ∧ item.Damage.DieRange < MaxInt64) ∨
          item.Damage.RollAmount ≤ 0) →
      ∃ res, req.Execute src now world = .ok res) := by
  refine ⟨?_, ?_, ?_, request_Execute_ok_or_Intn req src now world,
    request_Execute_returns req src now world⟩
  · intro c id e t he hid
    exact ⟨MustUpdate_ok ⟨e, (FromID_found he).1, hid.symm⟩,
      MustRemove_ok ⟨e, (FromID_found he).1, hid.symm⟩⟩
  · intro opened closed
    cases opened <;> cases closed <;> simp [logging.Logger, logging.close]
  · obtain ⟨⟨w1, e1⟩, h⟩ := Apply_returns r world
    exact ⟨w1, e1, h⟩

/-- C40, amended, on the world of the actor and the door, whose entities hold
no primary item: the melee attack returns, and so does the replay of a toggle of
an absent target, with a returned error. -/
theorem C40_no_reachable_panic_witness :
    (∃ res, Request.Execute (.melee { AttackerID := 1, TargetID := 2 }) samples.fifteen
      samples.today samples.withDoor = .ok res) ∧
    (∃ world' err, samples.knock.Apply samples.withDoor = .ok (world', err)) := by
  have h := C40_no_reachable_panic samples.withDoor samples.fifteen samples.today
    (.melee { AttackerID := 1, TargetID := 2 }) samples.knock
  refine ⟨h.2.2.2.2 ?_, h.2.2.1⟩
  intro e he item hitem
  have hno : (samples.withDoor.Items.FromID e.Equipment.PrimaryItemID).2 = false := by
    have hmem : e = samples.actor ∨ e = samples.door := by
      simpa [samples.withDoor] using he
    rcases hmem with rfl | rfl <;> rfl
  rw [hitem] at hno
  cases hno

end Pitch
